import Mathlib

/-!
# Gravimetric survey engine (`devel/libecl/src/ecl_grav.c`)

A shallow embedding of the time-lapse gravity code of ERT and theorems about it.

## Numeric model

A C `double` holding a finite number is a value of a linearly ordered field `K`
(instantiate `K` with `ℚ` to run the definitions, with `ℝ` for the real-number
reading); arithmetic on finite values is exact.  A division whose denominator
is zero produces an IEEE infinity or NaN; the embedding records that as
`c_double.non_finite`, which is absorbing under `+=` (an infinity or NaN added
to anything stays an infinity or NaN).  The libm function `sqrt` is not part of
the repository and is a parameter of the evaluator.  Rounding, overflow and
underflow are outside the model; where the outcome of the code depends on one of
them (the divisor `dist * dist * dist`, which underflows to zero near a cell
centre; `log10` of a ratio next to 10, which rounds to 1), the theorems assume
the property of the value that the code computes instead of deriving it from
exact arithmetic.

C arrays are lists; `a[i]` is `a.getD i 0`.  `util_abort` and `exit(1)` are
`Except.error`, and so are the undefined operations that the code can reach (a
store outside an allocated block, a remainder by zero).  A loop without a bound
takes a number of iterations it may use; `none` is the outcome of a run that
needs more.  The libm function `log10` and the sequence of values returned by
`rand` are parameters.
-/

namespace EclGrav

/-! ## C doubles -/

/-- Value of a C `double` expression: a finite number or an IEEE infinity/NaN. -/
inductive c_double (K : Type) where
  | finite (v : K)
  | non_finite
  deriving DecidableEq, Repr

namespace c_double

variable {K : Type}

/-- Addition of doubles (`+=`): exact on finite values, non-finite values are absorbing. -/
def add [Add K] : c_double K → c_double K → c_double K
  | finite a, finite b => finite (a + b)
  | _, _ => non_finite

/-- Division of two finite doubles: dividing by zero gives an infinity or a NaN. -/
def div [Div K] [Zero K] [DecidableEq K] (a b : K) : c_double K :=
  if b = 0 then non_finite else finite (a / b)

/-- Negation of a double (unary `-`): exact on finite values, a NaN stays a NaN. -/
def neg [Neg K] : c_double K → c_double K
  | finite a => finite (-a)
  | non_finite => non_finite

/-- Subtraction of doubles (binary `-`): exact on finite values, non-finite values are
    absorbing. -/
def sub [Sub K] : c_double K → c_double K → c_double K
  | finite a, finite b => finite (a - b)
  | _, _ => non_finite

instance [Add K] : Add (c_double K) := ⟨add⟩

instance [Zero K] : Zero (c_double K) := ⟨finite 0⟩

/-- Doubles under `+` form a commutative monoid (exact arithmetic, absorbing non-finite
    values), so that sums of doubles do not depend on the order of the terms. -/
instance [AddCommMonoid K] : AddCommMonoid (c_double K) where
  add_assoc a b c := by
    cases a <;> cases b <;> cases c <;> first
      | rfl
      | exact congrArg finite (add_assoc _ _ _)
  zero_add a := by
    cases a
    · exact congrArg finite (zero_add _)
    · rfl
  add_zero a := by
    cases a
    · exact congrArg finite (add_zero _)
    · rfl
  add_comm a b := by
    cases a <;> cases b <;> first
      | rfl
      | exact congrArg finite (add_comm _ _)
  nsmul := nsmulRec

end c_double

/-! ## Failures -/

/-- Ways in which the process terminates instead of returning. -/
inductive Fatal where
  /-- Call of `util_abort` from the named function -/
  | util_abort (func : String)
  /-- Call of `exit(1)` from the named function -/
  | exit1 (func : String)
  /-- Dereference of a NULL pointer in the named function -/
  | null_deref (func : String)
  /-- Store outside the block returned by `util_malloc`, in the named function -/
  | out_of_bounds (func : String)
  /-- Integer division or remainder by zero in the named function -/
  | div_by_zero (func : String)
  deriving DecidableEq, Repr

/-! ## Containers of libutil -/

/-- Modelled from the spec: `vector_iget_const` of `vector.c` (not among the sources)
    returns the element stored at a position of an ordered list; a position outside the
    list is a fatal error. -/
def vector_iget_const {α : Type} (vector : List α) (index : Nat) : Except Fatal α :=
  match vector[index]? with
  | some x => .ok x
  | none => .error (.util_abort "vector_iget_const")

/-- Modelled from the spec: `hash_type` of `hash.c` (not among the sources) is a
    name-indexed mapping whose insertion order is irrelevant: a list of key/value pairs
    with at most one pair per key. -/
abbrev hash_type (α : Type) := List (String × α)

/-- Modelled from the spec: `hash_alloc`, the empty mapping. -/
def hash_alloc {α : Type} : hash_type α := []

/-- Modelled from the spec: `hash_has_key`, is the name registered. -/
def hash_has_key {α : Type} (hash : hash_type α) (key : String) : Bool :=
  (hash.lookup key).isSome

/-- Modelled from the spec: `hash_get`, the value stored under a name; a name that was
    never inserted is a fatal error. -/
def hash_get {α : Type} (hash : hash_type α) (key : String) : Except Fatal α :=
  match hash.lookup key with
  | some v => .ok v
  | none => .error (.util_abort "hash_get")

/-- Modelled from the spec: `hash_insert_ref` and `hash_insert_hash_owned_ref` store a
    value under a name, replacing the value previously stored under that name. -/
def hash_insert {α : Type} (hash : hash_type α) (key : String) (value : α) : hash_type α :=
  (key, value) :: hash.filter (fun kv => kv.1 != key)

/-- Modelled from the spec: `double_vector_type` of libutil (not among the sources) holds
    the densities of one phase, "(default density, mapping region-number → override
    density)"; the most recent override of a region comes first. -/
structure double_vector_type (K : Type) where
  default_value : K
  overrides : List (Int × K)

/-- Modelled from the spec: `double_vector_alloc(init_size, default_value)`, a table with
    the given default and no override. -/
def double_vector_alloc {K : Type} (_init_size : Nat) (default_value : K) :
    double_vector_type K :=
  { default_value := default_value, overrides := [] }

/-- Modelled from the spec: `double_vector_iset` "inserts/overwrites the region-specific
    value". -/
def double_vector_iset {K : Type} (vector : double_vector_type K) (index : Int) (value : K) :
    double_vector_type K :=
  { vector with overrides := (index, value) :: vector.overrides }

/-- Modelled from the spec: `double_vector_safe_iget` "returns the override for that
    region if set, else the phase default". -/
def double_vector_safe_iget {K : Type} (vector : double_vector_type K) (index : Int) : K :=
  match vector.overrides.lookup index with
  | some value => value
  | none => vector.default_value

/-! ## Datasets (`ecl_file`, `ecl_kw`) -/

/-- Modelled from the spec: the values of a keyword, a "typed array (integer, float, or
    double elements)"; `ecl_kw.c` is not among the sources. -/
inductive ecl_kw_data (K : Type) where
  | int_data (values : List Int)
  | float_data (values : List K)
  | double_data (values : List K)

/-- Modelled from the spec: a keyword of a dataset, its name and its typed array. -/
structure ecl_kw_type (K : Type) where
  header : String
  data : ecl_kw_data K

/-- Modelled from the spec: the "dataset keyword provider" (`ecl_file.c` is not among the
    sources): the keywords in file order, the oil/gas/water bitmask of the phases present
    and the format variant of the simulator. -/
structure ecl_file_type (K : Type) where
  kw_list : List (ecl_kw_type K) := []
  phases : Nat := 0
  ecl_version : Nat := 0

/-! ## Phases (`ecl_util.h`) -/

/-- The C enum `ecl_phase_enum` is an `int` used as a bit set. -/
abbrev ecl_phase_enum := Nat

/-- Modelled from the spec: the header `ecl_util.h` is not among the sources; the phases
    form an "oil/gas/water bitmask", oil is bit 0. -/
def ECL_OIL_PHASE : ecl_phase_enum := 1

/-- Modelled from the spec: the header `ecl_util.h` is not among the sources; the phases
    form an "oil/gas/water bitmask", gas is bit 1. -/
def ECL_GAS_PHASE : ecl_phase_enum := 2

/-- Modelled from the spec: the header `ecl_util.h` is not among the sources; the phases
    form an "oil/gas/water bitmask", water is bit 2. -/
def ECL_WATER_PHASE : ecl_phase_enum := 4

/-- Modelled from the spec: `ecl_util_get_phase_name` of `ecl_util.c` (not among the
    sources) gives the saturation keyword of a phase, the keys "SOIL", "SGAS" and "SWAT"
    named in the comments of `ecl_grav_struct`; any other value is a fatal error. -/
def ecl_util_get_phase_name (phase : ecl_phase_enum) : Except Fatal String :=
  if phase = ECL_OIL_PHASE then .ok "SOIL"
  else if phase = ECL_GAS_PHASE then .ok "SGAS"
  else if phase = ECL_WATER_PHASE then .ok "SWAT"
  else .error (.util_abort "ecl_util_get_phase_name")

/-! ## Grid cache and phases -/

/-- The struct `ecl_grav_grid_cache_struct`: world position of all the active cells. -/
structure ecl_grav_grid_cache_type (K : Type) where
  size : Nat
  xpos : List K
  ypos : List K
  zpos : List K
  global_index : List Nat
  active : List Bool

/-- The struct `ecl_grav_phase_struct`: the results from one phase at one survey. -/
structure ecl_grav_phase_type (K : Type) where
  grid_cache : ecl_grav_grid_cache_type K
  fluid_mass : List K
  phase : ecl_phase_enum

section eval

variable {K : Type} [LinearOrderedField K]

/-- The value added to `deltag` by the body of the loop of `ecl_grav_phase_eval` for the
    cell `index` (the statements inside `if (active[index])`). -/
def ecl_grav_phase_eval_cell (sqrt : K → K) (base_phase : ecl_grav_phase_type K)
    (monitor_phase : Option (ecl_grav_phase_type K)) (utm_x utm_y depth : K)
    (index : Nat) : c_double K :=
  let grid_cache := base_phase.grid_cache
  let base_mass := base_phase.fluid_mass.getD index 0
  let dist_x := grid_cache.xpos.getD index 0 - utm_x
  let dist_y := grid_cache.ypos.getD index 0 - utm_y
  let dist_z := grid_cache.zpos.getD index 0 - depth
  let dist := sqrt (dist_x * dist_x + dist_y * dist_y + dist_z * dist_z)
  let monitor_mass :=
    match monitor_phase with
    | some m => m.fluid_mass.getD index 0
    | none => 0
  c_double.div (6.67428E-3 * (monitor_mass - base_mass) * dist_z) (dist * dist * dist)

/-- The function `ecl_grav_phase_eval`. -/
def ecl_grav_phase_eval (sqrt : K → K) (base_phase : ecl_grav_phase_type K)
    (monitor_phase : Option (ecl_grav_phase_type K)) (utm_x utm_y depth : K) :
    Except Fatal (c_double K) :=
  if monitor_phase.isNone || monitor_phase.any (fun m => base_phase.phase == m.phase) then
    let grid_cache := base_phase.grid_cache
    .ok ((List.range grid_cache.size).foldl
      (fun deltag index =>
        if grid_cache.active.getD index false then
          deltag + ecl_grav_phase_eval_cell sqrt base_phase monitor_phase utm_x utm_y depth index
        else deltag)
      0)
  else
    .error (.util_abort "ecl_grav_phase_eval")

/-! ## Surveys -/

/-- The struct `ecl_grav_survey_struct`: one gravimetric survey. -/
structure ecl_grav_survey_type (K : Type) where
  grid_cache : ecl_grav_grid_cache_type K
  name : String
  porv : Option (List K)
  phase_list : List (ecl_grav_phase_type K)
  phase_map : hash_type (ecl_grav_phase_type K)

/-- The body of the loop of `ecl_grav_survey_eval` for the position `phase_nr`. -/
def ecl_grav_survey_eval_step (sqrt : K → K) (base_survey : ecl_grav_survey_type K)
    (monitor_survey : Option (ecl_grav_survey_type K)) (utm_x utm_y depth : K)
    (phase_mask : Nat) (deltag : c_double K) (phase_nr : Nat) : Except Fatal (c_double K) := do
  let base_phase ← vector_iget_const base_survey.phase_list phase_nr
  if base_phase.phase &&& phase_mask ≠ 0 then
    match monitor_survey with
    | some monitor => do
      let monitor_phase ← vector_iget_const monitor.phase_list phase_nr
      let v ← ecl_grav_phase_eval sqrt base_phase (some monitor_phase) utm_x utm_y depth
      pure (deltag + v)
    | none => do
      let v ← ecl_grav_phase_eval sqrt base_phase none utm_x utm_y depth
      pure (deltag + v)
  else
    pure deltag

/-- The function `ecl_grav_survey_eval`. -/
def ecl_grav_survey_eval (sqrt : K → K) (base_survey : ecl_grav_survey_type K)
    (monitor_survey : Option (ecl_grav_survey_type K)) (utm_x utm_y depth : K)
    (phase_mask : Nat) : Except Fatal (c_double K) :=
  (List.range base_survey.phase_list.length).foldlM
    (ecl_grav_survey_eval_step sqrt base_survey monitor_survey utm_x utm_y depth phase_mask) 0

/-! ## The registry -/

/-- The struct `ecl_grav_struct`: the main structure for calculating the gravimetric
    response from time lapse ECLIPSE simulations. -/
structure ecl_grav_type (K : Type) where
  init_file : ecl_file_type K
  grid_cache : ecl_grav_grid_cache_type K
  surveys : hash_type (ecl_grav_survey_type K)
  std_density : hash_type (double_vector_type K)

/-- The function `ecl_grav_get_survey`; a NULL name is `none`. -/
def ecl_grav_get_survey (grav : ecl_grav_type K) (name : Option String) :
    Except Fatal (Option (ecl_grav_survey_type K)) :=
  match name with
  | none => .ok none
  | some name =>
    if hash_has_key grav.surveys name then
      (hash_get grav.surveys name).map some
    else
      .error (.exit1 "ecl_grav_get_survey")

/-- The function `ecl_grav_eval`; a NULL base survey is dereferenced by
    `ecl_grav_survey_eval`. -/
def ecl_grav_eval (sqrt : K → K) (grav : ecl_grav_type K) (base monitor : Option String)
    (utm_x utm_y depth : K) (phase_mask : Nat) : Except Fatal (c_double K) := do
  let base_survey ← ecl_grav_get_survey grav base
  let monitor_survey ← ecl_grav_get_survey grav monitor
  match base_survey with
  | some base_survey =>
    ecl_grav_survey_eval sqrt base_survey monitor_survey utm_x utm_y depth phase_mask
  | none => .error (.null_deref "ecl_grav_survey_eval")

/-- The function `ecl_grav_new_std_density`. -/
def ecl_grav_new_std_density (grav : ecl_grav_type K) (phase : ecl_phase_enum)
    (default_density : K) : Except Fatal (ecl_grav_type K) := do
  let phase_key ← ecl_util_get_phase_name phase
  if !hash_has_key grav.std_density phase_key then
    pure { grav with
      std_density := hash_insert grav.std_density phase_key (double_vector_alloc 0 default_density) }
  else
    pure grav

/-- The function `ecl_grav_add_std_density`; the vector found in the table is updated in
    place. -/
def ecl_grav_add_std_density (grav : ecl_grav_type K) (phase : ecl_phase_enum) (pvtnum : Int)
    (density : K) : Except Fatal (ecl_grav_type K) := do
  let phase_key ← ecl_util_get_phase_name phase
  let std_density ← hash_get grav.std_density phase_key
  pure { grav with
    std_density := hash_insert grav.std_density phase_key (double_vector_iset std_density pvtnum density) }

/-- The standard density that the `GRAV_CALC_FIP` branch of `ecl_grav_phase_alloc` uses for
    a cell of PVT region `pvtnum`: `hash_get( ecl_grav->std_density , phase name )` followed
    by `double_vector_safe_iget( std_density , pvtnum )`. -/
def ecl_grav_phase_alloc_std_density (grav : ecl_grav_type K) (phase : ecl_phase_enum)
    (pvtnum : Int) : Except Fatal K := do
  let phase_key ← ecl_util_get_phase_name phase
  let std_density ← hash_get grav.std_density phase_key
  pure (double_vector_safe_iget std_density pvtnum)

/-! ## Auxiliary notions used to state the theorems -/

/-- Two phases carry the same tag and the same mass in every eligible cell of `gc`. -/
def masses_agree_on_eligible (gc : ecl_grav_grid_cache_type K)
    (p q : ecl_grav_phase_type K) : Prop :=
  p.phase = q.phase ∧
  ∀ i, i < gc.size → gc.active.getD i false = true →
    p.fluid_mass.getD i 0 = q.fluid_mass.getD i 0

/-- Two surveys have position by position phases that agree on the eligible cells. -/
def surveys_agree_on_eligible (gc : ecl_grav_grid_cache_type K)
    (s t : ecl_grav_survey_type K) : Prop :=
  s.phase_list.length = t.phase_list.length ∧
  ∀ (k : Nat) (p q : ecl_grav_phase_type K),
    s.phase_list[k]? = some p → t.phase_list[k]? = some q → masses_agree_on_eligible gc p q

/-- Both monitors are absent, or both are present and agree on the eligible cells. -/
def monitors_agree_on_eligible (gc : ecl_grav_grid_cache_type K) :
    Option (ecl_grav_survey_type K) → Option (ecl_grav_survey_type K) → Prop
  | none, none => True
  | some s, some t => surveys_agree_on_eligible gc s t
  | _, _ => False

/-- The value that the position `phase_nr` adds to the total of `ecl_grav_survey_eval`:
    the per-phase value of a selected phase, zero for a phase that the mask leaves out. -/
def ecl_grav_survey_eval_term (sqrt : K → K) (base_survey : ecl_grav_survey_type K)
    (monitor_survey : Option (ecl_grav_survey_type K)) (utm_x utm_y depth : K)
    (phase_mask : Nat) (phase_nr : Nat) : Except Fatal (c_double K) :=
  match base_survey.phase_list[phase_nr]? with
  | none => .error (.util_abort "vector_iget_const")
  | some base_phase =>
    if base_phase.phase &&& phase_mask ≠ 0 then
      match monitor_survey with
      | some monitor =>
        match monitor.phase_list[phase_nr]? with
        | none => .error (.util_abort "vector_iget_const")
        | some monitor_phase => ecl_grav_phase_eval sqrt base_phase (some monitor_phase) utm_x utm_y depth
      | none => ecl_grav_phase_eval sqrt base_phase none utm_x utm_y depth
    else .ok 0

/-- The sequence of the phase tags of a survey. -/
def phase_tags (s : ecl_grav_survey_type K) : List ecl_phase_enum :=
  s.phase_list.map (fun p => p.phase)

/-- The loop body of `evaluate_by_tag`: as `ecl_grav_survey_eval_step`, with the monitor
    phase looked up by phase tag. -/
def evaluate_by_tag_step (sqrt : K → K) (base_survey : ecl_grav_survey_type K)
    (monitor_survey : Option (ecl_grav_survey_type K)) (utm_x utm_y depth : K)
    (phase_mask : Nat) (total : c_double K) (phase_nr : Nat) : Except Fatal (c_double K) := do
  let base_phase ← vector_iget_const base_survey.phase_list phase_nr
  if base_phase.phase &&& phase_mask ≠ 0 then
    match monitor_survey with
    | some monitor =>
      match monitor.phase_list.find? (fun q => q.phase == base_phase.phase) with
      | some monitor_phase => do
        let v ← ecl_grav_phase_eval sqrt base_phase (some monitor_phase) utm_x utm_y depth
        pure (total + v)
      | none => .error (.util_abort "evaluate")
    | none => do
      let v ← ecl_grav_phase_eval sqrt base_phase none utm_x utm_y depth
      pure (total + v)
  else
    pure total

/-- The pairwise evaluation as the specification words it: for each phase of the base
    survey whose bit is set in the mask, the monitor phase is looked up "by phase identity;
    absent monitor ⇒ treat monitor mass as 0 everywhere", the evaluation fails "if a
    monitor is given but does not contain a phase the base survey has selected", and the
    per-phase values are summed. -/
def evaluate_by_tag (sqrt : K → K) (base_survey : ecl_grav_survey_type K)
    (monitor_survey : Option (ecl_grav_survey_type K)) (utm_x utm_y depth : K)
    (phase_mask : Nat) : Except Fatal (c_double K) :=
  (List.range base_survey.phase_list.length).foldlM
    (evaluate_by_tag_step sqrt base_survey monitor_survey utm_x utm_y depth phase_mask) 0

/-- The monitor phase that `ecl_grav_survey_eval` hands to `ecl_grav_phase_eval` for the
    position `phase_nr`: NULL without monitor survey, else the phase at that position of the
    monitor's list. -/
def monitor_phase_at (monitor_survey : Option (ecl_grav_survey_type K)) (phase_nr : Nat) :
    Except Fatal (Option (ecl_grav_phase_type K)) :=
  match monitor_survey with
  | none => .ok none
  | some monitor => (vector_iget_const monitor.phase_list phase_nr).map some

/-- The test `base_phase->phase & phase_mask` for the phase at position `phase_nr`. -/
def phase_selected (base_survey : ecl_grav_survey_type K) (phase_mask : Nat) (phase_nr : Nat) :
    Bool :=
  (base_survey.phase_list[phase_nr]?).any (fun p => p.phase &&& phase_mask != 0)

/-- A sequence of calls `ecl_grav_add_std_density( grav , phase , r_k , d_k )`, in the order
    of the list. -/
def ecl_grav_add_std_density_list (grav : ecl_grav_type K) (phase : ecl_phase_enum)
    (adds : List (Int × K)) : Except Fatal (ecl_grav_type K) :=
  adds.foldlM (fun g rd => ecl_grav_add_std_density g phase rd.1 rd.2) grav

end eval

/-! ## Keyword access (`ecl_file`, `ecl_kw`) -/

/-- Modelled from the spec: `ecl_file_has_kw`, the `hasKeyword(name)` of the dataset
    keyword provider. -/
def ecl_file_has_kw {K : Type} (file : ecl_file_type K) (kw : String) : Bool :=
  file.kw_list.any (fun k => k.header == kw)

/-- Modelled from the spec: `ecl_file_iget_named_kw`, the `getKeywordValues(name,
    occurrence)` of the dataset keyword provider; a keyword that the dataset does not
    contain is a fatal error ("missing required keyword"). -/
def ecl_file_iget_named_kw {K : Type} (file : ecl_file_type K) (kw : String) (ith : Nat) :
    Except Fatal (ecl_kw_type K) :=
  match (file.kw_list.filter (fun k => k.header == kw))[ith]? with
  | some k => .ok k
  | none => .error (.util_abort "ecl_file_iget_named_kw")

/-- Modelled from the spec: `ecl_file_get_phases`, the oil/gas/water bitmask of the phases
    present in the dataset. -/
def ecl_file_get_phases {K : Type} (file : ecl_file_type K) : Nat := file.phases

/-- Modelled from the spec: `ecl_file_get_ecl_version`, the `formatVariant()` of the
    dataset. -/
def ecl_file_get_ecl_version {K : Type} (file : ecl_file_type K) : Nat := file.ecl_version

/-- Modelled from the spec: `ecl_kw_get_size`, the number of elements of the typed array. -/
def ecl_kw_get_size {K : Type} (kw : ecl_kw_type K) : Nat :=
  match kw.data with
  | .int_data values => values.length
  | .float_data values => values.length
  | .double_data values => values.length

/-- Modelled from the spec: `ecl_kw_iget_as_double`, element `index` of a float or double
    array as a double; another element type or an index outside the array is a fatal
    error. -/
def ecl_kw_iget_as_double {K : Type} (kw : ecl_kw_type K) (index : Nat) : Except Fatal K :=
  match kw.data with
  | .float_data values | .double_data values =>
    match values[index]? with
    | some v => .ok v
    | none => .error (.util_abort "ecl_kw_iget_as_double")
  | .int_data _ => .error (.util_abort "ecl_kw_iget_as_double")

/-- Modelled from the spec: `ecl_kw_iget_float`, element `index` of a float array;
    another element type or an index outside the array is a fatal error. -/
def ecl_kw_iget_float {K : Type} (kw : ecl_kw_type K) (index : Nat) : Except Fatal K :=
  match kw.data with
  | .float_data values =>
    match values[index]? with
    | some v => .ok v
    | none => .error (.util_abort "ecl_kw_iget_float")
  | _ => .error (.util_abort "ecl_kw_iget_float")

/-- Modelled from the spec: `ecl_kw_iget_int`, element `index` of an integer array;
    another element type or an index outside the array is a fatal error. -/
def ecl_kw_iget_int {K : Type} (kw : ecl_kw_type K) (index : Nat) : Except Fatal Int :=
  match kw.data with
  | .int_data values =>
    match values[index]? with
    | some v => .ok v
    | none => .error (.util_abort "ecl_kw_iget_int")
  | _ => .error (.util_abort "ecl_kw_iget_int")

/-- Modelled from the spec: `ecl_kw_alloc_copy`, a private copy of a keyword. -/
def ecl_kw_alloc_copy {K : Type} (kw : ecl_kw_type K) : ecl_kw_type K := kw

/-- Modelled from the spec: `ecl_kw_scalar_set_float` sets every element of a float array
    to the given value (the source uses it for "sat = 1 - SWAT"); another element type is
    a fatal error. -/
def ecl_kw_scalar_set_float {K : Type} (kw : ecl_kw_type K) (value : K) :
    Except Fatal (ecl_kw_type K) :=
  match kw.data with
  | .float_data values => .ok { kw with data := .float_data (values.map (fun _ => value)) }
  | _ => .error (.util_abort "ecl_kw_scalar_set_float")

/-- Modelled from the spec: `ecl_kw_inplace_sub( target , sub )` subtracts `sub` from
    `target` element by element (the source comments "sat = 1 - SWAT" and "sat -= SGAS");
    arrays of different size or element type are a fatal error. -/
def ecl_kw_inplace_sub {K : Type} [Sub K] (target sub : ecl_kw_type K) :
    Except Fatal (ecl_kw_type K) :=
  match target.data, sub.data with
  | .int_data a, .int_data b =>
    if a.length = b.length then
      .ok { target with data := .int_data (List.zipWith (fun x y => x - y) a b) }
    else .error (.util_abort "ecl_kw_inplace_sub")
  | .float_data a, .float_data b =>
    if a.length = b.length then
      .ok { target with data := .float_data (List.zipWith (fun x y => x - y) a b) }
    else .error (.util_abort "ecl_kw_inplace_sub")
  | .double_data a, .double_data b =>
    if a.length = b.length then
      .ok { target with data := .double_data (List.zipWith (fun x y => x - y) a b) }
    else .error (.util_abort "ecl_kw_inplace_sub")
  | _, _ => .error (.util_abort "ecl_kw_inplace_sub")

/-! ## Density keywords and calculation types -/

/-- The C enum `ecl_version_enum` is an `int`. -/
abbrev ecl_version_enum := Nat

/-- Modelled from the spec: the header `ecl_util.h` is not among the sources; the first of
    the two format variants of the simulator. -/
def ECLIPSE100 : ecl_version_enum := 1

/-- Modelled from the spec: the header `ecl_util.h` is not among the sources; the second
    of the two format variants of the simulator. -/
def ECLIPSE300 : ecl_version_enum := 2

/-- The macro `ECLIPSE100_OIL_DEN_KW`. -/
def ECLIPSE100_OIL_DEN_KW : String := "OIL_DEN"

/-- The macro `ECLIPSE100_GAS_DEN_KW`. -/
def ECLIPSE100_GAS_DEN_KW : String := "GAS_DEN"

/-- The macro `ECLIPSE100_WATER_DEN_KW`. -/
def ECLIPSE100_WATER_DEN_KW : String := "WAT_DEN"

/-- The macro `ECLIPSE300_OIL_DEN_KW`. -/
def ECLIPSE300_OIL_DEN_KW : String := "DENO"

/-- The macro `ECLIPSE300_GAS_DEN_KW`. -/
def ECLIPSE300_GAS_DEN_KW : String := "DENG"

/-- The macro `ECLIPSE300_WATER_DEN_KW`. -/
def ECLIPSE300_WATER_DEN_KW : String := "DENW"

/-- The function `get_den_kw`. -/
def get_den_kw (phase : ecl_phase_enum) (ecl_version : ecl_version_enum) :
    Except Fatal String :=
  if ecl_version = ECLIPSE100 then
    if phase = ECL_OIL_PHASE then .ok ECLIPSE100_OIL_DEN_KW
    else if phase = ECL_GAS_PHASE then .ok ECLIPSE100_GAS_DEN_KW
    else if phase = ECL_WATER_PHASE then .ok ECLIPSE100_WATER_DEN_KW
    else .error (.util_abort "get_den_kw")
  else if ecl_version = ECLIPSE300 then
    if phase = ECL_OIL_PHASE then .ok ECLIPSE300_OIL_DEN_KW
    else if phase = ECL_GAS_PHASE then .ok ECLIPSE300_GAS_DEN_KW
    else if phase = ECL_WATER_PHASE then .ok ECLIPSE300_WATER_DEN_KW
    else .error (.util_abort "get_den_kw")
  else .error (.util_abort "get_den_kw")

/-- The macro `GRAV_CALC_USE_PORV`. -/
def GRAV_CALC_USE_PORV : Nat := 128

/-- The macro `GRAV_CALC_USE_RHO`. -/
def GRAV_CALC_USE_RHO : Nat := 256

/-- The C enum `grav_calc_type` is an `int`. -/
abbrev grav_calc_type := Nat

/-- The enum value `GRAV_CALC_RPORV`. -/
def GRAV_CALC_RPORV : grav_calc_type := 1 + GRAV_CALC_USE_PORV + GRAV_CALC_USE_RHO

/-- The enum value `GRAV_CALC_PORMOD`. -/
def GRAV_CALC_PORMOD : grav_calc_type := 2 + GRAV_CALC_USE_PORV + GRAV_CALC_USE_RHO

/-- The enum value `GRAV_CALC_FIP`. -/
def GRAV_CALC_FIP : grav_calc_type := 3

/-- The enum value `GRAV_CALC_RFIP`. -/
def GRAV_CALC_RFIP : grav_calc_type := 4 + GRAV_CALC_USE_RHO

/-! ## Phase construction -/

/-- An array of `size` doubles from `util_malloc`; its indeterminate content is taken to
    be zero. -/
def util_malloc_doubles (K : Type) [Zero K] (size : Nat) : List K := List.replicate size 0

/-- A loop `for (i = 0; i < size; i++) array[i] = value(i);` whose values can fail. -/
def fill_loop {K : Type} (size : Nat) (value : Nat → Except Fatal K) (array : List K) :
    Except Fatal (List K) :=
  (List.range size).foldlM (fun a i => do
    let v ← value i
    pure (a.set i v)) array

section alloc

variable {K : Type} [LinearOrderedField K]

/-- The saturation keyword used by the porosity based branch of `ecl_grav_phase_alloc`:
    the keyword of the phase if the restart file has it, else the private keyword
    `1 - SWAT` or `1 - SWAT - SGAS` of the residual phase. -/
def ecl_grav_phase_alloc_sat_kw (restart_file : ecl_file_type K) (sat_kw_name : String) :
    Except Fatal (ecl_kw_type K) :=
  if ecl_file_has_kw restart_file sat_kw_name then
    ecl_file_iget_named_kw restart_file sat_kw_name 0
  else do
    let swat_kw ← ecl_file_iget_named_kw restart_file "SWAT" 0
    let sat_kw := ecl_kw_alloc_copy swat_kw
    let sat_kw ← ecl_kw_scalar_set_float sat_kw 1.0
    let sat_kw ← ecl_kw_inplace_sub sat_kw swat_kw
    if ecl_file_has_kw restart_file "SGAS" then do
      let sgas_kw ← ecl_file_iget_named_kw restart_file "SGAS" 0
      ecl_kw_inplace_sub sat_kw sgas_kw
    else
      pure sat_kw

/-- The function `ecl_grav_phase_alloc`. -/
def ecl_grav_phase_alloc (ecl_grav : ecl_grav_type K) (survey : ecl_grav_survey_type K)
    (phase : ecl_phase_enum) (restart_file : ecl_file_type K) (calc_type : grav_calc_type) :
    Except Fatal (ecl_grav_phase_type K) := do
  let init_file := ecl_grav.init_file
  let grid_cache := ecl_grav.grid_cache
  let sat_kw_name ← ecl_util_get_phase_name phase
  let size := grid_cache.size
  let fluid_mass := util_malloc_doubles K size
  if calc_type = GRAV_CALC_FIP then do
    let pvtnum_kw ← ecl_file_iget_named_kw init_file "PVTNUM" 0
    let std_density ← hash_get ecl_grav.std_density (← ecl_util_get_phase_name phase)
    let fip_kw ←
      if phase = ECL_OIL_PHASE then ecl_file_iget_named_kw restart_file "FIPOIL" 0
      else if phase = ECL_GAS_PHASE then ecl_file_iget_named_kw restart_file "FIPGAS" 0
      else ecl_file_iget_named_kw restart_file "FIPWAT" 0
    let fluid_mass ← fill_loop size (fun iactive => do
      let fip ← ecl_kw_iget_as_double fip_kw iactive
      let pvtnum ← ecl_kw_iget_int pvtnum_kw iactive
      pure (fip * double_vector_safe_iget std_density pvtnum)) fluid_mass
    pure { grid_cache := grid_cache, fluid_mass := fluid_mass, phase := phase }
  else do
    let ecl_version := ecl_file_get_ecl_version init_file
    let den_kw_name ← get_den_kw phase ecl_version
    let den_kw ← ecl_file_iget_named_kw restart_file den_kw_name 0
    if calc_type = GRAV_CALC_RFIP then do
      let rfip_kw ←
        if phase = ECL_OIL_PHASE then ecl_file_iget_named_kw restart_file "RFIPOIL" 0
        else if phase = ECL_GAS_PHASE then ecl_file_iget_named_kw restart_file "RFIPGAS" 0
        else ecl_file_iget_named_kw restart_file "RFIPWAT" 0
      let fluid_mass ← fill_loop size (fun iactive => do
        let rho ← ecl_kw_iget_as_double den_kw iactive
        let rfip ← ecl_kw_iget_as_double rfip_kw iactive
        pure (rho * rfip)) fluid_mass
      pure { grid_cache := grid_cache, fluid_mass := fluid_mass, phase := phase }
    else do
      let sat_kw ← ecl_grav_phase_alloc_sat_kw restart_file sat_kw_name
      let fluid_mass ← fill_loop size (fun iactive => do
        let rho ← ecl_kw_iget_as_double den_kw iactive
        let sat ← ecl_kw_iget_as_double sat_kw iactive
        match survey.porv with
        | some porv => pure (rho * sat * porv.getD iactive 0)
        | none => .error (.null_deref "ecl_grav_phase_alloc")) fluid_mass
      pure { grid_cache := grid_cache, fluid_mass := fluid_mass, phase := phase }

/-- The function `ecl_grav_survey_add_phase`. -/
def ecl_grav_survey_add_phase (survey : ecl_grav_survey_type K) (phase : ecl_phase_enum)
    (grav_phase : ecl_grav_phase_type K) : Except Fatal (ecl_grav_survey_type K) := do
  let key ← ecl_util_get_phase_name phase
  pure { survey with
    phase_list := survey.phase_list ++ [grav_phase],
    phase_map := (hash_insert survey.phase_map key grav_phase) }

/-- One of the three blocks `if (phases & PHASE) { ... }` of `ecl_grav_survey_add_phases`:
    the phase is built and stored in the survey if its bit is set in `phases`. -/
def ecl_grav_survey_add_phases_block (ecl_grav : ecl_grav_type K)
    (restart_file : ecl_file_type K) (calc_type : grav_calc_type) (phases : Nat)
    (phase : ecl_phase_enum) (survey : ecl_grav_survey_type K) :
    Except Fatal (ecl_grav_survey_type K) :=
  if phases &&& phase ≠ 0 then do
    let grav_phase ← ecl_grav_phase_alloc ecl_grav survey phase restart_file calc_type
    ecl_grav_survey_add_phase survey phase grav_phase
  else pure survey

/-- The function `ecl_grav_survey_add_phases`: the blocks of the oil, the gas and the water
    phase, in that order. -/
def ecl_grav_survey_add_phases (ecl_grav : ecl_grav_type K) (survey : ecl_grav_survey_type K)
    (restart_file : ecl_file_type K) (calc_type : grav_calc_type) :
    Except Fatal (ecl_grav_survey_type K) :=
  let phases := ecl_file_get_phases ecl_grav.init_file
  (ecl_grav_survey_add_phases_block ecl_grav restart_file calc_type phases ECL_OIL_PHASE survey
    >>= ecl_grav_survey_add_phases_block ecl_grav restart_file calc_type phases ECL_GAS_PHASE)
    >>= ecl_grav_survey_add_phases_block ecl_grav restart_file calc_type phases ECL_WATER_PHASE

/-- The function `ecl_grav_survey_alloc_empty`. -/
def ecl_grav_survey_alloc_empty (grid_cache : ecl_grav_grid_cache_type K) (name : String)
    (calc_type : grav_calc_type) : ecl_grav_survey_type K :=
  { grid_cache := grid_cache,
    name := name,
    phase_list := [],
    phase_map := hash_alloc,
    porv :=
      if calc_type &&& GRAV_CALC_USE_PORV ≠ 0 then
        some (util_malloc_doubles K grid_cache.size)
      else none }

/-- The function `ecl_grav_survey_alloc_PORMOD`. -/
def ecl_grav_survey_alloc_PORMOD (ecl_grav : ecl_grav_type K) (restart_file : ecl_file_type K)
    (name : String) : Except Fatal (ecl_grav_survey_type K) := do
  let grid_cache := ecl_grav.grid_cache
  let survey := ecl_grav_survey_alloc_empty grid_cache name GRAV_CALC_PORMOD
  let init_porv_kw ← ecl_file_iget_named_kw ecl_grav.init_file "PORV" 0
  let pormod_kw ← ecl_file_iget_named_kw restart_file "PORV_MOD" 0
  let size := grid_cache.size
  let porv ←
    match survey.porv with
    | some porv =>
      fill_loop size (fun active_index => do
        let global_index := grid_cache.global_index.getD active_index 0
        let pormod ← ecl_kw_iget_float pormod_kw active_index
        let init_porv ← ecl_kw_iget_float init_porv_kw global_index
        pure (pormod * init_porv)) porv
    | none => .error (.null_deref "ecl_grav_survey_alloc_PORMOD")
  let survey := { survey with porv := some porv }
  ecl_grav_survey_add_phases ecl_grav survey restart_file GRAV_CALC_PORMOD

/-- The function `ecl_grav_survey_alloc_FIP`. -/
def ecl_grav_survey_alloc_FIP (ecl_grav : ecl_grav_type K) (restart_file : ecl_file_type K)
    (name : String) : Except Fatal (ecl_grav_survey_type K) :=
  let grid_cache := ecl_grav.grid_cache
  let survey := ecl_grav_survey_alloc_empty grid_cache name GRAV_CALC_FIP
  ecl_grav_survey_add_phases ecl_grav survey restart_file GRAV_CALC_FIP

/-- The function `ecl_grav_survey_alloc_RFIP`. -/
def ecl_grav_survey_alloc_RFIP (ecl_grav : ecl_grav_type K) (restart_file : ecl_file_type K)
    (name : String) : Except Fatal (ecl_grav_survey_type K) :=
  let grid_cache := ecl_grav.grid_cache
  let survey := ecl_grav_survey_alloc_empty grid_cache name GRAV_CALC_RFIP
  ecl_grav_survey_add_phases ecl_grav survey restart_file GRAV_CALC_RFIP

/-- The function `ecl_grav_add_survey__`. -/
def ecl_grav_add_survey__ (grav : ecl_grav_type K) (name : String)
    (survey : ecl_grav_survey_type K) : ecl_grav_type K :=
  { grav with surveys := (hash_insert grav.surveys name survey) }

/-- The function `ecl_grav_add_survey_FIP`: the registry with the new survey, and the
    survey. -/
def ecl_grav_add_survey_FIP (grav : ecl_grav_type K) (name : String)
    (restart_file : ecl_file_type K) :
    Except Fatal (ecl_grav_type K × ecl_grav_survey_type K) := do
  let survey ← ecl_grav_survey_alloc_FIP grav restart_file name
  pure (ecl_grav_add_survey__ grav name survey, survey)

/-- The function `ecl_grav_add_survey_RFIP`: the registry with the new survey, and the
    survey. -/
def ecl_grav_add_survey_RFIP (grav : ecl_grav_type K) (name : String)
    (restart_file : ecl_file_type K) :
    Except Fatal (ecl_grav_type K × ecl_grav_survey_type K) := do
  let survey ← ecl_grav_survey_alloc_RFIP grav restart_file name
  pure (ecl_grav_add_survey__ grav name survey, survey)

/-- The function `ecl_grav_add_survey_PORMOD`: the registry with the new survey, and the
    survey. -/
def ecl_grav_add_survey_PORMOD (grav : ecl_grav_type K) (name : String)
    (restart_file : ecl_file_type K) :
    Except Fatal (ecl_grav_type K × ecl_grav_survey_type K) := do
  let survey ← ecl_grav_survey_alloc_PORMOD grav restart_file name
  pure (ecl_grav_add_survey__ grav name survey, survey)

end alloc

/-! ## The grid (`ecl_grid`) -/

/-- Modelled from the spec: the "grid geometry provider" (`ecl_grid.c` is not among the
    sources): `activeCellCount()`, `globalIndexOf(activeIndex)` and
    `cellCenter(globalIndex)`. -/
structure ecl_grid_type (K : Type) where
  active_size : Nat
  global_index1A : Nat → Nat
  xyz1 : Nat → K × K × K

/-- Modelled from the spec: `ecl_grid_get_active_size`, the `activeCellCount()` of the
    grid. -/
def ecl_grid_get_active_size {K : Type} (grid : ecl_grid_type K) : Nat := grid.active_size

/-- Modelled from the spec: `ecl_grid_get_global_index1A`, the `globalIndexOf(activeIndex)`
    of the grid. -/
def ecl_grid_get_global_index1A {K : Type} (grid : ecl_grid_type K) (active_index : Nat) :
    Nat :=
  grid.global_index1A active_index

/-- Modelled from the spec: `ecl_grid_get_xyz1`, the `cellCenter(globalIndex)` of the grid;
    the three output arguments are the components of the result. -/
def ecl_grid_get_xyz1 {K : Type} (grid : ecl_grid_type K) (global_index : Nat) : K × K × K :=
  grid.xyz1 global_index

/-- Modelled from the spec: `ecl_kw_get_int_ptr`, the integer array of a keyword; another
    element type is a fatal error. -/
def ecl_kw_get_int_ptr {K : Type} (kw : ecl_kw_type K) : Except Fatal (List Int) :=
  match kw.data with
  | .int_data values => .ok values
  | _ => .error (.util_abort "ecl_kw_get_int_ptr")

/-- The macro `AQUIFER_KW`. -/
def AQUIFER_KW : String := "AQUIFERN"

/-- The macro `RPORV_KW`. -/
def RPORV_KW : String := "RPORV"

/-- The macro `PORV_KW`. -/
def PORV_KW : String := "PORV"

/-! ## Construction of the grid cache -/

/-- Block of `size` elements returned by `util_malloc` for an array of `bool` or `int`;
    every element is written before it is read. -/
def util_malloc_array {α : Type} (init : α) (size : Nat) : List α := List.replicate size init

/-- First loop of `ecl_grav_grid_cache_alloc`: `active[ active_index ] = true` for every
    `active_index < size`. -/
def ecl_grav_grid_cache_alloc_active (size : Nat) (active : List Bool) : List Bool :=
  (List.range size).foldl (fun active active_index => active.set active_index true) active

/-- Second loop of `ecl_grav_grid_cache_alloc`, run when the init file has the keyword
    `AQUIFERN`: `if (aquifer_data[ active_index ] < 0) active[ active_index ] = false`. -/
def ecl_grav_grid_cache_alloc_aquifer (size : Nat) (aquifer_data : List Int)
    (active : List Bool) : List Bool :=
  (List.range size).foldl
    (fun active active_index =>
      if aquifer_data.getD active_index 0 < 0 then active.set active_index false else active)
    active

/-- Third loop of `ecl_grav_grid_cache_alloc`: the global index and the cell centre of
    every active cell. The state is `(global_index, xpos, ypos, zpos)`. -/
def ecl_grav_grid_cache_alloc_xyz {K : Type} (grid : ecl_grid_type K) (size : Nat)
    (arrays : List Nat × List K × List K × List K) : List Nat × List K × List K × List K :=
  (List.range size).foldl
    (fun arrays active_index =>
      let global_index := ecl_grid_get_global_index1A grid active_index
      let xyz := ecl_grid_get_xyz1 grid global_index
      (arrays.1.set active_index global_index,
       arrays.2.1.set active_index xyz.1,
       arrays.2.2.1.set active_index xyz.2.1,
       arrays.2.2.2.set active_index xyz.2.2))
    arrays

/-- The function `ecl_grav_grid_cache_alloc`. -/
def ecl_grav_grid_cache_alloc {K : Type} [Zero K] (grid : ecl_grid_type K)
    (init_file : ecl_file_type K) : Except Fatal (ecl_grav_grid_cache_type K) := do
  let size := ecl_grid_get_active_size grid
  let xpos := util_malloc_doubles K size
  let ypos := util_malloc_doubles K size
  let zpos := util_malloc_doubles K size
  let global_index := util_malloc_array 0 size
  let active := util_malloc_array false size
  let active := ecl_grav_grid_cache_alloc_active size active
  let active ←
    (if ecl_file_has_kw init_file AQUIFER_KW then
      (ecl_file_iget_named_kw init_file AQUIFER_KW 0 >>= ecl_kw_get_int_ptr).map
        (fun aquifer_data => ecl_grav_grid_cache_alloc_aquifer size aquifer_data active)
    else Except.ok active)
  let arrays := ecl_grav_grid_cache_alloc_xyz grid size (global_index, xpos, ypos, zpos)
  pure { size := size, xpos := arrays.2.1, ypos := arrays.2.2.1, zpos := arrays.2.2.2,
         global_index := arrays.1, active := active }

/-- The function `ecl_grav_alloc`. -/
def ecl_grav_alloc {K : Type} [Zero K] (ecl_grid : ecl_grid_type K)
    (init_file : ecl_file_type K) : Except Fatal (ecl_grav_type K) := do
  let grid_cache ← ecl_grav_grid_cache_alloc ecl_grid init_file
  pure { init_file := init_file, grid_cache := grid_cache, surveys := hash_alloc,
         std_density := hash_alloc }

/-! ## The sanity check of RPORV -/

/-- Value of the libm call `log10(x)`: a finite number for `x > 0`, minus infinity for
    `x = 0`, a NaN for `x < 0`. -/
inductive c_log (K : Type) where
  | finite (v : K)
  | minus_infinity
  | nan

/-- The libm call `log10(x)` on a finite double; on positive arguments it is the parameter
    `log10`. -/
def c_log10 {K : Type} [LinearOrderedField K] (log10 : K → K) (x : K) : c_log K :=
  if 0 < x then .finite (log10 x)
  else if x = 0 then .minus_infinity
  else .nan

/-- The C expression `fabs( v ) > 1`: true for an infinity, false for a NaN (every
    comparison with a NaN is false). -/
def c_log.fabs_gt_one {K : Type} [LinearOrderedField K] : c_log K → Bool
  | .finite v => decide (1 < |v|)
  | .minus_infinity => true
  | .nan => false

section check
variable {K : Type} [LinearOrderedField K]

/-- The test of `ecl_grav_survey_assert_RPORV` on one sampled cell with `init_porv > 0`:
    `log_pormod = log10( rporv / init_porv )` and `fabs( log_pormod ) > 1`. -/
def ecl_grav_survey_assert_RPORV_error (log10 : K → K) (init_porv rporv : K) : Bool :=
  let log_pormod := c_log10 log10 (rporv / init_porv)
  log_pormod.fabs_gt_one

/-- The `while (check_nr < check_points)` loop of `ecl_grav_survey_assert_RPORV`. The loop
    may use `fuel` iterations; `rand_nr` counts the calls of `rand()` made so far, the call
    number `k` returns `rand k`. The result is the number of calls of `rand()` when the
    loop is left. -/
def ecl_grav_survey_assert_RPORV_loop (log10 : K → K) (rand : Nat → Nat)
    (survey : ecl_grav_survey_type K) (init_porv_kw : ecl_kw_type K) (active_size : Nat)
    (check_points : Nat) : Nat → Nat → Nat → Option (Except Fatal Nat)
  | 0, rand_nr, check_nr =>
    if check_nr < check_points then none else some (.ok rand_nr)
  | fuel + 1, rand_nr, check_nr =>
    if check_nr < check_points then
      if active_size = 0 then
        some (.error (.div_by_zero "ecl_grav_survey_assert_RPORV"))
      else
        let active_index := rand rand_nr % active_size
        let global_index := survey.grid_cache.global_index.getD active_index 0
        match ecl_kw_iget_as_double init_porv_kw global_index with
        | .error e => some (.error e)
        | .ok init_porv =>
          if init_porv > 0 then
            match survey.porv with
            | none => some (.error (.null_deref "ecl_grav_survey_assert_RPORV"))
            | some porv =>
              let rporv := porv.getD active_index 0
              if ecl_grav_survey_assert_RPORV_error log10 init_porv rporv then
                some (.error (.exit1 "ecl_grav_survey_assert_RPORV"))
              else
                ecl_grav_survey_assert_RPORV_loop log10 rand survey init_porv_kw active_size
                  check_points fuel (rand_nr + 1) (check_nr + 1)
          else
            ecl_grav_survey_assert_RPORV_loop log10 rand survey init_porv_kw active_size
              check_points fuel (rand_nr + 1) check_nr
    else some (.ok rand_nr)

/-- The function `ecl_grav_survey_assert_RPORV`; `none` when `fuel` iterations of the loop
    do not reach its end. -/
def ecl_grav_survey_assert_RPORV (log10 : K → K) (rand : Nat → Nat) (fuel : Nat)
    (survey : ecl_grav_survey_type K) (init_file : ecl_file_type K) :
    Option (Except Fatal Nat) :=
  let grid_cache := survey.grid_cache
  let active_size := grid_cache.size
  match ecl_file_iget_named_kw init_file PORV_KW 0 with
  | .error e => some (.error e)
  | .ok init_porv_kw =>
    let check_points := 100
    let check_nr := 0
    ecl_grav_survey_assert_RPORV_loop log10 rand survey init_porv_kw active_size check_points
      fuel 0 check_nr

/-- The store `array[ index ] = value` into a block of `array.length` elements. -/
def heap_store {α : Type} (func : String) (array : List α) (index : Nat) (value : α) :
    Except Fatal (List α) :=
  if index < array.length then .ok (array.set index value)
  else .error (.out_of_bounds func)

/-- The loop of `ecl_grav_survey_alloc_RPORV`:
    `for (iactive = 0; iactive < ecl_kw_get_size( rporv_kw ); iactive++)
       survey->porv[ iactive ] = ecl_kw_iget_as_double( rporv_kw , iactive )`. -/
def ecl_grav_survey_alloc_RPORV_loop (rporv_kw : ecl_kw_type K) (porv : List K) :
    Except Fatal (List K) :=
  (List.range (ecl_kw_get_size rporv_kw)).foldlM
    (fun porv iactive => do
      let value ← ecl_kw_iget_as_double rporv_kw iactive
      heap_store "ecl_grav_survey_alloc_RPORV" porv iactive value)
    porv

/-- The first block of `ecl_grav_survey_alloc_RPORV`: the empty survey and its pore
    volumes read from the keyword RPORV. -/
def ecl_grav_survey_alloc_RPORV_porv (ecl_grav : ecl_grav_type K)
    (restart_file : ecl_file_type K) (name : String) :
    Except Fatal (ecl_grav_survey_type K) :=
  let grid_cache := ecl_grav.grid_cache
  let survey := ecl_grav_survey_alloc_empty grid_cache name GRAV_CALC_RPORV
  if ecl_file_has_kw restart_file RPORV_KW then do
    let rporv_kw ← ecl_file_iget_named_kw restart_file RPORV_KW 0
    match survey.porv with
    | some porv =>
      let porv ← ecl_grav_survey_alloc_RPORV_loop rporv_kw porv
      pure { survey with porv := some porv }
    | none => .error (.null_deref "ecl_grav_survey_alloc_RPORV")
  else
    .error (.util_abort "ecl_grav_survey_alloc_RPORV")

/-- The function `ecl_grav_survey_alloc_RPORV`; `none` when the loop of the sanity check
    does not end within `fuel` iterations. -/
def ecl_grav_survey_alloc_RPORV (log10 : K → K) (rand : Nat → Nat) (fuel : Nat)
    (ecl_grav : ecl_grav_type K) (restart_file : ecl_file_type K) (name : String) :
    Option (Except Fatal (ecl_grav_survey_type K)) :=
  match ecl_grav_survey_alloc_RPORV_porv ecl_grav restart_file name with
  | .error e => some (.error e)
  | .ok survey =>
    let init_file := ecl_grav.init_file
    match ecl_grav_survey_assert_RPORV log10 rand fuel survey init_file with
    | none => none
    | some (.error e) => some (.error e)
    | some (.ok _) =>
      some (ecl_grav_survey_add_phases ecl_grav survey restart_file GRAV_CALC_RPORV)

/-- The function `ecl_grav_add_survey_RPORV`: the updated registry and the survey. -/
def ecl_grav_add_survey_RPORV (log10 : K → K) (rand : Nat → Nat) (fuel : Nat)
    (grav : ecl_grav_type K) (name : String) (restart_file : ecl_file_type K) :
    Option (Except Fatal (ecl_grav_type K × ecl_grav_survey_type K)) :=
  match ecl_grav_survey_alloc_RPORV log10 rand fuel grav restart_file name with
  | none => none
  | some (.error e) => some (.error e)
  | some (.ok survey) => some (.ok (ecl_grav_add_survey__ grav name survey, survey))

end check

/-! ## Keyword contents used to state the theorems -/

section preds
variable {K : Type}

/-- The keyword `name` of the dataset provides the double `v i` at every index `i < n`
    (read with `ecl_kw_iget_as_double`). -/
def kw_doubles (file : ecl_file_type K) (name : String) (n : Nat) (v : Nat → K) : Prop :=
  ∃ kw, ecl_file_iget_named_kw file name 0 = .ok kw ∧
    ∀ i, i < n → ecl_kw_iget_as_double kw i = .ok (v i)

/-- The keyword `name` of the dataset provides the integer `v i` at every index `i < n`
    (read with `ecl_kw_iget_int`). -/
def kw_ints (file : ecl_file_type K) (name : String) (n : Nat) (v : Nat → Int) : Prop :=
  ∃ kw, ecl_file_iget_named_kw file name 0 = .ok kw ∧
    ∀ i, i < n → ecl_kw_iget_int kw i = .ok (v i)

/-- The keyword `name` of the dataset provides the float `v (index i)` at the index
    `index i`, for every `i < n` (read with `ecl_kw_iget_float`). -/
def kw_floats (file : ecl_file_type K) (name : String) (n : Nat) (index : Nat → Nat)
    (v : Nat → K) : Prop :=
  ∃ kw, ecl_file_iget_named_kw file name 0 = .ok kw ∧
    ∀ i, i < n → ecl_kw_iget_float kw (index i) = .ok (v (index i))

end preds

/-! ## Histories of the density table -/

/-- A call of one of the two functions that install standard densities. -/
inductive density_call (K : Type) where
  | new_std_density (phase : ecl_phase_enum) (default_density : K)
  | add_std_density (phase : ecl_phase_enum) (pvtnum : Int) (density : K)

/-- The effect of one call on the registry. -/
def run_density_call {K : Type} (grav : ecl_grav_type K) :
    density_call K → Except Fatal (ecl_grav_type K)
  | .new_std_density phase default_density => ecl_grav_new_std_density grav phase default_density
  | .add_std_density phase pvtnum density => ecl_grav_add_std_density grav phase pvtnum density

/-- The effect of a sequence of calls, in the order of the list; the process stops at the
    first call that fails. -/
def run_density_calls {K : Type} (grav : ecl_grav_type K) (calls : List (density_call K)) :
    Except Fatal (ecl_grav_type K) :=
  calls.foldlM run_density_call grav

/-! ## Notions used to state the theorems on the sanity check -/

section check_aux
variable {K : Type} [LinearOrderedField K]

/-- Number of calls of `rand()`, among the first `n`, that choose an active cell with a
    positive static pore volume; `static a` is the static pore volume of the active cell
    `a`. -/
def rporv_valid_count (rand : Nat → Nat) (active_size : Nat) (static : Nat → K) (n : Nat) :
    Nat :=
  (List.range n).countP (fun k => decide (0 < static (rand k % active_size)))

/-- The keyword PORV of the init file provides the static pore volume `static a` of every
    active cell `a < size` at the global index of the cell. -/
def static_porv (init_file : ecl_file_type K) (grid_cache : ecl_grav_grid_cache_type K)
    (static : Nat → K) : Prop :=
  ∃ kw, ecl_file_iget_named_kw init_file PORV_KW 0 = .ok kw ∧
    ∀ a, a < grid_cache.size →
      ecl_kw_iget_as_double kw (grid_cache.global_index.getD a 0) = .ok (static a)

/-- The keyword RPORV of the restart file has `size` elements, `rporv i` at index `i`. -/
def rporv_values (restart_file : ecl_file_type K) (size : Nat) (rporv : Nat → K) : Prop :=
  ecl_file_has_kw restart_file RPORV_KW = true ∧
  ∃ kw, ecl_file_iget_named_kw restart_file RPORV_KW 0 = .ok kw ∧
    ecl_kw_get_size kw = size ∧ ∀ i, i < size → ecl_kw_iget_as_double kw i = .ok (rporv i)

end check_aux

/-! ## Notions used to state the theorems on the construction of surveys -/

section aux
variable {K : Type} [LinearOrderedField K]

/-- The restart file has the density and saturation keywords that the porosity based
    strategies read for the phases present in the init file: for each of them the density
    keyword of `get_den_kw` and a saturation keyword, explicit or derived, provide a value
    for every active cell. -/
def porv_keywords (grav : ecl_grav_type K) (restart_file : ecl_file_type K) : Prop :=
  ∀ phase, phase = ECL_OIL_PHASE ∨ phase = ECL_GAS_PHASE ∨ phase = ECL_WATER_PHASE →
    ecl_file_get_phases grav.init_file &&& phase ≠ 0 →
    ∃ key den_name sat_kw, ∃ rho sat : Nat → K,
      ecl_util_get_phase_name phase = .ok key ∧
      get_den_kw phase (ecl_file_get_ecl_version grav.init_file) = .ok den_name ∧
      kw_doubles restart_file den_name grav.grid_cache.size rho ∧
      ecl_grav_phase_alloc_sat_kw restart_file key = .ok sat_kw ∧
      ∀ i, i < grav.grid_cache.size → ecl_kw_iget_as_double sat_kw i = .ok (sat i)

/-- The phases of the fixed order oil, gas, water whose bit is set in the mask. -/
def present_phases (phases : Nat) : List ecl_phase_enum :=
  [ECL_OIL_PHASE, ECL_GAS_PHASE, ECL_WATER_PHASE].filter (fun phase => phases &&& phase ≠ 0)

end aux

/-! ## Summary data (`ecl_sum.c`) -/

/-- The functions of `ecl_sum_data.c` (not among the sources) that
    `ecl_sum_get_first_ministep_gt` calls are parameters: the first and the last ministep
    of the summary and the reader `ecl_sum_data_get( data , ministep , index )`, which can
    abort. -/
structure ecl_sum_data_type (K : Type) where
  first_ministep : Int
  last_ministep : Int
  get : Int → Int → Except Fatal K

/-- The struct `ecl_sum_struct`, reduced to the field `data` that the function reads. -/
structure ecl_sum_type (K : Type) where
  data : ecl_sum_data_type K

/-- Parameter: `ecl_sum_data_get_last_ministep` of `ecl_sum_data.c`. -/
def ecl_sum_data_get_last_ministep {K : Type} (data : ecl_sum_data_type K) : Int :=
  data.last_ministep

/-- Parameter: `ecl_sum_data_get_first_ministep` of `ecl_sum_data.c`. -/
def ecl_sum_data_get_first_ministep {K : Type} (data : ecl_sum_data_type K) : Int :=
  data.first_ministep

/-- Parameter: `ecl_sum_data_get` of `ecl_sum_data.c`. -/
def ecl_sum_data_get {K : Type} (data : ecl_sum_data_type K) (ministep index : Int) :
    Except Fatal K :=
  data.get ministep index

/-- The function `ecl_sum_get_last_ministep`. -/
def ecl_sum_get_last_ministep {K : Type} (ecl_sum : ecl_sum_type K) : Int :=
  ecl_sum_data_get_last_ministep ecl_sum.data

/-- The function `ecl_sum_get_first_ministep`. -/
def ecl_sum_get_first_ministep {K : Type} (ecl_sum : ecl_sum_type K) : Int :=
  ecl_sum_data_get_first_ministep ecl_sum.data

section summary
variable {K : Type} [LinearOrderedField K]

/-- The `do { ... } while (ministep < last_ministep)` loop of
    `ecl_sum_get_first_ministep_gt`, entered with the given `ministep`; the result is the
    value of `ministep` when the loop is left. Each iteration reads one value; the loop may
    use `fuel` iterations. -/
def ecl_sum_get_first_ministep_gt_loop (ecl_sum : ecl_sum_type K) (smspec_index : Int)
    (limit : K) (last_ministep : Int) : Nat → Int → Option (Except Fatal Int)
  | 0, _ => none
  | fuel + 1, ministep =>
    match ecl_sum_data_get ecl_sum.data ministep smspec_index with
    | .error e => some (.error e)
    | .ok value =>
      if value > limit then some (.ok ministep)
      else
        let ministep := ministep + 1
        if ministep < last_ministep then
          ecl_sum_get_first_ministep_gt_loop ecl_sum smspec_index limit last_ministep fuel
            ministep
        else some (.ok ministep)

/-- The function `ecl_sum_get_first_ministep_gt`; `none` when `fuel` iterations of the loop
    do not reach its end. -/
def ecl_sum_get_first_ministep_gt (fuel : Nat) (ecl_sum : ecl_sum_type K) (smspec_index : Int)
    (limit : K) : Option (Except Fatal Int) :=
  let last_ministep := ecl_sum_get_last_ministep ecl_sum
  let ministep := ecl_sum_get_first_ministep ecl_sum
  match ecl_sum_get_first_ministep_gt_loop ecl_sum smspec_index limit last_ministep fuel
      ministep with
  | none => none
  | some (.error e) => some (.error e)
  | some (.ok ministep) =>
    if ministep = last_ministep then some (.ok (-1)) else some (.ok ministep)

end summary

/-! ## Invariants of the registry -/

section invariants
variable {K : Type}

/-- The arrays of a survey are those of a survey over the grid cache `gc`: the survey and
    its phases refer to `gc`, every mass array and the pore-volume array, when there is
    one, have `gc.size` elements. -/
def survey_sized (gc : ecl_grav_grid_cache_type K) (s : ecl_grav_survey_type K) : Prop :=
  s.grid_cache = gc ∧
  (∀ p, p ∈ s.phase_list → p.grid_cache = gc ∧ p.fluid_mass.length = gc.size) ∧
  ∀ l, s.porv = some l → l.length = gc.size

/-- Every survey stored in the registry is a survey over the grid cache of the registry. -/
def registry_sized (grav : ecl_grav_type K) : Prop :=
  ∀ kv, kv ∈ grav.surveys → survey_sized grav.grid_cache kv.2

end invariants

section invariants_tags
variable {K : Type} [LinearOrderedField K]

/-- Every survey stored in the registry has the phase tags selected by the phase bitmask
    of the init file, in the order oil, gas, water. -/
def registry_phase_tags (grav : ecl_grav_type K) : Prop :=
  ∀ kv, kv ∈ grav.surveys →
    phase_tags kv.2 = present_phases (ecl_file_get_phases grav.init_file)

/-- Every phase of the survey refers to the grid cache `gc`. -/
def survey_over (gc : ecl_grav_grid_cache_type K) (s : ecl_grav_survey_type K) : Prop :=
  ∀ p, p ∈ s.phase_list → p.grid_cache = gc

end invariants_tags

section results
variable {K : Type} [LinearOrderedField K]

/-- One of the four entry points `ecl_grav_add_survey_RPORV`, `_PORMOD`, `_FIP` and `_RFIP`,
    called on the registry `grav` with the given name and restart file, returns the survey
    `s` and leaves the registry `g`. -/
def ecl_grav_add_survey_returns (log10 : K → K) (rand : Nat → Nat) (fuel : Nat)
    (grav : ecl_grav_type K) (name : String) (restart_file : ecl_file_type K)
    (g : ecl_grav_type K) (s : ecl_grav_survey_type K) : Prop :=
  ecl_grav_add_survey_RPORV log10 rand fuel grav name restart_file = some (.ok (g, s)) ∨
  ecl_grav_add_survey_PORMOD grav name restart_file = .ok (g, s) ∨
  ecl_grav_add_survey_FIP grav name restart_file = .ok (g, s) ∨
  ecl_grav_add_survey_RFIP grav name restart_file = .ok (g, s)

end results

/-! ## Notions used to state the theorems on the divisor of the cell term -/

section divisor
variable {K : Type} [LinearOrderedField K]

end divisor

/-! ## Notions used to state the theorems on the entry points that add a survey -/

section entry
variable {K : Type} [LinearOrderedField K]

/-- The datasets and the density table have what `ecl_grav_add_survey_FIP` reads: the
    keyword PVTNUM of the init file and, for every phase present in the init file, the
    keyword FIPOIL, FIPGAS or FIPWAT of the restart file provide a value for every active
    cell, and the phase has an entry in the density table. -/
def fip_keywords (grav : ecl_grav_type K) (restart_file : ecl_file_type K) : Prop :=
  (∃ pvtnum, kw_ints grav.init_file "PVTNUM" grav.grid_cache.size pvtnum) ∧
  ∀ phase kw key,
    ((phase = ECL_OIL_PHASE ∧ kw = "FIPOIL" ∧ key = "SOIL") ∨
     (phase = ECL_GAS_PHASE ∧ kw = "FIPGAS" ∧ key = "SGAS") ∨
     (phase = ECL_WATER_PHASE ∧ kw = "FIPWAT" ∧ key = "SWAT")) →
    ecl_file_get_phases grav.init_file &&& phase ≠ 0 →
    (∃ fip, kw_doubles restart_file kw grav.grid_cache.size fip) ∧
      hash_has_key grav.std_density key = true

/-- The restart file has what `ecl_grav_add_survey_RFIP` reads: for every phase present in
    the init file the density keyword of `get_den_kw` and the keyword RFIPOIL, RFIPGAS or
    RFIPWAT provide a value for every active cell. -/
def rfip_keywords (grav : ecl_grav_type K) (restart_file : ecl_file_type K) : Prop :=
  ∀ phase kw,
    ((phase = ECL_OIL_PHASE ∧ kw = "RFIPOIL") ∨ (phase = ECL_GAS_PHASE ∧ kw = "RFIPGAS") ∨
     (phase = ECL_WATER_PHASE ∧ kw = "RFIPWAT")) →
    ecl_file_get_phases grav.init_file &&& phase ≠ 0 →
    ∃ den_name, ∃ rho rfip : Nat → K,
      get_den_kw phase (ecl_file_get_ecl_version grav.init_file) = .ok den_name ∧
      kw_doubles restart_file den_name grav.grid_cache.size rho ∧
      kw_doubles restart_file kw grav.grid_cache.size rfip

/-- The datasets have what `ecl_grav_add_survey_PORMOD` reads: the keyword PORV_MOD of the
    restart file at the active indices, the keyword PORV of the init file at the global
    indices, and the density and saturation keywords of the present phases. -/
def pormod_keywords (grav : ecl_grav_type K) (restart_file : ecl_file_type K) : Prop :=
  (∃ pormod, kw_floats restart_file "PORV_MOD" grav.grid_cache.size (fun a => a) pormod) ∧
  (∃ porv, kw_floats grav.init_file "PORV" grav.grid_cache.size
    (fun a => grav.grid_cache.global_index.getD a 0) porv) ∧
  porv_keywords grav restart_file

/-- The datasets have what `ecl_grav_add_survey_RPORV` reads and the sanity check passes
    within `fuel` iterations: the keyword RPORV has one value per active cell, PORV provides
    the static pore volumes, the call number `n` of `rand()` is the first at which 100 cells
    with a positive static pore volume have been sampled, every such sample before it
    passes the test of the check, and the density and saturation keywords of the present
    phases are there. -/
def rporv_keywords (log10 : K → K) (rand : Nat → Nat) (fuel : Nat) (grav : ecl_grav_type K)
    (restart_file : ecl_file_type K) : Prop :=
  0 < grav.grid_cache.size ∧
  (∃ (static rporv : Nat → K) (n : Nat),
    rporv_values restart_file grav.grid_cache.size rporv ∧
    static_porv grav.init_file grav.grid_cache static ∧
    n ≤ fuel ∧
    rporv_valid_count rand grav.grid_cache.size static n = 100 ∧
    (∀ m, m < n → rporv_valid_count rand grav.grid_cache.size static m < 100) ∧
    ∀ k, k < n → 0 < static (rand k % grav.grid_cache.size) →
      ecl_grav_survey_assert_RPORV_error log10 (static (rand k % grav.grid_cache.size))
        (rporv (rand k % grav.grid_cache.size)) = false) ∧
  porv_keywords grav restart_file

/-- The registry `g` is the registry `grav` with the survey `s` stored under `name`: the
    lookup of `name` gives `s`, the lookup of every other name is as in `grav`. -/
def survey_stored (grav : ecl_grav_type K) (name : String) (g : ecl_grav_type K)
    (s : ecl_grav_survey_type K) : Prop :=
  ecl_grav_get_survey g (some name) = .ok (some s) ∧
  ∀ other, other ≠ name →
    ecl_grav_get_survey g (some other) = ecl_grav_get_survey grav (some other)

end entry

/-! ## Concrete data used to run the definitions -/

/-- A grid with one eligible active cell at world position (0,0,1000). -/
def one_cell_grid_cache (K : Type) [LinearOrderedField K] : ecl_grav_grid_cache_type K :=
  { size := 1, xpos := [0], ypos := [0], zpos := [1000], global_index := [0], active := [true] }

/-- A phase over `one_cell_grid_cache` with the given tag and mass. -/
def one_cell_phase {K : Type} [LinearOrderedField K] (phase : ecl_phase_enum) (mass : K) :
    ecl_grav_phase_type K :=
  { grid_cache := one_cell_grid_cache K, fluid_mass := [mass], phase := phase }

/-- The phase `p` with the cell `index` marked as not eligible in its grid cache. -/
def deactivate_cell {K : Type} (p : ecl_grav_phase_type K) (index : Nat) :
    ecl_grav_phase_type K :=
  { p with grid_cache := { p.grid_cache with active := p.grid_cache.active.set index false } }

/-- A grid with two active cells: cell 0 at (0,0,1000) is eligible, cell 1 at (0,0,2000)
    is a numerical aquifer cell. -/
def two_cell_grid_cache (K : Type) [LinearOrderedField K] : ecl_grav_grid_cache_type K :=
  { size := 2, xpos := [0, 0], ypos := [0, 0], zpos := [1000, 2000], global_index := [0, 1],
    active := [true, false] }

/-- A phase over `two_cell_grid_cache` with the given tag and masses. -/
def two_cell_phase {K : Type} [LinearOrderedField K] (phase : ecl_phase_enum) (mass0 mass1 : K) :
    ecl_grav_phase_type K :=
  { grid_cache := two_cell_grid_cache K, fluid_mass := [mass0, mass1], phase := phase }

/-- A survey holding the given phases, each stored in the list and, as
    `ecl_grav_survey_add_phase` does, under its phase name in the map. -/
def survey_of_phases {K : Type} (grid_cache : ecl_grav_grid_cache_type K) (name : String)
    (phases : List (ecl_grav_phase_type K)) : ecl_grav_survey_type K :=
  { grid_cache := grid_cache, name := name, porv := none, phase_list := phases,
    phase_map := phases.foldl
      (fun map p =>
        match ecl_util_get_phase_name p.phase with
        | .ok key => hash_insert map key p
        | .error _ => map)
      hash_alloc }

/-- A registry over the one-cell grid with the surveys "base" (oil mass 5) and "monitor"
    (oil mass 1005). -/
def one_cell_grav (K : Type) [LinearOrderedField K] : ecl_grav_type K :=
  { init_file := { phases := ECL_OIL_PHASE },
    grid_cache := one_cell_grid_cache K,
    surveys :=
      hash_insert
        (hash_insert hash_alloc "base"
          (survey_of_phases (one_cell_grid_cache K) "base" [one_cell_phase ECL_OIL_PHASE 5]))
        "monitor"
        (survey_of_phases (one_cell_grid_cache K) "monitor" [one_cell_phase ECL_OIL_PHASE 1005]),
    std_density := hash_alloc }

/-! ## Sample datasets -/

/-- A grid of three cells of which the cells 0 and 2 are active, both eligible. -/
def sample_grid_cache (K : Type) [LinearOrderedField K] : ecl_grav_grid_cache_type K :=
  { size := 2, xpos := [0, 100], ypos := [0, 0], zpos := [1000, 1000], global_index := [0, 2],
    active := [true, true] }

/-- An init dataset of an oil-gas-water model: PVTNUM per active cell, PORV per global
    cell. -/
def sample_init_file (K : Type) [LinearOrderedField K] : ecl_file_type K :=
  { kw_list :=
      [ { header := "PVTNUM", data := .int_data [3, 5] },
        { header := "PORV", data := .float_data [100, 0, 200] } ],
    phases := ECL_OIL_PHASE ||| ECL_GAS_PHASE ||| ECL_WATER_PHASE,
    ecl_version := ECLIPSE100 }

/-- A restart dataset with fluid-in-place, density and saturation keywords for the two
    active cells; it has no SOIL keyword, oil is the residual phase. In the second cell the
    water and gas saturations add up to more than 1. -/
def sample_restart_file (K : Type) [LinearOrderedField K] : ecl_file_type K :=
  { kw_list :=
      [ { header := "FIPOIL", data := .float_data [10, 20] },
        { header := "FIPGAS", data := .float_data [30, 40] },
        { header := "FIPWAT", data := .float_data [50, 60] },
        { header := "RFIPOIL", data := .float_data [11, 21] },
        { header := "RFIPGAS", data := .float_data [31, 41] },
        { header := "RFIPWAT", data := .float_data [51, 61] },
        { header := "OIL_DEN", data := .float_data [800, 810] },
        { header := "GAS_DEN", data := .float_data [1, 2] },
        { header := "WAT_DEN", data := .float_data [1000, 1010] },
        { header := "SWAT", data := .float_data [1 / 4, 3 / 4] },
        { header := "SGAS", data := .float_data [1 / 4, 1 / 2] },
        { header := "PORV_MOD", data := .float_data [1, 3 / 2] } ],
    phases := ECL_OIL_PHASE ||| ECL_GAS_PHASE ||| ECL_WATER_PHASE,
    ecl_version := ECLIPSE100 }

/-- The sample restart dataset without its SGAS keyword. -/
def sample_restart_file_no_sgas (K : Type) [LinearOrderedField K] : ecl_file_type K :=
  { sample_restart_file K with
    kw_list := (sample_restart_file K).kw_list.filter (fun k => k.header != "SGAS") }

/-- A registry over the sample grid with default densities for water, gas and oil (oil: 4/5,
    overridden by 13/20 in region 3), and no survey. -/
def sample_grav (K : Type) [LinearOrderedField K] : ecl_grav_type K :=
  { init_file := sample_init_file K,
    grid_cache := sample_grid_cache K,
    surveys := hash_alloc,
    std_density :=
      [ ("SWAT", { default_value := 1, overrides := [] }),
        ("SGAS", { default_value := 1 / 1000, overrides := [] }),
        ("SOIL", { default_value := 4 / 5, overrides := [(3, 13 / 20)] }) ] }

/-- The sample registry before any density is installed. -/
def sample_grav_no_density (K : Type) [LinearOrderedField K] : ecl_grav_type K :=
  { sample_grav K with std_density := hash_alloc }

/-- The sample registry with a density for the oil phase only. -/
def sample_grav_oil_density (K : Type) [LinearOrderedField K] : ecl_grav_type K :=
  { sample_grav K with
    std_density := [("SOIL", { default_value := 4 / 5, overrides := [(3, 13 / 20)] })] }

/-- A survey over the sample grid with the pore volumes 100 and 300 and no phase yet. -/
def sample_porv_survey (K : Type) [LinearOrderedField K] : ecl_grav_survey_type K :=
  { ecl_grav_survey_alloc_empty (sample_grid_cache K) "sample" GRAV_CALC_PORMOD with
    porv := some [100, 300] }

/-! ## Uniform datasets -/

/-- A grid of `n` active cells, all eligible, in which the active cell `i` is the global
    cell `i`. -/
def uniform_grid_cache (K : Type) [LinearOrderedField K] (n : Nat) :
    ecl_grav_grid_cache_type K :=
  { size := n, xpos := List.replicate n 0, ypos := List.replicate n 0,
    zpos := List.replicate n 1000, global_index := List.range n,
    active := List.replicate n true }

/-- An init dataset of a water model whose keyword PORV holds the given static pore
    volumes. -/
def porv_init_file (K : Type) [LinearOrderedField K] (porv : List K) : ecl_file_type K :=
  { kw_list := [{ header := "PORV", data := .float_data porv }],
    phases := ECL_WATER_PHASE,
    ecl_version := ECLIPSE100 }

/-- A registry over the uniform grid of `n` cells with the given static pore volumes,
    without survey. -/
def uniform_grav (K : Type) [LinearOrderedField K] (n : Nat) (porv : List K) :
    ecl_grav_type K :=
  { init_file := porv_init_file K porv,
    grid_cache := uniform_grid_cache K n,
    surveys := hash_alloc,
    std_density := hash_alloc }

/-- A restart dataset whose only keyword is RPORV with the given values. -/
def rporv_restart_file (K : Type) [LinearOrderedField K] (rporv : List K) : ecl_file_type K :=
  { kw_list := [{ header := "RPORV", data := .double_data rporv }],
    phases := ECL_WATER_PHASE,
    ecl_version := ECLIPSE100 }

/-- A survey over the uniform grid as it is when the sanity check runs: the given pore
    volumes and no phase. -/
def uniform_survey (K : Type) [LinearOrderedField K] (n : Nat) (porv : List K) :
    ecl_grav_survey_type K :=
  { ecl_grav_survey_alloc_empty (uniform_grid_cache K n) "sample" GRAV_CALC_RPORV with
    porv := some porv }

/-- The sample restart dataset with a keyword RPORV added. -/
def sample_restart_file_rporv (K : Type) [LinearOrderedField K] (rporv : List K) :
    ecl_file_type K :=
  { sample_restart_file K with
    kw_list := (sample_restart_file K).kw_list ++
      [{ header := "RPORV", data := .float_data rporv }] }

/-- The sample restart dataset with the given values of the keyword PORV_MOD. -/
def sample_restart_file_pormod (K : Type) [LinearOrderedField K] (pormod : List K) :
    ecl_file_type K :=
  { sample_restart_file K with
    kw_list := (sample_restart_file K).kw_list.filter (fun k => k.header != "PORV_MOD") ++
      [{ header := "PORV_MOD", data := .float_data pormod }] }

/-- The sample registry for a model with the oil and water phases only. -/
def sample_grav_oil_water (K : Type) [LinearOrderedField K] : ecl_grav_type K :=
  { sample_grav K with
    init_file := { sample_init_file K with phases := ECL_OIL_PHASE ||| ECL_WATER_PHASE } }

/-- A grid with two active cells, the global cells 0 and 2, with the cell centres of
    `sample_grid_cache`. -/
def sample_grid (K : Type) [LinearOrderedField K] : ecl_grid_type K :=
  { active_size := 2,
    global_index1A := fun active_index => 2 * active_index,
    xyz1 := fun global_index => (50 * (global_index : K), 0, 1000) }

/-- The sample init dataset with a keyword AQUIFERN that marks the second active cell as a
    numerical aquifer cell. -/
def sample_init_file_aquifer (K : Type) [LinearOrderedField K] : ecl_file_type K :=
  { sample_init_file K with
    kw_list := (sample_init_file K).kw_list ++
      [{ header := "AQUIFERN", data := .int_data [0, -1] }] }

/-! ## Sample datasets with pore volumes of double precision -/

/-- The sample init dataset with the static pore volume 1 in the two active cells. -/
def sample_init_file_unit_porv (K : Type) [LinearOrderedField K] : ecl_file_type K :=
  { sample_init_file K with
    kw_list :=
      [ { header := "PVTNUM", data := .int_data [3, 5] },
        { header := "PORV", data := .float_data [1, 0, 1] } ] }

/-- The sample registry over the init dataset with the static pore volume 1. -/
def sample_grav_unit_porv (K : Type) [LinearOrderedField K] : ecl_grav_type K :=
  { sample_grav K with init_file := sample_init_file_unit_porv K }

/-- The sample restart dataset with a keyword RPORV of double precision values. -/
def sample_restart_file_rporv_double (K : Type) [LinearOrderedField K] (rporv : List K) :
    ecl_file_type K :=
  { sample_restart_file K with
    kw_list := (sample_restart_file K).kw_list ++
      [{ header := "RPORV", data := .double_data rporv }] }

/-! ## A sample summary -/

/-- A summary with the ministeps `0, ..., values.length - 1` and one variable, of index 0,
    with the given values; reading another ministep or index aborts. -/
def sample_ecl_sum (K : Type) (values : List K) : ecl_sum_type K :=
  { data :=
    { first_ministep := 0,
      last_ministep := (values.length : Int) - 1,
      get := fun ministep index =>
        if index = 0 ∧ 0 ≤ ministep then
          match values[ministep.toNat]? with
          | some v => .ok v
          | none => .error (.util_abort "ecl_sum_data_get")
        else .error (.util_abort "ecl_sum_data_get") } }

/-! ## Theorems -/

section theorems

variable {K : Type} [LinearOrderedField K]

/-- A sum of finite doubles is the finite double of the exact sum. -/
theorem c_double.sum_finite {ι : Type} (s : Finset ι) (f : ι → K) :
    (∑ i in s, c_double.finite (f i)) = c_double.finite (∑ i in s, f i) := by
  classical
  induction s using Finset.induction_on with
  | empty => rfl
  | insert hi ih => rw [Finset.sum_insert hi, Finset.sum_insert hi, ih]; rfl

/-- A `for (index = 0; index < n; index++) if (a[index]) deltag += t[index]` loop computes
    the sum of the terms of the indices below `n` whose flag is set. -/
theorem guarded_loop_eq_sum (a : Nat → Bool) (t : Nat → c_double K) (n : Nat) :
    (List.range n).foldl (fun deltag index => if a index then deltag + t index else deltag) 0
      = ∑ i in (Finset.range n).filter (fun i => a i = true), t i := by
  induction n with
  | zero => rfl
  | succ n ih =>
    rw [List.range_succ, List.foldl_append, ih, Finset.range_succ, Finset.filter_insert]
    by_cases h : a n = true
    · simp [h, add_comm]
    · simp [h]

/-- The value of `ecl_grav_phase_eval` when it returns: the sum of the cell terms of the
    eligible cells. -/
theorem ecl_grav_phase_eval_eq_sum (sqrt : K → K) (base_phase : ecl_grav_phase_type K)
    (monitor_phase : Option (ecl_grav_phase_type K)) (utm_x utm_y depth : K)
    (h : ∀ m, monitor_phase = some m → base_phase.phase = m.phase) :
    ecl_grav_phase_eval sqrt base_phase monitor_phase utm_x utm_y depth
      = .ok (∑ i in (Finset.range base_phase.grid_cache.size).filter
                (fun i => base_phase.grid_cache.active.getD i false = true),
              ecl_grav_phase_eval_cell sqrt base_phase monitor_phase utm_x utm_y depth i) := by
  have hc : (monitor_phase.isNone ||
      monitor_phase.any (fun m => base_phase.phase == m.phase)) = true := by
    cases monitor_phase with
    | none => rfl
    | some m => simpa using h m rfl
  unfold ecl_grav_phase_eval
  rw [if_pos hc]
  exact congrArg Except.ok (guarded_loop_eq_sum _ _ _)

/-- A point that is not the centre of a cell is at a positive squared distance of it. -/
theorem dist_sq_pos (a b c x y z : K) (h : ¬ (a = x ∧ b = y ∧ c = z)) :
    0 < (a - x) * (a - x) + (b - y) * (b - y) + (c - z) * (c - z) := by
  have h1 := mul_self_nonneg (a - x)
  have h2 := mul_self_nonneg (b - y)
  have h3 := mul_self_nonneg (c - z)
  rcases lt_or_eq_of_le (add_nonneg (add_nonneg h1 h2) h3) with hlt | heq
  · exact hlt
  · exfalso
    apply h
    have e1 : (a - x) * (a - x) = 0 := by linarith
    have e2 : (b - y) * (b - y) = 0 := by linarith
    have e3 : (c - z) * (c - z) = 0 := by linarith
    exact ⟨sub_eq_zero.mp (mul_self_eq_zero.mp e1), sub_eq_zero.mp (mul_self_eq_zero.mp e2),
      sub_eq_zero.mp (mul_self_eq_zero.mp e3)⟩

/-- The cell term is finite as soon as the distance computed by `sqrt` is not zero. -/
theorem ecl_grav_phase_eval_cell_finite (sqrt : K → K) (base_phase : ecl_grav_phase_type K)
    (monitor_phase : Option (ecl_grav_phase_type K)) (utm_x utm_y depth : K) (index : Nat)
    (h : sqrt ((base_phase.grid_cache.xpos.getD index 0 - utm_x) *
                 (base_phase.grid_cache.xpos.getD index 0 - utm_x) +
               (base_phase.grid_cache.ypos.getD index 0 - utm_y) *
                 (base_phase.grid_cache.ypos.getD index 0 - utm_y) +
               (base_phase.grid_cache.zpos.getD index 0 - depth) *
                 (base_phase.grid_cache.zpos.getD index 0 - depth)) ≠ 0) :
    ecl_grav_phase_eval_cell sqrt base_phase monitor_phase utm_x utm_y depth index
      = .finite (6.67428E-3 *
          ((match monitor_phase with
            | some m => m.fluid_mass.getD index 0
            | none => 0) - base_phase.fluid_mass.getD index 0) *
          (base_phase.grid_cache.zpos.getD index 0 - depth) /
          sqrt ((base_phase.grid_cache.xpos.getD index 0 - utm_x) *
                 (base_phase.grid_cache.xpos.getD index 0 - utm_x) +
               (base_phase.grid_cache.ypos.getD index 0 - utm_y) *
                 (base_phase.grid_cache.ypos.getD index 0 - utm_y) +
               (base_phase.grid_cache.zpos.getD index 0 - depth) *
                 (base_phase.grid_cache.zpos.getD index 0 - depth)) ^ 3) := by
  unfold ecl_grav_phase_eval_cell c_double.div
  simp only
  rw [if_neg (mul_ne_zero (mul_ne_zero h h) h)]
  congr 2
  ring

/-- Claim C1. For a base phase and a monitor phase with the same phase tag and an
    observation point that is the centre of no cell, `ecl_grav_phase_eval` returns the sum,
    over the indices `i < size` with `active[i]` set, of
    `6.67428e-3 * (monitorMass[i] - baseMass[i]) * (zpos[i] - z) / dist_i^3`, where
    `dist_i = sqrt((xpos[i]-x)^2 + (ypos[i]-y)^2 + (zpos[i]-z)^2)`. -/
theorem ecl_grav_phase_eval_sum_of_cells (sqrt : K → K) (hsqrt : ∀ s : K, 0 < s → sqrt s ≠ 0)
    (base_phase monitor_phase : ecl_grav_phase_type K) (x y z : K)
    (htag : base_phase.phase = monitor_phase.phase)
    (hpoint : ∀ i, i < base_phase.grid_cache.size →
      ¬ (base_phase.grid_cache.xpos.getD i 0 = x ∧ base_phase.grid_cache.ypos.getD i 0 = y ∧
         base_phase.grid_cache.zpos.getD i 0 = z)) :
    ecl_grav_phase_eval sqrt base_phase (some monitor_phase) x y z
      = .ok (.finite
          (∑ i in (Finset.range base_phase.grid_cache.size).filter
                (fun i => base_phase.grid_cache.active.getD i false = true),
            6.67428e-3 * (monitor_phase.fluid_mass.getD i 0 - base_phase.fluid_mass.getD i 0) *
              (base_phase.grid_cache.zpos.getD i 0 - z) /
              sqrt ((base_phase.grid_cache.xpos.getD i 0 - x) ^ 2 +
                    (base_phase.grid_cache.ypos.getD i 0 - y) ^ 2 +
                    (base_phase.grid_cache.zpos.getD i 0 - z) ^ 2) ^ 3)) := by
  rw [ecl_grav_phase_eval_eq_sum sqrt base_phase (some monitor_phase) x y z
    (fun m hm => by cases hm; exact htag), ← c_double.sum_finite]
  refine congrArg Except.ok (Finset.sum_congr rfl (fun i hi => ?_))
  have hlt : i < base_phase.grid_cache.size := Finset.mem_range.mp (Finset.mem_filter.mp hi).1
  rw [ecl_grav_phase_eval_cell_finite sqrt base_phase (some monitor_phase) x y z i
    (hsqrt _ (dist_sq_pos _ _ _ _ _ _ (hpoint i hlt)))]
  simp only [sq]

/-- The square root of `1000^2`. -/
theorem real_sqrt_million : Real.sqrt (1000000 : ℝ) = 1000 := by
  rw [show (1000000 : ℝ) = 1000 * 1000 by norm_num]
  exact Real.sqrt_mul_self (by norm_num)

/-- Witness of claim C1, the numeric scenario of the specification: one eligible cell at
    (0,0,1000), base mass 0, monitor mass 1000, observation point (0,0,0); the value is
    `6.67428e-6`. -/
theorem ecl_grav_phase_eval_sum_of_cells_witness :
    (∀ s : ℝ, 0 < s → Real.sqrt s ≠ 0) ∧
    ecl_grav_phase_eval Real.sqrt (one_cell_phase ECL_OIL_PHASE (0 : ℝ))
        (some (one_cell_phase ECL_OIL_PHASE 1000)) 0 0 0
      = .ok (.finite 6.67428e-6) :=
  ⟨fun _ hs => (Real.sqrt_pos.mpr hs).ne',
   (ecl_grav_phase_eval_sum_of_cells Real.sqrt (fun _ hs => (Real.sqrt_pos.mpr hs).ne')
      (one_cell_phase ECL_OIL_PHASE 0) (one_cell_phase ECL_OIL_PHASE 1000) 0 0 0 rfl
      (by
        intro i hi
        have : i = 0 := by simpa [one_cell_phase, one_cell_grid_cache] using hi
        subst this
        simp [one_cell_phase, one_cell_grid_cache])).trans
    (by
      simp [one_cell_phase, one_cell_grid_cache, Finset.filter_true_of_mem, real_sqrt_million]
      norm_num)⟩

/-- The eligibility flags after `deactivate_cell`. -/
theorem getD_set_false (l : List Bool) (i j : Nat) :
    (l.set i false).getD j false = (if j = i then false else l.getD j false) := by
  simp only [List.getD_eq_getElem?_getD, List.getElem?_set]
  by_cases h : i = j
  · subst h
    by_cases hl : i < l.length <;> simp [hl]
  · have h2 : ¬ j = i := fun e => h e.symm
    simp [h, h2]

/-- The eligible cells after `deactivate_cell`. -/
theorem filter_deactivate (l : List Bool) (n i : Nat) :
    (Finset.range n).filter (fun j => (l.set i false).getD j false = true)
      = ((Finset.range n).filter (fun j => l.getD j false = true)).erase i := by
  ext j
  simp only [Finset.mem_filter, Finset.mem_erase, Finset.mem_range, getD_set_false]
  by_cases h : j = i <;> simp [h]

/-- Per-cell contribution, shared form: switching the eligible cell `i` off removes exactly
    its cell term from the value of `ecl_grav_phase_eval`. -/
theorem ecl_grav_phase_eval_deactivate (sqrt : K → K) (base_phase : ecl_grav_phase_type K)
    (monitor_phase : Option (ecl_grav_phase_type K)) (utm_x utm_y depth : K) (i : Nat)
    (htag : ∀ m, monitor_phase = some m → base_phase.phase = m.phase)
    (hi : i < base_phase.grid_cache.size)
    (hact : base_phase.grid_cache.active.getD i false = true) :
    ∃ rest,
      ecl_grav_phase_eval sqrt (deactivate_cell base_phase i) monitor_phase utm_x utm_y depth
        = .ok rest ∧
      ecl_grav_phase_eval sqrt base_phase monitor_phase utm_x utm_y depth
        = .ok (rest + ecl_grav_phase_eval_cell sqrt base_phase monitor_phase utm_x utm_y depth i) := by
  refine ⟨_, ecl_grav_phase_eval_eq_sum sqrt (deactivate_cell base_phase i) monitor_phase
    utm_x utm_y depth htag, ?_⟩
  rw [ecl_grav_phase_eval_eq_sum sqrt base_phase monitor_phase utm_x utm_y depth htag]
  refine congrArg Except.ok ?_
  have hmem : i ∈ (Finset.range base_phase.grid_cache.size).filter
      (fun j => base_phase.grid_cache.active.getD j false = true) :=
    Finset.mem_filter.mpr ⟨Finset.mem_range.mpr hi, hact⟩
  rw [add_comm, ← Finset.add_sum_erase _ _ hmem]
  show _ = _ + ∑ j in (Finset.range base_phase.grid_cache.size).filter
      (fun j => (base_phase.grid_cache.active.set i false).getD j false = true), _
  rw [filter_deactivate]
  rfl

/-- Claim C2, amended. In the cell term of `ecl_grav_phase_eval` the vertical component is
    `zpos[i] - depth`, from the observation point to the cell centre: an eligible cell `i`
    contributes `6.67428e-3 * (monitorMass[i] - baseMass[i]) * (zpos[i] - depth) / dist^3`
    (the value with the cell is the value without it plus that term). -/
theorem ecl_grav_phase_eval_cell_contribution (sqrt : K → K)
    (base_phase monitor_phase : ecl_grav_phase_type K) (utm_x utm_y depth : K) (i : Nat)
    (htag : base_phase.phase = monitor_phase.phase)
    (hi : i < base_phase.grid_cache.size)
    (hact : base_phase.grid_cache.active.getD i false = true) :
    ∃ rest,
      ecl_grav_phase_eval sqrt (deactivate_cell base_phase i) (some monitor_phase)
          utm_x utm_y depth = .ok rest ∧
      ecl_grav_phase_eval sqrt base_phase (some monitor_phase) utm_x utm_y depth
        = .ok (rest + c_double.div
            (6.67428e-3 * (monitor_phase.fluid_mass.getD i 0 - base_phase.fluid_mass.getD i 0) *
              (base_phase.grid_cache.zpos.getD i 0 - depth))
            (sqrt ((base_phase.grid_cache.xpos.getD i 0 - utm_x) ^ 2 +
                   (base_phase.grid_cache.ypos.getD i 0 - utm_y) ^ 2 +
                   (base_phase.grid_cache.zpos.getD i 0 - depth) ^ 2) ^ 3)) := by
  obtain ⟨rest, h1, h2⟩ := ecl_grav_phase_eval_deactivate sqrt base_phase (some monitor_phase)
    utm_x utm_y depth i (fun m hm => by cases hm; exact htag) hi hact
  refine ⟨rest, h1, ?_⟩
  rw [h2]
  unfold ecl_grav_phase_eval_cell
  simp only [sq, pow_three, mul_assoc]

/-- The numeric scenario of the specification over the reals. -/
theorem one_cell_eval_real (t : ecl_phase_enum) (b m : ℝ) :
    ecl_grav_phase_eval Real.sqrt (one_cell_phase t b) (some (one_cell_phase t m)) 0 0 0
      = .ok (.finite (6.67428e-3 * (m - b) * 1000 / 1000 ^ 3)) := by
  rw [ecl_grav_phase_eval_eq_sum _ _ _ _ _ _ (fun m hm => by cases hm; rfl)]
  have hf : (Finset.range (one_cell_phase t b).grid_cache.size).filter
      (fun i => (one_cell_phase t b).grid_cache.active.getD i false = true) = {0} := by
    simp [one_cell_phase, one_cell_grid_cache, Finset.filter_true_of_mem]
  rw [hf, Finset.sum_singleton, ecl_grav_phase_eval_cell_finite]
  · simp [one_cell_phase, one_cell_grid_cache, real_sqrt_million]
  · simp [one_cell_phase, one_cell_grid_cache, real_sqrt_million]

/-- Without its only cell the one-cell grid gives the value 0. -/
theorem one_cell_eval_deactivated (t : ecl_phase_enum) (b m : ℝ) :
    ecl_grav_phase_eval Real.sqrt (deactivate_cell (one_cell_phase t b) 0)
        (some (one_cell_phase t m)) 0 0 0 = .ok (.finite 0) := by
  rw [ecl_grav_phase_eval_eq_sum _ _ _ _ _ _ (fun m hm => by cases hm; rfl)]
  have hf : (Finset.range (deactivate_cell (one_cell_phase t b) 0).grid_cache.size).filter
      (fun i => (deactivate_cell (one_cell_phase t b) 0).grid_cache.active.getD i false = true)
        = ∅ := by
    simp [one_cell_phase, one_cell_grid_cache, deactivate_cell, Finset.filter_eq_empty_iff]
  rw [hf, Finset.sum_empty]
  rfl

/-- Witness of claim C2 (amended) on the one-cell grid. -/
theorem ecl_grav_phase_eval_cell_contribution_witness :
    (one_cell_phase ECL_OIL_PHASE (0 : ℝ)).phase = (one_cell_phase ECL_OIL_PHASE (1000 : ℝ)).phase ∧
    0 < (one_cell_phase ECL_OIL_PHASE (0 : ℝ)).grid_cache.size ∧
    (one_cell_phase ECL_OIL_PHASE (0 : ℝ)).grid_cache.active.getD 0 false = true ∧
    ∃ rest,
      ecl_grav_phase_eval Real.sqrt (deactivate_cell (one_cell_phase ECL_OIL_PHASE (0 : ℝ)) 0)
          (some (one_cell_phase ECL_OIL_PHASE 1000)) 0 0 0 = .ok rest ∧
      ecl_grav_phase_eval Real.sqrt (one_cell_phase ECL_OIL_PHASE (0 : ℝ))
          (some (one_cell_phase ECL_OIL_PHASE 1000)) 0 0 0
        = .ok (rest + c_double.div
            (6.67428e-3 * ((one_cell_phase ECL_OIL_PHASE (1000 : ℝ)).fluid_mass.getD 0 0 -
                (one_cell_phase ECL_OIL_PHASE (0 : ℝ)).fluid_mass.getD 0 0) *
              ((one_cell_phase ECL_OIL_PHASE (0 : ℝ)).grid_cache.zpos.getD 0 0 - 0))
            (Real.sqrt (((one_cell_phase ECL_OIL_PHASE (0 : ℝ)).grid_cache.xpos.getD 0 0 - 0) ^ 2 +
                   ((one_cell_phase ECL_OIL_PHASE (0 : ℝ)).grid_cache.ypos.getD 0 0 - 0) ^ 2 +
                   ((one_cell_phase ECL_OIL_PHASE (0 : ℝ)).grid_cache.zpos.getD 0 0 - 0) ^ 2) ^ 3)) :=
  ⟨rfl, Nat.zero_lt_one, rfl,
   ecl_grav_phase_eval_cell_contribution Real.sqrt (one_cell_phase ECL_OIL_PHASE 0)
     (one_cell_phase ECL_OIL_PHASE 1000) 0 0 0 0 rfl Nat.zero_lt_one rfl⟩

/-- Claim C2 as stated fails: with one eligible cell at (0,0,1000), base mass 0, monitor mass
    1000 and observation point (0,0,0) the cell does not contribute
    `6.67428e-3 * (1000 - 0) * (0 - 1000) / dist^3`, the term with
    `dz = observationDepth - zpos[i]`. -/
theorem ecl_grav_phase_eval_cell_contribution_counterexample :
    ¬ ∃ rest,
      ecl_grav_phase_eval Real.sqrt (deactivate_cell (one_cell_phase ECL_OIL_PHASE (0 : ℝ)) 0)
          (some (one_cell_phase ECL_OIL_PHASE 1000)) 0 0 0 = .ok rest ∧
      ecl_grav_phase_eval Real.sqrt (one_cell_phase ECL_OIL_PHASE (0 : ℝ))
          (some (one_cell_phase ECL_OIL_PHASE 1000)) 0 0 0
        = .ok (rest + c_double.div (6.67428e-3 * ((1000 : ℝ) - 0) * (0 - 1000))
            (Real.sqrt ((0 - 0) ^ 2 + (0 - 0) ^ 2 + (1000 - 0) ^ 2) ^ 3)) := by
  rintro ⟨rest, h1, h2⟩
  rw [one_cell_eval_deactivated] at h1
  rw [one_cell_eval_real] at h2
  cases h1
  have hs : Real.sqrt ((0 - 0) ^ 2 + (0 - 0) ^ 2 + ((1000 : ℝ) - 0) ^ 2) = 1000 := by
    rw [show ((0 : ℝ) - 0) ^ 2 + (0 - 0) ^ 2 + (1000 - 0) ^ 2 = 1000000 by norm_num]
    exact real_sqrt_million
  rw [hs] at h2
  have hd : c_double.div (6.67428e-3 * ((1000 : ℝ) - 0) * (0 - 1000)) (1000 ^ 3)
      = .finite (6.67428e-3 * ((1000 : ℝ) - 0) * (0 - 1000) / 1000 ^ 3) := by
    unfold c_double.div
    rw [if_neg (by norm_num)]
  rw [hd] at h2
  have h3 := Except.ok.inj h2
  change c_double.finite _ = c_double.finite (0 + _) at h3
  have h4 := c_double.finite.inj h3
  norm_num at h4

/-- The function `ecl_grav_phase_eval` with its loop written as a sum. -/
theorem ecl_grav_phase_eval_unfold (sqrt : K → K) (base_phase : ecl_grav_phase_type K)
    (monitor_phase : Option (ecl_grav_phase_type K)) (utm_x utm_y depth : K) :
    ecl_grav_phase_eval sqrt base_phase monitor_phase utm_x utm_y depth
      = if (monitor_phase.isNone || monitor_phase.any (fun m => base_phase.phase == m.phase)) then
          .ok (∑ i in (Finset.range base_phase.grid_cache.size).filter
                (fun i => base_phase.grid_cache.active.getD i false = true),
              ecl_grav_phase_eval_cell sqrt base_phase monitor_phase utm_x utm_y depth i)
        else .error (.util_abort "ecl_grav_phase_eval") := by
  unfold ecl_grav_phase_eval
  split
  · exact congrArg Except.ok (guarded_loop_eq_sum _ _ _)
  · rfl

/-- Two loops with bodies that agree on the elements of the list give the same result. -/
theorem foldlM_congr_mem {σ ι ε : Type} (f g : σ → ι → Except ε σ) (l : List ι)
    (h : ∀ x, x ∈ l → ∀ d, f d x = g d x) (d : σ) :
    l.foldlM f d = l.foldlM g d := by
  induction l generalizing d with
  | nil => rfl
  | cons x xs ih =>
    simp only [List.foldlM_cons]
    rw [h x (List.mem_cons_self _ _) d]
    cases hg : g d x with
    | error e => rfl
    | ok v => exact ih (fun y hy => h y (List.mem_cons_of_mem _ hy)) v

/-- Position by position view of `surveys_agree_on_eligible`. -/
theorem surveys_agree_getElem (gc : ecl_grav_grid_cache_type K) (s t : ecl_grav_survey_type K)
    (h : surveys_agree_on_eligible gc s t) (k : Nat) :
    (s.phase_list[k]? = none ∧ t.phase_list[k]? = none) ∨
    ∃ p q, s.phase_list[k]? = some p ∧ t.phase_list[k]? = some q ∧
      masses_agree_on_eligible gc p q := by
  by_cases hk : k < s.phase_list.length
  · right
    have hk2 : k < t.phase_list.length := h.1 ▸ hk
    exact ⟨s.phase_list[k], t.phase_list[k], List.getElem?_eq_getElem hk,
      List.getElem?_eq_getElem hk2,
      h.2 k _ _ (List.getElem?_eq_getElem hk) (List.getElem?_eq_getElem hk2)⟩
  · left
    have hk2 : ¬ k < t.phase_list.length := h.1 ▸ hk
    exact ⟨List.getElem?_eq_none (Nat.le_of_not_lt hk), List.getElem?_eq_none (Nat.le_of_not_lt hk2)⟩

/-- The per-phase value only depends on the tags and on the masses of the eligible cells. -/
theorem ecl_grav_phase_eval_congr (sqrt : K → K) (p1 p2 : ecl_grav_phase_type K)
    (m1 m2 : Option (ecl_grav_phase_type K)) (x y z : K)
    (hgc : p1.grid_cache = p2.grid_cache)
    (hp : masses_agree_on_eligible p1.grid_cache p1 p2)
    (hm : (m1 = none ∧ m2 = none) ∨
      ∃ a b, m1 = some a ∧ m2 = some b ∧ masses_agree_on_eligible p1.grid_cache a b) :
    ecl_grav_phase_eval sqrt p1 m1 x y z = ecl_grav_phase_eval sqrt p2 m2 x y z := by
  rw [ecl_grav_phase_eval_unfold, ecl_grav_phase_eval_unfold, ← hgc]
  rcases hm with ⟨h1, h2⟩ | ⟨a, b, h1, h2, hab⟩
  · subst h1 h2
    simp only [Option.isNone_none, Bool.true_or, if_true]
    refine congrArg Except.ok (Finset.sum_congr rfl (fun i hi => ?_))
    have hi' := Finset.mem_filter.mp hi
    unfold ecl_grav_phase_eval_cell
    simp only [← hgc, hp.2 i (Finset.mem_range.mp hi'.1) hi'.2]
  · subst h1 h2
    simp only [Option.isNone_some, Bool.false_or, Option.any_some, hp.1, hab.1]
    split
    · refine congrArg Except.ok (Finset.sum_congr rfl (fun i hi => ?_))
      have hi' := Finset.mem_filter.mp hi
      unfold ecl_grav_phase_eval_cell
      simp only [← hgc, hp.2 i (Finset.mem_range.mp hi'.1) hi'.2,
        hab.2 i (Finset.mem_range.mp hi'.1) hi'.2]
    · rfl

/-- The loop body of `ecl_grav_survey_eval` adds the term of the position to `deltag`. -/
theorem ecl_grav_survey_eval_step_eq (sqrt : K → K) (base_survey : ecl_grav_survey_type K)
    (monitor_survey : Option (ecl_grav_survey_type K)) (utm_x utm_y depth : K)
    (phase_mask : Nat) (deltag : c_double K) (phase_nr : Nat) :
    ecl_grav_survey_eval_step sqrt base_survey monitor_survey utm_x utm_y depth phase_mask
        deltag phase_nr
      = (ecl_grav_survey_eval_term sqrt base_survey monitor_survey utm_x utm_y depth phase_mask
          phase_nr).map (fun v => deltag + v) := by
  unfold ecl_grav_survey_eval_step ecl_grav_survey_eval_term vector_iget_const
  cases base_survey.phase_list[phase_nr]? with
  | none => rfl
  | some base_phase =>
    simp only [bind, Except.bind, pure, Except.pure]
    by_cases hsel : base_phase.phase &&& phase_mask ≠ 0
    · rw [if_pos hsel, if_pos hsel]
      cases monitor_survey with
      | none =>
        simp only []
        cases ecl_grav_phase_eval sqrt base_phase none utm_x utm_y depth <;> rfl
      | some monitor =>
        simp only []
        cases monitor.phase_list[phase_nr]? with
        | none => rfl
        | some monitor_phase =>
          simp only []
          cases ecl_grav_phase_eval sqrt base_phase (some monitor_phase) utm_x utm_y depth <;> rfl
    · rw [if_neg hsel, if_neg hsel]
      exact congrArg Except.ok (add_zero deltag).symm

/-- Surveys whose terms agree position by position have the same value. -/
theorem ecl_grav_survey_eval_congr (sqrt : K → K) (base1 base2 : ecl_grav_survey_type K)
    (monitor1 monitor2 : Option (ecl_grav_survey_type K)) (x y z : K) (mask1 mask2 : Nat)
    (hlen : base1.phase_list.length = base2.phase_list.length)
    (h : ∀ k, k < base1.phase_list.length →
      ecl_grav_survey_eval_term sqrt base1 monitor1 x y z mask1 k
        = ecl_grav_survey_eval_term sqrt base2 monitor2 x y z mask2 k) :
    ecl_grav_survey_eval sqrt base1 monitor1 x y z mask1
      = ecl_grav_survey_eval sqrt base2 monitor2 x y z mask2 := by
  unfold ecl_grav_survey_eval
  rw [← hlen]
  refine foldlM_congr_mem _ _ _ (fun k hk d => ?_) _
  rw [ecl_grav_survey_eval_step_eq, ecl_grav_survey_eval_step_eq, h k (List.mem_range.mp hk)]

/-- When every position has a term, the value of `ecl_grav_survey_eval` is their sum. -/
theorem ecl_grav_survey_eval_eq_sum (sqrt : K → K) (base_survey : ecl_grav_survey_type K)
    (monitor_survey : Option (ecl_grav_survey_type K)) (x y z : K) (phase_mask : Nat)
    (v : Nat → c_double K)
    (h : ∀ k, k < base_survey.phase_list.length →
      ecl_grav_survey_eval_term sqrt base_survey monitor_survey x y z phase_mask k = .ok (v k)) :
    ecl_grav_survey_eval sqrt base_survey monitor_survey x y z phase_mask
      = .ok (∑ k in Finset.range base_survey.phase_list.length, v k) := by
  unfold ecl_grav_survey_eval
  generalize base_survey.phase_list.length = n at h
  induction n with
  | zero => rfl
  | succ n ih =>
    rw [List.range_succ, List.foldlM_append, ih (fun k hk => h k (Nat.lt_succ_of_lt hk))]
    simp only [bind, Except.bind, List.foldlM_cons, List.foldlM_nil]
    rw [ecl_grav_survey_eval_step_eq, h n (Nat.lt_succ_self n), Finset.sum_range_succ]
    rfl

/-- Claim C3. Ineligible (aquifer) cells never influence the evaluation: two base/monitor
    pairs over the grid cache of the registry whose phases carry the same tags and the same
    masses in every eligible cell, and arbitrary masses in the other cells, give the same
    result of `ecl_grav_survey_eval`, for every observation point and phase mask. -/
theorem ecl_grav_survey_eval_ignores_ineligible (sqrt : K → K) (gc : ecl_grav_grid_cache_type K)
    (base1 base2 : ecl_grav_survey_type K) (monitor1 monitor2 : Option (ecl_grav_survey_type K))
    (x y z : K) (phase_mask : Nat)
    (hgc1 : ∀ p, p ∈ base1.phase_list → p.grid_cache = gc)
    (hgc2 : ∀ p, p ∈ base2.phase_list → p.grid_cache = gc)
    (hbase : surveys_agree_on_eligible gc base1 base2)
    (hmon : monitors_agree_on_eligible gc monitor1 monitor2) :
    ecl_grav_survey_eval sqrt base1 monitor1 x y z phase_mask
      = ecl_grav_survey_eval sqrt base2 monitor2 x y z phase_mask := by
  refine ecl_grav_survey_eval_congr sqrt base1 base2 monitor1 monitor2 x y z _ _ hbase.1
    (fun k _ => ?_)
  unfold ecl_grav_survey_eval_term
  rcases surveys_agree_getElem gc base1 base2 hbase k with ⟨h1, h2⟩ | ⟨p, q, h1, h2, hpq⟩
  · rw [h1, h2]
  · rw [h1, h2]
    have hpgc : p.grid_cache = gc := hgc1 p (List.getElem?_mem h1)
    have hqgc : q.grid_cache = gc := hgc2 q (List.getElem?_mem h2)
    simp only [hpq.1]
    split
    · cases monitor1 with
      | none =>
        cases monitor2 with
        | none =>
          exact ecl_grav_phase_eval_congr sqrt p q none none x y z (hpgc.trans hqgc.symm)
            (hpgc ▸ hpq) (Or.inl ⟨rfl, rfl⟩)
        | some t => exact absurd hmon (by simp [monitors_agree_on_eligible])
      | some s =>
        cases monitor2 with
        | none => exact absurd hmon (by simp [monitors_agree_on_eligible])
        | some t =>
          rcases surveys_agree_getElem gc s t hmon k with ⟨e1, e2⟩ | ⟨a, b, e1, e2, hab⟩
          · simp only [e1, e2]
          · simp only [e1, e2]
            exact ecl_grav_phase_eval_congr sqrt p q (some a) (some b) x y z
              (hpgc.trans hqgc.symm) (hpgc ▸ hpq) (Or.inr ⟨a, b, rfl, rfl, hpgc ▸ hab⟩)
    · rfl

/-- Two one-phase surveys over the two-cell grid that differ in the aquifer cell only. -/
theorem two_cell_surveys_agree (n1 n2 : String) (t : ecl_phase_enum) (m a b : ℝ) :
    surveys_agree_on_eligible (two_cell_grid_cache ℝ)
      (survey_of_phases (two_cell_grid_cache ℝ) n1 [two_cell_phase t m a])
      (survey_of_phases (two_cell_grid_cache ℝ) n2 [two_cell_phase t m b]) := by
  refine ⟨rfl, fun k p q hp hq => ?_⟩
  cases k with
  | zero =>
    simp only [survey_of_phases, List.getElem?_cons_zero, Option.some.injEq] at hp hq
    subst hp hq
    refine ⟨rfl, fun i hi hact => ?_⟩
    have hi2 : i < 2 := hi
    interval_cases i
    · rfl
    · simp [two_cell_grid_cache] at hact
  | succ k => simp [survey_of_phases] at hp

/-- Witness of claim C3 on the two-cell grid: the masses of the aquifer cell differ between
    the two pairs (7 against 1000000000, 3 against 5000000000). -/
theorem ecl_grav_survey_eval_ignores_ineligible_witness :
    ((∀ p, p ∈ (survey_of_phases (two_cell_grid_cache ℝ) "b1"
          [two_cell_phase ECL_OIL_PHASE 0 7]).phase_list → p.grid_cache = two_cell_grid_cache ℝ) ∧
     (∀ p, p ∈ (survey_of_phases (two_cell_grid_cache ℝ) "b2"
          [two_cell_phase ECL_OIL_PHASE 0 1000000000]).phase_list →
        p.grid_cache = two_cell_grid_cache ℝ) ∧
     surveys_agree_on_eligible (two_cell_grid_cache ℝ)
       (survey_of_phases (two_cell_grid_cache ℝ) "b1" [two_cell_phase ECL_OIL_PHASE 0 7])
       (survey_of_phases (two_cell_grid_cache ℝ) "b2" [two_cell_phase ECL_OIL_PHASE 0 1000000000]) ∧
     monitors_agree_on_eligible (two_cell_grid_cache ℝ)
       (some (survey_of_phases (two_cell_grid_cache ℝ) "m1" [two_cell_phase ECL_OIL_PHASE 1000 3]))
       (some (survey_of_phases (two_cell_grid_cache ℝ) "m2"
          [two_cell_phase ECL_OIL_PHASE 1000 5000000000]))) ∧
    ecl_grav_survey_eval Real.sqrt
        (survey_of_phases (two_cell_grid_cache ℝ) "b1" [two_cell_phase ECL_OIL_PHASE 0 7])
        (some (survey_of_phases (two_cell_grid_cache ℝ) "m1" [two_cell_phase ECL_OIL_PHASE 1000 3]))
        0 0 0 ECL_OIL_PHASE
      = ecl_grav_survey_eval Real.sqrt
        (survey_of_phases (two_cell_grid_cache ℝ) "b2" [two_cell_phase ECL_OIL_PHASE 0 1000000000])
        (some (survey_of_phases (two_cell_grid_cache ℝ) "m2"
          [two_cell_phase ECL_OIL_PHASE 1000 5000000000]))
        0 0 0 ECL_OIL_PHASE :=
  ⟨⟨fun p hp => by
      simp only [survey_of_phases, List.mem_singleton] at hp
      subst hp; rfl,
    fun p hp => by
      simp only [survey_of_phases, List.mem_singleton] at hp
      subst hp; rfl,
    two_cell_surveys_agree _ _ _ _ _ _, two_cell_surveys_agree _ _ _ _ _ _⟩,
   ecl_grav_survey_eval_ignores_ineligible Real.sqrt (two_cell_grid_cache ℝ) _ _ _ _ 0 0 0 _
    (fun p hp => by
      simp only [survey_of_phases, List.mem_singleton] at hp
      subst hp; rfl)
    (fun p hp => by
      simp only [survey_of_phases, List.mem_singleton] at hp
      subst hp; rfl)
    (two_cell_surveys_agree _ _ _ _ _ _) (two_cell_surveys_agree _ _ _ _ _ _)⟩

/-- Surveys with the same tag sequence have phases with equal tags at equal positions. -/
theorem phase_tags_getElem {F : Type} (s t : ecl_grav_survey_type F) (h : phase_tags s = phase_tags t)
    (k : Nat) (p : ecl_grav_phase_type F) (hp : t.phase_list[k]? = some p) :
    ∃ q, s.phase_list[k]? = some q ∧ q.phase = p.phase := by
  have h1 : (phase_tags s)[k]? = (phase_tags t)[k]? := by rw [h]
  unfold phase_tags at h1
  rw [List.getElem?_map, List.getElem?_map, hp] at h1
  cases hq : s.phase_list[k]? with
  | none => rw [hq] at h1; cases h1
  | some q =>
    rw [hq] at h1
    exact ⟨q, rfl, Option.some.inj h1⟩

/-- Reading an array whose elements are all zero. -/
theorem getD_of_all_zero (l : List K) (h : ∀ v, v ∈ l → v = 0) (i : Nat) : l.getD i 0 = 0 := by
  rw [List.getD_eq_getElem?_getD]
  cases hv : l[i]? with
  | none => rfl
  | some v => exact h v (List.getElem?_mem hv)

/-- Claim C6. An absent monitor is treated as a monitor of zero mass: for a survey `Z` with
    the phase tags of the base and all fluid masses 0, `ecl_grav_survey_eval(base, NULL)`
    equals `ecl_grav_survey_eval(base, Z)`, for every observation point and mask. -/
theorem ecl_grav_survey_eval_absent_monitor (sqrt : K → K)
    (base Z : ecl_grav_survey_type K) (x y z : K) (phase_mask : Nat)
    (htags : phase_tags Z = phase_tags base)
    (hzero : ∀ q, q ∈ Z.phase_list → ∀ v, v ∈ q.fluid_mass → v = 0) :
    ecl_grav_survey_eval sqrt base none x y z phase_mask
      = ecl_grav_survey_eval sqrt base (some Z) x y z phase_mask := by
  refine ecl_grav_survey_eval_congr sqrt base base none (some Z) x y z _ _ rfl (fun k hk => ?_)
  have hb : base.phase_list[k]? = some base.phase_list[k] := List.getElem?_eq_getElem hk
  generalize base.phase_list[k] = p at hb
  obtain ⟨q, hq, hqp⟩ := phase_tags_getElem Z base htags k p hb
  unfold ecl_grav_survey_eval_term
  simp only [hb, hq]
  split
  · rw [ecl_grav_phase_eval_unfold, ecl_grav_phase_eval_unfold]
    simp only [Option.isNone_none, Bool.true_or, if_true, Option.isNone_some, Bool.false_or,
      Option.any_some, hqp, beq_self_eq_true]
    refine congrArg Except.ok (Finset.sum_congr rfl (fun i _ => ?_))
    unfold ecl_grav_phase_eval_cell
    simp only [getD_of_all_zero q.fluid_mass (hzero q (List.getElem?_mem hq)) i]
  · rfl

/-- Witness of claim C6: an oil survey over the one-cell grid against no monitor and
    against a monitor of zero mass. -/
theorem ecl_grav_survey_eval_absent_monitor_witness :
    (phase_tags (survey_of_phases (one_cell_grid_cache ℝ) "zero" [one_cell_phase ECL_OIL_PHASE 0])
       = phase_tags (survey_of_phases (one_cell_grid_cache ℝ) "base"
          [one_cell_phase ECL_OIL_PHASE 5]) ∧
     (∀ q, q ∈ (survey_of_phases (one_cell_grid_cache ℝ) "zero"
          [one_cell_phase ECL_OIL_PHASE (0 : ℝ)]).phase_list →
        ∀ v, v ∈ q.fluid_mass → v = 0)) ∧
    ecl_grav_survey_eval Real.sqrt
        (survey_of_phases (one_cell_grid_cache ℝ) "base" [one_cell_phase ECL_OIL_PHASE 5])
        none 0 0 0 ECL_OIL_PHASE
      = ecl_grav_survey_eval Real.sqrt
        (survey_of_phases (one_cell_grid_cache ℝ) "base" [one_cell_phase ECL_OIL_PHASE 5])
        (some (survey_of_phases (one_cell_grid_cache ℝ) "zero" [one_cell_phase ECL_OIL_PHASE 0]))
        0 0 0 ECL_OIL_PHASE :=
  have h2 : ∀ q, q ∈ (survey_of_phases (one_cell_grid_cache ℝ) "zero"
      [one_cell_phase ECL_OIL_PHASE (0 : ℝ)]).phase_list → ∀ v, v ∈ q.fluid_mass → v = 0 :=
    fun q hq v hv => by
      simp only [survey_of_phases, List.mem_singleton] at hq
      subst hq
      simpa [one_cell_phase] using hv
  ⟨⟨rfl, h2⟩, ecl_grav_survey_eval_absent_monitor Real.sqrt _ _ 0 0 0 ECL_OIL_PHASE rfl h2⟩

/-- The evaluation of a survey pair fails exactly when the term of a position fails. -/
theorem ecl_grav_survey_eval_error_iff (sqrt : K → K) (base : ecl_grav_survey_type K)
    (monitor : Option (ecl_grav_survey_type K)) (x y z : K) (phase_mask : Nat) :
    (∃ e, ecl_grav_survey_eval sqrt base monitor x y z phase_mask = .error e) ↔
      ∃ k, k < base.phase_list.length ∧
        ∃ e, ecl_grav_survey_eval_term sqrt base monitor x y z phase_mask k = .error e := by
  unfold ecl_grav_survey_eval
  generalize base.phase_list.length = n
  induction n with
  | zero =>
    constructor
    · rintro ⟨e, he⟩; cases he
    · rintro ⟨k, hk, _⟩; exact absurd hk (Nat.not_lt_zero k)
  | succ n ih =>
    rw [List.range_succ, List.foldlM_append]
    cases hn : List.foldlM
        (ecl_grav_survey_eval_step sqrt base monitor x y z phase_mask) 0 (List.range n) with
    | error e =>
      obtain ⟨k, hk, hke⟩ := ih.mp ⟨e, hn⟩
      exact ⟨fun _ => ⟨k, Nat.lt_succ_of_lt hk, hke⟩, fun _ => ⟨e, rfl⟩⟩
    | ok d =>
      have hno : ¬ ∃ k, k < n ∧
          ∃ e, ecl_grav_survey_eval_term sqrt base monitor x y z phase_mask k = .error e := by
        intro h
        obtain ⟨e, he⟩ := ih.mpr h
        rw [hn] at he
        cases he
      simp only [bind, Except.bind, List.foldlM_cons, List.foldlM_nil]
      rw [ecl_grav_survey_eval_step_eq]
      cases ht : ecl_grav_survey_eval_term sqrt base monitor x y z phase_mask n with
      | error e => exact ⟨fun _ => ⟨n, Nat.lt_succ_self n, e, ht⟩, fun _ => ⟨e, rfl⟩⟩
      | ok v =>
        constructor
        · rintro ⟨e, he⟩; cases he
        · rintro ⟨k, hk, e, he⟩
          rcases Nat.lt_succ_iff_lt_or_eq.mp hk with hlt | heq
          · exact absurd ⟨k, hlt, e, he⟩ hno
          · subst heq; rw [ht] at he; cases he

/-- The per-phase evaluation fails exactly when a monitor phase with another tag is given. -/
theorem ecl_grav_phase_eval_error_iff (sqrt : K → K) (p : ecl_grav_phase_type K)
    (m : Option (ecl_grav_phase_type K)) (x y z : K) :
    (∃ e, ecl_grav_phase_eval sqrt p m x y z = .error e) ↔ ∃ q, m = some q ∧ q.phase ≠ p.phase := by
  rw [ecl_grav_phase_eval_unfold]
  cases m with
  | none =>
    simp only [Option.isNone_none, Bool.true_or, if_true]
    constructor
    · rintro ⟨e, he⟩; cases he
    · rintro ⟨q, hq, _⟩; cases hq
  | some q =>
    simp only [Option.isNone_some, Bool.false_or, Option.any_some, beq_iff_eq]
    by_cases h : p.phase = q.phase
    · rw [if_pos h]
      constructor
      · rintro ⟨e, he⟩; cases he
      · rintro ⟨r, hr, hne⟩
        rw [← Option.some.inj hr] at hne
        exact absurd h.symm hne
    · rw [if_neg h]
      exact ⟨fun _ => ⟨q, rfl, fun e => h e.symm⟩, fun _ => ⟨_, rfl⟩⟩

/-- The evaluation of a survey pair fails exactly when a monitor survey is given and, for
    some base phase selected by the mask, the monitor has no phase at the same list position
    or the phase at that position carries another tag. -/
theorem ecl_grav_survey_eval_error_iff_position (sqrt : K → K) (base : ecl_grav_survey_type K)
    (monitor : Option (ecl_grav_survey_type K)) (x y z : K) (phase_mask : Nat) :
    (∃ e, ecl_grav_survey_eval sqrt base monitor x y z phase_mask = .error e) ↔
      ∃ m, monitor = some m ∧
        ∃ (k : Nat) (p : ecl_grav_phase_type K), base.phase_list[k]? = some p ∧
          p.phase &&& phase_mask ≠ 0 ∧
          ∀ q, m.phase_list[k]? = some q → q.phase ≠ p.phase := by
  rw [ecl_grav_survey_eval_error_iff]
  constructor
  · rintro ⟨k, hk, e, he⟩
    have hb : base.phase_list[k]? = some base.phase_list[k] := List.getElem?_eq_getElem hk
    generalize base.phase_list[k] = p at hb
    unfold ecl_grav_survey_eval_term at he
    simp only [hb] at he
    by_cases hsel : p.phase &&& phase_mask ≠ 0
    · rw [if_pos hsel] at he
      cases monitor with
      | none =>
        simp only [] at he
        obtain ⟨q, hq, _⟩ := (ecl_grav_phase_eval_error_iff sqrt p none x y z).mp ⟨e, he⟩
        cases hq
      | some m =>
        refine ⟨m, rfl, k, p, hb, hsel, fun q hq => ?_⟩
        simp only [hq] at he
        obtain ⟨r, hr, hne⟩ := (ecl_grav_phase_eval_error_iff sqrt p (some q) x y z).mp ⟨e, he⟩
        rw [← Option.some.inj hr] at hne
        exact hne
    · rw [if_neg hsel] at he
      cases he
  · rintro ⟨m, hm, k, p, hb, hsel, hq⟩
    subst hm
    have hk : k < base.phase_list.length := by
      by_contra hcon
      rw [List.getElem?_eq_none (Nat.le_of_not_lt hcon)] at hb
      cases hb
    refine ⟨k, hk, ?_⟩
    unfold ecl_grav_survey_eval_term
    simp only [hb]
    rw [if_pos hsel]
    cases hmk : m.phase_list[k]? with
    | none => exact ⟨_, rfl⟩
    | some q =>
      exact (ecl_grav_phase_eval_error_iff sqrt p (some q) x y z).mpr ⟨q, rfl, hq q hmk⟩

/-- In a phase list without repeated tags the search by tag finds the phase at its position. -/
theorem find_of_nodup_tags {F : Type} (l : List (ecl_grav_phase_type F))
    (hnd : (l.map (fun p => p.phase)).Nodup) (k : Nat) (q : ecl_grav_phase_type F)
    (hq : l[k]? = some q) (tag : ecl_phase_enum) (htag : q.phase = tag) :
    l.find? (fun r => r.phase == tag) = some q := by
  induction l generalizing k with
  | nil => cases hq
  | cons a t ih =>
    rw [List.map_cons, List.nodup_cons] at hnd
    cases k with
    | zero =>
      simp only [List.getElem?_cons_zero, Option.some.injEq] at hq
      subst hq
      simp [List.find?_cons, htag]
    | succ k =>
      simp only [List.getElem?_cons_succ] at hq
      have hne : a.phase ≠ tag := by
        intro h
        apply hnd.1
        rw [h, ← htag]
        exact List.mem_map_of_mem _ (List.getElem?_mem hq)
      rw [List.find?_cons, show (a.phase == tag) = false from beq_false_of_ne hne]
      exact ih hnd.2 k hq

/-- Claim C8, amended. `ecl_grav_survey_eval` pairs the phases by list position and guards
    the pairing by the tag; when the monitor is absent or carries the tag sequence of the
    base (each tag once), each selected base phase is therefore differenced against the
    monitor phase with the same tag: the result is that of the evaluation by tag of the
    specification. -/
theorem ecl_grav_survey_eval_pairs_by_tag (sqrt : K → K) (base : ecl_grav_survey_type K)
    (monitor : Option (ecl_grav_survey_type K)) (x y z : K) (phase_mask : Nat)
    (htags : ∀ m, monitor = some m → phase_tags m = phase_tags base)
    (hnodup : (phase_tags base).Nodup) :
    ecl_grav_survey_eval sqrt base monitor x y z phase_mask
      = evaluate_by_tag sqrt base monitor x y z phase_mask := by
  unfold ecl_grav_survey_eval evaluate_by_tag
  refine foldlM_congr_mem _ _ _ (fun k hk d => ?_) _
  have hk' : k < base.phase_list.length := List.mem_range.mp hk
  have hb : base.phase_list[k]? = some base.phase_list[k] := List.getElem?_eq_getElem hk'
  generalize base.phase_list[k] = p at hb
  unfold ecl_grav_survey_eval_step evaluate_by_tag_step vector_iget_const
  simp only [hb, bind, Except.bind]
  by_cases hsel : p.phase &&& phase_mask ≠ 0
  · rw [if_pos hsel, if_pos hsel]
    cases monitor with
    | none => rfl
    | some m =>
      obtain ⟨q, hq, hqp⟩ := phase_tags_getElem m base (htags m rfl) k p hb
      have hf := find_of_nodup_tags m.phase_list
        (by have := htags m rfl; unfold phase_tags at this hnodup; rw [this]; exact hnodup)
        k q hq p.phase hqp
      simp only [hq, hf]
  · rw [if_neg hsel, if_neg hsel]

/-- Witness of claim C8 (amended): base and monitor with the phase list [oil, water]. -/
theorem ecl_grav_survey_eval_pairs_by_tag_witness :
    ((∀ m, some (survey_of_phases (one_cell_grid_cache ℝ) "monitor"
          [one_cell_phase ECL_OIL_PHASE 1005, one_cell_phase ECL_WATER_PHASE 9]) = some m →
        phase_tags m = phase_tags (survey_of_phases (one_cell_grid_cache ℝ) "base"
          [one_cell_phase ECL_OIL_PHASE 5, one_cell_phase ECL_WATER_PHASE 7])) ∧
     (phase_tags (survey_of_phases (one_cell_grid_cache ℝ) "base"
          [one_cell_phase ECL_OIL_PHASE 5, one_cell_phase ECL_WATER_PHASE 7])).Nodup) ∧
    ecl_grav_survey_eval Real.sqrt
        (survey_of_phases (one_cell_grid_cache ℝ) "base"
          [one_cell_phase ECL_OIL_PHASE 5, one_cell_phase ECL_WATER_PHASE 7])
        (some (survey_of_phases (one_cell_grid_cache ℝ) "monitor"
          [one_cell_phase ECL_OIL_PHASE 1005, one_cell_phase ECL_WATER_PHASE 9]))
        0 0 0 (ECL_OIL_PHASE ||| ECL_GAS_PHASE ||| ECL_WATER_PHASE)
      = evaluate_by_tag Real.sqrt
        (survey_of_phases (one_cell_grid_cache ℝ) "base"
          [one_cell_phase ECL_OIL_PHASE 5, one_cell_phase ECL_WATER_PHASE 7])
        (some (survey_of_phases (one_cell_grid_cache ℝ) "monitor"
          [one_cell_phase ECL_OIL_PHASE 1005, one_cell_phase ECL_WATER_PHASE 9]))
        0 0 0 (ECL_OIL_PHASE ||| ECL_GAS_PHASE ||| ECL_WATER_PHASE) :=
  have h1 : ∀ m, some (survey_of_phases (one_cell_grid_cache ℝ) "monitor"
      [one_cell_phase ECL_OIL_PHASE 1005, one_cell_phase ECL_WATER_PHASE 9]) = some m →
      phase_tags m = phase_tags (survey_of_phases (one_cell_grid_cache ℝ) "base"
        [one_cell_phase ECL_OIL_PHASE 5, one_cell_phase ECL_WATER_PHASE 7]) :=
    fun m hm => by rw [← Option.some.inj hm]; rfl
  have h2 : (phase_tags (survey_of_phases (one_cell_grid_cache ℝ) "base"
      [one_cell_phase ECL_OIL_PHASE 5, one_cell_phase ECL_WATER_PHASE 7])).Nodup := by
    simp [phase_tags, survey_of_phases, one_cell_phase, ECL_OIL_PHASE, ECL_WATER_PHASE]
  ⟨⟨h1, h2⟩, ecl_grav_survey_eval_pairs_by_tag Real.sqrt _ _ 0 0 0 _ h1 h2⟩

/-- The evaluation of the base [oil, water] against the monitor [oil, water] returns. -/
theorem one_cell_oil_water_eval :
    ecl_grav_survey_eval Real.sqrt
        (survey_of_phases (one_cell_grid_cache ℝ) "base"
          [one_cell_phase ECL_OIL_PHASE 5, one_cell_phase ECL_WATER_PHASE 7])
        (some (survey_of_phases (one_cell_grid_cache ℝ) "monitor"
          [one_cell_phase ECL_OIL_PHASE 1005, one_cell_phase ECL_WATER_PHASE 9]))
        0 0 0 (ECL_OIL_PHASE ||| ECL_GAS_PHASE ||| ECL_WATER_PHASE)
      = .ok (∑ k in Finset.range 2,
          if k = 0 then c_double.finite (6.67428e-3 * (1005 - 5) * 1000 / 1000 ^ 3)
          else c_double.finite (6.67428e-3 * (9 - 7) * 1000 / 1000 ^ 3)) := by
  refine ecl_grav_survey_eval_eq_sum Real.sqrt _ _ 0 0 0 _ _ (fun k hk => ?_)
  have hk2 : k < 2 := hk
  interval_cases k
  · exact one_cell_eval_real ECL_OIL_PHASE 5 1005
  · exact one_cell_eval_real ECL_WATER_PHASE 7 9

/-- Claim C8 as stated fails on its own example: against the monitor list [water, oil] the
    base list [oil, water] aborts (position 0 pairs oil with water), against the monitor list
    [oil, water] it returns a value. -/
theorem ecl_grav_survey_eval_pairs_by_tag_counterexample :
    ecl_grav_survey_eval Real.sqrt
        (survey_of_phases (one_cell_grid_cache ℝ) "base"
          [one_cell_phase ECL_OIL_PHASE 5, one_cell_phase ECL_WATER_PHASE 7])
        (some (survey_of_phases (one_cell_grid_cache ℝ) "monitor"
          [one_cell_phase ECL_WATER_PHASE 9, one_cell_phase ECL_OIL_PHASE 1005]))
        0 0 0 (ECL_OIL_PHASE ||| ECL_GAS_PHASE ||| ECL_WATER_PHASE)
      ≠ ecl_grav_survey_eval Real.sqrt
        (survey_of_phases (one_cell_grid_cache ℝ) "base"
          [one_cell_phase ECL_OIL_PHASE 5, one_cell_phase ECL_WATER_PHASE 7])
        (some (survey_of_phases (one_cell_grid_cache ℝ) "monitor"
          [one_cell_phase ECL_OIL_PHASE 1005, one_cell_phase ECL_WATER_PHASE 9]))
        0 0 0 (ECL_OIL_PHASE ||| ECL_GAS_PHASE ||| ECL_WATER_PHASE) := by
  rw [one_cell_oil_water_eval]
  intro h
  have h2 : ecl_grav_survey_eval Real.sqrt
        (survey_of_phases (one_cell_grid_cache ℝ) "base"
          [one_cell_phase ECL_OIL_PHASE 5, one_cell_phase ECL_WATER_PHASE 7])
        (some (survey_of_phases (one_cell_grid_cache ℝ) "monitor"
          [one_cell_phase ECL_WATER_PHASE 9, one_cell_phase ECL_OIL_PHASE 1005]))
        0 0 0 (ECL_OIL_PHASE ||| ECL_GAS_PHASE ||| ECL_WATER_PHASE)
      = .error (.util_abort "ecl_grav_phase_eval") := rfl
  rw [h2] at h
  cases h

/-- Claim C9. The result of `ecl_grav_survey_eval` is the sum, over the positions of the base
    phase list whose phase has a bit of the mask, of the values `v k` that
    `ecl_grav_phase_eval` returns for the base phase and the monitor phase of the position;
    nothing else is added or scaled, and a mask that selects no phase of the base gives 0. -/
theorem ecl_grav_survey_eval_sum_of_phases (sqrt : K → K) (base : ecl_grav_survey_type K)
    (monitor : Option (ecl_grav_survey_type K)) (x y z : K) (phase_mask : Nat)
    (v : Nat → c_double K)
    (hv : ∀ (k : Nat) (p : ecl_grav_phase_type K), base.phase_list[k]? = some p →
      p.phase &&& phase_mask ≠ 0 →
      ∃ mp, monitor_phase_at monitor k = .ok mp ∧
        ecl_grav_phase_eval sqrt p mp x y z = .ok (v k)) :
    ecl_grav_survey_eval sqrt base monitor x y z phase_mask
        = .ok (∑ k in (Finset.range base.phase_list.length).filter
                (fun k => phase_selected base phase_mask k = true), v k) ∧
    ((∀ p, p ∈ base.phase_list → p.phase &&& phase_mask = 0) →
      ecl_grav_survey_eval sqrt base monitor x y z phase_mask = .ok (.finite 0)) := by
  have hsum : ecl_grav_survey_eval sqrt base monitor x y z phase_mask
        = .ok (∑ k in (Finset.range base.phase_list.length).filter
                (fun k => phase_selected base phase_mask k = true), v k) := by
    rw [Finset.sum_filter]
    refine ecl_grav_survey_eval_eq_sum sqrt base monitor x y z phase_mask _ (fun k hk => ?_)
    have hb : base.phase_list[k]? = some base.phase_list[k] := List.getElem?_eq_getElem hk
    generalize base.phase_list[k] = p at hb
    unfold ecl_grav_survey_eval_term phase_selected
    simp only [hb, Option.any_some]
    by_cases hsel : p.phase &&& phase_mask ≠ 0
    · obtain ⟨mp, hmp, hval⟩ := hv k p hb hsel
      rw [if_pos hsel, if_pos (by simpa using hsel)]
      cases monitor with
      | none =>
        cases hmp
        exact hval
      | some m =>
        unfold monitor_phase_at vector_iget_const at hmp
        simp only [] at hmp ⊢
        cases hq : m.phase_list[k]? with
        | none => rw [hq] at hmp; cases hmp
        | some q =>
          rw [hq] at hmp
          cases hmp
          exact hval
    · rw [if_neg hsel, if_neg (by simpa using hsel)]
  refine ⟨hsum, fun hnone => ?_⟩
  rw [hsum]
  refine congrArg Except.ok (Finset.sum_eq_zero (fun k hk => ?_))
  have hk' := (Finset.mem_filter.mp hk).2
  unfold phase_selected at hk'
  cases hb : base.phase_list[k]? with
  | none => rw [hb] at hk'; cases hk'
  | some p =>
    rw [hb] at hk'
    simp only [Option.any_some, bne_iff_ne, ne_eq] at hk'
    exact absurd (hnone p (List.getElem?_mem hb)) hk'

/-- Witness of claim C9: base [oil, water] against monitor [oil, water] with the oil mask;
    the only term is the value of the oil phases. -/
theorem ecl_grav_survey_eval_sum_of_phases_witness :
    (∀ (k : Nat) (p : ecl_grav_phase_type ℝ),
      (survey_of_phases (one_cell_grid_cache ℝ) "base"
        [one_cell_phase ECL_OIL_PHASE 5, one_cell_phase ECL_WATER_PHASE 7]).phase_list[k]?
          = some p →
      p.phase &&& ECL_OIL_PHASE ≠ 0 →
      ∃ mp, monitor_phase_at (some (survey_of_phases (one_cell_grid_cache ℝ) "monitor"
          [one_cell_phase ECL_OIL_PHASE 1005, one_cell_phase ECL_WATER_PHASE 9])) k = .ok mp ∧
        ecl_grav_phase_eval Real.sqrt p mp 0 0 0
          = .ok (.finite (6.67428e-3 * (1005 - 5) * 1000 / 1000 ^ 3))) ∧
    ecl_grav_survey_eval Real.sqrt
        (survey_of_phases (one_cell_grid_cache ℝ) "base"
          [one_cell_phase ECL_OIL_PHASE 5, one_cell_phase ECL_WATER_PHASE 7])
        (some (survey_of_phases (one_cell_grid_cache ℝ) "monitor"
          [one_cell_phase ECL_OIL_PHASE 1005, one_cell_phase ECL_WATER_PHASE 9]))
        0 0 0 ECL_OIL_PHASE
      = .ok (∑ _k in (Finset.range 2).filter
              (fun k => phase_selected (survey_of_phases (one_cell_grid_cache ℝ) "base"
                [one_cell_phase ECL_OIL_PHASE 5, one_cell_phase ECL_WATER_PHASE 7])
                ECL_OIL_PHASE k = true),
            c_double.finite (6.67428e-3 * (1005 - 5) * 1000 / 1000 ^ 3)) :=
  have hv : ∀ (k : Nat) (p : ecl_grav_phase_type ℝ),
      (survey_of_phases (one_cell_grid_cache ℝ) "base"
        [one_cell_phase ECL_OIL_PHASE 5, one_cell_phase ECL_WATER_PHASE 7]).phase_list[k]?
          = some p →
      p.phase &&& ECL_OIL_PHASE ≠ 0 →
      ∃ mp, monitor_phase_at (some (survey_of_phases (one_cell_grid_cache ℝ) "monitor"
          [one_cell_phase ECL_OIL_PHASE 1005, one_cell_phase ECL_WATER_PHASE 9])) k = .ok mp ∧
        ecl_grav_phase_eval Real.sqrt p mp 0 0 0
          = .ok (.finite (6.67428e-3 * (1005 - 5) * 1000 / 1000 ^ 3)) := by
    intro k p hp hsel
    match k, hp with
    | 0, hp =>
      simp only [survey_of_phases, List.getElem?_cons_zero, Option.some.injEq] at hp
      subst hp
      exact ⟨_, rfl, one_cell_eval_real ECL_OIL_PHASE 5 1005⟩
    | 1, hp =>
      simp only [survey_of_phases, List.getElem?_cons_succ, List.getElem?_cons_zero,
        Option.some.injEq] at hp
      subst hp
      exact absurd rfl hsel
    | k + 2, hp => simp [survey_of_phases] at hp
  ⟨hv, (ecl_grav_survey_eval_sum_of_phases Real.sqrt _ _ 0 0 0 ECL_OIL_PHASE _ hv).1⟩

/-- The value found under a name just inserted. -/
theorem lookup_hash_insert {α : Type} (hash : hash_type α) (key : String) (value : α) :
    List.lookup key (hash_insert hash key value) = some value := by
  simp [hash_insert, List.lookup]

/-- A sequence of overrides for a registered phase succeeds and stacks the overrides, the
    most recent first, on those already present. -/
theorem ecl_grav_add_std_density_list_spec {F : Type} (phase : ecl_phase_enum) (key : String)
    (hkey : ecl_util_get_phase_name phase = .ok key) (d : F) (adds : List (Int × F))
    (grav : ecl_grav_type F) (ov : List (Int × F))
    (h : List.lookup key grav.std_density = some { default_value := d, overrides := ov }) :
    ∃ g2, ecl_grav_add_std_density_list grav phase adds = .ok g2 ∧
      List.lookup key g2.std_density
        = some { default_value := d, overrides := adds.reverse ++ ov } := by
  induction adds generalizing grav ov with
  | nil => exact ⟨grav, rfl, h⟩
  | cons rd rest ih =>
    have hstep : ecl_grav_add_std_density grav phase rd.1 rd.2
        = .ok { grav with
            std_density := (hash_insert grav.std_density key
              (double_vector_iset { default_value := d, overrides := ov } rd.1 rd.2)) } := by
      unfold ecl_grav_add_std_density hash_get
      simp only [hkey, h, bind, Except.bind, pure, Except.pure]
    obtain ⟨g2, hg2, hl⟩ := ih
      { grav with
        std_density := (hash_insert grav.std_density key
          (double_vector_iset { default_value := d, overrides := ov } rd.1 rd.2)) }
      ((rd.1, rd.2) :: ov) (lookup_hash_insert _ _ _)
    refine ⟨g2, ?_, ?_⟩
    · unfold ecl_grav_add_std_density_list
      rw [List.foldlM_cons, hstep]
      exact hg2
    · rw [hl, List.reverse_cons, List.append_assoc]
      rfl

/-- Claim C10. Density override precedence: after `ecl_grav_new_std_density(phase, d)` on a
    registry in which the phase had no entry, followed by any sequence of
    `ecl_grav_add_std_density(phase, r_k, d_k)`, the density that the FIP strategy reads for
    a region `r` is the most recent `d_k` with `r_k = r` if there is one, and `d` otherwise,
    for every region number `r`. -/
theorem ecl_grav_std_density_precedence {F : Type} (grav : ecl_grav_type F)
    (phase : ecl_phase_enum) (d : F) (adds : List (Int × F))
    (hphase : phase = ECL_OIL_PHASE ∨ phase = ECL_GAS_PHASE ∨ phase = ECL_WATER_PHASE)
    (hfresh : ∀ key, ecl_util_get_phase_name phase = .ok key →
      hash_has_key grav.std_density key = false) :
    ∃ g1 g2, ecl_grav_new_std_density grav phase d = .ok g1 ∧
      ecl_grav_add_std_density_list g1 phase adds = .ok g2 ∧
      ∀ r : Int, ecl_grav_phase_alloc_std_density g2 phase r
        = .ok (match adds.reverse.lookup r with
               | some d_k => d_k
               | none => d) := by
  obtain ⟨key, hkey⟩ : ∃ key, ecl_util_get_phase_name phase = .ok key := by
    rcases hphase with h | h | h <;> subst h <;> exact ⟨_, rfl⟩
  have hnew : ecl_grav_new_std_density grav phase d
      = .ok { grav with
          std_density := (hash_insert grav.std_density key (double_vector_alloc 0 d)) } := by
    unfold ecl_grav_new_std_density
    simp only [hkey, hfresh key hkey, bind, Except.bind, pure, Except.pure]
    rfl
  obtain ⟨g2, hg2, hl⟩ := ecl_grav_add_std_density_list_spec phase key hkey d adds
    { grav with
      std_density := (hash_insert grav.std_density key (double_vector_alloc 0 d)) } []
    (lookup_hash_insert _ _ _)
  refine ⟨_, g2, hnew, hg2, fun r => ?_⟩
  unfold ecl_grav_phase_alloc_std_density hash_get
  simp only [hkey, hl, bind, Except.bind, pure, Except.pure, List.append_nil]
  rfl

/-- Witness of claim C10, the scenario of the specification: default 0.8 and the override
    (3, 0.65) for the oil phase give 0.65 for region 3 and 0.8 for region 5. -/
theorem ecl_grav_std_density_precedence_witness :
    ((ECL_OIL_PHASE = ECL_OIL_PHASE ∨ ECL_OIL_PHASE = ECL_GAS_PHASE ∨
        ECL_OIL_PHASE = ECL_WATER_PHASE) ∧
     (∀ key, ecl_util_get_phase_name ECL_OIL_PHASE = .ok key →
        hash_has_key (one_cell_grav ℚ).std_density key = false)) ∧
    ∃ g1 g2, ecl_grav_new_std_density (one_cell_grav ℚ) ECL_OIL_PHASE 0.8 = .ok g1 ∧
      ecl_grav_add_std_density_list g1 ECL_OIL_PHASE [(3, 0.65)] = .ok g2 ∧
      ecl_grav_phase_alloc_std_density g2 ECL_OIL_PHASE 3 = .ok 0.65 ∧
      ecl_grav_phase_alloc_std_density g2 ECL_OIL_PHASE 5 = .ok 0.8 := by
  have h1 : ∀ key, ecl_util_get_phase_name ECL_OIL_PHASE = .ok key →
      hash_has_key (one_cell_grav ℚ).std_density key = false := fun _ _ => rfl
  obtain ⟨g1, g2, hg1, hg2, hl⟩ := ecl_grav_std_density_precedence (one_cell_grav ℚ)
    ECL_OIL_PHASE 0.8 [(3, 0.65)] (Or.inl rfl) h1
  exact ⟨⟨Or.inl rfl, h1⟩, g1, g2, hg1, hg2, by simpa using hl 3, by simpa using hl 5⟩

/-- A fill loop over an array of `size` elements whose values are all defined returns the
    array of the values. -/
theorem fill_loop_eq {F : Type} (n : Nat) (value : Nat → Except Fatal F) (g : Nat → F)
    (array : List F) (h : ∀ i, i < n → value i = .ok (g i)) (hl : array.length = n) :
    fill_loop n value array = .ok ((List.range n).map g) := by
  have key : ∀ k, k ≤ n → (List.range k).foldlM (fun a i => do
        let v ← value i
        pure (a.set i v)) array = .ok ((List.range k).map g ++ array.drop k) := by
    intro k
    induction k with
    | zero => intro _; rfl
    | succ k ih =>
      intro hk
      have hk' : k < n := hk
      rw [List.range_succ, List.foldlM_append, ih (Nat.le_of_lt hk')]
      simp only [bind, Except.bind, List.foldlM_cons, List.foldlM_nil, h k hk', pure,
        Except.pure]
      refine congrArg Except.ok ?_
      rw [List.set_append_right _ _ (by simp), List.drop_eq_getElem_cons (by omega)]
      simp only [List.length_map, List.length_range, Nat.sub_self, List.set_cons_zero,
        List.map_append, List.map_cons, List.map_nil, List.append_assoc, List.singleton_append]
  unfold fill_loop
  rw [key n (Nat.le_refl n), List.drop_of_length_le (by omega), List.append_nil]

/-- Reading the array of the values of a fill loop. -/
theorem getD_map_range {F : Type} (n : Nat) (g : Nat → F) (d : F) (i : Nat) (hi : i < n) :
    ((List.range n).map g).getD i d = g i := by
  simp [List.getD_eq_getElem?_getD, List.getElem?_map, List.getElem?_range hi]

/-- The `GRAV_CALC_FIP` branch of `ecl_grav_phase_alloc` on well-formed keywords. -/
theorem ecl_grav_phase_alloc_FIP_eq (grav : ecl_grav_type K) (survey : ecl_grav_survey_type K)
    (phase : ecl_phase_enum) (restart : ecl_file_type K) (name key : String)
    (fip : Nat → K) (pvtnum : Nat → Int) (vec : double_vector_type K)
    (hname : (phase = ECL_OIL_PHASE ∧ name = "FIPOIL") ∨ (phase = ECL_GAS_PHASE ∧ name = "FIPGAS") ∨
      (phase = ECL_WATER_PHASE ∧ name = "FIPWAT"))
    (hkey : ecl_util_get_phase_name phase = .ok key)
    (hfip : kw_doubles restart name grav.grid_cache.size fip)
    (hpvt : kw_ints grav.init_file "PVTNUM" grav.grid_cache.size pvtnum)
    (hvec : hash_get grav.std_density key = .ok vec) :
    ecl_grav_phase_alloc grav survey phase restart GRAV_CALC_FIP
      = .ok { grid_cache := grav.grid_cache,
              fluid_mass := (List.range grav.grid_cache.size).map
                (fun i => fip i * double_vector_safe_iget vec (pvtnum i)),
              phase := phase } := by
  obtain ⟨fip_kw, hfk, hfr⟩ := hfip
  obtain ⟨pvt_kw, hpk, hpr⟩ := hpvt
  have hfill := fill_loop_eq grav.grid_cache.size
    (fun iactive => do
      let fip ← ecl_kw_iget_as_double fip_kw iactive
      let pvtnum ← ecl_kw_iget_int pvt_kw iactive
      pure (fip * double_vector_safe_iget vec pvtnum))
    (fun i => fip i * double_vector_safe_iget vec (pvtnum i))
    (util_malloc_doubles K grav.grid_cache.size)
    (fun i hi => by simp only [hfr i hi, hpr i hi, bind, Except.bind, pure, Except.pure])
    (by simp [util_malloc_doubles])
  simp only [bind, Except.bind, pure, Except.pure] at hfill
  have hgo : ECL_GAS_PHASE ≠ ECL_OIL_PHASE := by decide
  have hwo : ECL_WATER_PHASE ≠ ECL_OIL_PHASE := by decide
  have hwg : ECL_WATER_PHASE ≠ ECL_GAS_PHASE := by decide
  unfold ecl_grav_phase_alloc
  rcases hname with ⟨h1, h2⟩ | ⟨h1, h2⟩ | ⟨h1, h2⟩ <;> subst h1 h2 <;>
    simp only [hkey, hpk, hvec, hfk, hfill, bind, Except.bind, pure, Except.pure, if_true,
      if_false, hgo, hwo, hwg]

/-- The `GRAV_CALC_RFIP` branch of `ecl_grav_phase_alloc` on well-formed keywords. -/
theorem ecl_grav_phase_alloc_RFIP_eq (grav : ecl_grav_type K) (survey : ecl_grav_survey_type K)
    (phase : ecl_phase_enum) (restart : ecl_file_type K) (name den_name : String)
    (rho rfip : Nat → K)
    (hname : (phase = ECL_OIL_PHASE ∧ name = "RFIPOIL") ∨
      (phase = ECL_GAS_PHASE ∧ name = "RFIPGAS") ∨ (phase = ECL_WATER_PHASE ∧ name = "RFIPWAT"))
    (hden_name : get_den_kw phase (ecl_file_get_ecl_version grav.init_file) = .ok den_name)
    (hden : kw_doubles restart den_name grav.grid_cache.size rho)
    (hrfip : kw_doubles restart name grav.grid_cache.size rfip) :
    ecl_grav_phase_alloc grav survey phase restart GRAV_CALC_RFIP
      = .ok { grid_cache := grav.grid_cache,
              fluid_mass := (List.range grav.grid_cache.size).map (fun i => rho i * rfip i),
              phase := phase } := by
  obtain ⟨den_kw, hdk, hdr⟩ := hden
  obtain ⟨rfip_kw, hrk, hrr⟩ := hrfip
  have hfill := fill_loop_eq grav.grid_cache.size
    (fun iactive => do
      let rho ← ecl_kw_iget_as_double den_kw iactive
      let rfip ← ecl_kw_iget_as_double rfip_kw iactive
      pure (rho * rfip))
    (fun i => rho i * rfip i)
    (util_malloc_doubles K grav.grid_cache.size)
    (fun i hi => by simp only [hdr i hi, hrr i hi, bind, Except.bind, pure, Except.pure])
    (by simp [util_malloc_doubles])
  simp only [bind, Except.bind, pure, Except.pure] at hfill
  have hgo : ECL_GAS_PHASE ≠ ECL_OIL_PHASE := by decide
  have hwo : ECL_WATER_PHASE ≠ ECL_OIL_PHASE := by decide
  have hwg : ECL_WATER_PHASE ≠ ECL_GAS_PHASE := by decide
  have hc : GRAV_CALC_RFIP ≠ GRAV_CALC_FIP := by decide
  unfold ecl_grav_phase_alloc
  rcases hname with ⟨h1, h2⟩ | ⟨h1, h2⟩ | ⟨h1, h2⟩ <;> subst h1 h2 <;>
    simp only [ecl_util_get_phase_name, hden_name, hdk, hrk, hfill, bind, Except.bind, pure,
      Except.pure, if_true, if_false, hgo, hwo, hwg, hc]

/-- The porosity based branch of `ecl_grav_phase_alloc` (`GRAV_CALC_RPORV` and
    `GRAV_CALC_PORMOD`) once the saturation keyword is known. -/
theorem ecl_grav_phase_alloc_porv_eq (grav : ecl_grav_type K) (survey : ecl_grav_survey_type K)
    (phase : ecl_phase_enum) (restart : ecl_file_type K) (calc_type : grav_calc_type)
    (key den_name : String) (sat_kw : ecl_kw_type K) (porv : List K) (rho sat : Nat → K)
    (hcalc : calc_type = GRAV_CALC_RPORV ∨ calc_type = GRAV_CALC_PORMOD)
    (hkey : ecl_util_get_phase_name phase = .ok key)
    (hden_name : get_den_kw phase (ecl_file_get_ecl_version grav.init_file) = .ok den_name)
    (hden : kw_doubles restart den_name grav.grid_cache.size rho)
    (hsat_kw : ecl_grav_phase_alloc_sat_kw restart key = .ok sat_kw)
    (hsat : ∀ i, i < grav.grid_cache.size → ecl_kw_iget_as_double sat_kw i = .ok (sat i))
    (hporv : survey.porv = some porv) :
    ecl_grav_phase_alloc grav survey phase restart calc_type
      = .ok { grid_cache := grav.grid_cache,
              fluid_mass := (List.range grav.grid_cache.size).map
                (fun i => rho i * sat i * porv.getD i 0),
              phase := phase } := by
  obtain ⟨den_kw, hdk, hdr⟩ := hden
  have hc1 : calc_type ≠ GRAV_CALC_FIP := by rcases hcalc with h | h <;> subst h <;> decide
  have hc2 : calc_type ≠ GRAV_CALC_RFIP := by rcases hcalc with h | h <;> subst h <;> decide
  unfold ecl_grav_phase_alloc
  simp only [hkey, hden_name, hdk, hsat_kw, bind, Except.bind, pure, Except.pure,
    if_false, hc1, hc2]
  rw [fill_loop_eq grav.grid_cache.size _ (fun i => rho i * sat i * porv.getD i 0) _
    (fun i hi => by simp only [hdr i hi, hsat i hi, hporv])
    (by simp [util_malloc_doubles])]

/-- The saturation keyword of a phase whose keyword is in the restart file. -/
theorem ecl_grav_phase_alloc_sat_kw_explicit {F : Type} [LinearOrderedField F]
    (restart : ecl_file_type F) (key : String)
    (h : ecl_file_has_kw restart key = true) :
    ecl_grav_phase_alloc_sat_kw restart key = ecl_file_iget_named_kw restart key 0 := by
  unfold ecl_grav_phase_alloc_sat_kw
  rw [if_pos h]

/-- The private saturation keyword of the residual phase when the restart file has no SGAS
    keyword: `1 - SWAT`. -/
theorem ecl_grav_phase_alloc_sat_kw_residual (restart : ecl_file_type K) (key hd : String)
    (swat : List K)
    (hkey : ecl_file_has_kw restart key = false)
    (hswat : ecl_file_iget_named_kw restart "SWAT" 0 = .ok ⟨hd, .float_data swat⟩)
    (hsgas : ecl_file_has_kw restart "SGAS" = false) :
    ecl_grav_phase_alloc_sat_kw restart key
      = .ok ⟨hd, .float_data (List.zipWith (fun x y => x - y) (swat.map (fun _ => 1.0)) swat)⟩ := by
  unfold ecl_grav_phase_alloc_sat_kw
  simp [hkey, hswat, hsgas, bind, Except.bind, pure, Except.pure, ecl_kw_alloc_copy,
    ecl_kw_scalar_set_float, ecl_kw_inplace_sub]

/-- The private saturation keyword of the residual phase when the restart file has a SGAS
    keyword: `1 - SWAT - SGAS`. -/
theorem ecl_grav_phase_alloc_sat_kw_residual_sgas (restart : ecl_file_type K)
    (key hd hd2 : String) (swat sgas : List K)
    (hkey : ecl_file_has_kw restart key = false)
    (hswat : ecl_file_iget_named_kw restart "SWAT" 0 = .ok ⟨hd, .float_data swat⟩)
    (hsgas : ecl_file_has_kw restart "SGAS" = true)
    (hsgas_kw : ecl_file_iget_named_kw restart "SGAS" 0 = .ok ⟨hd2, .float_data sgas⟩)
    (hlen : sgas.length = swat.length) :
    ecl_grav_phase_alloc_sat_kw restart key
      = .ok ⟨hd, .float_data (List.zipWith (fun x y => x - y)
          (List.zipWith (fun x y => x - y) (swat.map (fun _ => 1.0)) swat) sgas)⟩ := by
  unfold ecl_grav_phase_alloc_sat_kw
  simp [hkey, hswat, hsgas, hsgas_kw, hlen, bind, Except.bind, pure, Except.pure,
    ecl_kw_alloc_copy, ecl_kw_scalar_set_float, ecl_kw_inplace_sub]

/-- Reading the private keyword `1 - SWAT`. -/
theorem iget_one_sub (hd : String) (swat : List K) (i : Nat) (hi : i < swat.length) :
    ecl_kw_iget_as_double
        ⟨hd, .float_data (List.zipWith (fun x y => x - y) (swat.map (fun _ => 1.0)) swat)⟩ i
      = .ok (1 - swat.getD i 0) := by
  unfold ecl_kw_iget_as_double
  simp only [List.getElem?_zipWith, List.getElem?_map, List.getD_eq_getElem?_getD,
    List.getElem?_eq_getElem hi, Option.map_some', Option.getD_some]
  norm_num

/-- Reading the private keyword `1 - SWAT - SGAS`. -/
theorem iget_one_sub_sub (hd : String) (swat sgas : List K) (i : Nat) (hi : i < swat.length)
    (hlen : sgas.length = swat.length) :
    ecl_kw_iget_as_double
        ⟨hd, .float_data (List.zipWith (fun x y => x - y)
          (List.zipWith (fun x y => x - y) (swat.map (fun _ => 1.0)) swat) sgas)⟩ i
      = .ok (1 - swat.getD i 0 - sgas.getD i 0) := by
  have hi2 : i < sgas.length := hlen ▸ hi
  unfold ecl_kw_iget_as_double
  simp only [List.getElem?_zipWith, List.getElem?_map, List.getD_eq_getElem?_getD,
    List.getElem?_eq_getElem hi, List.getElem?_eq_getElem hi2, Option.map_some',
    Option.getD_some]
  norm_num

/-- Storing a phase changes the phase list and the phase map of a survey only. -/
theorem ecl_grav_survey_add_phase_frame {F : Type} (survey s' : ecl_grav_survey_type F)
    (phase : ecl_phase_enum) (p : ecl_grav_phase_type F)
    (h : ecl_grav_survey_add_phase survey phase p = .ok s') :
    s'.porv = survey.porv ∧ s'.grid_cache = survey.grid_cache ∧ s'.name = survey.name := by
  unfold ecl_grav_survey_add_phase at h
  cases hk : ecl_util_get_phase_name phase with
  | error e => rw [hk] at h; cases h
  | ok key =>
    rw [hk] at h
    cases h
    exact ⟨rfl, rfl, rfl⟩

/-- Storing an oil, gas or water phase succeeds. -/
theorem ecl_grav_survey_add_phase_ok {F : Type} (survey : ecl_grav_survey_type F)
    (phase : ecl_phase_enum) (p : ecl_grav_phase_type F)
    (h : phase = ECL_OIL_PHASE ∨ phase = ECL_GAS_PHASE ∨ phase = ECL_WATER_PHASE) :
    ∃ s', ecl_grav_survey_add_phase survey phase p = .ok s' := by
  rcases h with h | h | h <;> subst h <;> exact ⟨_, rfl⟩

/-- The function `ecl_grav_survey_add_phases` is the sequence of its three blocks. -/
theorem ecl_grav_survey_add_phases_eq (grav : ecl_grav_type K) (survey : ecl_grav_survey_type K)
    (restart : ecl_file_type K) (calc_type : grav_calc_type) :
    ecl_grav_survey_add_phases grav survey restart calc_type
      = (ecl_grav_survey_add_phases_block grav restart calc_type (ecl_file_get_phases grav.init_file) ECL_OIL_PHASE survey
          >>= ecl_grav_survey_add_phases_block grav restart calc_type (ecl_file_get_phases grav.init_file) ECL_GAS_PHASE)
          >>= ecl_grav_survey_add_phases_block grav restart calc_type (ecl_file_get_phases grav.init_file) ECL_WATER_PHASE := rfl

/-- A step keeps the pore volume, the grid cache and the name of the survey. -/
theorem add_phases_step_frame (grav : ecl_grav_type K) (restart : ecl_file_type K)
    (calc_type : grav_calc_type) (phase : ecl_phase_enum) (s s' : ecl_grav_survey_type K)
    (h : ecl_grav_survey_add_phases_block grav restart calc_type (ecl_file_get_phases grav.init_file) phase s = .ok s') :
    s'.porv = s.porv ∧ s'.grid_cache = s.grid_cache ∧ s'.name = s.name := by
  unfold ecl_grav_survey_add_phases_block at h
  split at h
  · cases hp : ecl_grav_phase_alloc grav s phase restart calc_type with
    | error e => simp only [hp, bind, Except.bind] at h; cases h
    | ok p =>
      simp only [hp, bind, Except.bind] at h
      exact ecl_grav_survey_add_phase_frame s s' phase p h
  · cases h
    exact ⟨rfl, rfl, rfl⟩

/-- The function `ecl_grav_survey_add_phases` keeps the pore volume, the grid cache and the
    name of the survey. -/
theorem ecl_grav_survey_add_phases_frame (grav : ecl_grav_type K)
    (restart : ecl_file_type K) (calc_type : grav_calc_type) (s s' : ecl_grav_survey_type K)
    (h : ecl_grav_survey_add_phases grav s restart calc_type = .ok s') :
    s'.porv = s.porv ∧ s'.grid_cache = s.grid_cache ∧ s'.name = s.name := by
  rw [ecl_grav_survey_add_phases_eq] at h
  cases h1 : ecl_grav_survey_add_phases_block grav restart calc_type (ecl_file_get_phases grav.init_file) ECL_OIL_PHASE s with
  | error e => simp only [h1, bind, Except.bind] at h; cases h
  | ok s1 =>
    cases h2 : ecl_grav_survey_add_phases_block grav restart calc_type (ecl_file_get_phases grav.init_file) ECL_GAS_PHASE s1 with
    | error e => simp only [h1, h2, bind, Except.bind] at h; cases h
    | ok s2 =>
      simp only [h1, h2, bind, Except.bind] at h
      have f1 := add_phases_step_frame grav restart calc_type _ _ _ h1
      have f2 := add_phases_step_frame grav restart calc_type _ _ _ h2
      have f3 := add_phases_step_frame grav restart calc_type _ _ _ h
      exact ⟨f3.1.trans (f2.1.trans f1.1), f3.2.1.trans (f2.2.1.trans f1.2.1),
        f3.2.2.trans (f2.2.2.trans f1.2.2)⟩

/-- The construction of the phases fails as soon as the construction of one phase present
    in the init file fails for every survey. -/
theorem ecl_grav_survey_add_phases_error (grav : ecl_grav_type K)
    (restart : ecl_file_type K) (calc_type : grav_calc_type) (phase : ecl_phase_enum)
    (hphase : phase = ECL_OIL_PHASE ∨ phase = ECL_GAS_PHASE ∨ phase = ECL_WATER_PHASE)
    (hpresent : ecl_file_get_phases grav.init_file &&& phase ≠ 0)
    (hfail : ∀ sv, ∃ e, ecl_grav_phase_alloc grav sv phase restart calc_type = .error e)
    (s : ecl_grav_survey_type K) :
    ∃ e, ecl_grav_survey_add_phases grav s restart calc_type = .error e := by
  have hstep : ∀ sv, ∃ e, ecl_grav_survey_add_phases_block grav restart calc_type (ecl_file_get_phases grav.init_file) phase sv = .error e := by
    intro sv
    obtain ⟨e, he⟩ := hfail sv
    refine ⟨e, ?_⟩
    unfold ecl_grav_survey_add_phases_block
    rw [if_pos hpresent]
    simp only [he, bind, Except.bind]
  rw [ecl_grav_survey_add_phases_eq]
  cases h1 : ecl_grav_survey_add_phases_block grav restart calc_type (ecl_file_get_phases grav.init_file) ECL_OIL_PHASE s with
  | error e => exact ⟨e, by simp only [bind, Except.bind]⟩
  | ok s1 =>
    cases h2 : ecl_grav_survey_add_phases_block grav restart calc_type (ecl_file_get_phases grav.init_file) ECL_GAS_PHASE s1 with
    | error e => exact ⟨e, by simp only [bind, Except.bind, h2]⟩
    | ok s2 =>
      cases h3 : ecl_grav_survey_add_phases_block grav restart calc_type (ecl_file_get_phases grav.init_file) ECL_WATER_PHASE s2 with
      | error e => exact ⟨e, by simp only [bind, Except.bind, h2, h3]⟩
      | ok s3 =>
        exfalso
        rcases hphase with h | h | h <;> subst h
        · obtain ⟨e, he⟩ := hstep s; rw [h1] at he; cases he
        · obtain ⟨e, he⟩ := hstep s1; rw [h2] at he; cases he
        · obtain ⟨e, he⟩ := hstep s2; rw [h3] at he; cases he

/-- The construction of the phases succeeds when the construction of every phase present in
    the init file succeeds for every survey with the pore volume of the given one. -/
theorem ecl_grav_survey_add_phases_ok (grav : ecl_grav_type K)
    (restart : ecl_file_type K) (calc_type : grav_calc_type) (s : ecl_grav_survey_type K)
    (hok : ∀ phase, phase = ECL_OIL_PHASE ∨ phase = ECL_GAS_PHASE ∨ phase = ECL_WATER_PHASE →
      ecl_file_get_phases grav.init_file &&& phase ≠ 0 →
      ∀ sv, sv.porv = s.porv → ∃ p, ecl_grav_phase_alloc grav sv phase restart calc_type = .ok p) :
    ∃ s', ecl_grav_survey_add_phases grav s restart calc_type = .ok s' := by
  have hstep : ∀ phase, phase = ECL_OIL_PHASE ∨ phase = ECL_GAS_PHASE ∨ phase = ECL_WATER_PHASE →
      ∀ sv, sv.porv = s.porv → ∃ s', ecl_grav_survey_add_phases_block grav restart calc_type
        (ecl_file_get_phases grav.init_file) phase sv = .ok s' ∧ s'.porv = s.porv := by
    intro phase hphase sv hsv
    have hex : ∃ s', ecl_grav_survey_add_phases_block grav restart calc_type
        (ecl_file_get_phases grav.init_file) phase sv = .ok s' := by
      unfold ecl_grav_survey_add_phases_block
      split
      · rename_i hpresent
        obtain ⟨p, hp⟩ := hok phase hphase hpresent sv hsv
        obtain ⟨s', hs'⟩ := ecl_grav_survey_add_phase_ok sv phase p hphase
        exact ⟨s', by simp only [hp, hs', bind, Except.bind]⟩
      · exact ⟨sv, rfl⟩
    obtain ⟨s', hs'⟩ := hex
    exact ⟨s', hs', (add_phases_step_frame grav restart calc_type phase sv s' hs').1.trans hsv⟩
  rw [ecl_grav_survey_add_phases_eq]
  obtain ⟨s1, h1, f1⟩ := hstep ECL_OIL_PHASE (Or.inl rfl) s rfl
  obtain ⟨s2, h2, f2⟩ := hstep ECL_GAS_PHASE (Or.inr (Or.inl rfl)) s1 f1
  obtain ⟨s3, h3, _⟩ := hstep ECL_WATER_PHASE (Or.inr (Or.inr rfl)) s2 f2
  exact ⟨s3, by simp only [h1, h2, h3, bind, Except.bind]⟩

/-- The survey that `ecl_grav_survey_alloc_PORMOD` hands to the construction of the phases:
    its pore volume is `PORV_MOD * PORV`. -/
theorem ecl_grav_survey_alloc_PORMOD_eq (grav : ecl_grav_type K) (restart : ecl_file_type K)
    (name : String) (pormod porv : Nat → K)
    (hmod : kw_floats restart "PORV_MOD" grav.grid_cache.size (fun a => a) pormod)
    (hporv : kw_floats grav.init_file "PORV" grav.grid_cache.size
      (fun a => grav.grid_cache.global_index.getD a 0) porv) :
    ecl_grav_survey_alloc_PORMOD grav restart name
      = ecl_grav_survey_add_phases grav
          { ecl_grav_survey_alloc_empty grav.grid_cache name GRAV_CALC_PORMOD with
            porv := some ((List.range grav.grid_cache.size).map
              (fun a => pormod a * porv (grav.grid_cache.global_index.getD a 0))) }
          restart GRAV_CALC_PORMOD := by
  obtain ⟨mod_kw, hmk, hmr⟩ := hmod
  obtain ⟨porv_kw, hpk, hpr⟩ := hporv
  have hporv0 : (ecl_grav_survey_alloc_empty grav.grid_cache name GRAV_CALC_PORMOD).porv
      = some (util_malloc_doubles K grav.grid_cache.size) := by
    unfold ecl_grav_survey_alloc_empty
    simp only []
    rw [if_pos (by decide)]
  unfold ecl_grav_survey_alloc_PORMOD
  simp only [hmk, hpk, hporv0, bind, Except.bind, pure, Except.pure]
  rw [fill_loop_eq grav.grid_cache.size _
    (fun a => pormod a * porv (grav.grid_cache.global_index.getD a 0)) _
    (fun i hi => by simp only [hmr i hi, hpr i hi])
    (by simp [util_malloc_doubles])]

/-- A name is registered after it has been inserted. -/
theorem hash_has_key_insert {α : Type} (hash : hash_type α) (key : String) (value : α) :
    hash_has_key (hash_insert hash key value) key = true := by
  simp [hash_has_key, hash_insert, List.lookup]

/-- Removing the pairs of a name does not change what is stored under another name. -/
theorem lookup_filter_ne {α : Type} (hash : hash_type α) (key key' : String) (h : key' ≠ key) :
    List.lookup key' (hash.filter (fun kv => kv.1 != key)) = List.lookup key' hash := by
  induction hash with
  | nil => rfl
  | cons kv rest ih =>
    by_cases hk : kv.1 = key
    · have h2 : (key' == kv.1) = false := beq_false_of_ne (by rw [hk]; exact h)
      rw [List.filter_cons_of_neg (by simp [hk]), List.lookup_cons, h2]
      exact ih
    · rw [List.filter_cons_of_pos (by simpa using hk), List.lookup_cons, List.lookup_cons, ih]

/-- Inserting under a name does not change what is stored under another name. -/
theorem lookup_hash_insert_ne {α : Type} (hash : hash_type α) (key key' : String) (value : α)
    (h : key' ≠ key) :
    List.lookup key' (hash_insert hash key value) = List.lookup key' hash := by
  unfold hash_insert
  rw [List.lookup_cons, show (key' == key) = false from beq_false_of_ne h]
  exact lookup_filter_ne hash key key' h

/-- The names of the three phases are pairwise distinct. -/
theorem ecl_util_get_phase_name_inj (p q : ecl_phase_enum) (key : String)
    (hp : ecl_util_get_phase_name p = .ok key) (hq : ecl_util_get_phase_name q = .ok key) :
    p = q := by
  unfold ecl_util_get_phase_name at hp hq
  split_ifs at hp hq <;> first
    | (subst_vars; rfl)
    | (exfalso; have h := (Except.ok.inj hp).trans (Except.ok.inj hq).symm; revert h; decide)

/-- Whether a name is registered after an insertion. -/
theorem hash_has_key_insert_iff {α : Type} (hash : hash_type α) (key key' : String)
    (value : α) :
    hash_has_key (hash_insert hash key value) key' = true ↔
      key' = key ∨ hash_has_key hash key' = true := by
  by_cases h : key' = key
  · subst h
    simp [hash_has_key_insert]
  · unfold hash_has_key
    rw [lookup_hash_insert_ne hash key key' value h]
    simp [h]

/-- The registration of a default density, case by case. -/
theorem ecl_grav_new_std_density_cases {F : Type} (grav g1 : ecl_grav_type F)
    (phase : ecl_phase_enum) (d : F) (h : ecl_grav_new_std_density grav phase d = .ok g1) :
    ∃ key, ecl_util_get_phase_name phase = .ok key ∧
      ((hash_has_key grav.std_density key = true ∧ g1 = grav) ∨
       (hash_has_key grav.std_density key = false ∧
        g1 = { grav with
          std_density := (hash_insert grav.std_density key (double_vector_alloc 0 d)) })) := by
  unfold ecl_grav_new_std_density at h
  cases hk : ecl_util_get_phase_name phase with
  | error e => simp only [hk, bind, Except.bind] at h; cases h
  | ok key =>
    refine ⟨key, rfl, ?_⟩
    simp only [hk, bind, Except.bind, pure, Except.pure] at h
    cases hh : hash_has_key grav.std_density key with
    | true =>
      rw [hh] at h
      exact Or.inl ⟨rfl, (Except.ok.inj h).symm⟩
    | false =>
      rw [hh] at h
      exact Or.inr ⟨rfl, (Except.ok.inj h).symm⟩

/-- A second registration of a registered phase returns the registry unchanged. -/
theorem ecl_grav_new_std_density_registered {F : Type} (grav : ecl_grav_type F)
    (phase : ecl_phase_enum) (key : String) (d : F)
    (hkey : ecl_util_get_phase_name phase = .ok key)
    (h : hash_has_key grav.std_density key = true) :
    ecl_grav_new_std_density grav phase d = .ok grav := by
  unfold ecl_grav_new_std_density
  simp only [hkey, h, bind, Except.bind, pure, Except.pure]
  rfl

/-- An override, case by case: it needs the entry of the phase and replaces it. -/
theorem ecl_grav_add_std_density_cases {F : Type} (grav g1 : ecl_grav_type F)
    (phase : ecl_phase_enum) (r : Int) (d : F)
    (h : ecl_grav_add_std_density grav phase r d = .ok g1) :
    ∃ key vec, ecl_util_get_phase_name phase = .ok key ∧
      List.lookup key grav.std_density = some vec ∧
      g1 = { grav with
        std_density := (hash_insert grav.std_density key (double_vector_iset vec r d)) } := by
  unfold ecl_grav_add_std_density hash_get at h
  cases hk : ecl_util_get_phase_name phase with
  | error e => simp only [hk, bind, Except.bind] at h; cases h
  | ok key =>
    simp only [hk, bind, Except.bind, pure, Except.pure] at h
    cases hl : List.lookup key grav.std_density with
    | none => simp only [hl] at h; cases h
    | some vec =>
      simp only [hl] at h
      exact ⟨key, vec, rfl, hl, (Except.ok.inj h).symm⟩

/-- What one call does to the registration of a phase. -/
theorem run_density_call_has_key {F : Type} (g g1 : ecl_grav_type F) (c : density_call F)
    (phase : ecl_phase_enum) (key : String)
    (hkey : ecl_util_get_phase_name phase = .ok key)
    (h : run_density_call g c = .ok g1) :
    hash_has_key g1.std_density key = true ↔
      hash_has_key g.std_density key = true ∨ ∃ d, c = .new_std_density phase d := by
  cases c with
  | new_std_density p d0 =>
    obtain ⟨k, hk, hcase⟩ := ecl_grav_new_std_density_cases g g1 p d0 h
    rcases hcase with ⟨hreg, hg⟩ | ⟨_, hg⟩
    · subst hg
      constructor
      · exact fun hh => Or.inl hh
      · rintro (hh | ⟨d, hd⟩)
        · exact hh
        · cases hd
          rw [hkey] at hk
          cases hk
          exact hreg
    · subst hg
      rw [hash_has_key_insert_iff]
      constructor
      · rintro (hh | hh)
        · subst hh
          exact Or.inr ⟨d0, by rw [ecl_util_get_phase_name_inj p phase key hk hkey]⟩
        · exact Or.inl hh
      · rintro (hh | ⟨d, hd⟩)
        · exact Or.inr hh
        · cases hd
          rw [hkey] at hk
          cases hk
          exact Or.inl rfl
  | add_std_density p r d0 =>
    obtain ⟨k, vec, hk, hl, hg⟩ := ecl_grav_add_std_density_cases g g1 p r d0 h
    subst hg
    rw [hash_has_key_insert_iff]
    constructor
    · rintro (hh | hh)
      · subst hh
        exact Or.inl (by simp [hash_has_key, hl])
      · exact Or.inl hh
    · rintro (hh | ⟨d, hd⟩)
      · exact Or.inr hh
      · cases hd

/-- A phase is registered after a sequence of calls exactly when it was registered before
    or the sequence contains a call of `ecl_grav_new_std_density` for it. -/
theorem run_density_calls_has_key {F : Type} (calls : List (density_call F))
    (g g1 : ecl_grav_type F) (phase : ecl_phase_enum) (key : String)
    (hkey : ecl_util_get_phase_name phase = .ok key)
    (h : run_density_calls g calls = .ok g1) :
    hash_has_key g1.std_density key = true ↔
      hash_has_key g.std_density key = true ∨ ∃ d, .new_std_density phase d ∈ calls := by
  induction calls generalizing g with
  | nil =>
    cases h
    simp
  | cons c rest ih =>
    unfold run_density_calls at h
    rw [List.foldlM_cons] at h
    cases hc : run_density_call g c with
    | error e => simp only [hc, bind, Except.bind] at h; cases h
    | ok g' =>
      simp only [hc, bind, Except.bind] at h
      rw [ih g' h, run_density_call_has_key g g' c phase key hkey hc]
      simp only [List.mem_cons]
      constructor
      · rintro ((hh | ⟨d, hd⟩) | ⟨d, hd⟩)
        · exact Or.inl hh
        · exact Or.inr ⟨d, Or.inl hd.symm⟩
        · exact Or.inr ⟨d, Or.inr hd⟩
      · rintro (hh | ⟨d, hd | hd⟩)
        · exact Or.inl (Or.inl hh)
        · exact Or.inl (Or.inr ⟨d, hd.symm⟩)
        · exact Or.inr ⟨d, hd⟩

/-- A sequence of overrides keeps the phase registered. -/
theorem ecl_grav_add_std_density_list_has_key {F : Type} (adds : List (Int × F))
    (g g1 : ecl_grav_type F) (phase : ecl_phase_enum) (key : String)
    (hkey : ecl_util_get_phase_name phase = .ok key)
    (hreg : hash_has_key g.std_density key = true)
    (h : ecl_grav_add_std_density_list g phase adds = .ok g1) :
    hash_has_key g1.std_density key = true := by
  induction adds generalizing g with
  | nil => cases h; exact hreg
  | cons rd rest ih =>
    unfold ecl_grav_add_std_density_list at h
    rw [List.foldlM_cons] at h
    cases hc : ecl_grav_add_std_density g phase rd.1 rd.2 with
    | error e => simp only [hc, bind, Except.bind] at h; cases h
    | ok g' =>
      simp only [hc, bind, Except.bind] at h
      refine ih g' ?_ h
      obtain ⟨k, vec, hk, _, hg⟩ := ecl_grav_add_std_density_cases g g' phase rd.1 rd.2 hc
      rw [hkey] at hk
      cases hk
      rw [hg]
      exact hash_has_key_insert _ _ _

/-- Claim C11. `ecl_grav_new_std_density` never overwrites: after a first call for a phase
    (and any sequence of region overrides for it) a second call with another density
    returns the registry, and so the density table, exactly as it was. -/
theorem ecl_grav_new_std_density_idempotent {F : Type} (grav g1 g2 : ecl_grav_type F)
    (phase : ecl_phase_enum) (d1 d2 : F) (adds : List (Int × F))
    (h1 : ecl_grav_new_std_density grav phase d1 = .ok g1)
    (h2 : ecl_grav_add_std_density_list g1 phase adds = .ok g2) :
    ecl_grav_new_std_density g1 phase d2 = .ok g1 ∧
    ecl_grav_new_std_density g2 phase d2 = .ok g2 := by
  obtain ⟨key, hkey, hcase⟩ := ecl_grav_new_std_density_cases grav g1 phase d1 h1
  have hreg1 : hash_has_key g1.std_density key = true := by
    rcases hcase with ⟨hreg, hg⟩ | ⟨_, hg⟩
    · rw [hg]; exact hreg
    · rw [hg]; exact hash_has_key_insert _ _ _
  exact ⟨ecl_grav_new_std_density_registered g1 phase key d2 hkey hreg1,
    ecl_grav_new_std_density_registered g2 phase key d2 hkey
      (ecl_grav_add_std_density_list_has_key adds g1 g2 phase key hkey hreg1 h2)⟩

/-- Witness of claim C11 on the sample registry: oil registered with 4/5, region 3
    overridden by 13/20, then a second registration with 1/10. -/
theorem ecl_grav_new_std_density_idempotent_witness :
    ∃ g1 g2 : ecl_grav_type ℚ,
      ecl_grav_new_std_density (sample_grav_no_density ℚ) ECL_OIL_PHASE (4 / 5) = .ok g1 ∧
      ecl_grav_add_std_density_list g1 ECL_OIL_PHASE [(3, 13 / 20)] = .ok g2 ∧
      (ecl_grav_new_std_density g1 ECL_OIL_PHASE (1 / 10) = .ok g1 ∧
       ecl_grav_new_std_density g2 ECL_OIL_PHASE (1 / 10) = .ok g2) :=
  ⟨{ sample_grav_no_density ℚ with
      std_density := [("SOIL", { default_value := 4 / 5, overrides := [] })] },
   { sample_grav_no_density ℚ with
      std_density := [("SOIL", { default_value := 4 / 5, overrides := [(3, 13 / 20)] })] },
   rfl, rfl,
   ecl_grav_new_std_density_idempotent (sample_grav_no_density ℚ) _ _ ECL_OIL_PHASE (4 / 5)
     (1 / 10) [(3, 13 / 20)] rfl rfl⟩

/-- An override fails exactly when the phase has no entry in the density table. -/
theorem ecl_grav_add_std_density_error_iff {F : Type} (g : ecl_grav_type F)
    (phase : ecl_phase_enum) (key : String) (r : Int) (d : F)
    (hkey : ecl_util_get_phase_name phase = .ok key) :
    (∃ e, ecl_grav_add_std_density g phase r d = .error e) ↔
      hash_has_key g.std_density key = false := by
  unfold ecl_grav_add_std_density hash_get hash_has_key
  simp only [hkey, bind, Except.bind, pure, Except.pure]
  cases List.lookup key g.std_density with
  | none => simp
  | some vec => simp

/-- An override of a registered phase succeeds, sets the density of its region and leaves
    the densities of the other regions as they were. -/
theorem ecl_grav_add_std_density_registered {F : Type} (g : ecl_grav_type F)
    (phase : ecl_phase_enum) (key : String) (r : Int) (d : F)
    (hkey : ecl_util_get_phase_name phase = .ok key)
    (hreg : hash_has_key g.std_density key = true) :
    ∃ g', ecl_grav_add_std_density g phase r d = .ok g' ∧
      ecl_grav_phase_alloc_std_density g' phase r = .ok d ∧
      ∀ r', r' ≠ r →
        ecl_grav_phase_alloc_std_density g' phase r' = ecl_grav_phase_alloc_std_density g phase r' := by
  unfold hash_has_key at hreg
  cases hl : List.lookup key g.std_density with
  | none => rw [hl] at hreg; cases hreg
  | some vec =>
    refine ⟨{ g with std_density := (hash_insert g.std_density key (double_vector_iset vec r d)) },
      ?_, ?_, ?_⟩
    · unfold ecl_grav_add_std_density hash_get
      simp only [hkey, hl, bind, Except.bind, pure, Except.pure]
    · unfold ecl_grav_phase_alloc_std_density hash_get
      simp only [hkey, lookup_hash_insert, bind, Except.bind, pure, Except.pure]
      simp [double_vector_safe_iget, double_vector_iset, List.lookup]
    · intro r' hr
      unfold ecl_grav_phase_alloc_std_density hash_get
      simp only [hkey, hl, lookup_hash_insert, bind, Except.bind, pure, Except.pure]
      simp only [double_vector_safe_iget, double_vector_iset, List.lookup_cons,
        show (r' == r) = false from beq_false_of_ne hr]

/-- Claim C12. After any history of successful calls on a registry created with an empty
    density table, `ecl_grav_add_std_density(phase, region, density)` fails if and only if
    `ecl_grav_new_std_density` was never called for that phase; otherwise it succeeds, the
    density of that region becomes `density` and the other regions keep their density. -/
theorem ecl_grav_add_std_density_fails_iff {F : Type} (g0 g : ecl_grav_type F)
    (calls : List (density_call F)) (phase : ecl_phase_enum) (pvtnum : Int) (density : F)
    (hphase : phase = ECL_OIL_PHASE ∨ phase = ECL_GAS_PHASE ∨ phase = ECL_WATER_PHASE)
    (h0 : g0.std_density = hash_alloc)
    (hrun : run_density_calls g0 calls = .ok g) :
    ((∃ e, ecl_grav_add_std_density g phase pvtnum density = .error e) ↔
        ∀ d, density_call.new_std_density phase d ∉ calls) ∧
    ((∃ d, density_call.new_std_density phase d ∈ calls) →
      ∃ g', ecl_grav_add_std_density g phase pvtnum density = .ok g' ∧
        ecl_grav_phase_alloc_std_density g' phase pvtnum = .ok density ∧
        ∀ r, r ≠ pvtnum →
          ecl_grav_phase_alloc_std_density g' phase r
            = ecl_grav_phase_alloc_std_density g phase r) := by
  obtain ⟨key, hkey⟩ : ∃ key, ecl_util_get_phase_name phase = .ok key := by
    rcases hphase with h | h | h <;> subst h <;> exact ⟨_, rfl⟩
  have hiff := run_density_calls_has_key calls g0 g phase key hkey hrun
  have h0' : hash_has_key g0.std_density key = false := by rw [h0]; rfl
  simp only [h0', Bool.false_eq_true, false_or] at hiff
  constructor
  · rw [ecl_grav_add_std_density_error_iff g phase key pvtnum density hkey]
    constructor
    · intro hf d hd
      rw [hiff.mpr ⟨d, hd⟩] at hf
      cases hf
    · intro hn
      cases hh : hash_has_key g.std_density key with
      | false => rfl
      | true =>
        obtain ⟨d, hd⟩ := hiff.mp hh
        exact absurd hd (hn d)
  · intro hcalled
    exact ecl_grav_add_std_density_registered g phase key pvtnum density hkey (hiff.mpr hcalled)

/-- Witness of claim C12: after the calls `new(oil, 4/5)`, `add(oil, 3, 13/20)` on the
    sample registry an override for gas fails and an override of region 3 for oil succeeds
    and is read back. -/
theorem ecl_grav_add_std_density_fails_iff_witness :
    ∃ g : ecl_grav_type ℚ,
      run_density_calls (sample_grav_no_density ℚ)
        [.new_std_density ECL_OIL_PHASE (4 / 5), .add_std_density ECL_OIL_PHASE 3 (13 / 20)]
        = .ok g ∧
      (∃ e, ecl_grav_add_std_density g ECL_GAS_PHASE 3 (1 / 2) = .error e) ∧
      ∃ g', ecl_grav_add_std_density g ECL_OIL_PHASE 3 (7 / 10) = .ok g' ∧
        ecl_grav_phase_alloc_std_density g' ECL_OIL_PHASE 3 = .ok (7 / 10) := by
  have hrun : run_density_calls (sample_grav_no_density ℚ)
      [.new_std_density ECL_OIL_PHASE (4 / 5), .add_std_density ECL_OIL_PHASE 3 (13 / 20)]
      = .ok { sample_grav_no_density ℚ with
          std_density := [("SOIL", { default_value := 4 / 5, overrides := [(3, 13 / 20)] })] } :=
    rfl
  have hgas := ecl_grav_add_std_density_fails_iff (sample_grav_no_density ℚ) _ _
    ECL_GAS_PHASE 3 (1 / 2) (Or.inr (Or.inl rfl)) rfl hrun
  have hoil := ecl_grav_add_std_density_fails_iff (sample_grav_no_density ℚ) _ _
    ECL_OIL_PHASE 3 (7 / 10) (Or.inl rfl) rfl hrun
  refine ⟨_, hrun, hgas.1.mpr ?_, ?_⟩
  · intro d hd
    simp [ECL_GAS_PHASE, ECL_OIL_PHASE] at hd
  · obtain ⟨g', h1, h2, _⟩ := hoil.2 ⟨4 / 5, by simp⟩
    exact ⟨g', h1, h2⟩

/-- A float keyword with at least `n` elements provides its elements as doubles. -/
theorem kw_doubles_of_float_data (file : ecl_file_type K) (name hd : String) (l : List K)
    (n : Nat) (hkw : ecl_file_iget_named_kw file name 0 = .ok ⟨hd, .float_data l⟩)
    (hn : n ≤ l.length) :
    kw_doubles file name n (fun i => l.getD i 0) := by
  refine ⟨_, hkw, fun i hi => ?_⟩
  unfold ecl_kw_iget_as_double
  simp only [List.getD_eq_getElem?_getD,
    List.getElem?_eq_getElem (Nat.lt_of_lt_of_le hi hn), Option.getD_some]

/-- An integer keyword with at least `n` elements provides its elements. -/
theorem kw_ints_of_int_data {F : Type} (file : ecl_file_type F) (name hd : String)
    (l : List Int)
    (n : Nat) (hkw : ecl_file_iget_named_kw file name 0 = .ok ⟨hd, .int_data l⟩)
    (hn : n ≤ l.length) :
    kw_ints file name n (fun i => l.getD i 0) := by
  refine ⟨_, hkw, fun i hi => ?_⟩
  unfold ecl_kw_iget_int
  simp only [List.getD_eq_getElem?_getD,
    List.getElem?_eq_getElem (Nat.lt_of_lt_of_le hi hn), Option.getD_some]

/-- A float keyword provides its elements at the indices that lie inside it. -/
theorem kw_floats_of_float_data (file : ecl_file_type K) (name hd : String) (l : List K)
    (n : Nat) (index : Nat → Nat)
    (hkw : ecl_file_iget_named_kw file name 0 = .ok ⟨hd, .float_data l⟩)
    (hn : ∀ i, i < n → index i < l.length) :
    kw_floats file name n index (fun j => l.getD j 0) := by
  refine ⟨_, hkw, fun i hi => ?_⟩
  unfold ecl_kw_iget_float
  simp only [List.getD_eq_getElem?_getD, List.getElem?_eq_getElem (hn i hi), Option.getD_some]

/-- The density lookup of the FIP strategy, case by case. -/
theorem ecl_grav_phase_alloc_std_density_cases {F : Type} (grav : ecl_grav_type F)
    (phase : ecl_phase_enum) (r : Int) (v : F)
    (h : ecl_grav_phase_alloc_std_density grav phase r = .ok v) :
    ∃ key vec, ecl_util_get_phase_name phase = .ok key ∧
      hash_get grav.std_density key = .ok vec ∧ v = double_vector_safe_iget vec r := by
  unfold ecl_grav_phase_alloc_std_density at h
  cases hk : ecl_util_get_phase_name phase with
  | error e => simp only [hk, bind, Except.bind] at h; cases h
  | ok key =>
    cases hv : hash_get grav.std_density key with
    | error e => simp only [hk, hv, bind, Except.bind] at h; cases h
    | ok vec =>
      simp only [hk, hv, bind, Except.bind, pure, Except.pure] at h
      exact ⟨key, vec, rfl, hv, (Except.ok.inj h).symm⟩

/-- Claim C13. FluidInPlace strategy: for the oil, gas or water phase, with `fip` the values
    of FIPOIL, FIPGAS or FIPWAT of the restart file, `pvtnum` the values of PVTNUM of the init
    file and `rho` the lookup of the standard-density table, `ecl_grav_phase_alloc` with
    `GRAV_CALC_FIP` returns a phase with `fluid_mass[i] = fip[i] * rho(pvtnum[i])` for every
    active index `i < size`. -/
theorem ecl_grav_phase_alloc_FIP (grav : ecl_grav_type K) (survey : ecl_grav_survey_type K)
    (phase : ecl_phase_enum) (restart : ecl_file_type K) (name : String)
    (fip : Nat → K) (pvtnum : Nat → Int) (rho : Int → K)
    (hname : (phase = ECL_OIL_PHASE ∧ name = "FIPOIL") ∨
      (phase = ECL_GAS_PHASE ∧ name = "FIPGAS") ∨ (phase = ECL_WATER_PHASE ∧ name = "FIPWAT"))
    (hfip : kw_doubles restart name grav.grid_cache.size fip)
    (hpvt : kw_ints grav.init_file "PVTNUM" grav.grid_cache.size pvtnum)
    (hlookup : ∀ r, ecl_grav_phase_alloc_std_density grav phase r = .ok (rho r)) :
    ∃ p, ecl_grav_phase_alloc grav survey phase restart GRAV_CALC_FIP = .ok p ∧
      p.phase = phase ∧ p.grid_cache = grav.grid_cache ∧
      p.fluid_mass.length = grav.grid_cache.size ∧
      ∀ i, i < grav.grid_cache.size → p.fluid_mass.getD i 0 = fip i * rho (pvtnum i) := by
  obtain ⟨key, vec, hkey, hvec, _⟩ := ecl_grav_phase_alloc_std_density_cases grav phase 0 _
    (hlookup 0)
  have hrho : ∀ r, rho r = double_vector_safe_iget vec r := by
    intro r
    obtain ⟨key', vec', hkey', hvec', hv⟩ :=
      ecl_grav_phase_alloc_std_density_cases grav phase r _ (hlookup r)
    rw [hkey] at hkey'
    cases hkey'
    rw [hvec] at hvec'
    cases hvec'
    exact hv
  refine ⟨_, ecl_grav_phase_alloc_FIP_eq grav survey phase restart name key fip pvtnum vec
    hname hkey hfip hpvt hvec, rfl, rfl, by simp, fun i hi => ?_⟩
  rw [getD_map_range _ _ _ _ hi, hrho]

/-- Claim C15. ReservoirFluidInPlace strategy: for the oil, gas or water phase, with `rho`
    the values of the reservoir-density keyword of the phase and `rfip` the values of
    RFIPOIL, RFIPGAS or RFIPWAT, both of the restart file, `ecl_grav_phase_alloc` with
    `GRAV_CALC_RFIP` returns a phase with `fluid_mass[i] = rho[i] * rfip[i]` for every active
    index `i < size`. -/
theorem ecl_grav_phase_alloc_RFIP (grav : ecl_grav_type K) (survey : ecl_grav_survey_type K)
    (phase : ecl_phase_enum) (restart : ecl_file_type K) (name den_name : String)
    (rho rfip : Nat → K)
    (hname : (phase = ECL_OIL_PHASE ∧ name = "RFIPOIL") ∨
      (phase = ECL_GAS_PHASE ∧ name = "RFIPGAS") ∨ (phase = ECL_WATER_PHASE ∧ name = "RFIPWAT"))
    (hden_name : get_den_kw phase (ecl_file_get_ecl_version grav.init_file) = .ok den_name)
    (hden : kw_doubles restart den_name grav.grid_cache.size rho)
    (hrfip : kw_doubles restart name grav.grid_cache.size rfip) :
    ∃ p, ecl_grav_phase_alloc grav survey phase restart GRAV_CALC_RFIP = .ok p ∧
      p.phase = phase ∧ p.grid_cache = grav.grid_cache ∧
      p.fluid_mass.length = grav.grid_cache.size ∧
      ∀ i, i < grav.grid_cache.size → p.fluid_mass.getD i 0 = rho i * rfip i := by
  refine ⟨_, ecl_grav_phase_alloc_RFIP_eq grav survey phase restart name den_name rho rfip
    hname hden_name hden hrfip, rfl, rfl, by simp, fun i hi => ?_⟩
  rw [getD_map_range _ _ _ _ hi]

/-- Witness of claim C13 on the sample data: FIPOIL = [10, 20], PVTNUM = [3, 5], oil density
    4/5 with 13/20 in region 3; the masses are 13/2 and 16. -/
theorem ecl_grav_phase_alloc_FIP_witness :
    (kw_doubles (sample_restart_file ℚ) "FIPOIL" (sample_grav ℚ).grid_cache.size
        (fun i => [10, 20].getD i 0) ∧
     kw_ints (sample_grav ℚ).init_file "PVTNUM" (sample_grav ℚ).grid_cache.size
        (fun i => [3, 5].getD i 0) ∧
     ∀ r, ecl_grav_phase_alloc_std_density (sample_grav ℚ) ECL_OIL_PHASE r
        = .ok (if r = 3 then 13 / 20 else 4 / 5)) ∧
    ∃ p, ecl_grav_phase_alloc (sample_grav ℚ) (sample_porv_survey ℚ) ECL_OIL_PHASE
        (sample_restart_file ℚ) GRAV_CALC_FIP = .ok p ∧
      p.fluid_mass.getD 0 0 = 13 / 2 ∧ p.fluid_mass.getD 1 0 = 16 := by
  have h1 : kw_doubles (sample_restart_file ℚ) "FIPOIL" (sample_grav ℚ).grid_cache.size
      (fun i => [10, 20].getD i 0) :=
    kw_doubles_of_float_data _ _ "FIPOIL" _ _ rfl (by decide)
  have h2 : kw_ints (sample_grav ℚ).init_file "PVTNUM" (sample_grav ℚ).grid_cache.size
      (fun i => [3, 5].getD i 0) :=
    kw_ints_of_int_data _ _ "PVTNUM" _ _ rfl (by decide)
  have h3 : ∀ r, ecl_grav_phase_alloc_std_density (sample_grav ℚ) ECL_OIL_PHASE r
      = .ok (if r = 3 then 13 / 20 else 4 / 5) := by
    intro r
    have hv : hash_get (sample_grav ℚ).std_density "SOIL"
        = .ok { default_value := 4 / 5, overrides := [(3, 13 / 20)] } := rfl
    unfold ecl_grav_phase_alloc_std_density
    simp only [show ecl_util_get_phase_name ECL_OIL_PHASE = .ok "SOIL" from rfl, hv, bind,
      Except.bind, pure, Except.pure, double_vector_safe_iget, List.lookup_cons, List.lookup_nil]
    by_cases hr : r = 3
    · subst hr; rfl
    · rw [if_neg hr, show (r == 3) = false from beq_false_of_ne hr]
  obtain ⟨p, hp, _, _, _, hm⟩ := ecl_grav_phase_alloc_FIP (sample_grav ℚ) (sample_porv_survey ℚ)
    ECL_OIL_PHASE (sample_restart_file ℚ) "FIPOIL" _ _ _ (Or.inl ⟨rfl, rfl⟩) h1 h2 h3
  refine ⟨⟨h1, h2, h3⟩, p, hp, ?_, ?_⟩
  · rw [hm 0 (by decide)]; norm_num
  · rw [hm 1 (by decide)]; norm_num

/-- Witness of claim C15 on the sample data: WAT_DEN = [1000, 1010], RFIPWAT = [51, 61]; the
    masses are 51000 and 61610. -/
theorem ecl_grav_phase_alloc_RFIP_witness :
    (get_den_kw ECL_WATER_PHASE (ecl_file_get_ecl_version (sample_grav ℚ).init_file)
        = .ok "WAT_DEN" ∧
     kw_doubles (sample_restart_file ℚ) "WAT_DEN" (sample_grav ℚ).grid_cache.size
        (fun i => [1000, 1010].getD i 0) ∧
     kw_doubles (sample_restart_file ℚ) "RFIPWAT" (sample_grav ℚ).grid_cache.size
        (fun i => [51, 61].getD i 0)) ∧
    ∃ p, ecl_grav_phase_alloc (sample_grav ℚ) (sample_porv_survey ℚ) ECL_WATER_PHASE
        (sample_restart_file ℚ) GRAV_CALC_RFIP = .ok p ∧
      p.fluid_mass.getD 0 0 = 51000 ∧ p.fluid_mass.getD 1 0 = 61610 := by
  have h1 : kw_doubles (sample_restart_file ℚ) "WAT_DEN" (sample_grav ℚ).grid_cache.size
      (fun i => [1000, 1010].getD i 0) :=
    kw_doubles_of_float_data _ _ "WAT_DEN" _ _ rfl (by decide)
  have h2 : kw_doubles (sample_restart_file ℚ) "RFIPWAT" (sample_grav ℚ).grid_cache.size
      (fun i => [51, 61].getD i 0) :=
    kw_doubles_of_float_data _ _ "RFIPWAT" _ _ rfl (by decide)
  obtain ⟨p, hp, _, _, _, hm⟩ := ecl_grav_phase_alloc_RFIP (sample_grav ℚ) (sample_porv_survey ℚ)
    ECL_WATER_PHASE (sample_restart_file ℚ) "RFIPWAT" "WAT_DEN" _ _
    (Or.inr (Or.inr ⟨rfl, rfl⟩)) rfl h1 h2
  refine ⟨⟨rfl, h1, h2⟩, p, hp, ?_, ?_⟩
  · rw [hm 0 (by decide)]; norm_num
  · rw [hm 1 (by decide)]; norm_num

/-- The FIP construction of a phase without entry in the density table fails, whatever the
    survey and the keywords. -/
theorem ecl_grav_phase_alloc_FIP_unregistered (grav : ecl_grav_type K)
    (sv : ecl_grav_survey_type K) (phase : ecl_phase_enum) (key : String)
    (restart : ecl_file_type K)
    (hkey : ecl_util_get_phase_name phase = .ok key)
    (hreg : hash_has_key grav.std_density key = false) :
    ∃ e, ecl_grav_phase_alloc grav sv phase restart GRAV_CALC_FIP = .error e := by
  have hget : hash_get grav.std_density key = .error (.util_abort "hash_get") := by
    unfold hash_has_key at hreg
    unfold hash_get
    cases hl : List.lookup key grav.std_density with
    | none => rfl
    | some v => rw [hl] at hreg; cases hreg
  unfold ecl_grav_phase_alloc
  simp only [hkey, hget, bind, Except.bind, pure, Except.pure, if_true]
  cases ecl_file_iget_named_kw grav.init_file "PVTNUM" 0 with
  | error e => exact ⟨e, rfl⟩
  | ok kw => exact ⟨_, rfl⟩

/-- Claim C14. Adding a FluidInPlace survey fails if some phase present in the init dataset
    has no entry in the density table; it succeeds, and stores the survey under its name,
    when every present phase has an entry and the keywords PVTNUM and, for every present
    phase, FIPOIL, FIPGAS or FIPWAT provide a value for every active cell. -/
theorem ecl_grav_add_survey_FIP_needs_densities (grav : ecl_grav_type K) (name : String)
    (restart : ecl_file_type K) :
    (∀ phase key,
      (phase = ECL_OIL_PHASE ∨ phase = ECL_GAS_PHASE ∨ phase = ECL_WATER_PHASE) →
      ecl_file_get_phases grav.init_file &&& phase ≠ 0 →
      ecl_util_get_phase_name phase = .ok key →
      hash_has_key grav.std_density key = false →
      ∃ e, ecl_grav_add_survey_FIP grav name restart = .error e) ∧
    ((∃ pvtnum, kw_ints grav.init_file "PVTNUM" grav.grid_cache.size pvtnum) →
     (∀ phase kw key,
      ((phase = ECL_OIL_PHASE ∧ kw = "FIPOIL" ∧ key = "SOIL") ∨
       (phase = ECL_GAS_PHASE ∧ kw = "FIPGAS" ∧ key = "SGAS") ∨
       (phase = ECL_WATER_PHASE ∧ kw = "FIPWAT" ∧ key = "SWAT")) →
      ecl_file_get_phases grav.init_file &&& phase ≠ 0 →
      (∃ fip, kw_doubles restart kw grav.grid_cache.size fip) ∧
        hash_has_key grav.std_density key = true) →
     ∃ g' s, ecl_grav_add_survey_FIP grav name restart = .ok (g', s) ∧
       ecl_grav_get_survey g' (some name) = .ok (some s)) := by
  constructor
  · intro phase key hphase hpresent hkey hreg
    obtain ⟨e, he⟩ := ecl_grav_survey_add_phases_error grav restart GRAV_CALC_FIP phase hphase
      hpresent (fun sv => ecl_grav_phase_alloc_FIP_unregistered grav sv phase key restart hkey hreg)
      (ecl_grav_survey_alloc_empty grav.grid_cache name GRAV_CALC_FIP)
    refine ⟨e, ?_⟩
    unfold ecl_grav_add_survey_FIP ecl_grav_survey_alloc_FIP
    simp only [he, bind, Except.bind]
  · rintro ⟨pvtnum, hpvt⟩ hall
    have hok : ∀ phase,
        phase = ECL_OIL_PHASE ∨ phase = ECL_GAS_PHASE ∨ phase = ECL_WATER_PHASE →
        ecl_file_get_phases grav.init_file &&& phase ≠ 0 →
        ∀ sv, sv.porv = (ecl_grav_survey_alloc_empty grav.grid_cache name GRAV_CALC_FIP).porv →
          ∃ p, ecl_grav_phase_alloc grav sv phase restart GRAV_CALC_FIP = .ok p := by
      intro phase hphase hpresent sv _
      obtain ⟨kw, key, htriple⟩ : ∃ kw key,
          (phase = ECL_OIL_PHASE ∧ kw = "FIPOIL" ∧ key = "SOIL") ∨
          (phase = ECL_GAS_PHASE ∧ kw = "FIPGAS" ∧ key = "SGAS") ∨
          (phase = ECL_WATER_PHASE ∧ kw = "FIPWAT" ∧ key = "SWAT") := by
        rcases hphase with h | h | h
        · exact ⟨_, _, Or.inl ⟨h, rfl, rfl⟩⟩
        · exact ⟨_, _, Or.inr (Or.inl ⟨h, rfl, rfl⟩)⟩
        · exact ⟨_, _, Or.inr (Or.inr ⟨h, rfl, rfl⟩)⟩
      obtain ⟨⟨fip, hfip⟩, hreg⟩ := hall phase kw key htriple hpresent
      have hkey : ecl_util_get_phase_name phase = .ok key := by
        rcases htriple with ⟨h1, _, h3⟩ | ⟨h1, _, h3⟩ | ⟨h1, _, h3⟩ <;> subst h1 h3 <;> rfl
      have hname : (phase = ECL_OIL_PHASE ∧ kw = "FIPOIL") ∨
          (phase = ECL_GAS_PHASE ∧ kw = "FIPGAS") ∨ (phase = ECL_WATER_PHASE ∧ kw = "FIPWAT") := by
        rcases htriple with ⟨h1, h2, _⟩ | ⟨h1, h2, _⟩ | ⟨h1, h2, _⟩
        · exact Or.inl ⟨h1, h2⟩
        · exact Or.inr (Or.inl ⟨h1, h2⟩)
        · exact Or.inr (Or.inr ⟨h1, h2⟩)
      obtain ⟨vec, hvec⟩ : ∃ vec, hash_get grav.std_density key = .ok vec := by
        unfold hash_has_key at hreg
        unfold hash_get
        cases hl : List.lookup key grav.std_density with
        | none => rw [hl] at hreg; cases hreg
        | some v => exact ⟨v, rfl⟩
      exact ⟨_, ecl_grav_phase_alloc_FIP_eq grav sv phase restart kw key fip pvtnum vec hname
        hkey hfip hpvt hvec⟩
    obtain ⟨s, hs⟩ := ecl_grav_survey_add_phases_ok grav restart GRAV_CALC_FIP
      (ecl_grav_survey_alloc_empty grav.grid_cache name GRAV_CALC_FIP) hok
    refine ⟨ecl_grav_add_survey__ grav name s, s, ?_, ?_⟩
    · unfold ecl_grav_add_survey_FIP ecl_grav_survey_alloc_FIP
      simp only [hs, bind, Except.bind, pure, Except.pure]
    · unfold ecl_grav_get_survey ecl_grav_add_survey__
      simp only [hash_has_key_insert, if_true]
      unfold hash_get
      rw [lookup_hash_insert]
      rfl

/-- Claim C16. Porosity based strategies: for a phase whose saturation keyword is in the
    restart file, with `rho` the values of its reservoir-density keyword, `sat` the values of
    its saturation keyword and `porv` the pore-volume array of the survey,
    `ecl_grav_phase_alloc` with `GRAV_CALC_RPORV` or `GRAV_CALC_PORMOD` returns a phase with
    `fluid_mass[i] = rho[i] * sat[i] * porv[i]` for every active index `i < size`. -/
theorem ecl_grav_phase_alloc_porv (grav : ecl_grav_type K) (survey : ecl_grav_survey_type K)
    (phase : ecl_phase_enum) (restart : ecl_file_type K) (calc_type : grav_calc_type)
    (key den_name : String) (porv : List K) (rho sat : Nat → K)
    (hcalc : calc_type = GRAV_CALC_RPORV ∨ calc_type = GRAV_CALC_PORMOD)
    (hkey : ecl_util_get_phase_name phase = .ok key)
    (hhas : ecl_file_has_kw restart key = true)
    (hsat : kw_doubles restart key grav.grid_cache.size sat)
    (hden_name : get_den_kw phase (ecl_file_get_ecl_version grav.init_file) = .ok den_name)
    (hden : kw_doubles restart den_name grav.grid_cache.size rho)
    (hporv : survey.porv = some porv) :
    ∃ p, ecl_grav_phase_alloc grav survey phase restart calc_type = .ok p ∧
      p.phase = phase ∧ p.grid_cache = grav.grid_cache ∧
      p.fluid_mass.length = grav.grid_cache.size ∧
      ∀ i, i < grav.grid_cache.size →
        p.fluid_mass.getD i 0 = rho i * sat i * porv.getD i 0 := by
  obtain ⟨sat_kw, hsk, hsr⟩ := hsat
  refine ⟨_, ecl_grav_phase_alloc_porv_eq grav survey phase restart calc_type key den_name
    sat_kw porv rho sat hcalc hkey hden_name hden
    ((ecl_grav_phase_alloc_sat_kw_explicit restart key hhas).trans hsk) hsr hporv,
    rfl, rfl, by simp, fun i hi => ?_⟩
  rw [getD_map_range _ _ _ _ hi]

/-- Claim C17. Residual-phase saturation: in the porosity based strategies, when the
    restart file has no saturation keyword for the phase being built (and has SWAT), the
    saturation used in cell `i` is `1 - SWAT[i]` when the file has no SGAS keyword and
    `1 - SWAT[i] - SGAS[i]` when it has one: the mass is the density times that saturation
    times the pore volume. -/
theorem ecl_grav_phase_alloc_residual (grav : ecl_grav_type K)
    (survey : ecl_grav_survey_type K) (phase : ecl_phase_enum) (restart : ecl_file_type K)
    (calc_type : grav_calc_type) (key den_name hd : String) (porv swat : List K)
    (sgas : Option (List K)) (rho : Nat → K)
    (hcalc : calc_type = GRAV_CALC_RPORV ∨ calc_type = GRAV_CALC_PORMOD)
    (hkey : ecl_util_get_phase_name phase = .ok key)
    (hhas : ecl_file_has_kw restart key = false)
    (hswat : ecl_file_iget_named_kw restart "SWAT" 0 = .ok ⟨hd, .float_data swat⟩)
    (hsize : grav.grid_cache.size ≤ swat.length)
    (hsgas : (sgas = none ∧ ecl_file_has_kw restart "SGAS" = false) ∨
      ∃ hd2 g, sgas = some g ∧ ecl_file_has_kw restart "SGAS" = true ∧
        ecl_file_iget_named_kw restart "SGAS" 0 = .ok ⟨hd2, .float_data g⟩ ∧
        g.length = swat.length)
    (hden_name : get_den_kw phase (ecl_file_get_ecl_version grav.init_file) = .ok den_name)
    (hden : kw_doubles restart den_name grav.grid_cache.size rho)
    (hporv : survey.porv = some porv) :
    ∃ p, ecl_grav_phase_alloc grav survey phase restart calc_type = .ok p ∧
      ∀ i, i < grav.grid_cache.size →
        (sgas = none →
          p.fluid_mass.getD i 0 = rho i * (1 - swat.getD i 0) * porv.getD i 0) ∧
        (∀ g, sgas = some g →
          p.fluid_mass.getD i 0 = rho i * (1 - swat.getD i 0 - g.getD i 0) * porv.getD i 0) := by
  rcases hsgas with ⟨hnone, hno⟩ | ⟨hd2, g, hsome, hyes, hg, hlen⟩
  · subst hnone
    refine ⟨_, ecl_grav_phase_alloc_porv_eq grav survey phase restart calc_type key den_name
      _ porv rho (fun i => 1 - swat.getD i 0) hcalc hkey hden_name hden
      (ecl_grav_phase_alloc_sat_kw_residual restart key hd swat hhas hswat hno)
      (fun i hi => iget_one_sub hd swat i (Nat.lt_of_lt_of_le hi hsize)) hporv,
      fun i hi => ⟨fun _ => ?_, fun g hg => Option.noConfusion hg⟩⟩
    rw [getD_map_range _ _ _ _ hi]
  · subst hsome
    refine ⟨_, ecl_grav_phase_alloc_porv_eq grav survey phase restart calc_type key den_name
      _ porv rho (fun i => 1 - swat.getD i 0 - g.getD i 0) hcalc hkey hden_name hden
      (ecl_grav_phase_alloc_sat_kw_residual_sgas restart key hd hd2 swat g hhas hswat hyes hg
        hlen)
      (fun i hi => iget_one_sub_sub hd swat g i (Nat.lt_of_lt_of_le hi hsize) hlen) hporv,
      fun i hi => ⟨fun hn => Option.noConfusion hn, fun g' hg' => ?_⟩⟩
    rw [← Option.some.inj hg', getD_map_range _ _ _ _ hi]

/-- Claim C18, amended. In the porosity based strategies every computed `fluid_mass[i]` is
    non-negative in each cell where the density, the pore volume and the saturation used
    for the phase (the value of its saturation keyword or, for a residual phase, the derived
    `1 - SWAT[i] - SGAS[i]`) are non-negative. -/
theorem ecl_grav_phase_alloc_porv_nonneg (grav : ecl_grav_type K)
    (survey : ecl_grav_survey_type K) (phase : ecl_phase_enum) (restart : ecl_file_type K)
    (calc_type : grav_calc_type) (key den_name : String) (sat_kw : ecl_kw_type K)
    (porv : List K) (rho sat : Nat → K)
    (hcalc : calc_type = GRAV_CALC_RPORV ∨ calc_type = GRAV_CALC_PORMOD)
    (hkey : ecl_util_get_phase_name phase = .ok key)
    (hden_name : get_den_kw phase (ecl_file_get_ecl_version grav.init_file) = .ok den_name)
    (hden : kw_doubles restart den_name grav.grid_cache.size rho)
    (hsat_kw : ecl_grav_phase_alloc_sat_kw restart key = .ok sat_kw)
    (hsat : ∀ i, i < grav.grid_cache.size → ecl_kw_iget_as_double sat_kw i = .ok (sat i))
    (hporv : survey.porv = some porv) :
    ∃ p, ecl_grav_phase_alloc grav survey phase restart calc_type = .ok p ∧
      ∀ i, i < grav.grid_cache.size → 0 ≤ rho i → 0 ≤ sat i → 0 ≤ porv.getD i 0 →
        0 ≤ p.fluid_mass.getD i 0 := by
  refine ⟨_, ecl_grav_phase_alloc_porv_eq grav survey phase restart calc_type key den_name
    sat_kw porv rho sat hcalc hkey hden_name hden hsat_kw hsat hporv,
    fun i hi h1 h2 h3 => ?_⟩
  rw [getD_map_range _ _ _ _ hi]
  exact mul_nonneg (mul_nonneg h1 h2) h3

/-- Witness of claim C14 on the sample data: with a density for oil only the survey is
    refused (gas is present), with densities for the three phases it is built and stored. -/
theorem ecl_grav_add_survey_FIP_needs_densities_witness :
    (∃ e, ecl_grav_add_survey_FIP (sample_grav_oil_density ℚ) "base" (sample_restart_file ℚ)
        = .error e) ∧
    ∃ g' s, ecl_grav_add_survey_FIP (sample_grav ℚ) "base" (sample_restart_file ℚ)
        = .ok (g', s) ∧
      ecl_grav_get_survey g' (some "base") = .ok (some s) := by
  constructor
  · exact (ecl_grav_add_survey_FIP_needs_densities (sample_grav_oil_density ℚ) "base"
      (sample_restart_file ℚ)).1 ECL_GAS_PHASE "SGAS" (Or.inr (Or.inl rfl)) (by decide) rfl rfl
  · refine (ecl_grav_add_survey_FIP_needs_densities (sample_grav ℚ) "base"
      (sample_restart_file ℚ)).2
      ⟨_, kw_ints_of_int_data _ _ "PVTNUM" [3, 5] _ rfl (by decide)⟩ ?_
    rintro phase kw key (⟨h1, h2, h3⟩ | ⟨h1, h2, h3⟩ | ⟨h1, h2, h3⟩) _ <;> subst h1 h2 h3
    · exact ⟨⟨_, kw_doubles_of_float_data _ _ "FIPOIL" [10, 20] _ rfl (by decide)⟩, rfl⟩
    · exact ⟨⟨_, kw_doubles_of_float_data _ _ "FIPGAS" [30, 40] _ rfl (by decide)⟩, rfl⟩
    · exact ⟨⟨_, kw_doubles_of_float_data _ _ "FIPWAT" [50, 60] _ rfl (by decide)⟩, rfl⟩

/-- Witness of claim C16 on the sample data: the water phase with WAT_DEN = [1000, 1010],
    SWAT = [1/4, 3/4] and pore volumes [100, 300]; the masses are 25000 and 227250. -/
theorem ecl_grav_phase_alloc_porv_witness :
    (ecl_file_has_kw (sample_restart_file ℚ) "SWAT" = true ∧
     kw_doubles (sample_restart_file ℚ) "SWAT" (sample_grav ℚ).grid_cache.size
        (fun i => [1 / 4, 3 / 4].getD i 0) ∧
     kw_doubles (sample_restart_file ℚ) "WAT_DEN" (sample_grav ℚ).grid_cache.size
        (fun i => [1000, 1010].getD i 0) ∧
     (sample_porv_survey ℚ).porv = some [100, 300]) ∧
    ∃ p, ecl_grav_phase_alloc (sample_grav ℚ) (sample_porv_survey ℚ) ECL_WATER_PHASE
        (sample_restart_file ℚ) GRAV_CALC_PORMOD = .ok p ∧
      p.fluid_mass.getD 0 0 = 25000 ∧ p.fluid_mass.getD 1 0 = 227250 := by
  have h1 : kw_doubles (sample_restart_file ℚ) "SWAT" (sample_grav ℚ).grid_cache.size
      (fun i => [1 / 4, 3 / 4].getD i 0) :=
    kw_doubles_of_float_data _ _ "SWAT" _ _ rfl (by decide)
  have h2 : kw_doubles (sample_restart_file ℚ) "WAT_DEN" (sample_grav ℚ).grid_cache.size
      (fun i => [1000, 1010].getD i 0) :=
    kw_doubles_of_float_data _ _ "WAT_DEN" _ _ rfl (by decide)
  obtain ⟨p, hp, _, _, _, hm⟩ := ecl_grav_phase_alloc_porv (sample_grav ℚ)
    (sample_porv_survey ℚ) ECL_WATER_PHASE (sample_restart_file ℚ) GRAV_CALC_PORMOD "SWAT"
    "WAT_DEN" [100, 300] _ _ (Or.inr rfl) rfl rfl h1 rfl h2 rfl
  refine ⟨⟨rfl, h1, h2, rfl⟩, p, hp, ?_, ?_⟩
  · rw [hm 0 (by decide)]; norm_num
  · rw [hm 1 (by decide)]; norm_num

/-- Witness of claim C17 on the sample data, which has SWAT = [1/4, 3/4], SGAS = [1/4, 1/2]
    and no SOIL keyword: the oil mass of cell 0 is `800 * (1 - 1/4 - 1/4) * 100 = 40000`. -/
theorem ecl_grav_phase_alloc_residual_witness :
    (ecl_file_has_kw (sample_restart_file ℚ) "SOIL" = false ∧
     ecl_file_iget_named_kw (sample_restart_file ℚ) "SWAT" 0
        = .ok ⟨"SWAT", .float_data [1 / 4, 3 / 4]⟩ ∧
     ecl_file_has_kw (sample_restart_file ℚ) "SGAS" = true ∧
     ecl_file_iget_named_kw (sample_restart_file ℚ) "SGAS" 0
        = .ok ⟨"SGAS", .float_data [1 / 4, 1 / 2]⟩ ∧
     kw_doubles (sample_restart_file ℚ) "OIL_DEN" (sample_grav ℚ).grid_cache.size
        (fun i => [800, 810].getD i 0)) ∧
    ∃ p, ecl_grav_phase_alloc (sample_grav ℚ) (sample_porv_survey ℚ) ECL_OIL_PHASE
        (sample_restart_file ℚ) GRAV_CALC_PORMOD = .ok p ∧
      p.fluid_mass.getD 0 0 = 800 * (1 - 1 / 4 - 1 / 4) * 100 ∧
      p.fluid_mass.getD 0 0 = 40000 := by
  have h1 : kw_doubles (sample_restart_file ℚ) "OIL_DEN" (sample_grav ℚ).grid_cache.size
      (fun i => [800, 810].getD i 0) :=
    kw_doubles_of_float_data _ _ "OIL_DEN" _ _ rfl (by decide)
  obtain ⟨p, hp, hm⟩ := ecl_grav_phase_alloc_residual (sample_grav ℚ)
    (sample_porv_survey ℚ) ECL_OIL_PHASE (sample_restart_file ℚ) GRAV_CALC_PORMOD "SOIL"
    "OIL_DEN" "SWAT" [100, 300] [1 / 4, 3 / 4] (some [1 / 4, 1 / 2]) _ (Or.inr rfl) rfl rfl rfl
    (by decide) (Or.inr ⟨"SGAS", _, rfl, rfl, rfl, rfl⟩) rfl h1 rfl
  have h0 := (hm 0 (by decide)).2 _ rfl
  refine ⟨⟨rfl, rfl, rfl, rfl, h1⟩, p, hp, ?_, ?_⟩
  · rw [h0]; norm_num
  · rw [h0]; norm_num

/-- The private saturation keyword of the oil phase of the sample restart file. -/
theorem sample_residual_sat_kw :
    ecl_grav_phase_alloc_sat_kw (sample_restart_file ℚ) "SOIL"
      = .ok ⟨"SWAT", .float_data (List.zipWith (fun x y => x - y)
          (List.zipWith (fun x y => x - y) ([1 / 4, 3 / 4].map (fun _ => 1.0)) [1 / 4, 3 / 4])
          [1 / 4, 1 / 2])⟩ :=
  ecl_grav_phase_alloc_sat_kw_residual_sgas (sample_restart_file ℚ) "SOIL" "SWAT" "SGAS"
    [1 / 4, 3 / 4] [1 / 4, 1 / 2] rfl rfl rfl rfl rfl

/-- Witness of claim C18 (amended) on the sample data: in cell 0 the oil density 800, the
    derived oil saturation 1/2 and the pore volume 100 are non-negative, and so is the oil
    mass. -/
theorem ecl_grav_phase_alloc_porv_nonneg_witness :
    (kw_doubles (sample_restart_file ℚ) "OIL_DEN" (sample_grav ℚ).grid_cache.size
        (fun i => [800, 810].getD i 0) ∧
     (∀ i, i < (sample_grav ℚ).grid_cache.size →
        ecl_kw_iget_as_double
          (⟨"SWAT", .float_data (List.zipWith (fun x y => x - y)
            (List.zipWith (fun x y => x - y) ([1 / 4, 3 / 4].map (fun _ => 1.0)) [1 / 4, 3 / 4])
            [1 / 4, 1 / 2])⟩ : ecl_kw_type ℚ) i
          = .ok (1 - [1 / 4, 3 / 4].getD i 0 - [1 / 4, 1 / 2].getD i 0))) ∧
    ∃ p, ecl_grav_phase_alloc (sample_grav ℚ) (sample_porv_survey ℚ) ECL_OIL_PHASE
        (sample_restart_file ℚ) GRAV_CALC_PORMOD = .ok p ∧
      0 ≤ p.fluid_mass.getD 0 0 := by
  have h1 : kw_doubles (sample_restart_file ℚ) "OIL_DEN" (sample_grav ℚ).grid_cache.size
      (fun i => [800, 810].getD i 0) :=
    kw_doubles_of_float_data _ _ "OIL_DEN" _ _ rfl (by decide)
  have h2 : ∀ i, i < (sample_grav ℚ).grid_cache.size →
      ecl_kw_iget_as_double
        (⟨"SWAT", .float_data (List.zipWith (fun x y => x - y)
          (List.zipWith (fun x y => x - y) ([1 / 4, 3 / 4].map (fun _ => 1.0)) [1 / 4, 3 / 4])
          [1 / 4, 1 / 2])⟩ : ecl_kw_type ℚ) i
        = .ok (1 - [1 / 4, 3 / 4].getD i 0 - [1 / 4, 1 / 2].getD i 0) :=
    fun i hi => iget_one_sub_sub "SWAT" [1 / 4, 3 / 4] [1 / 4, 1 / 2] i hi rfl
  obtain ⟨p, hp, hm⟩ := ecl_grav_phase_alloc_porv_nonneg (sample_grav ℚ)
    (sample_porv_survey ℚ) ECL_OIL_PHASE (sample_restart_file ℚ) GRAV_CALC_PORMOD "SOIL"
    "OIL_DEN" _ [100, 300] _ _ (Or.inr rfl) rfl rfl h1 sample_residual_sat_kw h2 rfl
  exact ⟨⟨h1, h2⟩, p, hp, hm 0 (by decide) (by norm_num) (by norm_num) (by norm_num)⟩

/-- Claim C18 as stated fails for a residual phase: in the sample data every density,
    saturation-keyword and pore-volume value is non-negative, but in cell 1 the water and gas
    saturations are 3/4 and 1/2, the derived oil saturation is `1 - 3/4 - 1/2 = -1/4` and the
    oil mass is `810 * (-1/4) * 300 = -60750`. -/
theorem ecl_grav_phase_alloc_porv_nonneg_counterexample :
    ecl_file_iget_named_kw (sample_restart_file ℚ) "SWAT" 0
        = .ok ⟨"SWAT", .float_data [1 / 4, 3 / 4]⟩ ∧
    ecl_file_iget_named_kw (sample_restart_file ℚ) "SGAS" 0
        = .ok ⟨"SGAS", .float_data [1 / 4, 1 / 2]⟩ ∧
    ecl_file_iget_named_kw (sample_restart_file ℚ) "OIL_DEN" 0
        = .ok ⟨"OIL_DEN", .float_data [800, 810]⟩ ∧
    (sample_porv_survey ℚ).porv = some [100, 300] ∧
    ∃ p, ecl_grav_phase_alloc (sample_grav ℚ) (sample_porv_survey ℚ) ECL_OIL_PHASE
        (sample_restart_file ℚ) GRAV_CALC_PORMOD = .ok p ∧
      p.fluid_mass.getD 1 0 = -60750 ∧ p.fluid_mass.getD 1 0 < 0 := by
  have h1 : kw_doubles (sample_restart_file ℚ) "OIL_DEN" (sample_grav ℚ).grid_cache.size
      (fun i => [800, 810].getD i 0) :=
    kw_doubles_of_float_data _ _ "OIL_DEN" _ _ rfl (by decide)
  have hp := ecl_grav_phase_alloc_porv_eq (sample_grav ℚ) (sample_porv_survey ℚ)
    ECL_OIL_PHASE (sample_restart_file ℚ) GRAV_CALC_PORMOD "SOIL" "OIL_DEN" _ [100, 300]
    _ (fun i => 1 - [1 / 4, 3 / 4].getD i 0 - [1 / 4, 1 / 2].getD i 0) (Or.inr rfl) rfl rfl h1
    sample_residual_sat_kw
    (fun i hi => iget_one_sub_sub "SWAT" [1 / 4, 3 / 4] [1 / 4, 1 / 2] i hi rfl) rfl
  have hv : ((List.range (sample_grav ℚ).grid_cache.size).map
      (fun i => [800, 810].getD i 0 *
        (1 - [1 / 4, 3 / 4].getD i 0 - [1 / 4, 1 / 2].getD i 0) *
        [100, 300].getD i (0 : ℚ))).getD 1 0 = -60750 := by
    rw [getD_map_range _ _ _ _ (by decide)]
    norm_num
  refine ⟨rfl, rfl, rfl, rfl, _, hp, hv, ?_⟩
  rw [hv]
  norm_num

/-- Claim C19. `get_den_kw` is the table ECLIPSE100: oil, gas, water give OIL_DEN, GAS_DEN,
    WAT_DEN; ECLIPSE300: oil, gas, water give DENO, DENG, DENW; every other pair of a version
    and a phase is a fatal error; the six keyword names are pairwise distinct. -/
theorem get_den_kw_table :
    get_den_kw ECL_OIL_PHASE ECLIPSE100 = .ok "OIL_DEN" ∧
    get_den_kw ECL_GAS_PHASE ECLIPSE100 = .ok "GAS_DEN" ∧
    get_den_kw ECL_WATER_PHASE ECLIPSE100 = .ok "WAT_DEN" ∧
    get_den_kw ECL_OIL_PHASE ECLIPSE300 = .ok "DENO" ∧
    get_den_kw ECL_GAS_PHASE ECLIPSE300 = .ok "DENG" ∧
    get_den_kw ECL_WATER_PHASE ECLIPSE300 = .ok "DENW" ∧
    (∀ phase ecl_version,
      ¬ ((ecl_version = ECLIPSE100 ∨ ecl_version = ECLIPSE300) ∧
         (phase = ECL_OIL_PHASE ∨ phase = ECL_GAS_PHASE ∨ phase = ECL_WATER_PHASE)) →
      get_den_kw phase ecl_version = .error (.util_abort "get_den_kw")) ∧
    [ECLIPSE100_OIL_DEN_KW, ECLIPSE100_GAS_DEN_KW, ECLIPSE100_WATER_DEN_KW,
      ECLIPSE300_OIL_DEN_KW, ECLIPSE300_GAS_DEN_KW, ECLIPSE300_WATER_DEN_KW].Nodup := by
  refine ⟨rfl, rfl, rfl, rfl, rfl, rfl, ?_, by decide⟩
  intro phase ecl_version h
  unfold get_den_kw
  by_cases h1 : ecl_version = ECLIPSE100
  · have hp : ¬ (phase = ECL_OIL_PHASE ∨ phase = ECL_GAS_PHASE ∨ phase = ECL_WATER_PHASE) :=
      fun hp => h ⟨Or.inl h1, hp⟩
    rw [if_pos h1, if_neg (fun e => hp (Or.inl e)), if_neg (fun e => hp (Or.inr (Or.inl e))),
      if_neg (fun e => hp (Or.inr (Or.inr e)))]
  · by_cases h2 : ecl_version = ECLIPSE300
    · have hp : ¬ (phase = ECL_OIL_PHASE ∨ phase = ECL_GAS_PHASE ∨ phase = ECL_WATER_PHASE) :=
        fun hp => h ⟨Or.inr h2, hp⟩
      rw [if_neg h1, if_pos h2, if_neg (fun e => hp (Or.inl e)),
        if_neg (fun e => hp (Or.inr (Or.inl e))), if_neg (fun e => hp (Or.inr (Or.inr e)))]
    · rw [if_neg h1, if_neg h2]

/-- Witness of claim C19: the phase id 8 is no phase of ECLIPSE100, the version id 3 is no
    version; both pairs are fatal errors. -/
theorem get_den_kw_table_witness :
    get_den_kw 8 ECLIPSE100 = .error (.util_abort "get_den_kw") ∧
    get_den_kw ECL_OIL_PHASE 3 = .error (.util_abort "get_den_kw") :=
  ⟨get_den_kw_table.2.2.2.2.2.2.1 8 ECLIPSE100 (by decide),
   get_den_kw_table.2.2.2.2.2.2.1 ECL_OIL_PHASE 3 (by decide)⟩

/-- Claim C20. PORMOD pore volume: with `pormod` the values of PORV_MOD of the restart file
    at the active indices and `porv` the values of PORV of the init file at the global
    indices of the grid cache, and when the phases can be built, the survey returned by
    `ecl_grav_survey_alloc_PORMOD` has a pore-volume array of length `size` with
    `porv[a] = pormod[a] * porv[global_index[a]]` for every active index `a < size`. -/
theorem ecl_grav_survey_alloc_PORMOD_porv (grav : ecl_grav_type K) (restart : ecl_file_type K)
    (name : String) (pormod porv : Nat → K)
    (hmod : kw_floats restart "PORV_MOD" grav.grid_cache.size (fun a => a) pormod)
    (hporv : kw_floats grav.init_file "PORV" grav.grid_cache.size
      (fun a => grav.grid_cache.global_index.getD a 0) porv)
    (hphases : ∀ sv : ecl_grav_survey_type K, sv.porv ≠ none →
      ∃ s, ecl_grav_survey_add_phases grav sv restart GRAV_CALC_PORMOD = .ok s) :
    ∃ s l, ecl_grav_survey_alloc_PORMOD grav restart name = .ok s ∧
      s.porv = some l ∧ l.length = grav.grid_cache.size ∧
      ∀ a, a < grav.grid_cache.size →
        l.getD a 0 = pormod a * porv (grav.grid_cache.global_index.getD a 0) := by
  have heq := ecl_grav_survey_alloc_PORMOD_eq grav restart name pormod porv hmod hporv
  obtain ⟨s, hs⟩ := hphases
    { ecl_grav_survey_alloc_empty grav.grid_cache name GRAV_CALC_PORMOD with
      porv := some ((List.range grav.grid_cache.size).map
        (fun a => pormod a * porv (grav.grid_cache.global_index.getD a 0))) }
    (fun h => Option.noConfusion h)
  refine ⟨s, _, heq.trans hs,
    (ecl_grav_survey_add_phases_frame grav restart GRAV_CALC_PORMOD _ s hs).1, by simp,
    fun a ha => getD_map_range _ _ _ _ ha⟩

/-- On the sample data the phases of a survey with a pore-volume array can be built. -/
theorem sample_add_phases_ok (sv : ecl_grav_survey_type ℚ) (hsv : sv.porv ≠ none) :
    ∃ s, ecl_grav_survey_add_phases (sample_grav ℚ) sv (sample_restart_file ℚ)
      GRAV_CALC_PORMOD = .ok s := by
  obtain ⟨l, hl⟩ : ∃ l, sv.porv = some l := by
    cases h : sv.porv with
    | none => exact absurd h hsv
    | some l => exact ⟨l, rfl⟩
  refine ecl_grav_survey_add_phases_ok (sample_grav ℚ) (sample_restart_file ℚ)
    GRAV_CALC_PORMOD sv (fun phase hphase _ sv' hsv' => ?_)
  have hl' : sv'.porv = some l := hsv'.trans hl
  rcases hphase with h | h | h <;> subst h
  · exact ⟨_, ecl_grav_phase_alloc_porv_eq (sample_grav ℚ) sv' ECL_OIL_PHASE
      (sample_restart_file ℚ) GRAV_CALC_PORMOD "SOIL" "OIL_DEN" _ l _
      (fun i => 1 - [1 / 4, 3 / 4].getD i 0 - [1 / 4, 1 / 2].getD i 0) (Or.inr rfl) rfl rfl
      (kw_doubles_of_float_data _ _ "OIL_DEN" [800, 810] _ rfl (by decide))
      sample_residual_sat_kw
      (fun i hi => iget_one_sub_sub "SWAT" [1 / 4, 3 / 4] [1 / 4, 1 / 2] i hi rfl) hl'⟩
  · obtain ⟨kw, hk, hr⟩ := kw_doubles_of_float_data (sample_restart_file ℚ) "SGAS" "SGAS"
      [1 / 4, 1 / 2] (sample_grav ℚ).grid_cache.size rfl (by decide)
    exact ⟨_, ecl_grav_phase_alloc_porv_eq (sample_grav ℚ) sv' ECL_GAS_PHASE
      (sample_restart_file ℚ) GRAV_CALC_PORMOD "SGAS" "GAS_DEN" kw l _ _ (Or.inr rfl) rfl rfl
      (kw_doubles_of_float_data _ _ "GAS_DEN" [1, 2] _ rfl (by decide))
      ((ecl_grav_phase_alloc_sat_kw_explicit (sample_restart_file ℚ) "SGAS" rfl).trans hk) hr hl'⟩
  · obtain ⟨kw, hk, hr⟩ := kw_doubles_of_float_data (sample_restart_file ℚ) "SWAT" "SWAT"
      [1 / 4, 3 / 4] (sample_grav ℚ).grid_cache.size rfl (by decide)
    exact ⟨_, ecl_grav_phase_alloc_porv_eq (sample_grav ℚ) sv' ECL_WATER_PHASE
      (sample_restart_file ℚ) GRAV_CALC_PORMOD "SWAT" "WAT_DEN" kw l _ _ (Or.inr rfl) rfl rfl
      (kw_doubles_of_float_data _ _ "WAT_DEN" [1000, 1010] _ rfl (by decide))
      ((ecl_grav_phase_alloc_sat_kw_explicit (sample_restart_file ℚ) "SWAT" rfl).trans hk) hr hl'⟩

/-- Witness of claim C20 on the sample data: PORV_MOD = [1, 3/2] at the active indices 0, 1
    and PORV = [100, 0, 200] at the global indices 0, 2 give the pore volumes 100 and 300. -/
theorem ecl_grav_survey_alloc_PORMOD_porv_witness :
    (kw_floats (sample_restart_file ℚ) "PORV_MOD" (sample_grav ℚ).grid_cache.size (fun a => a)
        (fun j => [1, 3 / 2].getD j 0) ∧
     kw_floats (sample_grav ℚ).init_file "PORV" (sample_grav ℚ).grid_cache.size
        (fun a => (sample_grav ℚ).grid_cache.global_index.getD a 0)
        (fun j => [100, 0, 200].getD j 0)) ∧
    ∃ s l, ecl_grav_survey_alloc_PORMOD (sample_grav ℚ) (sample_restart_file ℚ) "base" = .ok s ∧
      s.porv = some l ∧ l.getD 0 0 = 100 ∧ l.getD 1 0 = 300 := by
  have h1 : kw_floats (sample_restart_file ℚ) "PORV_MOD" (sample_grav ℚ).grid_cache.size
      (fun a => a) (fun j => [1, 3 / 2].getD j 0) :=
    kw_floats_of_float_data _ _ "PORV_MOD" _ _ _ rfl (fun i hi => hi)
  have h2 : kw_floats (sample_grav ℚ).init_file "PORV" (sample_grav ℚ).grid_cache.size
      (fun a => (sample_grav ℚ).grid_cache.global_index.getD a 0)
      (fun j => [100, 0, 200].getD j 0) :=
    kw_floats_of_float_data _ _ "PORV" _ _ _ rfl (fun i hi => by
      have hi2 : i < 2 := hi
      interval_cases i <;> decide)
  obtain ⟨s, l, hs, hl, _, hv⟩ := ecl_grav_survey_alloc_PORMOD_porv (sample_grav ℚ)
    (sample_restart_file ℚ) "base" _ _ h1 h2 sample_add_phases_ok
  refine ⟨⟨h1, h2⟩, s, l, hs, hl, ?_, ?_⟩
  · rw [hv 0 (by decide)]
    norm_num [sample_grav, sample_grid_cache]
  · rw [hv 1 (by decide)]
    norm_num [sample_grav, sample_grid_cache]

/-- The count of valid samples after one more call of `rand()`. -/
theorem rporv_valid_count_succ (rand : Nat → Nat) (size : Nat) (static : Nat → K) (n : Nat) :
    rporv_valid_count rand size static (n + 1) =
      rporv_valid_count rand size static n +
        (if 0 < static (rand n % size) then 1 else 0) := by
  unfold rporv_valid_count
  rw [List.range_succ, List.countP_append, List.countP_cons, List.countP_nil]
  simp

/-- The count of valid samples grows with the number of calls. -/
theorem rporv_valid_count_mono (rand : Nat → Nat) (size : Nat) (static : Nat → K)
    {m n : Nat} (h : m ≤ n) :
    rporv_valid_count rand size static m ≤ rporv_valid_count rand size static n := by
  induction n with
  | zero =>
    have : m = 0 := Nat.le_zero.mp h
    subst this
    exact Nat.le_refl _
  | succ n ih =>
    rcases Nat.eq_or_lt_of_le h with h1 | h1
    · subst h1
      exact Nat.le_refl _
    · rw [rporv_valid_count_succ]
      exact Nat.le_trans (ih (Nat.lt_succ_iff.mp h1)) (Nat.le_add_right _ _)

/-- One iteration of the loop of the sanity check on a sample. The static pore volume of
    the cell decides whether the sample is compared. -/
theorem ecl_grav_survey_assert_RPORV_loop_step (log10 : K → K) (rand : Nat → Nat)
    (survey : ecl_grav_survey_type K) (kw : ecl_kw_type K) (size points : Nat)
    (static : Nat → K) (porv : List K) (hsize : 0 < size)
    (hinit : ∀ a, a < size →
      ecl_kw_iget_as_double kw (survey.grid_cache.global_index.getD a 0) = .ok (static a))
    (hporv : survey.porv = some porv) (fuel r c : Nat) (hc : c < points) :
    ecl_grav_survey_assert_RPORV_loop log10 rand survey kw size points (fuel + 1) r c =
      if 0 < static (rand r % size) then
        if ecl_grav_survey_assert_RPORV_error log10 (static (rand r % size))
            (porv.getD (rand r % size) 0) then
          some (.error (.exit1 "ecl_grav_survey_assert_RPORV"))
        else
          ecl_grav_survey_assert_RPORV_loop log10 rand survey kw size points fuel (r + 1) (c + 1)
      else
        ecl_grav_survey_assert_RPORV_loop log10 rand survey kw size points fuel (r + 1) c := by
  rw [ecl_grav_survey_assert_RPORV_loop]
  simp only [hc, if_true, Nat.ne_of_gt hsize, if_false, hinit _ (Nat.mod_lt _ hsize), hporv,
    gt_iff_lt]

/-- The loop is left at once when `check_nr` has reached `check_points`. -/
theorem ecl_grav_survey_assert_RPORV_loop_done (log10 : K → K) (rand : Nat → Nat)
    (survey : ecl_grav_survey_type K) (kw : ecl_kw_type K) (size points : Nat)
    (fuel r c : Nat) (hc : ¬ c < points) :
    ecl_grav_survey_assert_RPORV_loop log10 rand survey kw size points fuel r c
      = some (.ok r) := by
  cases fuel with
  | zero => rw [ecl_grav_survey_assert_RPORV_loop]; simp only [hc, if_false]
  | succ fuel => rw [ecl_grav_survey_assert_RPORV_loop]; simp only [hc, if_false]

/-- The loop ends with `exit(1)` when a sample that is reached before `check_points`
    valid samples have been seen fails the test. -/
theorem ecl_grav_survey_assert_RPORV_loop_error (log10 : K → K) (rand : Nat → Nat)
    (survey : ecl_grav_survey_type K) (kw : ecl_kw_type K) (size points : Nat)
    (static : Nat → K) (porv : List K) (hsize : 0 < size)
    (hinit : ∀ a, a < size →
      ecl_kw_iget_as_double kw (survey.grid_cache.global_index.getD a 0) = .ok (static a))
    (hporv : survey.porv = some porv) :
    ∀ fuel r, (∃ k, r ≤ k ∧ k < r + fuel ∧ 0 < static (rand k % size) ∧
        ecl_grav_survey_assert_RPORV_error log10 (static (rand k % size))
          (porv.getD (rand k % size) 0) = true ∧
        rporv_valid_count rand size static k < points) →
      ecl_grav_survey_assert_RPORV_loop log10 rand survey kw size points fuel r
        (rporv_valid_count rand size static r)
        = some (.error (.exit1 "ecl_grav_survey_assert_RPORV")) := by
  intro fuel
  induction fuel with
  | zero =>
    rintro r ⟨k, h1, h2, _⟩
    omega
  | succ fuel ih =>
    rintro r ⟨k, hrk, hk, hvalid, herr, hcnt⟩
    have hc : rporv_valid_count rand size static r < points :=
      Nat.lt_of_le_of_lt (rporv_valid_count_mono rand size static hrk) hcnt
    rw [ecl_grav_survey_assert_RPORV_loop_step log10 rand survey kw size points static porv
      hsize hinit hporv fuel r _ hc]
    by_cases hv : 0 < static (rand r % size)
    · rw [if_pos hv]
      by_cases he : ecl_grav_survey_assert_RPORV_error log10 (static (rand r % size))
          (porv.getD (rand r % size) 0) = true
      · rw [if_pos he]
      · rw [if_neg he]
        have hne : k ≠ r := fun h => he (h ▸ herr)
        have hs : rporv_valid_count rand size static (r + 1)
            = rporv_valid_count rand size static r + 1 := by
          rw [rporv_valid_count_succ, if_pos hv]
        rw [← hs]
        exact ih (r + 1) ⟨k, by omega, by omega, hvalid, herr, hcnt⟩
    · rw [if_neg hv]
      have hne : k ≠ r := fun h => hv (h ▸ hvalid)
      have hs : rporv_valid_count rand size static (r + 1)
          = rporv_valid_count rand size static r := by
        rw [rporv_valid_count_succ, if_neg hv, Nat.add_zero]
      rw [← hs]
      exact ih (r + 1) ⟨k, by omega, by omega, hvalid, herr, hcnt⟩

/-- The loop returns after `n` calls of `rand()` when the call `n` is the first at which
    `check_points` valid samples have been seen and every valid sample passed the test. -/
theorem ecl_grav_survey_assert_RPORV_loop_ok (log10 : K → K) (rand : Nat → Nat)
    (survey : ecl_grav_survey_type K) (kw : ecl_kw_type K) (size points : Nat)
    (static : Nat → K) (porv : List K) (hsize : 0 < size)
    (hinit : ∀ a, a < size →
      ecl_kw_iget_as_double kw (survey.grid_cache.global_index.getD a 0) = .ok (static a))
    (hporv : survey.porv = some porv) :
    ∀ fuel r n, r ≤ n → n ≤ r + fuel →
      rporv_valid_count rand size static n = points →
      (∀ m, r ≤ m → m < n → rporv_valid_count rand size static m < points) →
      (∀ k, r ≤ k → k < n → 0 < static (rand k % size) →
        ecl_grav_survey_assert_RPORV_error log10 (static (rand k % size))
          (porv.getD (rand k % size) 0) = false) →
      ecl_grav_survey_assert_RPORV_loop log10 rand survey kw size points fuel r
        (rporv_valid_count rand size static r) = some (.ok n) := by
  intro fuel
  induction fuel with
  | zero =>
    intro r n h1 h2 hn _ _
    have : n = r := by omega
    subst this
    exact ecl_grav_survey_assert_RPORV_loop_done log10 rand survey kw size points 0 n _
      (by omega)
  | succ fuel ih =>
    intro r n h1 h2 hn hmin hpass
    by_cases hrn : n = r
    · subst hrn
      exact ecl_grav_survey_assert_RPORV_loop_done log10 rand survey kw size points _ n _
        (by omega)
    · have hc := hmin r (Nat.le_refl r) (by omega)
      rw [ecl_grav_survey_assert_RPORV_loop_step log10 rand survey kw size points static porv
        hsize hinit hporv fuel r _ hc]
      by_cases hv : 0 < static (rand r % size)
      · have he := hpass r (Nat.le_refl r) (by omega) hv
        rw [if_pos hv, he]
        have hs : rporv_valid_count rand size static (r + 1)
            = rporv_valid_count rand size static r + 1 := by
          rw [rporv_valid_count_succ, if_pos hv]
        simp only [Bool.false_eq_true, if_false]
        rw [← hs]
        exact ih (r + 1) n (by omega) (by omega) hn
          (fun m hm1 hm2 => hmin m (by omega) hm2)
          (fun k hk1 hk2 => hpass k (by omega) hk2)
      · rw [if_neg hv]
        have hs : rporv_valid_count rand size static (r + 1)
            = rporv_valid_count rand size static r := by
          rw [rporv_valid_count_succ, if_neg hv, Nat.add_zero]
        rw [← hs]
        exact ih (r + 1) n (by omega) (by omega) hn
          (fun m hm1 hm2 => hmin m (by omega) hm2)
          (fun k hk1 hk2 => hpass k (by omega) hk2)

/-- What a run of the loop that returns has done: it stopped at the first call at which
    `check_points` valid samples had been seen, and every valid sample passed the test. -/
theorem ecl_grav_survey_assert_RPORV_loop_ok_inv (log10 : K → K) (rand : Nat → Nat)
    (survey : ecl_grav_survey_type K) (kw : ecl_kw_type K) (size points : Nat)
    (static : Nat → K) (porv : List K) (hsize : 0 < size)
    (hinit : ∀ a, a < size →
      ecl_kw_iget_as_double kw (survey.grid_cache.global_index.getD a 0) = .ok (static a))
    (hporv : survey.porv = some porv) :
    ∀ fuel r n, rporv_valid_count rand size static r ≤ points →
      ecl_grav_survey_assert_RPORV_loop log10 rand survey kw size points fuel r
        (rporv_valid_count rand size static r) = some (.ok n) →
      r ≤ n ∧ rporv_valid_count rand size static n = points ∧
      (∀ m, r ≤ m → m < n → rporv_valid_count rand size static m < points) ∧
      (∀ k, r ≤ k → k < n → 0 < static (rand k % size) →
        ecl_grav_survey_assert_RPORV_error log10 (static (rand k % size))
          (porv.getD (rand k % size) 0) = false) := by
  intro fuel
  induction fuel with
  | zero =>
    intro r n hle h
    rw [ecl_grav_survey_assert_RPORV_loop] at h
    by_cases hc : rporv_valid_count rand size static r < points
    · rw [if_pos hc] at h
      cases h
    · rw [if_neg hc] at h
      have hn : r = n := Except.ok.inj (Option.some.inj h)
      subst hn
      exact ⟨Nat.le_refl _, by omega, fun m h1 h2 => by omega, fun k h1 h2 => by omega⟩
  | succ fuel ih =>
    intro r n hle h
    by_cases hc : rporv_valid_count rand size static r < points
    · rw [ecl_grav_survey_assert_RPORV_loop_step log10 rand survey kw size points static porv
        hsize hinit hporv fuel r _ hc] at h
      by_cases hv : 0 < static (rand r % size)
      · rw [if_pos hv] at h
        cases he : ecl_grav_survey_assert_RPORV_error log10 (static (rand r % size))
            (porv.getD (rand r % size) 0) with
        | true =>
          rw [he, if_pos rfl] at h
          cases h
        | false =>
          rw [he] at h
          simp only [Bool.false_eq_true, if_false] at h
          have hs : rporv_valid_count rand size static (r + 1)
              = rporv_valid_count rand size static r + 1 := by
            rw [rporv_valid_count_succ, if_pos hv]
          rw [← hs] at h
          obtain ⟨i1, i2, i3, i4⟩ := ih (r + 1) n (by omega) h
          refine ⟨by omega, i2, fun m h1 h2 => ?_, fun k h1 h2 hk => ?_⟩
          · by_cases hm : m = r
            · subst hm; exact hc
            · exact i3 m (by omega) h2
          · by_cases hk' : k = r
            · subst hk'; exact he
            · exact i4 k (by omega) h2 hk
      · rw [if_neg hv] at h
        have hs : rporv_valid_count rand size static (r + 1)
            = rporv_valid_count rand size static r := by
          rw [rporv_valid_count_succ, if_neg hv, Nat.add_zero]
        rw [← hs] at h
        obtain ⟨i1, i2, i3, i4⟩ := ih (r + 1) n (by omega) h
        refine ⟨by omega, i2, fun m h1 h2 => ?_, fun k h1 h2 hk => ?_⟩
        · by_cases hm : m = r
          · subst hm; exact hc
          · exact i3 m (by omega) h2
        · by_cases hk' : k = r
          · subst hk'; exact absurd hk hv
          · exact i4 k (by omega) h2 hk
    · rw [ecl_grav_survey_assert_RPORV_loop_done log10 rand survey kw size points _ r _ hc] at h
      have hn : r = n := Except.ok.inj (Option.some.inj h)
      subst hn
      exact ⟨Nat.le_refl _, by omega, fun m h1 h2 => by omega, fun k h1 h2 => by omega⟩

/-- The loop is still running after `fuel` iterations when fewer than `check_points` valid
    samples have been seen and none of them failed the test. -/
theorem ecl_grav_survey_assert_RPORV_loop_none (log10 : K → K) (rand : Nat → Nat)
    (survey : ecl_grav_survey_type K) (kw : ecl_kw_type K) (size points : Nat)
    (static : Nat → K) (porv : List K) (hsize : 0 < size)
    (hinit : ∀ a, a < size →
      ecl_kw_iget_as_double kw (survey.grid_cache.global_index.getD a 0) = .ok (static a))
    (hporv : survey.porv = some porv) :
    ∀ fuel r, rporv_valid_count rand size static (r + fuel) < points →
      (∀ k, r ≤ k → k < r + fuel → 0 < static (rand k % size) →
        ecl_grav_survey_assert_RPORV_error log10 (static (rand k % size))
          (porv.getD (rand k % size) 0) = false) →
      ecl_grav_survey_assert_RPORV_loop log10 rand survey kw size points fuel r
        (rporv_valid_count rand size static r) = none := by
  intro fuel
  induction fuel with
  | zero =>
    intro r hcnt _
    rw [ecl_grav_survey_assert_RPORV_loop, if_pos (by simpa using hcnt)]
  | succ fuel ih =>
    intro r hcnt hpass
    have hc : rporv_valid_count rand size static r < points :=
      Nat.lt_of_le_of_lt (rporv_valid_count_mono rand size static (Nat.le_add_right _ _)) hcnt
    rw [ecl_grav_survey_assert_RPORV_loop_step log10 rand survey kw size points static porv
      hsize hinit hporv fuel r _ hc]
    have hcnt' : rporv_valid_count rand size static (r + 1 + fuel) < points := by
      have : r + 1 + fuel = r + (fuel + 1) := by omega
      rw [this]; exact hcnt
    by_cases hv : 0 < static (rand r % size)
    · have he := hpass r (Nat.le_refl r) (by omega) hv
      rw [if_pos hv, he]
      simp only [Bool.false_eq_true, if_false]
      have hs : rporv_valid_count rand size static (r + 1)
          = rporv_valid_count rand size static r + 1 := by
        rw [rporv_valid_count_succ, if_pos hv]
      rw [← hs]
      exact ih (r + 1) hcnt' (fun k h1 h2 => hpass k (by omega) (by omega))
    · rw [if_neg hv]
      have hs : rporv_valid_count rand size static (r + 1)
          = rporv_valid_count rand size static r := by
        rw [rporv_valid_count_succ, if_neg hv, Nat.add_zero]
      rw [← hs]
      exact ih (r + 1) hcnt' (fun k h1 h2 => hpass k (by omega) (by omega))

/-- The loop has ended within `fuel` iterations when `check_points` valid samples are seen
    among the first `r + fuel` calls. -/
theorem ecl_grav_survey_assert_RPORV_loop_some (log10 : K → K) (rand : Nat → Nat)
    (survey : ecl_grav_survey_type K) (kw : ecl_kw_type K) (size points : Nat)
    (static : Nat → K) (porv : List K) (hsize : 0 < size)
    (hinit : ∀ a, a < size →
      ecl_kw_iget_as_double kw (survey.grid_cache.global_index.getD a 0) = .ok (static a))
    (hporv : survey.porv = some porv) :
    ∀ fuel r, points ≤ rporv_valid_count rand size static (r + fuel) →
      ecl_grav_survey_assert_RPORV_loop log10 rand survey kw size points fuel r
        (rporv_valid_count rand size static r) ≠ none := by
  intro fuel
  induction fuel with
  | zero =>
    intro r hcnt
    rw [ecl_grav_survey_assert_RPORV_loop_done log10 rand survey kw size points 0 r _
      (by simpa using hcnt)]
    exact fun h => Option.noConfusion h
  | succ fuel ih =>
    intro r hcnt
    by_cases hc : rporv_valid_count rand size static r < points
    · rw [ecl_grav_survey_assert_RPORV_loop_step log10 rand survey kw size points static porv
        hsize hinit hporv fuel r _ hc]
      have hcnt' : points ≤ rporv_valid_count rand size static (r + 1 + fuel) := by
        have : r + 1 + fuel = r + (fuel + 1) := by omega
        rw [this]; exact hcnt
      by_cases hv : 0 < static (rand r % size)
      · rw [if_pos hv]
        cases he : ecl_grav_survey_assert_RPORV_error log10 (static (rand r % size))
            (porv.getD (rand r % size) 0) with
        | true =>
          rw [if_pos rfl]
          exact fun h => Option.noConfusion h
        | false =>
          simp only [Bool.false_eq_true, if_false]
          have hs : rporv_valid_count rand size static (r + 1)
              = rporv_valid_count rand size static r + 1 := by
            rw [rporv_valid_count_succ, if_pos hv]
          rw [← hs]
          exact ih (r + 1) hcnt'
      · rw [if_neg hv]
        have hs : rporv_valid_count rand size static (r + 1)
            = rporv_valid_count rand size static r := by
          rw [rporv_valid_count_succ, if_neg hv, Nat.add_zero]
        rw [← hs]
        exact ih (r + 1) hcnt'
    · rw [ecl_grav_survey_assert_RPORV_loop_done log10 rand survey kw size points _ r _ hc]
      exact fun h => Option.noConfusion h

/-- Before the first call of `rand()` no valid sample has been seen. -/
theorem rporv_valid_count_zero (rand : Nat → Nat) (size : Nat) (static : Nat → K) :
    rporv_valid_count rand size static 0 = 0 := rfl

/-- When every active cell has a positive static pore volume every sample is valid. -/
theorem rporv_valid_count_all (rand : Nat → Nat) (size : Nat) (static : Nat → K)
    (hsize : 0 < size) (hall : ∀ a, a < size → 0 < static a) (n : Nat) :
    rporv_valid_count rand size static n = n := by
  induction n with
  | zero => rfl
  | succ n ih => rw [rporv_valid_count_succ, ih, if_pos (hall _ (Nat.mod_lt _ hsize))]

/-- When no active cell has a positive static pore volume no sample is valid. -/
theorem rporv_valid_count_none (rand : Nat → Nat) (size : Nat) (static : Nat → K)
    (hsize : 0 < size) (hall : ∀ a, a < size → static a ≤ 0) (n : Nat) :
    rporv_valid_count rand size static n = 0 := by
  induction n with
  | zero => rfl
  | succ n ih =>
    rw [rporv_valid_count_succ, ih, if_neg (not_lt.mpr (hall _ (Nat.mod_lt _ hsize)))]

/-- The sanity check ends with `exit(1)` when a sample reached before 100 valid samples
    have been seen fails the test. -/
theorem ecl_grav_survey_assert_RPORV_exit (log10 : K → K) (rand : Nat → Nat) (fuel : Nat)
    (survey : ecl_grav_survey_type K) (init_file : ecl_file_type K) (static : Nat → K)
    (porv : List K) (hsize : 0 < survey.grid_cache.size)
    (hstatic : static_porv init_file survey.grid_cache static)
    (hporv : survey.porv = some porv) (k : Nat) (hk : k < fuel)
    (hvalid : 0 < static (rand k % survey.grid_cache.size))
    (herr : ecl_grav_survey_assert_RPORV_error log10 (static (rand k % survey.grid_cache.size))
      (porv.getD (rand k % survey.grid_cache.size) 0) = true)
    (hcnt : rporv_valid_count rand survey.grid_cache.size static k < 100) :
    ecl_grav_survey_assert_RPORV log10 rand fuel survey init_file
      = some (.error (.exit1 "ecl_grav_survey_assert_RPORV")) := by
  obtain ⟨kw, hkw, hinit⟩ := hstatic
  have h := ecl_grav_survey_assert_RPORV_loop_error log10 rand survey kw
    survey.grid_cache.size 100 static porv hsize hinit hporv fuel 0
    ⟨k, Nat.zero_le k, by omega, hvalid, herr, hcnt⟩
  rw [rporv_valid_count_zero] at h
  unfold ecl_grav_survey_assert_RPORV
  simp only [hkw]
  exact h

/-- The sanity check returns after `n` calls of `rand()` when the call `n` is the first at
    which 100 valid samples have been seen and every valid sample passed the test. -/
theorem ecl_grav_survey_assert_RPORV_ok (log10 : K → K) (rand : Nat → Nat) (fuel : Nat)
    (survey : ecl_grav_survey_type K) (init_file : ecl_file_type K) (static : Nat → K)
    (porv : List K) (hsize : 0 < survey.grid_cache.size)
    (hstatic : static_porv init_file survey.grid_cache static)
    (hporv : survey.porv = some porv) (n : Nat) (hn : n ≤ fuel)
    (hcnt : rporv_valid_count rand survey.grid_cache.size static n = 100)
    (hmin : ∀ m, m < n → rporv_valid_count rand survey.grid_cache.size static m < 100)
    (hpass : ∀ k, k < n → 0 < static (rand k % survey.grid_cache.size) →
      ecl_grav_survey_assert_RPORV_error log10 (static (rand k % survey.grid_cache.size))
        (porv.getD (rand k % survey.grid_cache.size) 0) = false) :
    ecl_grav_survey_assert_RPORV log10 rand fuel survey init_file = some (.ok n) := by
  obtain ⟨kw, hkw, hinit⟩ := hstatic
  have h := ecl_grav_survey_assert_RPORV_loop_ok log10 rand survey kw
    survey.grid_cache.size 100 static porv hsize hinit hporv fuel 0 n (Nat.zero_le n)
    (by omega) hcnt (fun m _ hm => hmin m hm) (fun k _ hk => hpass k hk)
  rw [rporv_valid_count_zero] at h
  unfold ecl_grav_survey_assert_RPORV
  simp only [hkw]
  exact h

/-- What a sanity check that returns has done. -/
theorem ecl_grav_survey_assert_RPORV_ok_inv (log10 : K → K) (rand : Nat → Nat) (fuel : Nat)
    (survey : ecl_grav_survey_type K) (init_file : ecl_file_type K) (static : Nat → K)
    (porv : List K) (hsize : 0 < survey.grid_cache.size)
    (hstatic : static_porv init_file survey.grid_cache static)
    (hporv : survey.porv = some porv) (n : Nat)
    (h : ecl_grav_survey_assert_RPORV log10 rand fuel survey init_file = some (.ok n)) :
    rporv_valid_count rand survey.grid_cache.size static n = 100 ∧
    (∀ m, m < n → rporv_valid_count rand survey.grid_cache.size static m < 100) ∧
    (∀ k, k < n → 0 < static (rand k % survey.grid_cache.size) →
      ecl_grav_survey_assert_RPORV_error log10 (static (rand k % survey.grid_cache.size))
        (porv.getD (rand k % survey.grid_cache.size) 0) = false) := by
  obtain ⟨kw, hkw, hinit⟩ := hstatic
  unfold ecl_grav_survey_assert_RPORV at h
  simp only [hkw] at h
  obtain ⟨_, h2, h3, h4⟩ := ecl_grav_survey_assert_RPORV_loop_ok_inv log10 rand survey kw
    survey.grid_cache.size 100 static porv hsize hinit hporv fuel 0 n
    (by rw [rporv_valid_count_zero]; omega) (by rw [rporv_valid_count_zero]; exact h)
  exact ⟨h2, fun m hm => h3 m (Nat.zero_le m) hm, fun k hk => h4 k (Nat.zero_le k) hk⟩

/-- The sanity check is still running after `fuel` iterations when fewer than 100 valid
    samples have been seen and none of them failed the test. -/
theorem ecl_grav_survey_assert_RPORV_none (log10 : K → K) (rand : Nat → Nat) (fuel : Nat)
    (survey : ecl_grav_survey_type K) (init_file : ecl_file_type K) (static : Nat → K)
    (porv : List K) (hsize : 0 < survey.grid_cache.size)
    (hstatic : static_porv init_file survey.grid_cache static)
    (hporv : survey.porv = some porv)
    (hcnt : rporv_valid_count rand survey.grid_cache.size static fuel < 100)
    (hpass : ∀ k, k < fuel → 0 < static (rand k % survey.grid_cache.size) →
      ecl_grav_survey_assert_RPORV_error log10 (static (rand k % survey.grid_cache.size))
        (porv.getD (rand k % survey.grid_cache.size) 0) = false) :
    ecl_grav_survey_assert_RPORV log10 rand fuel survey init_file = none := by
  obtain ⟨kw, hkw, hinit⟩ := hstatic
  have h := ecl_grav_survey_assert_RPORV_loop_none log10 rand survey kw
    survey.grid_cache.size 100 static porv hsize hinit hporv fuel 0
    (by rw [Nat.zero_add]; exact hcnt) (fun k _ hk => hpass k (by omega))
  rw [rporv_valid_count_zero] at h
  unfold ecl_grav_survey_assert_RPORV
  simp only [hkw]
  exact h

/-- The sanity check has ended within `fuel` iterations when 100 valid samples are seen
    among the first `fuel` calls of `rand()`. -/
theorem ecl_grav_survey_assert_RPORV_some (log10 : K → K) (rand : Nat → Nat) (fuel : Nat)
    (survey : ecl_grav_survey_type K) (init_file : ecl_file_type K) (static : Nat → K)
    (porv : List K) (hsize : 0 < survey.grid_cache.size)
    (hstatic : static_porv init_file survey.grid_cache static)
    (hporv : survey.porv = some porv)
    (hcnt : 100 ≤ rporv_valid_count rand survey.grid_cache.size static fuel) :
    ecl_grav_survey_assert_RPORV log10 rand fuel survey init_file ≠ none := by
  obtain ⟨kw, hkw, hinit⟩ := hstatic
  have h := ecl_grav_survey_assert_RPORV_loop_some log10 rand survey kw
    survey.grid_cache.size 100 static porv hsize hinit hporv fuel 0
    (by rw [Nat.zero_add]; exact hcnt)
  rw [rporv_valid_count_zero] at h
  unfold ecl_grav_survey_assert_RPORV
  simp only [hkw]
  exact h

/-- The loop that copies RPORV into the pore-volume array, for a keyword that is not
    longer than the array. -/
theorem ecl_grav_survey_alloc_RPORV_loop_eq {F : Type} (kw : ecl_kw_type F) (v : Nat → F)
    (porv : List F) (hread : ∀ i, i < ecl_kw_get_size kw → ecl_kw_iget_as_double kw i = .ok (v i))
    (hlen : ecl_kw_get_size kw ≤ porv.length) :
    ecl_grav_survey_alloc_RPORV_loop kw porv
      = .ok ((List.range (ecl_kw_get_size kw)).map v ++ porv.drop (ecl_kw_get_size kw)) := by
  have key : ∀ k, k ≤ ecl_kw_get_size kw → (List.range k).foldlM (fun porv iactive => do
        let value ← ecl_kw_iget_as_double kw iactive
        heap_store "ecl_grav_survey_alloc_RPORV" porv iactive value) porv
        = .ok ((List.range k).map v ++ porv.drop k) := by
    intro k
    induction k with
    | zero => intro _; rfl
    | succ k ih =>
      intro hk
      have hk' : k < ecl_kw_get_size kw := hk
      rw [List.range_succ, List.foldlM_append, ih (Nat.le_of_lt hk')]
      have hin : k < ((List.range k).map v ++ porv.drop k).length := by
        simp only [List.length_append, List.length_map, List.length_range, List.length_drop]
        omega
      simp only [bind, Except.bind, List.foldlM_cons, List.foldlM_nil, hread k hk', pure,
        Except.pure, heap_store, hin, if_true]
      refine congrArg Except.ok ?_
      rw [List.set_append_right _ _ (by simp), List.drop_eq_getElem_cons (by omega)]
      simp only [List.length_map, List.length_range, Nat.sub_self, List.set_cons_zero,
        List.map_append, List.map_cons, List.map_nil, List.append_assoc, List.singleton_append]
  unfold ecl_grav_survey_alloc_RPORV_loop
  exact key _ (Nat.le_refl _)

/-- The first block of `ecl_grav_survey_alloc_RPORV` on a keyword RPORV with one element
    per active cell. -/
theorem ecl_grav_survey_alloc_RPORV_porv_eq (grav : ecl_grav_type K)
    (restart : ecl_file_type K) (name : String) (rporv : Nat → K)
    (hrporv : rporv_values restart grav.grid_cache.size rporv) :
    ecl_grav_survey_alloc_RPORV_porv grav restart name
      = .ok { ecl_grav_survey_alloc_empty grav.grid_cache name GRAV_CALC_RPORV with
              porv := some ((List.range grav.grid_cache.size).map rporv) } := by
  obtain ⟨hhas, kw, hkw, hsz, hread⟩ := hrporv
  have hloop := ecl_grav_survey_alloc_RPORV_loop_eq kw rporv
    (util_malloc_doubles K grav.grid_cache.size) (by rw [hsz]; exact hread)
    (by simp [util_malloc_doubles, hsz])
  rw [hsz, List.drop_of_length_le (by simp [util_malloc_doubles]), List.append_nil] at hloop
  unfold ecl_grav_survey_alloc_RPORV_porv
  have hp : (ecl_grav_survey_alloc_empty grav.grid_cache name GRAV_CALC_RPORV).porv
      = some (util_malloc_doubles K grav.grid_cache.size) := rfl
  simp only [hhas, if_true, hkw, bind, Except.bind, hp, hloop, pure, Except.pure]

theorem real_log10_spec (x : ℝ) (hx : 0 < x) :
    1 < |Real.logb 10 x| ↔ x < 1 / 10 ∨ 10 < x := by
  rw [lt_abs]
  have h10 : (1 : ℝ) < 10 := by norm_num
  rw [Real.lt_logb_iff_rpow_lt h10 hx, Real.rpow_one, lt_neg,
    Real.logb_lt_iff_lt_rpow h10 hx, Real.rpow_neg_one]
  constructor
  · rintro (h | h)
    · exact Or.inr h
    · left; rw [one_div]; exact h
  · rintro (h | h)
    · right; rw [one_div] at h; exact h
    · exact Or.inl h

/-- The init dataset `porv_init_file` provides the static pore volume of every cell of
    the uniform grid. -/
theorem static_porv_of_list (n : Nat) (l : List K) (hn : n ≤ l.length) :
    static_porv (porv_init_file K l) (uniform_grid_cache K n) (fun a => l.getD a 0) := by
  refine ⟨⟨"PORV", .float_data l⟩, rfl, fun a ha => ?_⟩
  have ha' : a < n := ha
  have hl : a < l.length := Nat.lt_of_lt_of_le ha' hn
  simp [ecl_kw_iget_as_double, uniform_grid_cache, List.getD_eq_getElem?_getD,
    List.getElem?_range ha', List.getElem?_eq_getElem hl]

/-- A restart dataset with the keyword RPORV as a double array. -/
theorem rporv_values_of_list (l : List K) :
    rporv_values (rporv_restart_file K l) l.length (fun i => l.getD i 0) := by
  refine ⟨rfl, ⟨"RPORV", .double_data l⟩, rfl, rfl, fun i hi => ?_⟩
  simp [ecl_kw_iget_as_double, List.getD_eq_getElem?_getD, List.getElem?_eq_getElem hi]

/-- The sanity check passes after 100 samples when every active cell has a positive static
    pore volume and passes the test. -/
theorem ecl_grav_survey_assert_RPORV_all_pass (log10 : K → K) (rand : Nat → Nat) (fuel : Nat)
    (survey : ecl_grav_survey_type K) (init_file : ecl_file_type K) (static : Nat → K)
    (porv : List K) (hsize : 0 < survey.grid_cache.size)
    (hstatic : static_porv init_file survey.grid_cache static)
    (hporv : survey.porv = some porv) (hfuel : 100 ≤ fuel)
    (hall : ∀ a, a < survey.grid_cache.size → 0 < static a ∧
      ecl_grav_survey_assert_RPORV_error log10 (static a) (porv.getD a 0) = false) :
    ecl_grav_survey_assert_RPORV log10 rand fuel survey init_file = some (.ok 100) := by
  have hcnt := rporv_valid_count_all rand survey.grid_cache.size static hsize
    (fun a ha => (hall a ha).1)
  exact ecl_grav_survey_assert_RPORV_ok log10 rand fuel survey init_file static porv hsize
    hstatic hporv 100 hfuel (hcnt 100) (fun m hm => by rw [hcnt m]; exact hm)
    (fun k _ _ => (hall _ (Nat.mod_lt _ hsize)).2)

/-- Claim C22. Adding an RPORV survey fails with the `util_abort` of
    `ecl_grav_survey_alloc_RPORV` whenever the restart file has no keyword RPORV: the
    first block of the function already fails, whatever the init file, the samples and the
    number of iterations granted to the sanity check (none included), and no registry
    holding a new survey is returned. -/
theorem ecl_grav_add_survey_RPORV_missing_kw (log10 : K → K) (rand : Nat → Nat) (fuel : Nat)
    (grav : ecl_grav_type K) (name : String) (restart : ecl_file_type K)
    (hhas : ecl_file_has_kw restart RPORV_KW = false) :
    ecl_grav_survey_alloc_RPORV_porv grav restart name
      = .error (.util_abort "ecl_grav_survey_alloc_RPORV") ∧
    ecl_grav_add_survey_RPORV log10 rand fuel grav name restart
      = some (.error (.util_abort "ecl_grav_survey_alloc_RPORV")) := by
  have h1 : ecl_grav_survey_alloc_RPORV_porv grav restart name
      = .error (.util_abort "ecl_grav_survey_alloc_RPORV") := by
    unfold ecl_grav_survey_alloc_RPORV_porv
    simp only [hhas, Bool.false_eq_true, if_false]
  refine ⟨h1, ?_⟩
  unfold ecl_grav_add_survey_RPORV ecl_grav_survey_alloc_RPORV
  simp only [h1]

/-- Claim C21, at a keyword RPORV that is longer than the grid has active cells: the sample
    grid has 2 active cells, the pore-volume array of the survey has 2 elements, RPORV has
    3; the loop of `ecl_grav_survey_alloc_RPORV` runs over the 3 elements of the keyword
    and stores the third one outside the array. -/
theorem ecl_grav_survey_alloc_RPORV_overflow (log10 : ℚ → ℚ) (rand : Nat → Nat) (fuel : Nat) :
    (sample_grav ℚ).grid_cache.size = 2 ∧
    (ecl_grav_survey_alloc_empty (sample_grav ℚ).grid_cache "base" GRAV_CALC_RPORV).porv
      = some [0, 0] ∧
    ecl_file_iget_named_kw (sample_restart_file_rporv ℚ [100, 250, 7]) RPORV_KW 0
      = .ok ⟨"RPORV", .float_data [100, 250, 7]⟩ ∧
    ecl_grav_survey_alloc_RPORV log10 rand fuel (sample_grav ℚ)
        (sample_restart_file_rporv ℚ [100, 250, 7]) "base"
      = some (.error (.out_of_bounds "ecl_grav_survey_alloc_RPORV")) :=
  ⟨rfl, rfl, rfl, rfl⟩

/-- Witness of claim C22: the sample restart dataset has no keyword RPORV. -/
theorem ecl_grav_add_survey_RPORV_missing_kw_witness :
    ecl_file_has_kw (sample_restart_file ℚ) RPORV_KW = false ∧
    ecl_grav_add_survey_RPORV (fun _ => 0) (fun k => k) 0 (sample_grav ℚ) "base"
        (sample_restart_file ℚ)
      = some (.error (.util_abort "ecl_grav_survey_alloc_RPORV")) :=
  ⟨rfl, (ecl_grav_add_survey_RPORV_missing_kw (fun _ => 0) (fun k => k) 0 (sample_grav ℚ)
    "base" (sample_restart_file ℚ) rfl).2⟩

/-- A negative instantaneous pore volume passes the test: `log10` of a negative number is
    a NaN and `fabs( NaN ) > 1` is false. -/
theorem ecl_grav_survey_assert_RPORV_error_of_neg (log10 : K → K) (init_porv rporv : K)
    (hinit : 0 < init_porv) (hneg : rporv < 0) :
    ecl_grav_survey_assert_RPORV_error log10 init_porv rporv = false := by
  have hratio : rporv / init_porv < 0 := div_neg_of_neg_of_pos hneg hinit
  unfold ecl_grav_survey_assert_RPORV_error c_log10
  simp only [not_lt.mpr (le_of_lt hratio), if_false, ne_of_lt hratio, c_log.fabs_gt_one]

/-- A pore volume between a tenth and ten times the positive static one passes the test. -/
theorem ecl_grav_survey_assert_RPORV_error_of_mem (log10 : K → K)
    (hlog : ∀ x, 0 < x → (1 < |log10 x| ↔ x < 1 / 10 ∨ 10 < x)) (init_porv rporv : K)
    (hinit : 0 < init_porv) (h1 : init_porv ≤ 10 * rporv) (h2 : rporv ≤ 10 * init_porv) :
    ecl_grav_survey_assert_RPORV_error log10 init_porv rporv = false := by
  have hr : 0 < rporv := by nlinarith
  have hpos : 0 < rporv / init_porv := div_pos hr hinit
  have hlo : ¬ rporv / init_porv < 1 / 10 := by
    rw [not_lt, le_div_iff₀ hinit]
    linarith
  have hhi : ¬ 10 < rporv / init_porv := by
    rw [not_lt, div_le_iff₀ hinit]
    exact h2
  unfold ecl_grav_survey_assert_RPORV_error c_log10
  simp only [hpos, if_true, c_log.fabs_gt_one, decide_eq_false_iff_not]
  rw [hlog _ hpos]
  exact fun h => h.elim hlo hhi

/-- The test of the sanity check in terms of the multiplier `rporv / init_porv`, for a
    sampled cell with positive static pore volume: the test is positive if and only if the
    multiplier is greater than 10, or `rporv` is not negative and the multiplier is less
    than 0.10; when no earlier sample failed, the check that reaches the sample number `k`
    ends with `exit(1)` at that sample under the same condition. -/
theorem ecl_grav_survey_assert_RPORV_error_iff (log10 : K → K)
    (hlog : ∀ x, 0 < x → (1 < |log10 x| ↔ x < 1 / 10 ∨ 10 < x)) (rand : Nat → Nat)
    (survey : ecl_grav_survey_type K) (init_file : ecl_file_type K) (static : Nat → K)
    (porv : List K) (hsize : 0 < survey.grid_cache.size)
    (hstatic : static_porv init_file survey.grid_cache static)
    (hporv : survey.porv = some porv) (k : Nat)
    (hcnt : rporv_valid_count rand survey.grid_cache.size static k < 100)
    (hprev : ∀ j, j < k → 0 < static (rand j % survey.grid_cache.size) →
      ecl_grav_survey_assert_RPORV_error log10 (static (rand j % survey.grid_cache.size))
        (porv.getD (rand j % survey.grid_cache.size) 0) = false)
    (init_porv rporv : K) (hinit_porv : init_porv = static (rand k % survey.grid_cache.size))
    (hrporv : rporv = porv.getD (rand k % survey.grid_cache.size) 0)
    (hvalid : 0 < init_porv) :
    (ecl_grav_survey_assert_RPORV_error log10 init_porv rporv = true ↔
      10 < rporv / init_porv ∨ (0 ≤ rporv ∧ rporv / init_porv < 1 / 10)) ∧
    (ecl_grav_survey_assert_RPORV log10 rand (k + 1) survey init_file
        = some (.error (.exit1 "ecl_grav_survey_assert_RPORV")) ↔
      10 < rporv / init_porv ∨ (0 ≤ rporv ∧ rporv / init_porv < 1 / 10)) := by
  have htest : ecl_grav_survey_assert_RPORV_error log10 init_porv rporv = true ↔
      10 < rporv / init_porv ∨ (0 ≤ rporv ∧ rporv / init_porv < 1 / 10) := by
    rcases lt_trichotomy rporv 0 with hneg | hzero | hpos
    · rw [ecl_grav_survey_assert_RPORV_error_of_neg log10 init_porv rporv hvalid hneg]
      have hratio : rporv / init_porv < 0 := div_neg_of_neg_of_pos hneg hvalid
      constructor
      · intro h; cases h
      · rintro (h | ⟨h, _⟩)
        · linarith
        · linarith
    · subst hzero
      constructor
      · intro _
        exact Or.inr ⟨le_refl 0, by rw [zero_div]; norm_num⟩
      · intro _
        unfold ecl_grav_survey_assert_RPORV_error c_log10
        simp only [zero_div, lt_irrefl, if_false, if_true, c_log.fabs_gt_one]
    · have hratio : 0 < rporv / init_porv := div_pos hpos hvalid
      unfold ecl_grav_survey_assert_RPORV_error c_log10
      simp only [hratio, if_true, c_log.fabs_gt_one, decide_eq_true_eq]
      rw [hlog _ hratio]
      constructor
      · rintro (h | h)
        · exact Or.inr ⟨le_of_lt hpos, h⟩
        · exact Or.inl h
      · rintro (h | ⟨_, h⟩)
        · exact Or.inr h
        · exact Or.inl h
  refine ⟨htest, ?_⟩
  rw [← htest]
  subst hinit_porv hrporv
  constructor
  · intro hexit
    cases he : ecl_grav_survey_assert_RPORV_error log10
        (static (rand k % survey.grid_cache.size))
        (porv.getD (rand k % survey.grid_cache.size) 0) with
    | true => rfl
    | false =>
      exfalso
      have hpass : ∀ j, j < k + 1 → 0 < static (rand j % survey.grid_cache.size) →
          ecl_grav_survey_assert_RPORV_error log10 (static (rand j % survey.grid_cache.size))
            (porv.getD (rand j % survey.grid_cache.size) 0) = false := by
        intro j hj hv
        by_cases hjk : j = k
        · subst hjk; exact he
        · exact hprev j (by omega) hv
      have hs : rporv_valid_count rand survey.grid_cache.size static (k + 1)
          = rporv_valid_count rand survey.grid_cache.size static k + 1 := by
        rw [rporv_valid_count_succ, if_pos hvalid]
      by_cases hc : rporv_valid_count rand survey.grid_cache.size static (k + 1) < 100
      · rw [ecl_grav_survey_assert_RPORV_none log10 rand (k + 1) survey init_file static porv
          hsize hstatic hporv hc hpass] at hexit
        cases hexit
      · rw [ecl_grav_survey_assert_RPORV_ok log10 rand (k + 1) survey init_file static porv
          hsize hstatic hporv (k + 1) (Nat.le_refl _) (by omega)
          (fun m hm => Nat.lt_of_le_of_lt
            (rporv_valid_count_mono rand _ static (Nat.lt_succ_iff.mp hm)) hcnt)
          hpass] at hexit
        cases hexit
  · intro he
    exact ecl_grav_survey_assert_RPORV_exit log10 rand (k + 1) survey init_file static porv
      hsize hstatic hporv k (Nat.lt_succ_self k) hvalid he hcnt

/-- Claim C25. The sanity check returns after `n` calls of `rand()` if and only if `n` is
    the first number of calls at which 100 samples with a positive static pore volume
    `PORV[global_index[a]]` have been seen and each of these samples passed the test on
    `porv[a]` and `PORV[global_index[a]]`: the samples with a static pore volume that is
    zero or negative are neither counted nor compared, and a check that returns has made
    exactly 100 comparisons. -/
theorem ecl_grav_survey_assert_RPORV_comparisons (log10 : K → K) (rand : Nat → Nat)
    (survey : ecl_grav_survey_type K) (init_file : ecl_file_type K) (static : Nat → K)
    (porv : List K) (hsize : 0 < survey.grid_cache.size)
    (hstatic : static_porv init_file survey.grid_cache static)
    (hporv : survey.porv = some porv) (n : Nat) :
    (∃ fuel, ecl_grav_survey_assert_RPORV log10 rand fuel survey init_file = some (.ok n)) ↔
      (rporv_valid_count rand survey.grid_cache.size static n = 100 ∧
       (∀ m, m < n → rporv_valid_count rand survey.grid_cache.size static m < 100) ∧
       ∀ k, k < n → 0 < static (rand k % survey.grid_cache.size) →
         ecl_grav_survey_assert_RPORV_error log10 (static (rand k % survey.grid_cache.size))
           (porv.getD (rand k % survey.grid_cache.size) 0) = false) := by
  constructor
  · rintro ⟨fuel, h⟩
    exact ecl_grav_survey_assert_RPORV_ok_inv log10 rand fuel survey init_file static porv
      hsize hstatic hporv n h
  · rintro ⟨h1, h2, h3⟩
    exact ⟨n, ecl_grav_survey_assert_RPORV_ok log10 rand n survey init_file static porv
      hsize hstatic hporv n (Nat.le_refl n) h1 h2 h3⟩

/-- Claim C26, amended. The sampling loop of the sanity check never ends, whatever the
    sample sequence, when no active cell has a positive static pore volume; it ends exactly
    when the sample sequence reaches 100 samples with a positive static pore volume (the
    same cell may be sampled again and again) or a sample that fails the test; a loop that
    returns has seen exactly 100 valid samples. -/
theorem ecl_grav_survey_assert_RPORV_terminates_iff (log10 : K → K) (rand : Nat → Nat)
    (survey : ecl_grav_survey_type K) (init_file : ecl_file_type K) (static : Nat → K)
    (porv : List K) (hsize : 0 < survey.grid_cache.size)
    (hstatic : static_porv init_file survey.grid_cache static)
    (hporv : survey.porv = some porv) :
    ((∀ a, a < survey.grid_cache.size → static a ≤ 0) →
      ∀ fuel, ecl_grav_survey_assert_RPORV log10 rand fuel survey init_file = none) ∧
    ((∃ fuel, ecl_grav_survey_assert_RPORV log10 rand fuel survey init_file ≠ none) ↔
      (∃ n, 100 ≤ rporv_valid_count rand survey.grid_cache.size static n) ∨
      ∃ k, 0 < static (rand k % survey.grid_cache.size) ∧
        ecl_grav_survey_assert_RPORV_error log10 (static (rand k % survey.grid_cache.size))
          (porv.getD (rand k % survey.grid_cache.size) 0) = true) ∧
    (∀ fuel n, ecl_grav_survey_assert_RPORV log10 rand fuel survey init_file = some (.ok n) →
      rporv_valid_count rand survey.grid_cache.size static n = 100) := by
  refine ⟨fun hall fuel => ?_, ⟨?_, ?_⟩, fun fuel n h => ?_⟩
  · have hcnt := rporv_valid_count_none rand survey.grid_cache.size static hsize hall
    exact ecl_grav_survey_assert_RPORV_none log10 rand fuel survey init_file static porv
      hsize hstatic hporv (by rw [hcnt fuel]; decide)
      (fun k _ hv => absurd hv (not_lt.mpr (hall _ (Nat.mod_lt _ hsize))))
  · rintro ⟨fuel, hfuel⟩
    by_contra hnot
    rw [not_or, not_exists, not_exists] at hnot
    refine hfuel (ecl_grav_survey_assert_RPORV_none log10 rand fuel survey init_file static
      porv hsize hstatic hporv (Nat.lt_of_not_le (hnot.1 fuel)) (fun k _ hv => ?_))
    cases he : ecl_grav_survey_assert_RPORV_error log10
        (static (rand k % survey.grid_cache.size))
        (porv.getD (rand k % survey.grid_cache.size) 0) with
    | true => exact absurd ⟨hv, he⟩ (hnot.2 k)
    | false => rfl
  · rintro (⟨n, hn⟩ | ⟨k, hv, he⟩)
    · exact ⟨n, ecl_grav_survey_assert_RPORV_some log10 rand n survey init_file static porv
        hsize hstatic hporv hn⟩
    · by_cases hc : rporv_valid_count rand survey.grid_cache.size static k < 100
      · refine ⟨k + 1, ?_⟩
        rw [ecl_grav_survey_assert_RPORV_exit log10 rand (k + 1) survey init_file static porv
          hsize hstatic hporv k (Nat.lt_succ_self k) hv he hc]
        exact fun h => Option.noConfusion h
      · exact ⟨k, ecl_grav_survey_assert_RPORV_some log10 rand k survey init_file static porv
          hsize hstatic hporv (Nat.le_of_not_lt hc)⟩
  · exact (ecl_grav_survey_assert_RPORV_ok_inv log10 rand fuel survey init_file static porv
      hsize hstatic hporv n h).1

/-- The base-10 logarithm of the reals passes the test of the sanity check on a pore volume
    between a tenth and ten times the static one. -/
theorem real_error_of_mem (init_porv rporv : ℝ) (hinit : 0 < init_porv)
    (h1 : init_porv ≤ 10 * rporv) (h2 : rporv ≤ 10 * init_porv) :
    ecl_grav_survey_assert_RPORV_error (Real.logb 10) init_porv rporv = false :=
  ecl_grav_survey_assert_RPORV_error_of_mem (Real.logb 10) real_log10_spec init_porv rporv
    hinit h1 h2

/-- Examples of the test of the sanity check: with the static pore volume 100, the pore
    volumes 1500 (multiplier 15) and 0 (multiplier 0) are reported, and the check of a
    one-cell grid with the pore volume 1500 ends with `exit(1)` at the first sample. -/
theorem ecl_grav_survey_assert_RPORV_error_examples :
    ecl_grav_survey_assert_RPORV_error (Real.logb 10) 100 1500 = true ∧
    ecl_grav_survey_assert_RPORV (Real.logb 10) (fun _ => 0) 1 (uniform_survey ℝ 1 [1500])
        (porv_init_file ℝ [100]) = some (.error (.exit1 "ecl_grav_survey_assert_RPORV")) ∧
    ecl_grav_survey_assert_RPORV_error (Real.logb 10) 100 0 = true := by
  have h1 := ecl_grav_survey_assert_RPORV_error_iff (Real.logb 10) real_log10_spec
    (fun _ => 0) (uniform_survey ℝ 1 [1500]) (porv_init_file ℝ [100])
    (fun a => ([100] : List ℝ).getD a 0) [1500] (by decide)
    (static_porv_of_list 1 [100] (Nat.le_refl 1)) rfl 0 (by decide)
    (fun j hj => absurd hj (Nat.not_lt_zero j)) 100 1500 rfl rfl (by norm_num)
  have h2 := ecl_grav_survey_assert_RPORV_error_iff (Real.logb 10) real_log10_spec
    (fun _ => 0) (uniform_survey ℝ 1 [0]) (porv_init_file ℝ [100])
    (fun a => ([100] : List ℝ).getD a 0) [0] (by decide)
    (static_porv_of_list 1 [100] (Nat.le_refl 1)) rfl 0 (by decide)
    (fun j hj => absurd hj (Nat.not_lt_zero j)) 100 0 rfl rfl (by norm_num)
  exact ⟨h1.1.mpr (Or.inl (by norm_num)), h1.2.mpr (Or.inl (by norm_num)),
    h2.1.mpr (Or.inr ⟨le_refl 0, by norm_num⟩)⟩

/-- Claim C24, at a negative instantaneous pore volume: with the static pore volume 100
    and the pore volume -100 the multiplier is -1, less than 0.10, but `log10` of a negative
    number is a NaN, the test `fabs( log_pormod ) > 1` is false, and the sanity check of a
    one-cell grid returns after 100 comparisons instead of reporting the error. -/
theorem ecl_grav_survey_assert_RPORV_negative_passes :
    ((-100 : ℝ) / 100 < 1 / 10) ∧
    ecl_grav_survey_assert_RPORV_error (Real.logb 10) 100 (-100) = false ∧
    ∀ rand : Nat → Nat,
      ecl_grav_survey_assert_RPORV (Real.logb 10) rand 100 (uniform_survey ℝ 1 [-100])
        (porv_init_file ℝ [100]) = some (.ok 100) := by
  have he : ecl_grav_survey_assert_RPORV_error (Real.logb 10) 100 (-100) = false :=
    ecl_grav_survey_assert_RPORV_error_of_neg (Real.logb 10) 100 (-100) (by norm_num)
      (by norm_num)
  refine ⟨by norm_num, he, fun rand => ?_⟩
  refine ecl_grav_survey_assert_RPORV_all_pass (Real.logb 10) rand 100
    (uniform_survey ℝ 1 [-100]) (porv_init_file ℝ [100]) (fun a => ([100] : List ℝ).getD a 0)
    [-100] (by decide) (static_porv_of_list 1 [100] (Nat.le_refl 1)) rfl (Nat.le_refl 100)
    (fun a ha => ?_)
  have ha0 : a = 0 := Nat.lt_one_iff.mp ha
  subst ha0
  exact ⟨by norm_num, he⟩

/-- The number of valid samples when the first sample is cell 1 (static pore volume 0) and
    every later sample is cell 0 (static pore volume 100). -/
theorem skip_first_count (m : Nat) :
    rporv_valid_count (fun k => if k = 0 then 1 else 0) 2
      (fun a => ([100, 0] : List ℝ).getD a 0) (m + 1) = m := by
  induction m with
  | zero =>
    rw [rporv_valid_count_succ, rporv_valid_count_zero]
    simp
  | succ m ih =>
    rw [rporv_valid_count_succ, ih]
    simp

/-- Witness of claim C25: two cells with the static pore volumes 100 and 0 and the pore
    volumes 250 and 5000; the first sample is cell 1, which is skipped although its pore
    volume is off, the next 100 samples are cell 0; the check returns after 101 calls of
    `rand()`. -/
theorem ecl_grav_survey_assert_RPORV_comparisons_witness :
    ∃ fuel, ecl_grav_survey_assert_RPORV (Real.logb 10) (fun k => if k = 0 then 1 else 0) fuel
      (uniform_survey ℝ 2 [250, 5000]) (porv_init_file ℝ [100, 0]) = some (.ok 101) := by
  refine (ecl_grav_survey_assert_RPORV_comparisons (Real.logb 10)
    (fun k => if k = 0 then 1 else 0) (uniform_survey ℝ 2 [250, 5000])
    (porv_init_file ℝ [100, 0]) (fun a => ([100, 0] : List ℝ).getD a 0) [250, 5000]
    (by decide) (static_porv_of_list 2 [100, 0] (Nat.le_refl 2)) rfl 101).mpr
    ⟨skip_first_count 100, fun m hm => ?_, fun k hk hv => ?_⟩
  · cases m with
    | zero => decide
    | succ m =>
      show rporv_valid_count (fun k => if k = 0 then 1 else 0) 2
        (fun a => ([100, 0] : List ℝ).getD a 0) (m + 1) < 100
      rw [skip_first_count m]
      omega
  · cases k with
    | zero =>
      have hv' : (0 : ℝ) < ([100, 0] : List ℝ).getD 1 0 := hv
      simp at hv'
    | succ k =>
      show ecl_grav_survey_assert_RPORV_error (Real.logb 10) (100 : ℝ) 250 = false
      exact real_error_of_mem 100 250 (by norm_num) (by norm_num) (by norm_num)

/-- Witness of claim C26 (amended): with the static pore volume 0 in both cells the loop
    has not ended after 1000 iterations on the sample sequence 0, 1, 2, ... -/
theorem ecl_grav_survey_assert_RPORV_terminates_iff_witness :
    ecl_grav_survey_assert_RPORV (Real.logb 10) (fun k => k) 1000
      (uniform_survey ℝ 2 [100, 250]) (porv_init_file ℝ [0, 0]) = none := by
  refine (ecl_grav_survey_assert_RPORV_terminates_iff (Real.logb 10) (fun k => k)
    (uniform_survey ℝ 2 [100, 250]) (porv_init_file ℝ [0, 0])
    (fun a => ([0, 0] : List ℝ).getD a 0) [100, 250] (by decide)
    (static_porv_of_list 2 [0, 0] (Nat.le_refl 2)) rfl).1 (fun a ha => ?_) 1000
  have ha2 : a < 2 := ha
  interval_cases a <;> simp

/-- Claim C26 as stated fails on a grid with one active cell: a single cell has a positive
    static pore volume, fewer than 100, and the loop ends after 100 comparisons of that
    cell for every sample sequence. -/
theorem ecl_grav_survey_assert_RPORV_terminates_iff_counterexample :
    (uniform_survey ℝ 1 [100]).grid_cache.size = 1 ∧
    ∀ rand : Nat → Nat,
      ecl_grav_survey_assert_RPORV (Real.logb 10) rand 100 (uniform_survey ℝ 1 [100])
        (porv_init_file ℝ [100]) = some (.ok 100) := by
  refine ⟨rfl, fun rand => ?_⟩
  refine ecl_grav_survey_assert_RPORV_all_pass (Real.logb 10) rand 100
    (uniform_survey ℝ 1 [100]) (porv_init_file ℝ [100]) (fun a => ([100] : List ℝ).getD a 0)
    [100] (by decide) (static_porv_of_list 1 [100] (Nat.le_refl 1)) rfl (Nat.le_refl 100)
    (fun a ha => ?_)
  have ha0 : a = 0 := Nat.lt_one_iff.mp ha
  subst ha0
  exact ⟨by norm_num, real_error_of_mem 100 100 (by norm_num) (by norm_num) (by norm_num)⟩

/-- A phase returned by `ecl_grav_phase_alloc` carries the tag it was built for. -/
theorem ecl_grav_phase_alloc_tag (grav : ecl_grav_type K) (survey : ecl_grav_survey_type K)
    (phase : ecl_phase_enum) (restart : ecl_file_type K) (calc_type : grav_calc_type)
    (p : ecl_grav_phase_type K)
    (h : ecl_grav_phase_alloc grav survey phase restart calc_type = .ok p) :
    p.phase = phase := by
  unfold ecl_grav_phase_alloc at h
  simp only [bind, Except.bind, pure, Except.pure] at h
  repeat' split at h
  all_goals first
    | (cases h; rfl)
    | cases h

/-- A block of `ecl_grav_survey_add_phases` appends the phase to the phase list when its
    bit is set in the mask, and leaves the list as it is otherwise. -/
theorem ecl_grav_survey_add_phases_block_tags (grav : ecl_grav_type K)
    (restart : ecl_file_type K) (calc_type : grav_calc_type) (phases : Nat)
    (phase : ecl_phase_enum) (s s' : ecl_grav_survey_type K)
    (h : ecl_grav_survey_add_phases_block grav restart calc_type phases phase s = .ok s') :
    phase_tags s' = phase_tags s ++ (if phases &&& phase ≠ 0 then [phase] else []) := by
  unfold ecl_grav_survey_add_phases_block at h
  split at h
  · rename_i hpresent
    rw [if_pos hpresent]
    cases hp : ecl_grav_phase_alloc grav s phase restart calc_type with
    | error e => simp only [hp, bind, Except.bind] at h; cases h
    | ok p =>
      simp only [hp, bind, Except.bind] at h
      have htag := ecl_grav_phase_alloc_tag grav s phase restart calc_type p hp
      unfold ecl_grav_survey_add_phase at h
      cases hk : ecl_util_get_phase_name phase with
      | error e => rw [hk] at h; cases h
      | ok key =>
        rw [hk] at h
        cases h
        simp only [phase_tags, List.map_append, List.map_cons, List.map_nil, htag]
  · rename_i habsent
    rw [if_neg habsent]
    cases h
    rw [List.append_nil]

/-- Claim C28. For every calculation type and every phase bitmask of the init file,
    `ecl_grav_survey_add_phases` appends to the phase list of the survey one phase for each
    of oil, gas and water whose bit is set in the mask, in that order, and none for the
    others; it returns when each of these phases can be built. -/
theorem ecl_grav_survey_add_phases_order (grav : ecl_grav_type K)
    (restart : ecl_file_type K) (calc_type : grav_calc_type) (s : ecl_grav_survey_type K) :
    (∀ s', ecl_grav_survey_add_phases grav s restart calc_type = .ok s' →
      phase_tags s' = phase_tags s ++ present_phases (ecl_file_get_phases grav.init_file)) ∧
    ((∀ phase, phase = ECL_OIL_PHASE ∨ phase = ECL_GAS_PHASE ∨ phase = ECL_WATER_PHASE →
        ecl_file_get_phases grav.init_file &&& phase ≠ 0 →
        ∀ sv, sv.porv = s.porv →
          ∃ p, ecl_grav_phase_alloc grav sv phase restart calc_type = .ok p) →
      ∃ s', ecl_grav_survey_add_phases grav s restart calc_type = .ok s' ∧
        phase_tags s' = phase_tags s ++ present_phases (ecl_file_get_phases grav.init_file)) := by
  have htags : ∀ s', ecl_grav_survey_add_phases grav s restart calc_type = .ok s' →
      phase_tags s' = phase_tags s ++ present_phases (ecl_file_get_phases grav.init_file) := by
    intro s' h
    rw [ecl_grav_survey_add_phases_eq] at h
    cases h1 : ecl_grav_survey_add_phases_block grav restart calc_type
        (ecl_file_get_phases grav.init_file) ECL_OIL_PHASE s with
    | error e => simp only [h1, bind, Except.bind] at h; cases h
    | ok s1 =>
      cases h2 : ecl_grav_survey_add_phases_block grav restart calc_type
          (ecl_file_get_phases grav.init_file) ECL_GAS_PHASE s1 with
      | error e => simp only [h1, h2, bind, Except.bind] at h; cases h
      | ok s2 =>
        simp only [h1, h2, bind, Except.bind] at h
        rw [ecl_grav_survey_add_phases_block_tags grav restart calc_type _ _ _ _ h,
          ecl_grav_survey_add_phases_block_tags grav restart calc_type _ _ _ _ h2,
          ecl_grav_survey_add_phases_block_tags grav restart calc_type _ _ _ _ h1]
        unfold present_phases
        simp only [List.append_assoc, List.filter_cons, List.filter_nil, decide_eq_true_eq]
        by_cases c1 : ecl_file_get_phases grav.init_file &&& ECL_OIL_PHASE ≠ 0 <;>
        by_cases c2 : ecl_file_get_phases grav.init_file &&& ECL_GAS_PHASE ≠ 0 <;>
        by_cases c3 : ecl_file_get_phases grav.init_file &&& ECL_WATER_PHASE ≠ 0 <;>
        simp [c1, c2, c3]
  refine ⟨htags, fun hok => ?_⟩
  obtain ⟨s', hs'⟩ := ecl_grav_survey_add_phases_ok grav restart calc_type s hok
  exact ⟨s', hs', htags s' hs'⟩

/-- With the density and saturation keywords of the present phases in the restart file,
    the phases of a survey that has a pore-volume array can be built by a porosity based
    strategy. -/
theorem ecl_grav_survey_add_phases_of_keywords (grav : ecl_grav_type K)
    (restart : ecl_file_type K) (calc_type : grav_calc_type)
    (hcalc : calc_type = GRAV_CALC_RPORV ∨ calc_type = GRAV_CALC_PORMOD)
    (hkw : porv_keywords grav restart) (s : ecl_grav_survey_type K) (hs : s.porv ≠ none) :
    ∃ s', ecl_grav_survey_add_phases grav s restart calc_type = .ok s' := by
  obtain ⟨l, hl⟩ : ∃ l, s.porv = some l := by
    cases h : s.porv with
    | none => exact absurd h hs
    | some l => exact ⟨l, rfl⟩
  refine ecl_grav_survey_add_phases_ok grav restart calc_type s
    (fun phase hphase hpresent sv hsv => ?_)
  obtain ⟨key, den_name, sat_kw, rho, sat, h1, h2, h3, h4, h5⟩ := hkw phase hphase hpresent
  exact ⟨_, ecl_grav_phase_alloc_porv_eq grav sv phase restart calc_type key den_name sat_kw
    l rho sat hcalc h1 h2 h3 h4 h5 (hsv.trans hl)⟩

/-- Claim C27. The PORMOD path runs no sanity check: with the keywords PORV_MOD and PORV
    and the density and saturation keywords of the present phases,
    `ecl_grav_add_survey_PORMOD` returns and stores the survey under its name, with the pore
    volume `PORV_MOD[a] * PORV[global_index[a]]`, whatever the modifiers `PORV_MOD[a]`
    are. -/
theorem ecl_grav_add_survey_PORMOD_no_check (grav : ecl_grav_type K)
    (restart : ecl_file_type K) (name : String) (pormod porv : Nat → K)
    (hmod : kw_floats restart "PORV_MOD" grav.grid_cache.size (fun a => a) pormod)
    (hporv : kw_floats grav.init_file "PORV" grav.grid_cache.size
      (fun a => grav.grid_cache.global_index.getD a 0) porv)
    (hkw : porv_keywords grav restart) :
    ∃ g' s, ecl_grav_add_survey_PORMOD grav name restart = .ok (g', s) ∧
      ecl_grav_get_survey g' (some name) = .ok (some s) ∧
      s.porv = some ((List.range grav.grid_cache.size).map
        (fun a => pormod a * porv (grav.grid_cache.global_index.getD a 0))) := by
  have heq := ecl_grav_survey_alloc_PORMOD_eq grav restart name pormod porv hmod hporv
  obtain ⟨s, hs⟩ := ecl_grav_survey_add_phases_of_keywords grav restart GRAV_CALC_PORMOD
    (Or.inr rfl) hkw
    { ecl_grav_survey_alloc_empty grav.grid_cache name GRAV_CALC_PORMOD with
      porv := some ((List.range grav.grid_cache.size).map
        (fun a => pormod a * porv (grav.grid_cache.global_index.getD a 0))) }
    (fun h => Option.noConfusion h)
  have hframe := ecl_grav_survey_add_phases_frame grav restart GRAV_CALC_PORMOD _ s hs
  refine ⟨ecl_grav_add_survey__ grav name s, s, ?_, ?_, hframe.1⟩
  · unfold ecl_grav_add_survey_PORMOD
    simp only [heq.trans hs, bind, Except.bind, pure, Except.pure]
  · unfold ecl_grav_get_survey ecl_grav_add_survey__
    simp only [hash_has_key_insert, if_true, hash_get, lookup_hash_insert, Except.map]

/-- The sample restart dataset has the density and saturation keywords of the three phases,
    for every registry over the two-cell sample grid in the first format variant. -/
theorem sample_porv_keywords (grav : ecl_grav_type ℚ) (pormod : List ℚ)
    (hsize : grav.grid_cache.size = 2)
    (hversion : ecl_file_get_ecl_version grav.init_file = ECLIPSE100) :
    porv_keywords grav (sample_restart_file_pormod ℚ pormod) := by
  intro phase hphase _
  rw [hsize, hversion]
  rcases hphase with h | h | h <;> subst h
  · exact ⟨"SOIL", "OIL_DEN", _, _,
      fun i => 1 - [1 / 4, 3 / 4].getD i 0 - [1 / 4, 1 / 2].getD i 0, rfl, rfl,
      kw_doubles_of_float_data _ _ "OIL_DEN" [800, 810] _ rfl (by decide),
      ecl_grav_phase_alloc_sat_kw_residual_sgas (sample_restart_file_pormod ℚ pormod) "SOIL"
        "SWAT" "SGAS" [1 / 4, 3 / 4] [1 / 4, 1 / 2] rfl rfl rfl rfl rfl,
      fun i hi => iget_one_sub_sub "SWAT" [1 / 4, 3 / 4] [1 / 4, 1 / 2] i hi rfl⟩
  · obtain ⟨kw, hk, hr⟩ := kw_doubles_of_float_data (sample_restart_file_pormod ℚ pormod)
      "SGAS" "SGAS" [1 / 4, 1 / 2] 2 rfl (by decide)
    exact ⟨"SGAS", "GAS_DEN", kw, _, _, rfl, rfl,
      kw_doubles_of_float_data _ _ "GAS_DEN" [1, 2] _ rfl (by decide),
      (ecl_grav_phase_alloc_sat_kw_explicit (sample_restart_file_pormod ℚ pormod) "SGAS"
        rfl).trans hk, hr⟩
  · obtain ⟨kw, hk, hr⟩ := kw_doubles_of_float_data (sample_restart_file_pormod ℚ pormod)
      "SWAT" "SWAT" [1 / 4, 3 / 4] 2 rfl (by decide)
    exact ⟨"SWAT", "WAT_DEN", kw, _, _, rfl, rfl,
      kw_doubles_of_float_data _ _ "WAT_DEN" [1000, 1010] _ rfl (by decide),
      (ecl_grav_phase_alloc_sat_kw_explicit (sample_restart_file_pormod ℚ pormod) "SWAT"
        rfl).trans hk, hr⟩

/-- Witness of claim C27 on the sample data with the modifier 15 in both cells: the survey
    is built and stored, its pore volumes are 15 times the static ones. -/
theorem ecl_grav_add_survey_PORMOD_no_check_witness :
    ∃ g' s, ecl_grav_add_survey_PORMOD (sample_grav ℚ) "base"
        (sample_restart_file_pormod ℚ [15, 15]) = .ok (g', s) ∧
      ecl_grav_get_survey g' (some "base") = .ok (some s) ∧
      s.porv = some [1500, 3000] := by
  obtain ⟨g', s, h1, h2, h3⟩ := ecl_grav_add_survey_PORMOD_no_check (sample_grav ℚ)
    (sample_restart_file_pormod ℚ [15, 15]) "base" (fun j => [15, 15].getD j 0)
    (fun j => [100, 0, 200].getD j 0)
    (kw_floats_of_float_data _ _ "PORV_MOD" _ _ _ rfl (fun i hi => hi))
    (kw_floats_of_float_data _ _ "PORV" _ _ _ rfl (fun i hi => by
      have hi2 : i < 2 := hi
      interval_cases i <;> decide))
    (sample_porv_keywords (sample_grav ℚ) [15, 15] rfl rfl)
  refine ⟨g', s, h1, h2, ?_⟩
  rw [h3]
  norm_num [sample_grav, sample_grid_cache, List.range_succ]

/-- Witness of claim C28 on the sample data of an oil-water model: the phase list of the
    survey is oil, water. -/
theorem ecl_grav_survey_add_phases_order_witness :
    ∃ s', ecl_grav_survey_add_phases (sample_grav_oil_water ℚ) (sample_porv_survey ℚ)
        (sample_restart_file_pormod ℚ [15, 15]) GRAV_CALC_PORMOD = .ok s' ∧
      phase_tags s' = [ECL_OIL_PHASE, ECL_WATER_PHASE] := by
  obtain ⟨s', h1, h2⟩ := (ecl_grav_survey_add_phases_order (sample_grav_oil_water ℚ)
    (sample_restart_file_pormod ℚ [15, 15]) GRAV_CALC_PORMOD (sample_porv_survey ℚ)).2
    (fun phase hphase hpresent sv hsv => by
      obtain ⟨key, den_name, sat_kw, rho, sat, k1, k2, k3, k4, k5⟩ :=
        sample_porv_keywords (sample_grav_oil_water ℚ) [15, 15] rfl rfl phase hphase hpresent
      exact ⟨_, ecl_grav_phase_alloc_porv_eq (sample_grav_oil_water ℚ) sv phase
        (sample_restart_file_pormod ℚ [15, 15]) GRAV_CALC_PORMOD key den_name sat_kw
        [100, 300] rho sat (Or.inr rfl) k1 k2 k3 k4 k5 (hsv.trans rfl)⟩)
  exact ⟨s', h1, h2⟩

/-- One more store of a loop that fills an array from index 0 upwards. -/
theorem set_map_range_append_drop {α : Type} (g : Nat → α) (array : List α) (k : Nat)
    (hk : k < array.length) :
    ((List.range k).map g ++ array.drop k).set k (g k)
      = (List.range (k + 1)).map g ++ array.drop (k + 1) := by
  rw [List.set_append_right _ _ (by simp), List.drop_eq_getElem_cons hk, List.range_succ]
  simp only [List.length_map, List.length_range, Nat.sub_self, List.set_cons_zero,
    List.map_append, List.map_cons, List.map_nil, List.append_assoc, List.singleton_append]

/-- An iteration of a filling loop that keeps the element it visits. -/
theorem map_range_append_drop_keep {α : Type} (g : Nat → α) (array : List α) (k : Nat)
    (hk : k < array.length) (hg : g k = array[k]) :
    (List.range k).map g ++ array.drop k
      = (List.range (k + 1)).map g ++ array.drop (k + 1) := by
  rw [List.drop_eq_getElem_cons hk, List.range_succ, ← hg]
  simp only [List.map_append, List.map_cons, List.map_nil, List.append_assoc,
    List.singleton_append]

/-- The first loop of `ecl_grav_grid_cache_alloc` marks every cell as eligible. -/
theorem ecl_grav_grid_cache_alloc_active_eq (size : Nat) (active : List Bool)
    (hl : active.length = size) :
    ecl_grav_grid_cache_alloc_active size active = (List.range size).map (fun _ => true) := by
  have key : ∀ k, k ≤ size →
      (List.range k).foldl (fun active active_index => active.set active_index true) active
        = (List.range k).map (fun _ => true) ++ active.drop k := by
    intro k
    induction k with
    | zero => intro _; rfl
    | succ k ih =>
      intro hk
      rw [List.range_succ, List.foldl_append, ih (Nat.le_of_lt hk)]
      simp only [List.foldl_cons, List.foldl_nil]
      rw [← List.range_succ]
      exact set_map_range_append_drop (fun _ => true) active k (by omega)
  unfold ecl_grav_grid_cache_alloc_active
  rw [key size (Nat.le_refl size), List.drop_of_length_le (by omega), List.append_nil]

/-- The second loop of `ecl_grav_grid_cache_alloc` clears the flag of the cells whose
    aquifer number is negative and keeps the other flags. -/
theorem ecl_grav_grid_cache_alloc_aquifer_eq (size : Nat) (aquifer_data : List Int)
    (active : List Bool) (hl : active.length = size) :
    ecl_grav_grid_cache_alloc_aquifer size aquifer_data active
      = (List.range size).map
          (fun i => if aquifer_data.getD i 0 < 0 then false else active.getD i true) := by
  have key : ∀ k, k ≤ size →
      (List.range k).foldl
        (fun active active_index =>
          if aquifer_data.getD active_index 0 < 0 then active.set active_index false
          else active) active
        = (List.range k).map
            (fun i => if aquifer_data.getD i 0 < 0 then false else active.getD i true)
          ++ active.drop k := by
    intro k
    induction k with
    | zero => intro _; rfl
    | succ k ih =>
      intro hk
      have hk' : k < active.length := by omega
      rw [List.range_succ, List.foldl_append, ih (Nat.le_of_lt hk)]
      simp only [List.foldl_cons, List.foldl_nil]
      rw [← List.range_succ]
      by_cases hneg : aquifer_data.getD k 0 < 0
      · rw [if_pos hneg]
        have h := set_map_range_append_drop
          (fun i => if aquifer_data.getD i 0 < 0 then false else active.getD i true)
          active k hk'
        simp only [hneg, if_true] at h
        exact h
      · rw [if_neg hneg]
        exact map_range_append_drop_keep _ active k hk' (by
          show (if aquifer_data.getD k 0 < 0 then false else active.getD k true) = active[k]
          rw [if_neg hneg, List.getD_eq_getElem?_getD, List.getElem?_eq_getElem hk',
            Option.getD_some])
  unfold ecl_grav_grid_cache_alloc_aquifer
  rw [key size (Nat.le_refl size), List.drop_of_length_le (by omega), List.append_nil]

/-- The third loop of `ecl_grav_grid_cache_alloc` stores the global index and the cell
    centre of every active cell. -/
theorem ecl_grav_grid_cache_alloc_xyz_eq {F : Type} (grid : ecl_grid_type F) (size : Nat)
    (global_index : List Nat) (xpos ypos zpos : List F)
    (h0 : global_index.length = size) (h1 : xpos.length = size) (h2 : ypos.length = size)
    (h3 : zpos.length = size) :
    ecl_grav_grid_cache_alloc_xyz grid size (global_index, xpos, ypos, zpos)
      = ((List.range size).map (fun i => ecl_grid_get_global_index1A grid i),
         (List.range size).map
           (fun i => (ecl_grid_get_xyz1 grid (ecl_grid_get_global_index1A grid i)).1),
         (List.range size).map
           (fun i => (ecl_grid_get_xyz1 grid (ecl_grid_get_global_index1A grid i)).2.1),
         (List.range size).map
           (fun i => (ecl_grid_get_xyz1 grid (ecl_grid_get_global_index1A grid i)).2.2)) := by
  have key : ∀ k, k ≤ size →
      (List.range k).foldl
        (fun (arrays : List Nat × List F × List F × List F) active_index =>
          let global_index := ecl_grid_get_global_index1A grid active_index
          let xyz := ecl_grid_get_xyz1 grid global_index
          (arrays.1.set active_index global_index,
           arrays.2.1.set active_index xyz.1,
           arrays.2.2.1.set active_index xyz.2.1,
           arrays.2.2.2.set active_index xyz.2.2))
        (global_index, xpos, ypos, zpos)
        = ((List.range k).map (fun i => ecl_grid_get_global_index1A grid i)
              ++ global_index.drop k,
           (List.range k).map
             (fun i => (ecl_grid_get_xyz1 grid (ecl_grid_get_global_index1A grid i)).1)
              ++ xpos.drop k,
           (List.range k).map
             (fun i => (ecl_grid_get_xyz1 grid (ecl_grid_get_global_index1A grid i)).2.1)
              ++ ypos.drop k,
           (List.range k).map
             (fun i => (ecl_grid_get_xyz1 grid (ecl_grid_get_global_index1A grid i)).2.2)
              ++ zpos.drop k) := by
    intro k
    induction k with
    | zero => intro _; rfl
    | succ k ih =>
      intro hk
      rw [List.range_succ, List.foldl_append, ih (Nat.le_of_lt hk)]
      simp only [List.foldl_cons, List.foldl_nil]
      rw [set_map_range_append_drop (fun i => ecl_grid_get_global_index1A grid i)
          global_index k (by omega),
        set_map_range_append_drop
          (fun i => (ecl_grid_get_xyz1 grid (ecl_grid_get_global_index1A grid i)).1)
          xpos k (by omega),
        set_map_range_append_drop
          (fun i => (ecl_grid_get_xyz1 grid (ecl_grid_get_global_index1A grid i)).2.1)
          ypos k (by omega),
        set_map_range_append_drop
          (fun i => (ecl_grid_get_xyz1 grid (ecl_grid_get_global_index1A grid i)).2.2)
          zpos k (by omega)]
      simp only [List.range_succ]
  unfold ecl_grav_grid_cache_alloc_xyz
  rw [key size (Nat.le_refl size), List.drop_of_length_le (by omega),
    List.drop_of_length_le (by omega), List.drop_of_length_le (by omega),
    List.drop_of_length_le (by omega)]
  simp only [List.append_nil]

/-- Reading an array of flags that are all set. -/
theorem getD_map_true (n i : Nat) :
    ((List.range n).map (fun _ => true)).getD i true = true := by
  rw [List.getD_eq_getElem?_getD, List.getElem?_map]
  cases (List.range n)[i]? <;> rfl

/-- The function `ecl_grav_grid_cache_alloc` on an init file without the keyword AQUIFERN,
    or with an integer keyword AQUIFERN. -/
theorem ecl_grav_grid_cache_alloc_eq {F : Type} [Zero F] (grid : ecl_grid_type F)
    (init_file : ecl_file_type F) (aquifer : Option (List Int))
    (hkw : (ecl_file_has_kw init_file AQUIFER_KW = false ∧ aquifer = none) ∨
      ∃ hd l, ecl_file_has_kw init_file AQUIFER_KW = true ∧
        ecl_file_iget_named_kw init_file AQUIFER_KW 0 = .ok ⟨hd, .int_data l⟩ ∧
        aquifer = some l) :
    ecl_grav_grid_cache_alloc grid init_file
      = .ok
        { size := ecl_grid_get_active_size grid,
          xpos := (List.range (ecl_grid_get_active_size grid)).map
            (fun i => (ecl_grid_get_xyz1 grid (ecl_grid_get_global_index1A grid i)).1),
          ypos := (List.range (ecl_grid_get_active_size grid)).map
            (fun i => (ecl_grid_get_xyz1 grid (ecl_grid_get_global_index1A grid i)).2.1),
          zpos := (List.range (ecl_grid_get_active_size grid)).map
            (fun i => (ecl_grid_get_xyz1 grid (ecl_grid_get_global_index1A grid i)).2.2),
          global_index := (List.range (ecl_grid_get_active_size grid)).map
            (fun i => ecl_grid_get_global_index1A grid i),
          active := (List.range (ecl_grid_get_active_size grid)).map
            (fun i =>
              match aquifer with
              | some l => if l.getD i 0 < 0 then false else true
              | none => true) } := by
  have hxyz := ecl_grav_grid_cache_alloc_xyz_eq grid (ecl_grid_get_active_size grid)
    (util_malloc_array 0 (ecl_grid_get_active_size grid))
    (util_malloc_doubles F (ecl_grid_get_active_size grid))
    (util_malloc_doubles F (ecl_grid_get_active_size grid))
    (util_malloc_doubles F (ecl_grid_get_active_size grid))
    (by simp [util_malloc_array]) (by simp [util_malloc_doubles])
    (by simp [util_malloc_doubles]) (by simp [util_malloc_doubles])
  have hact := ecl_grav_grid_cache_alloc_active_eq (ecl_grid_get_active_size grid)
    (util_malloc_array false (ecl_grid_get_active_size grid)) (by simp [util_malloc_array])
  unfold ecl_grav_grid_cache_alloc
  rcases hkw with ⟨hno, hnone⟩ | ⟨hd, l, hyes, hget, hsome⟩
  · subst hnone
    simp only [hno, Bool.false_eq_true, if_false, bind, Except.bind, pure, Except.pure, hxyz,
      hact]
  · subst hsome
    have haq := ecl_grav_grid_cache_alloc_aquifer_eq (ecl_grid_get_active_size grid) l
      ((List.range (ecl_grid_get_active_size grid)).map (fun _ => true)) (by simp)
    simp only [getD_map_true] at haq
    simp only [hyes, if_true, hget, bind, Except.bind, ecl_kw_get_int_ptr, Except.map, pure,
      Except.pure, hxyz, hact, haq]

/-- Claim C29. Eligibility in the grid cache: without the keyword AQUIFERN in the init file
    every active cell is eligible; with an integer keyword AQUIFERN that has a value for
    every active cell, `active[i]` is false if and only if the value of the keyword at the
    same active index `i` is negative. -/
theorem ecl_grav_grid_cache_alloc_eligible {F : Type} [Zero F] (grid : ecl_grid_type F)
    (init_file : ecl_file_type F) :
    (ecl_file_has_kw init_file AQUIFER_KW = false →
      ∃ c, ecl_grav_grid_cache_alloc grid init_file = .ok c ∧
        c.size = ecl_grid_get_active_size grid ∧ c.active.length = c.size ∧
        ∀ i, i < c.size → c.active.getD i false = true) ∧
    (∀ hd aquifer, ecl_file_has_kw init_file AQUIFER_KW = true →
      ecl_file_iget_named_kw init_file AQUIFER_KW 0 = .ok ⟨hd, .int_data aquifer⟩ →
      ecl_grid_get_active_size grid ≤ aquifer.length →
      ∃ c, ecl_grav_grid_cache_alloc grid init_file = .ok c ∧
        c.size = ecl_grid_get_active_size grid ∧ c.active.length = c.size ∧
        ∀ i, i < c.size → (c.active.getD i true = false ↔ aquifer.getD i 0 < 0)) := by
  constructor
  · intro hno
    refine ⟨_, ecl_grav_grid_cache_alloc_eq grid init_file none (Or.inl ⟨hno, rfl⟩),
      rfl, by simp, fun i hi => ?_⟩
    exact getD_map_range _ _ _ _ hi
  · intro hd aquifer hyes hget _
    refine ⟨_, ecl_grav_grid_cache_alloc_eq grid init_file (some aquifer)
      (Or.inr ⟨hd, aquifer, hyes, hget, rfl⟩), rfl, by simp, fun i hi => ?_⟩
    rw [getD_map_range _ _ _ _ hi]
    by_cases hneg : aquifer.getD i 0 < 0
    · simp only [hneg, if_true]
    · simp only [hneg, if_false, Bool.true_eq_false]

/-- Claim C30. Geometry of the grid cache: `ecl_grav_grid_cache_alloc` returns a cache
    whose size is the number of active cells of the grid, whose five arrays have that
    length and in which, for every active index `i`, `global_index[i]` is the global index
    of the active cell `i` and `(xpos[i], ypos[i], zpos[i])` is the cell centre of that
    global index. -/
theorem ecl_grav_grid_cache_alloc_geometry {F : Type} [Zero F] (grid : ecl_grid_type F)
    (init_file : ecl_file_type F)
    (hkw : ecl_file_has_kw init_file AQUIFER_KW = false ∨
      ∃ hd l, ecl_file_iget_named_kw init_file AQUIFER_KW 0 = .ok ⟨hd, .int_data l⟩) :
    ∃ c, ecl_grav_grid_cache_alloc grid init_file = .ok c ∧
      c.size = ecl_grid_get_active_size grid ∧
      c.xpos.length = c.size ∧ c.ypos.length = c.size ∧ c.zpos.length = c.size ∧
      c.global_index.length = c.size ∧ c.active.length = c.size ∧
      ∀ i, i < c.size →
        c.global_index.getD i 0 = ecl_grid_get_global_index1A grid i ∧
        (c.xpos.getD i 0, c.ypos.getD i 0, c.zpos.getD i 0)
          = ecl_grid_get_xyz1 grid (c.global_index.getD i 0) := by
  have hcases : ∃ aquifer : Option (List Int),
      (ecl_file_has_kw init_file AQUIFER_KW = false ∧ aquifer = none) ∨
      ∃ hd l, ecl_file_has_kw init_file AQUIFER_KW = true ∧
        ecl_file_iget_named_kw init_file AQUIFER_KW 0 = .ok ⟨hd, .int_data l⟩ ∧
        aquifer = some l := by
    cases hhas : ecl_file_has_kw init_file AQUIFER_KW with
    | false => exact ⟨none, Or.inl ⟨rfl, rfl⟩⟩
    | true =>
      rcases hkw with hno | ⟨hd, l, hget⟩
      · rw [hhas] at hno
        cases hno
      · exact ⟨some l, Or.inr ⟨hd, l, rfl, hget, rfl⟩⟩
  obtain ⟨aquifer, haq⟩ := hcases
  refine ⟨_, ecl_grav_grid_cache_alloc_eq grid init_file aquifer haq, rfl, by simp, by simp,
    by simp, by simp, by simp, fun i hi => ?_⟩
  have hi' : i < ecl_grid_get_active_size grid := hi
  refine ⟨getD_map_range _ _ _ _ hi', ?_⟩
  simp only [getD_map_range _ _ _ _ hi']

/-- Witness of claim C29 on the sample grid: with AQUIFERN = [0, -1] the first active cell
    is eligible and the second is not; without the keyword both cells are eligible. -/
theorem ecl_grav_grid_cache_alloc_eligible_witness :
    (∃ c, ecl_grav_grid_cache_alloc (sample_grid ℚ) (sample_init_file_aquifer ℚ) = .ok c ∧
      c.active.getD 0 true = true ∧ c.active.getD 1 true = false) ∧
    (∃ c, ecl_grav_grid_cache_alloc (sample_grid ℚ) (sample_init_file ℚ) = .ok c ∧
      c.active.getD 0 false = true ∧ c.active.getD 1 false = true) := by
  have h := ecl_grav_grid_cache_alloc_eligible (sample_grid ℚ) (sample_init_file_aquifer ℚ)
  have h' := ecl_grav_grid_cache_alloc_eligible (sample_grid ℚ) (sample_init_file ℚ)
  obtain ⟨c, h1, h2, _, h3⟩ := h.2 "AQUIFERN" [0, -1] rfl rfl (by decide)
  obtain ⟨c', h1', h2', _, h3'⟩ := h'.1 rfl
  have hs : c.size = 2 := h2
  have hs' : c'.size = 2 := h2'
  refine ⟨⟨c, h1, ?_, (h3 1 (by omega)).mpr (by decide)⟩,
    ⟨c', h1', h3' 0 (by omega), h3' 1 (by omega)⟩⟩
  cases hc : c.active.getD 0 true with
  | true => rfl
  | false => exact absurd ((h3 0 (by omega)).mp hc) (by decide)

/-- Witness of claim C30 on the sample grid: two active cells, the second one is the global
    cell 2 with the centre (100, 0, 1000). -/
theorem ecl_grav_grid_cache_alloc_geometry_witness :
    ∃ c, ecl_grav_grid_cache_alloc (sample_grid ℚ) (sample_init_file ℚ) = .ok c ∧
      c.size = 2 ∧ c.global_index.getD 1 0 = 2 ∧
      (c.xpos.getD 1 0, c.ypos.getD 1 0, c.zpos.getD 1 0) = (100, 0, 1000) := by
  obtain ⟨c, h1, h2, _, _, _, _, _, h3⟩ := ecl_grav_grid_cache_alloc_geometry (sample_grid ℚ)
    (sample_init_file ℚ) (Or.inl rfl)
  have hs : c.size = 2 := h2
  obtain ⟨hg, hxyz⟩ := h3 1 (by omega)
  have hg' : c.global_index.getD 1 0 = 2 := hg
  refine ⟨c, h1, hs, hg', ?_⟩
  rw [hxyz, hg']
  norm_num [ecl_grid_get_xyz1, sample_grid]

/-- Claim C34. The calculation types are `GRAV_CALC_RPORV = 1 + 128 + 256`,
    `GRAV_CALC_PORMOD = 2 + 128 + 256`, `GRAV_CALC_FIP = 3` and `GRAV_CALC_RFIP = 4 + 256`,
    pairwise distinct; the test `calc_type & GRAV_CALC_USE_PORV` is non-zero for RPORV and
    PORMOD and zero for FIP and RFIP, and `ecl_grav_survey_alloc_empty` gives the survey a
    pore-volume array, of the size of the grid cache, exactly for RPORV and PORMOD. -/
theorem grav_calc_type_use_porv {F : Type} [LinearOrderedField F]
    (grid_cache : ecl_grav_grid_cache_type F) (name : String) :
    (GRAV_CALC_RPORV = 1 + 128 + 256 ∧ GRAV_CALC_PORMOD = 2 + 128 + 256 ∧
      GRAV_CALC_FIP = 3 ∧ GRAV_CALC_RFIP = 4 + 256) ∧
    [GRAV_CALC_RPORV, GRAV_CALC_PORMOD, GRAV_CALC_FIP, GRAV_CALC_RFIP].Nodup ∧
    (GRAV_CALC_RPORV &&& GRAV_CALC_USE_PORV ≠ 0 ∧ GRAV_CALC_PORMOD &&& GRAV_CALC_USE_PORV ≠ 0 ∧
      GRAV_CALC_FIP &&& GRAV_CALC_USE_PORV = 0 ∧ GRAV_CALC_RFIP &&& GRAV_CALC_USE_PORV = 0) ∧
    (ecl_grav_survey_alloc_empty grid_cache name GRAV_CALC_RPORV).porv
      = some (util_malloc_doubles F grid_cache.size) ∧
    (ecl_grav_survey_alloc_empty grid_cache name GRAV_CALC_PORMOD).porv
      = some (util_malloc_doubles F grid_cache.size) ∧
    (ecl_grav_survey_alloc_empty grid_cache name GRAV_CALC_FIP).porv = none ∧
    (ecl_grav_survey_alloc_empty grid_cache name GRAV_CALC_RFIP).porv = none := by
  refine ⟨⟨rfl, rfl, rfl, rfl⟩, by decide, ⟨by decide, by decide, by decide, by decide⟩,
    rfl, rfl, rfl, rfl⟩

/-- Claim C32, amended. `ecl_grav_get_survey` returns "no survey" when the name is NULL,
    returns the stored survey when the name is registered, and ends with `exit(1)` for every
    other name, the empty string included. -/
theorem ecl_grav_get_survey_cases {F : Type} (grav : ecl_grav_type F) :
    ecl_grav_get_survey grav none = .ok none ∧
    (∀ name s, grav.surveys.lookup name = some s →
      ecl_grav_get_survey grav (some name) = .ok (some s)) ∧
    (∀ name, grav.surveys.lookup name = none →
      ecl_grav_get_survey grav (some name) = .error (.exit1 "ecl_grav_get_survey")) := by
  refine ⟨rfl, fun name s h => ?_, fun name h => ?_⟩
  · unfold ecl_grav_get_survey hash_has_key hash_get
    simp only [h, Option.isSome_some, if_true, Except.map]
  · unfold ecl_grav_get_survey hash_has_key
    simp only [h, Option.isSome_none, Bool.false_eq_true, if_false]

/-- Witness of claim C32 (amended) on the one-cell registry: the name "base" is registered
    and found, the name "other" is not and the lookup ends with `exit(1)`. -/
theorem ecl_grav_get_survey_cases_witness :
    ecl_grav_get_survey (one_cell_grav ℚ) (some "base")
      = .ok (some (survey_of_phases (one_cell_grid_cache ℚ) "base"
          [one_cell_phase ECL_OIL_PHASE 5])) ∧
    ecl_grav_get_survey (one_cell_grav ℚ) (some "other")
      = .error (.exit1 "ecl_grav_get_survey") :=
  ⟨(ecl_grav_get_survey_cases (one_cell_grav ℚ)).2.1 "base" _ rfl,
   (ecl_grav_get_survey_cases (one_cell_grav ℚ)).2.2 "other" rfl⟩

/-- Claim C32 as stated fails for the empty name: the empty string is not NULL, it is looked
    up like any other name, and on a registry without a survey of that name the lookup ends
    with `exit(1)` instead of returning "no survey". -/
theorem ecl_grav_get_survey_cases_counterexample :
    ecl_grav_get_survey (one_cell_grav ℚ) (some "")
      = .error (.exit1 "ecl_grav_get_survey") ∧
    ecl_grav_get_survey (one_cell_grav ℚ) (some "") ≠ .ok none :=
  ⟨rfl, fun h => by cases h⟩

/-- The loop of `ecl_sum_get_first_ministep_gt`, entered below the last ministep with
    enough iterations left, is left at the first ministep below the last one whose value
    exceeds the limit, or at the last ministep when there is none. -/
theorem ecl_sum_get_first_ministep_gt_loop_spec (ecl_sum : ecl_sum_type K)
    (smspec_index : Int) (limit : K) (last : Int) (v : Int → K) :
    ∀ (fuel : Nat) (m : Int), m < last → (last - m).toNat ≤ fuel →
      (∀ j, m ≤ j → j < last → ecl_sum_data_get ecl_sum.data j smspec_index = .ok (v j)) →
      ∃ r, ecl_sum_get_first_ministep_gt_loop ecl_sum smspec_index limit last fuel m
          = some (.ok r) ∧
        ((m ≤ r ∧ r < last ∧ limit < v r ∧ ∀ j, m ≤ j → j < r → ¬ limit < v j) ∨
         (r = last ∧ ∀ j, m ≤ j → j < last → ¬ limit < v j)) := by
  intro fuel
  induction fuel with
  | zero =>
    intro m hm hfuel _
    omega
  | succ fuel ih =>
    intro m hm hfuel hget
    rw [ecl_sum_get_first_ministep_gt_loop]
    simp only [hget m (le_refl m) hm, gt_iff_lt]
    by_cases hv : limit < v m
    · rw [if_pos hv]
      exact ⟨m, rfl, Or.inl ⟨le_refl m, hm, hv, fun j h1 h2 => by omega⟩⟩
    · rw [if_neg hv]
      by_cases hnext : m + 1 < last
      · rw [if_pos hnext]
        obtain ⟨r, hr, hcase⟩ := ih (m + 1) hnext (by omega)
          (fun j h1 h2 => hget j (by omega) h2)
        refine ⟨r, hr, ?_⟩
        rcases hcase with ⟨h1, h2, h3, h4⟩ | ⟨h1, h2⟩
        · refine Or.inl ⟨by omega, h2, h3, fun j hj1 hj2 => ?_⟩
          by_cases hjm : j = m
          · subst hjm; exact hv
          · exact h4 j (by omega) hj2
        · refine Or.inr ⟨h1, fun j hj1 hj2 => ?_⟩
          by_cases hjm : j = m
          · subst hjm; exact hv
          · exact h2 j (by omega) hj2
      · rw [if_neg hnext]
        have hlast : m + 1 = last := by omega
        refine ⟨m + 1, rfl, Or.inr ⟨hlast, fun j hj1 hj2 => ?_⟩⟩
        have hjm : j = m := by omega
        subst hjm
        exact hv

/-- Claim C39. For a summary with `first_ministep < last_ministep` whose values are
    `v m` at the ministeps `first_ministep <= m < last_ministep`, the function
    `ecl_sum_get_first_ministep_gt` returns, within `last_ministep - first_ministep`
    iterations of its loop (one read each), the least such `m` with `v m > limit` if there
    is one and -1 otherwise; nothing is assumed on the value at `last_ministep`, which is
    not read. -/
theorem ecl_sum_get_first_ministep_gt_below_last (ecl_sum : ecl_sum_type K)
    (smspec_index : Int) (limit : K) (v : Int → K)
    (hlt : ecl_sum_get_first_ministep ecl_sum < ecl_sum_get_last_ministep ecl_sum)
    (hget : ∀ m, ecl_sum_get_first_ministep ecl_sum ≤ m →
      m < ecl_sum_get_last_ministep ecl_sum →
      ecl_sum_data_get ecl_sum.data m smspec_index = .ok (v m)) :
    ∃ r, ecl_sum_get_first_ministep_gt
        (ecl_sum_get_last_ministep ecl_sum - ecl_sum_get_first_ministep ecl_sum).toNat
        ecl_sum smspec_index limit = some (.ok r) ∧
      ((ecl_sum_get_first_ministep ecl_sum ≤ r ∧ r < ecl_sum_get_last_ministep ecl_sum ∧
          limit < v r ∧
          ∀ j, ecl_sum_get_first_ministep ecl_sum ≤ j → j < r → ¬ limit < v j) ∨
       (r = -1 ∧
          ∀ j, ecl_sum_get_first_ministep ecl_sum ≤ j →
            j < ecl_sum_get_last_ministep ecl_sum → ¬ limit < v j)) := by
  obtain ⟨r, hr, hcase⟩ := ecl_sum_get_first_ministep_gt_loop_spec ecl_sum smspec_index limit
    (ecl_sum_get_last_ministep ecl_sum) v
    (ecl_sum_get_last_ministep ecl_sum - ecl_sum_get_first_ministep ecl_sum).toNat
    (ecl_sum_get_first_ministep ecl_sum) hlt (Nat.le_refl _) hget
  unfold ecl_sum_get_first_ministep_gt
  simp only [hr]
  rcases hcase with ⟨h1, h2, h3, h4⟩ | ⟨h1, h2⟩
  · exact ⟨r, by rw [if_neg (by omega)], Or.inl ⟨h1, h2, h3, h4⟩⟩
  · exact ⟨-1, by rw [if_pos h1], Or.inr ⟨rfl, h2⟩⟩

/-- Claim C35, at a summary whose last ministep is the only one above the limit: the
    ministeps 0, 1, 2 have the values 1/10, 2/10, 3/10 and the limit is 1/4; the loop stops
    before it reads the last ministep and the function returns -1 instead of 2. When the
    summary has a single ministep the function returns -1 if its value exceeds the limit
    and the number of a ministep that does not exist otherwise. -/
theorem ecl_sum_get_first_ministep_gt_misses_last :
    ecl_sum_get_last_ministep (sample_ecl_sum ℚ [1 / 10, 2 / 10, 3 / 10]) = 2 ∧
    ecl_sum_data_get (sample_ecl_sum ℚ [1 / 10, 2 / 10, 3 / 10]).data 2 0 = .ok (3 / 10) ∧
    ((1 : ℚ) / 4 < 3 / 10) ∧
    ecl_sum_get_first_ministep_gt 2 (sample_ecl_sum ℚ [1 / 10, 2 / 10, 3 / 10]) 0 (1 / 4)
      = some (.ok (-1)) ∧
    ecl_sum_get_first_ministep_gt 1 (sample_ecl_sum ℚ [1]) 0 (1 / 4) = some (.ok (-1)) ∧
    ecl_sum_get_first_ministep_gt 1 (sample_ecl_sum ℚ [1 / 10]) 0 (1 / 4) = some (.ok 1) := by
  refine ⟨rfl, rfl, by norm_num, ?_, ?_, ?_⟩
  · have h0 : ¬ ((4 : ℚ)⁻¹ < 10⁻¹) := by norm_num
    have h1 : ¬ ((4 : ℚ)⁻¹ < 2 / 10) := by norm_num
    simp [ecl_sum_get_first_ministep_gt, ecl_sum_get_first_ministep_gt_loop,
      ecl_sum_get_last_ministep, ecl_sum_get_first_ministep, ecl_sum_data_get_last_ministep,
      ecl_sum_data_get_first_ministep, ecl_sum_data_get, sample_ecl_sum, h0, h1]
  · have h0 : ((4 : ℚ)⁻¹ < 1) := by norm_num
    simp [ecl_sum_get_first_ministep_gt, ecl_sum_get_first_ministep_gt_loop,
      ecl_sum_get_last_ministep, ecl_sum_get_first_ministep, ecl_sum_data_get_last_ministep,
      ecl_sum_data_get_first_ministep, ecl_sum_data_get, sample_ecl_sum, h0]
  · have h0 : ¬ ((4 : ℚ)⁻¹ < 10⁻¹) := by norm_num
    simp [ecl_sum_get_first_ministep_gt, ecl_sum_get_first_ministep_gt_loop,
      ecl_sum_get_last_ministep, ecl_sum_get_first_ministep, ecl_sum_data_get_last_ministep,
      ecl_sum_data_get_first_ministep, ecl_sum_data_get, sample_ecl_sum, h0]

/-- Witness of claim C39: the ministeps 0, 1, 2 with the values 1/10, 3/10, 3/10 and the
    limit 1/4; the function returns the ministep 1 within 2 iterations. -/
theorem ecl_sum_get_first_ministep_gt_below_last_witness :
    ecl_sum_get_first_ministep_gt 2 (sample_ecl_sum ℚ [1 / 10, 3 / 10, 3 / 10]) 0 (1 / 4)
      = some (.ok 1) := by
  obtain ⟨r, hr, hcase⟩ := ecl_sum_get_first_ministep_gt_below_last
    (sample_ecl_sum ℚ [1 / 10, 3 / 10, 3 / 10]) 0 (1 / 4)
    (fun m => ([1 / 10, 3 / 10, 3 / 10] : List ℚ).getD m.toNat 0) (by decide)
    (fun m h1 h2 => by
      have h1' : (0 : Int) ≤ m := h1
      have h2' : m < 2 := h2
      obtain ⟨k, rfl⟩ := Int.eq_ofNat_of_zero_le h1'
      have hk : k < 2 := by omega
      interval_cases k <;> rfl)
  have hr' : ecl_sum_get_first_ministep_gt 2 (sample_ecl_sum ℚ [1 / 10, 3 / 10, 3 / 10]) 0
      (1 / 4) = some (.ok r) := hr
  rw [hr']
  rcases hcase with ⟨h1, h2, h3, h4⟩ | ⟨_, h2⟩
  · have h1' : (0 : Int) ≤ r := h1
    have h2' : r < 2 := h2
    obtain ⟨k, rfl⟩ := Int.eq_ofNat_of_zero_le h1'
    have hk : k < 2 := by omega
    interval_cases k
    · exact absurd h3 (by norm_num)
    · rfl
  · exact absurd (show (1 : ℚ) / 4 < ([1 / 10, 3 / 10, 3 / 10] : List ℚ).getD (1 : Int).toNat 0
      by norm_num) (h2 1 (by decide) (by decide))

/-- A loop whose body keeps a property of the state keeps it. -/
theorem foldlM_preserves {σ ι ε : Type} (P : σ → Prop) (f : σ → ι → Except ε σ)
    (hf : ∀ a i b, P a → f a i = .ok b → P b) (l : List ι) :
    ∀ a r, P a → l.foldlM f a = .ok r → P r := by
  induction l with
  | nil =>
    intro a r ha h
    cases h
    exact ha
  | cons i rest ih =>
    intro a r ha h
    simp only [List.foldlM_cons, bind, Except.bind] at h
    cases hi : f a i with
    | error e => rw [hi] at h; cases h
    | ok b =>
      rw [hi] at h
      exact ih b r (hf a i b ha hi) h

/-- A fill loop does not change the length of the array. -/
theorem fill_loop_length {F : Type} (n : Nat) (value : Nat → Except Fatal F)
    (array r : List F) (h : fill_loop n value array = .ok r) : r.length = array.length := by
  unfold fill_loop at h
  refine foldlM_preserves (fun a => a.length = array.length) _ (fun a i b ha hb => ?_) _
    array r rfl h
  cases hv : value i with
  | error e => simp only [hv, bind, Except.bind] at hb; cases hb
  | ok v =>
    simp only [hv, bind, Except.bind, pure, Except.pure] at hb
    cases hb
    rw [List.length_set]
    exact ha

/-- The copy loop of `ecl_grav_survey_alloc_RPORV` does not change the length of the
    pore-volume array. -/
theorem ecl_grav_survey_alloc_RPORV_loop_length {F : Type} (kw : ecl_kw_type F)
    (porv r : List F) (h : ecl_grav_survey_alloc_RPORV_loop kw porv = .ok r) :
    r.length = porv.length := by
  unfold ecl_grav_survey_alloc_RPORV_loop at h
  refine foldlM_preserves (fun a => a.length = porv.length) _ (fun a i b ha hb => ?_) _
    porv r rfl h
  cases hv : ecl_kw_iget_as_double kw i with
  | error e => simp only [hv, bind, Except.bind] at hb; cases hb
  | ok v =>
    simp only [hv, bind, Except.bind, heap_store] at hb
    split at hb
    · cases hb
      rw [List.length_set]
      exact ha
    · cases hb

/-- A phase returned by `ecl_grav_phase_alloc` refers to the grid cache of the registry and
    has one mass per active cell. -/
theorem ecl_grav_phase_alloc_sized (grav : ecl_grav_type K) (survey : ecl_grav_survey_type K)
    (phase : ecl_phase_enum) (restart : ecl_file_type K) (calc_type : grav_calc_type)
    (p : ecl_grav_phase_type K)
    (h : ecl_grav_phase_alloc grav survey phase restart calc_type = .ok p) :
    p.grid_cache = grav.grid_cache ∧ p.fluid_mass.length = grav.grid_cache.size := by
  unfold ecl_grav_phase_alloc at h
  simp only [bind, Except.bind, pure, Except.pure] at h
  repeat' split at h
  all_goals first
    | (cases h
       rename_i hfill
       exact ⟨rfl, by
         rw [fill_loop_length _ _ _ _ hfill]
         simp [util_malloc_doubles]⟩)
    | cases h

/-- A block of `ecl_grav_survey_add_phases` keeps a survey a survey over the grid cache of
    the registry. -/
theorem ecl_grav_survey_add_phases_block_sized (grav : ecl_grav_type K)
    (restart : ecl_file_type K) (calc_type : grav_calc_type) (phases : Nat)
    (phase : ecl_phase_enum) (s s' : ecl_grav_survey_type K)
    (hs : survey_sized grav.grid_cache s)
    (h : ecl_grav_survey_add_phases_block grav restart calc_type phases phase s = .ok s') :
    survey_sized grav.grid_cache s' := by
  unfold ecl_grav_survey_add_phases_block at h
  split at h
  · cases hp : ecl_grav_phase_alloc grav s phase restart calc_type with
    | error e => simp only [hp, bind, Except.bind] at h; cases h
    | ok p =>
      simp only [hp, bind, Except.bind] at h
      have hsized := ecl_grav_phase_alloc_sized grav s phase restart calc_type p hp
      unfold ecl_grav_survey_add_phase at h
      cases hk : ecl_util_get_phase_name phase with
      | error e => rw [hk] at h; cases h
      | ok key =>
        rw [hk] at h
        cases h
        refine ⟨hs.1, fun q hq => ?_, hs.2.2⟩
        rcases List.mem_append.mp hq with hq | hq
        · exact hs.2.1 q hq
        · rw [List.mem_singleton.mp hq]
          exact hsized
  · cases h
    exact hs

/-- The function `ecl_grav_survey_add_phases` keeps a survey a survey over the grid cache
    of the registry. -/
theorem ecl_grav_survey_add_phases_sized (grav : ecl_grav_type K)
    (restart : ecl_file_type K) (calc_type : grav_calc_type) (s s' : ecl_grav_survey_type K)
    (hs : survey_sized grav.grid_cache s)
    (h : ecl_grav_survey_add_phases grav s restart calc_type = .ok s') :
    survey_sized grav.grid_cache s' := by
  rw [ecl_grav_survey_add_phases_eq] at h
  cases h1 : ecl_grav_survey_add_phases_block grav restart calc_type
      (ecl_file_get_phases grav.init_file) ECL_OIL_PHASE s with
  | error e => simp only [h1, bind, Except.bind] at h; cases h
  | ok s1 =>
    cases h2 : ecl_grav_survey_add_phases_block grav restart calc_type
        (ecl_file_get_phases grav.init_file) ECL_GAS_PHASE s1 with
    | error e => simp only [h1, h2, bind, Except.bind] at h; cases h
    | ok s2 =>
      simp only [h1, h2, bind, Except.bind] at h
      exact ecl_grav_survey_add_phases_block_sized grav restart calc_type _ _ _ _
        (ecl_grav_survey_add_phases_block_sized grav restart calc_type _ _ _ _
          (ecl_grav_survey_add_phases_block_sized grav restart calc_type _ _ _ _ hs h1) h2) h

/-- The phase tags of the survey returned by `ecl_grav_survey_add_phases`. -/
theorem ecl_grav_survey_add_phases_tags (grav : ecl_grav_type K)
    (restart : ecl_file_type K) (calc_type : grav_calc_type) (s s' : ecl_grav_survey_type K)
    (h : ecl_grav_survey_add_phases grav s restart calc_type = .ok s') :
    phase_tags s' = phase_tags s ++ present_phases (ecl_file_get_phases grav.init_file) := by
  rw [ecl_grav_survey_add_phases_eq] at h
  cases h1 : ecl_grav_survey_add_phases_block grav restart calc_type
      (ecl_file_get_phases grav.init_file) ECL_OIL_PHASE s with
  | error e => simp only [h1, bind, Except.bind] at h; cases h
  | ok s1 =>
    cases h2 : ecl_grav_survey_add_phases_block grav restart calc_type
        (ecl_file_get_phases grav.init_file) ECL_GAS_PHASE s1 with
    | error e => simp only [h1, h2, bind, Except.bind] at h; cases h
    | ok s2 =>
      simp only [h1, h2, bind, Except.bind] at h
      rw [ecl_grav_survey_add_phases_block_tags grav restart calc_type _ _ _ _ h,
        ecl_grav_survey_add_phases_block_tags grav restart calc_type _ _ _ _ h2,
        ecl_grav_survey_add_phases_block_tags grav restart calc_type _ _ _ _ h1]
      unfold present_phases
      simp only [List.append_assoc, List.filter_cons, List.filter_nil, decide_eq_true_eq]
      by_cases c1 : ecl_file_get_phases grav.init_file &&& ECL_OIL_PHASE ≠ 0 <;>
      by_cases c2 : ecl_file_get_phases grav.init_file &&& ECL_GAS_PHASE ≠ 0 <;>
      by_cases c3 : ecl_file_get_phases grav.init_file &&& ECL_WATER_PHASE ≠ 0 <;>
      simp [c1, c2, c3]

/-- An empty survey is a survey over its grid cache. -/
theorem ecl_grav_survey_alloc_empty_sized (gc : ecl_grav_grid_cache_type K) (name : String)
    (calc_type : grav_calc_type) :
    survey_sized gc (ecl_grav_survey_alloc_empty gc name calc_type) := by
  refine ⟨rfl, fun p hp => ?_, fun l hl => ?_⟩
  · cases hp
  · unfold ecl_grav_survey_alloc_empty at hl
    simp only [] at hl
    split at hl
    · cases hl
      simp [util_malloc_doubles]
    · cases hl

/-- What an entry point that returns has done: the survey it returns is a survey over the
    grid cache of the registry, with the phase tags selected by the phase bitmask of the
    init file, and the registry it leaves is the former one with that survey stored under
    the name. -/
theorem ecl_grav_add_survey_returns_inv (log10 : K → K) (rand : Nat → Nat) (fuel : Nat)
    (grav : ecl_grav_type K) (name : String) (restart : ecl_file_type K)
    (g : ecl_grav_type K) (s : ecl_grav_survey_type K)
    (h : ecl_grav_add_survey_returns log10 rand fuel grav name restart g s) :
    g = ecl_grav_add_survey__ grav name s ∧ survey_sized grav.grid_cache s ∧
      phase_tags s = present_phases (ecl_file_get_phases grav.init_file) := by
  have hbuilt : ∀ (calc_type : grav_calc_type) (s0 : ecl_grav_survey_type K),
      survey_sized grav.grid_cache s0 → s0.phase_list = [] →
      ecl_grav_survey_add_phases grav s0 restart calc_type = .ok s →
      survey_sized grav.grid_cache s ∧
        phase_tags s = present_phases (ecl_file_get_phases grav.init_file) := by
    intro calc_type s0 h0 hnil hadd
    refine ⟨ecl_grav_survey_add_phases_sized grav restart calc_type s0 s h0 hadd, ?_⟩
    rw [ecl_grav_survey_add_phases_tags grav restart calc_type s0 s hadd]
    simp [phase_tags, hnil]
  rcases h with h | h | h | h
  · unfold ecl_grav_add_survey_RPORV at h
    cases ha : ecl_grav_survey_alloc_RPORV log10 rand fuel grav restart name with
    | none => rw [ha] at h; cases h
    | some r =>
      cases r with
      | error e => rw [ha] at h; cases h
      | ok s1 =>
        rw [ha] at h
        cases h
        refine ⟨rfl, ?_⟩
        unfold ecl_grav_survey_alloc_RPORV at ha
        cases hp : ecl_grav_survey_alloc_RPORV_porv grav restart name with
        | error e => rw [hp] at ha; cases ha
        | ok sv =>
          rw [hp] at ha
          simp only [] at ha
          cases hc : ecl_grav_survey_assert_RPORV log10 rand fuel sv grav.init_file with
          | none => rw [hc] at ha; cases ha
          | some c =>
            cases c with
            | error e => rw [hc] at ha; cases ha
            | ok n =>
              rw [hc] at ha
              have hadd : ecl_grav_survey_add_phases grav sv restart GRAV_CALC_RPORV = .ok s :=
                Option.some.inj ha
              have hsv : survey_sized grav.grid_cache sv ∧ sv.phase_list = [] := by
                unfold ecl_grav_survey_alloc_RPORV_porv at hp
                simp only [] at hp
                split at hp
                · cases hk : ecl_file_iget_named_kw restart RPORV_KW 0 with
                  | error e => simp only [hk, bind, Except.bind] at hp; cases hp
                  | ok kw =>
                    simp only [hk, bind, Except.bind] at hp
                    have he : (ecl_grav_survey_alloc_empty grav.grid_cache name
                        GRAV_CALC_RPORV).porv
                        = some (util_malloc_doubles K grav.grid_cache.size) := rfl
                    simp only [he] at hp
                    cases hl : ecl_grav_survey_alloc_RPORV_loop kw
                        (util_malloc_doubles K grav.grid_cache.size) with
                    | error e => simp only [hl] at hp; cases hp
                    | ok porv =>
                      simp only [hl, pure, Except.pure] at hp
                      cases hp
                      refine ⟨⟨rfl, fun p hp' => absurd hp' (List.not_mem_nil p),
                        fun l hl' => ?_⟩, rfl⟩
                      cases hl'
                      rw [ecl_grav_survey_alloc_RPORV_loop_length kw _ _ hl]
                      simp [util_malloc_doubles]
                · cases hp
              exact hbuilt GRAV_CALC_RPORV sv hsv.1 hsv.2 hadd
  · unfold ecl_grav_add_survey_PORMOD at h
    cases ha : ecl_grav_survey_alloc_PORMOD grav restart name with
    | error e => simp only [ha, bind, Except.bind] at h; cases h
    | ok s1 =>
      simp only [ha, bind, Except.bind, pure, Except.pure] at h
      cases h
      refine ⟨rfl, ?_⟩
      unfold ecl_grav_survey_alloc_PORMOD at ha
      cases h1 : ecl_file_iget_named_kw grav.init_file "PORV" 0 with
      | error e => simp only [h1, bind, Except.bind] at ha; cases ha
      | ok kw1 =>
        cases h2 : ecl_file_iget_named_kw restart "PORV_MOD" 0 with
        | error e => simp only [h1, h2, bind, Except.bind] at ha; cases ha
        | ok kw2 =>
          have he : (ecl_grav_survey_alloc_empty grav.grid_cache name GRAV_CALC_PORMOD).porv
              = some (util_malloc_doubles K grav.grid_cache.size) := rfl
          simp only [h1, h2, bind, Except.bind, he] at ha
          split at ha
          · cases ha
          · rename_i porv h3
            refine hbuilt GRAV_CALC_PORMOD _ ⟨rfl, fun p hp' => absurd hp' (List.not_mem_nil p),
              fun l hl' => ?_⟩ rfl ha
            cases hl'
            rw [fill_loop_length _ _ _ _ h3]
            simp [util_malloc_doubles]
  · unfold ecl_grav_add_survey_FIP at h
    cases ha : ecl_grav_survey_alloc_FIP grav restart name with
    | error e => simp only [ha, bind, Except.bind] at h; cases h
    | ok s1 =>
      simp only [ha, bind, Except.bind, pure, Except.pure] at h
      cases h
      exact ⟨rfl, hbuilt GRAV_CALC_FIP _
        (ecl_grav_survey_alloc_empty_sized grav.grid_cache name GRAV_CALC_FIP) rfl ha⟩
  · unfold ecl_grav_add_survey_RFIP at h
    cases ha : ecl_grav_survey_alloc_RFIP grav restart name with
    | error e => simp only [ha, bind, Except.bind] at h; cases h
    | ok s1 =>
      simp only [ha, bind, Except.bind, pure, Except.pure] at h
      cases h
      exact ⟨rfl, hbuilt GRAV_CALC_RFIP _
        (ecl_grav_survey_alloc_empty_sized grav.grid_cache name GRAV_CALC_RFIP) rfl ha⟩

/-- The pairs of a table after an insertion are the new pair and pairs of the former
    table. -/
theorem mem_hash_insert {α : Type} (hash : hash_type α) (key : String) (value : α)
    (kv : String × α) (h : kv ∈ hash_insert hash key value) :
    kv = (key, value) ∨ kv ∈ hash := by
  unfold hash_insert at h
  rcases List.mem_cons.mp h with h | h
  · exact Or.inl h
  · exact Or.inr (List.mem_filter.mp h).1

/-- A value found by a lookup is stored in the table under that name. -/
theorem mem_of_lookup {α : Type} (hash : hash_type α) (key : String) (value : α)
    (h : hash.lookup key = some value) : (key, value) ∈ hash := by
  obtain ⟨l₁, l₂, hl, _⟩ := List.lookup_eq_some_iff.mp h
  rw [hl]
  exact List.mem_append_right _ (List.mem_cons_self _ _)

/-- The lookup of a registered name gives the stored survey. -/
theorem ecl_grav_get_survey_of_lookup {F : Type} (grav : ecl_grav_type F) (name : String)
    (s : ecl_grav_survey_type F) (h : grav.surveys.lookup name = some s) :
    ecl_grav_get_survey grav (some name) = .ok (some s) := by
  unfold ecl_grav_get_survey hash_has_key hash_get
  simp only [h, Option.isSome_some, if_true, Except.map]

/-- The registration of a default density changes the density table only. -/
theorem ecl_grav_new_std_density_frame {F : Type} (grav g : ecl_grav_type F)
    (phase : ecl_phase_enum) (d : F) (h : ecl_grav_new_std_density grav phase d = .ok g) :
    g.grid_cache = grav.grid_cache ∧ g.surveys = grav.surveys ∧
      g.init_file = grav.init_file := by
  obtain ⟨key, _, hcase⟩ := ecl_grav_new_std_density_cases grav g phase d h
  rcases hcase with ⟨_, hg⟩ | ⟨_, hg⟩ <;> rw [hg] <;> exact ⟨rfl, rfl, rfl⟩

/-- An override of a density changes the density table only. -/
theorem ecl_grav_add_std_density_frame {F : Type} (grav g : ecl_grav_type F)
    (phase : ecl_phase_enum) (r : Int) (d : F)
    (h : ecl_grav_add_std_density grav phase r d = .ok g) :
    g.grid_cache = grav.grid_cache ∧ g.surveys = grav.surveys ∧
      g.init_file = grav.init_file := by
  obtain ⟨key, vec, _, _, hg⟩ := ecl_grav_add_std_density_cases grav g phase r d h
  rw [hg]
  exact ⟨rfl, rfl, rfl⟩

/-- Looking up a registry after `ecl_grav_add_survey__`. -/
theorem ecl_grav_get_survey_add_survey__ {F : Type} (grav : ecl_grav_type F) (name : String)
    (s : ecl_grav_survey_type F) :
    ecl_grav_get_survey (ecl_grav_add_survey__ grav name s) (some name) = .ok (some s) ∧
    ∀ other, other ≠ name →
      ecl_grav_get_survey (ecl_grav_add_survey__ grav name s) (some other)
        = ecl_grav_get_survey grav (some other) := by
  constructor
  · unfold ecl_grav_get_survey ecl_grav_add_survey__
    simp only [hash_has_key_insert, if_true, hash_get, lookup_hash_insert, Except.map]
  · intro other hne
    unfold ecl_grav_get_survey ecl_grav_add_survey__ hash_has_key hash_get
    simp only [lookup_hash_insert_ne _ _ _ _ hne]

/-- Claim C31. The grid cache is immutable after construction: on a registry whose stored
    surveys are surveys over its grid cache (as after `ecl_grav_alloc`), each of the four
    entry points that add a survey, `ecl_grav_new_std_density` and
    `ecl_grav_add_std_density` return a registry with the same grid cache, and every stored
    survey, the new one included, refers to that grid cache and has mass arrays and a
    pore-volume array of `size` elements. The function `ecl_grav_eval` takes the registry
    read-only and returns a number. -/
theorem ecl_grav_grid_cache_immutable (log10 : K → K) (rand : Nat → Nat) (fuel : Nat)
    (grav : ecl_grav_type K) (hinv : registry_sized grav) :
    (∀ name restart g s, ecl_grav_add_survey_returns log10 rand fuel grav name restart g s →
      g.grid_cache = grav.grid_cache ∧ registry_sized g ∧ survey_sized g.grid_cache s) ∧
    (∀ phase d g, ecl_grav_new_std_density grav phase d = .ok g →
      g.grid_cache = grav.grid_cache ∧ registry_sized g) ∧
    (∀ phase r d g, ecl_grav_add_std_density grav phase r d = .ok g →
      g.grid_cache = grav.grid_cache ∧ registry_sized g) ∧
    (∀ (grid : ecl_grid_type K) init_file g, ecl_grav_alloc grid init_file = .ok g →
      registry_sized g) := by
  refine ⟨fun name restart g s h => ?_, fun phase d g h => ?_, fun phase r d g h => ?_,
    fun grid init_file g h => ?_⟩
  · obtain ⟨hg, hs, _⟩ := ecl_grav_add_survey_returns_inv log10 rand fuel grav name restart
      g s h
    subst hg
    refine ⟨rfl, fun kv hkv => ?_, hs⟩
    rcases mem_hash_insert _ _ _ _ hkv with hnew | hold
    · rw [hnew]
      exact hs
    · exact hinv kv hold
  · obtain ⟨h1, h2, _⟩ := ecl_grav_new_std_density_frame grav g phase d h
    refine ⟨h1, fun kv hkv => ?_⟩
    rw [h1]
    exact hinv kv (h2 ▸ hkv)
  · obtain ⟨h1, h2, _⟩ := ecl_grav_add_std_density_frame grav g phase r d h
    refine ⟨h1, fun kv hkv => ?_⟩
    rw [h1]
    exact hinv kv (h2 ▸ hkv)
  · unfold ecl_grav_alloc at h
    cases hc : ecl_grav_grid_cache_alloc grid init_file with
    | error e => simp only [hc, bind, Except.bind] at h; cases h
    | ok c =>
      simp only [hc, bind, Except.bind, pure, Except.pure] at h
      cases h
      intro kv hkv
      cases hkv

/-- With phase lists that carry the same tags the evaluation of a base survey against a
    monitor survey returns. -/
theorem ecl_grav_survey_eval_ok_of_tags (sqrt : K → K) (base monitor : ecl_grav_survey_type K)
    (htags : phase_tags monitor = phase_tags base) (x y z : K) (phase_mask : Nat) :
    ∃ v, ecl_grav_survey_eval sqrt base (some monitor) x y z phase_mask = .ok v := by
  cases hr : ecl_grav_survey_eval sqrt base (some monitor) x y z phase_mask with
  | ok v => exact ⟨v, rfl⟩
  | error e =>
    exfalso
    obtain ⟨k, hk, e', he⟩ := (ecl_grav_survey_eval_error_iff sqrt base (some monitor) x y z
      phase_mask).mp ⟨e, hr⟩
    have hp : base.phase_list[k]? = some base.phase_list[k] := List.getElem?_eq_getElem hk
    obtain ⟨q, hq, hqp⟩ := phase_tags_getElem monitor base htags k _ hp
    unfold ecl_grav_survey_eval_term at he
    simp only [hp, hq] at he
    split at he
    · obtain ⟨q', hq', hne⟩ := (ecl_grav_phase_eval_error_iff sqrt _ _ x y z).mp ⟨e', he⟩
      cases hq'
      exact hne hqp
    · cases he

/-- Claim C36. On a registry in which every stored survey has the phase tags selected by
    the phase bitmask of the init file (as after `ecl_grav_alloc`), each entry point that
    adds a survey and each registration of a density leaves such a registry, the survey
    that is added has these tags, any two registered surveys have the same phase tags, and
    `ecl_grav_eval` on two registered names returns a value: it reaches neither the abort
    for different phases nor a position outside the phase list of the monitor. The registry
    that `ecl_grav_alloc` returns is such a registry: it holds no survey. -/
theorem ecl_grav_registry_phase_tags (sqrt log10 : K → K) (rand : Nat → Nat) (fuel : Nat)
    (grav : ecl_grav_type K) (hinv : registry_phase_tags grav) :
    (∀ name restart g s, ecl_grav_add_survey_returns log10 rand fuel grav name restart g s →
      registry_phase_tags g ∧
        phase_tags s = present_phases (ecl_file_get_phases grav.init_file)) ∧
    (∀ phase d g, ecl_grav_new_std_density grav phase d = .ok g → registry_phase_tags g) ∧
    (∀ phase r d g, ecl_grav_add_std_density grav phase r d = .ok g →
      registry_phase_tags g) ∧
    (∀ base monitor sb sm, grav.surveys.lookup base = some sb →
      grav.surveys.lookup monitor = some sm →
      phase_tags sm = phase_tags sb ∧
      ∀ x y z phase_mask,
        ∃ v, ecl_grav_eval sqrt grav (some base) (some monitor) x y z phase_mask = .ok v) ∧
    (∀ (grid : ecl_grid_type K) init_file g, ecl_grav_alloc grid init_file = .ok g →
      registry_phase_tags g) := by
  refine ⟨fun name restart g s h => ?_, fun phase d g h => ?_, fun phase r d g h => ?_,
    fun base monitor sb sm hb hm => ?_, fun grid init_file g h => ?_⟩
  · obtain ⟨hg, _, ht⟩ := ecl_grav_add_survey_returns_inv log10 rand fuel grav name restart
      g s h
    subst hg
    refine ⟨fun kv hkv => ?_, ht⟩
    rcases mem_hash_insert _ _ _ _ hkv with hnew | hold
    · rw [hnew]
      exact ht
    · exact hinv kv hold
  · obtain ⟨_, h2, h3⟩ := ecl_grav_new_std_density_frame grav g phase d h
    intro kv hkv
    rw [h3]
    exact hinv kv (h2 ▸ hkv)
  · obtain ⟨_, h2, h3⟩ := ecl_grav_add_std_density_frame grav g phase r d h
    intro kv hkv
    rw [h3]
    exact hinv kv (h2 ▸ hkv)
  · have hsb := hinv (base, sb) (mem_of_lookup _ _ _ hb)
    have hsm := hinv (monitor, sm) (mem_of_lookup _ _ _ hm)
    have htags : phase_tags sm = phase_tags sb := hsm.trans hsb.symm
    refine ⟨htags, fun x y z phase_mask => ?_⟩
    obtain ⟨v, hv⟩ := ecl_grav_survey_eval_ok_of_tags sqrt sb sm htags x y z phase_mask
    refine ⟨v, ?_⟩
    unfold ecl_grav_eval
    simp only [ecl_grav_get_survey_of_lookup grav base sb hb,
      ecl_grav_get_survey_of_lookup grav monitor sm hm, bind, Except.bind]
    exact hv
  · unfold ecl_grav_alloc at h
    cases hc : ecl_grav_grid_cache_alloc grid init_file with
    | error e => simp only [hc, bind, Except.bind] at h; cases h
    | ok c =>
      simp only [hc, bind, Except.bind, pure, Except.pure] at h
      cases h
      intro kv hkv
      cases hkv

/-- With the keywords PORV_MOD and PORV and the density and saturation keywords of the
    present phases, `ecl_grav_add_survey_PORMOD` returns the registry with the new survey
    stored under the given name. -/
theorem ecl_grav_add_survey_PORMOD_ok (grav : ecl_grav_type K)
    (restart : ecl_file_type K) (name : String) (pormod porv : Nat → K)
    (hmod : kw_floats restart "PORV_MOD" grav.grid_cache.size (fun a => a) pormod)
    (hporv : kw_floats grav.init_file "PORV" grav.grid_cache.size
      (fun a => grav.grid_cache.global_index.getD a 0) porv)
    (hkw : porv_keywords grav restart) :
    ∃ s, ecl_grav_add_survey_PORMOD grav name restart
        = .ok (ecl_grav_add_survey__ grav name s, s) ∧
      s.porv = some ((List.range grav.grid_cache.size).map
        (fun a => pormod a * porv (grav.grid_cache.global_index.getD a 0))) := by
  have heq := ecl_grav_survey_alloc_PORMOD_eq grav restart name pormod porv hmod hporv
  obtain ⟨s, hs⟩ := ecl_grav_survey_add_phases_of_keywords grav restart GRAV_CALC_PORMOD
    (Or.inr rfl) hkw
    { ecl_grav_survey_alloc_empty grav.grid_cache name GRAV_CALC_PORMOD with
      porv := some ((List.range grav.grid_cache.size).map
        (fun a => pormod a * porv (grav.grid_cache.global_index.getD a 0))) }
    (fun h => Option.noConfusion h)
  have hframe := ecl_grav_survey_add_phases_frame grav restart GRAV_CALC_PORMOD _ s hs
  refine ⟨s, ?_, hframe.1⟩
  unfold ecl_grav_add_survey_PORMOD
  simp only [heq.trans hs, bind, Except.bind, pure, Except.pure]

/-- On the sample registry, with any surveys stored in it, the PORMOD entry point returns
    for the sample restart dataset with the modifiers `m0` and `m1`; the pore volumes of
    the survey are `m0 * 100` and `m1 * 200`. -/
theorem sample_add_survey_PORMOD (surveys : hash_type (ecl_grav_survey_type ℚ))
    (name : String) (m0 m1 : ℚ) :
    ∃ s, ecl_grav_add_survey_PORMOD { sample_grav ℚ with surveys := surveys } name
        (sample_restart_file_pormod ℚ [m0, m1])
        = .ok (ecl_grav_add_survey__ { sample_grav ℚ with surveys := surveys } name s, s) ∧
      s.porv = some [m0 * 100, m1 * 200] := by
  obtain ⟨s, h1, h2⟩ := ecl_grav_add_survey_PORMOD_ok
    { sample_grav ℚ with surveys := surveys }
    (sample_restart_file_pormod ℚ [m0, m1]) name (fun j => [m0, m1].getD j 0)
    (fun j => [100, 0, 200].getD j 0)
    (kw_floats_of_float_data _ _ "PORV_MOD" _ _ _ rfl (fun i hi => hi))
    (kw_floats_of_float_data _ _ "PORV" _ _ _ rfl (fun i hi => by
      have hi2 : i < 2 := hi
      have h0 : (sample_grid_cache ℚ).global_index.getD 0 0 < [(100 : ℚ), 0, 200].length := by
        decide
      have h1 : (sample_grid_cache ℚ).global_index.getD 1 0 < [(100 : ℚ), 0, 200].length := by
        decide
      interval_cases i
      · exact h0
      · exact h1))
    (sample_porv_keywords _ [m0, m1] rfl rfl)
  refine ⟨s, h1, ?_⟩
  rw [h2]
  norm_num [sample_grav, sample_grid_cache, List.range_succ]

/-- Witness of claim C31 on the sample registry: it holds no survey, the PORMOD entry point
    returns a registry with the same grid cache in which every survey is a survey over that
    grid cache with arrays of two elements. -/
theorem ecl_grav_grid_cache_immutable_witness :
    registry_sized (sample_grav ℚ) ∧
    ∃ g s, ecl_grav_add_survey_PORMOD (sample_grav ℚ) "base"
        (sample_restart_file_pormod ℚ [15, 15]) = .ok (g, s) ∧
      g.grid_cache = sample_grid_cache ℚ ∧ registry_sized g ∧
      survey_sized (sample_grid_cache ℚ) s ∧ s.porv = some [1500, 3000] := by
  have hinv : registry_sized (sample_grav ℚ) := fun kv hkv => absurd hkv (List.not_mem_nil kv)
  obtain ⟨s, h1, h2⟩ := sample_add_survey_PORMOD hash_alloc "base" 15 15
  obtain ⟨k1, k2, k3⟩ := (ecl_grav_grid_cache_immutable (fun x => x) (fun k => k) 0
    (sample_grav ℚ) hinv).1 "base" (sample_restart_file_pormod ℚ [15, 15]) _ s
    (Or.inr (Or.inl h1))
  refine ⟨hinv, _, s, h1, k1, k2, k3, ?_⟩
  rw [h2]
  norm_num

/-- The surveys of the one-cell registry have the phase tags of its init file. -/
theorem one_cell_grav_phase_tags : registry_phase_tags (one_cell_grav ℝ) := by
  intro kv hkv
  rcases mem_hash_insert _ _ _ _ hkv with h | h
  · rw [h]
    decide
  · rcases mem_hash_insert _ _ _ _ h with h | h
    · rw [h]
      decide
    · exact absurd h (List.not_mem_nil kv)

/-- Witness of claim C36 on the one-cell registry: the surveys "base" and "monitor" have
    the phase tags of the init file, and the evaluation of the two returns a value. -/
theorem ecl_grav_registry_phase_tags_witness :
    registry_phase_tags (one_cell_grav ℝ) ∧
    phase_tags (survey_of_phases (one_cell_grid_cache ℝ) "monitor"
        [one_cell_phase ECL_OIL_PHASE 1005])
      = phase_tags (survey_of_phases (one_cell_grid_cache ℝ) "base"
        [one_cell_phase ECL_OIL_PHASE 5]) ∧
    ∃ v, ecl_grav_eval Real.sqrt (one_cell_grav ℝ) (some "base") (some "monitor") 0 0 0 7
      = .ok v :=
  ⟨one_cell_grav_phase_tags,
   ((ecl_grav_registry_phase_tags Real.sqrt (Real.logb 10) (fun k => k) 0 (one_cell_grav ℝ)
      one_cell_grav_phase_tags).2.2.2.1 "base" "monitor" _ _ rfl rfl).1,
   ((ecl_grav_registry_phase_tags Real.sqrt (Real.logb 10) (fun k => k) 0 (one_cell_grav ℝ)
      one_cell_grav_phase_tags).2.2.2.1 "base" "monitor" _ _ rfl rfl).2 0 0 0 7⟩

/-- The negation of the double zero is zero. -/
theorem c_double_neg_zero : c_double.neg (0 : c_double K) = 0 :=
  congrArg c_double.finite neg_zero

/-- The negation of a sum of two doubles. -/
theorem c_double_neg_add (a b : c_double K) :
    c_double.neg (a + b) = c_double.neg a + c_double.neg b := by
  cases a <;> cases b <;> first
    | rfl
    | exact congrArg c_double.finite (neg_add _ _)

/-- The negation of a sum of doubles. -/
theorem c_double_neg_sum (s : Finset Nat) (f : Nat → c_double K) :
    c_double.neg (∑ i in s, f i) = ∑ i in s, c_double.neg (f i) := by
  induction s using Finset.induction_on with
  | empty => exact c_double_neg_zero
  | insert hi ih => rw [Finset.sum_insert hi, Finset.sum_insert hi, c_double_neg_add, ih]

/-- The difference of the double zero and itself is zero. -/
theorem c_double_sub_zero : c_double.sub (0 : c_double K) 0 = 0 :=
  congrArg c_double.finite (sub_zero 0)

/-- The difference of two sums of two doubles. -/
theorem c_double_sub_add (a b c d : c_double K) :
    c_double.sub (a + b) (c + d) = c_double.sub a c + c_double.sub b d := by
  cases a <;> cases b <;> cases c <;> cases d <;> first
    | rfl
    | exact congrArg c_double.finite (add_sub_add_comm _ _ _ _)

/-- The difference of two sums of doubles. -/
theorem c_double_sub_sum (s : Finset Nat) (f g : Nat → c_double K) :
    c_double.sub (∑ i in s, f i) (∑ i in s, g i) = ∑ i in s, c_double.sub (f i) (g i) := by
  induction s using Finset.induction_on with
  | empty => exact c_double_sub_zero
  | insert hi ih =>
    rw [Finset.sum_insert hi, Finset.sum_insert hi, Finset.sum_insert hi, c_double_sub_add, ih]

/-- Dividing the opposite number. -/
theorem c_double_div_neg (a b : K) : c_double.div (-a) b = c_double.neg (c_double.div a b) := by
  unfold c_double.div
  split
  · rfl
  · exact congrArg c_double.finite (neg_div _ _)

/-- The difference of two quotients with the same denominator. -/
theorem c_double_div_sub (a b c : K) :
    c_double.sub (c_double.div a c) (c_double.div b c) = c_double.div (a - b) c := by
  unfold c_double.div
  split
  · rfl
  · exact (congrArg c_double.finite (sub_div _ _ _)).symm

/-- The sum of two quotients with the same denominator. -/
theorem c_double_div_add (a b c : K) :
    c_double.div a c + c_double.div b c = c_double.div (a + b) c := by
  unfold c_double.div
  split
  · rfl
  · exact (congrArg c_double.finite (add_div _ _ _)).symm

/-- Exchanging the two phases changes the sign of the cell term. -/
theorem ecl_grav_phase_eval_cell_antisymm (sqrt : K → K) (p q : ecl_grav_phase_type K)
    (hgc : q.grid_cache = p.grid_cache) (x y z : K) (i : Nat) :
    ecl_grav_phase_eval_cell sqrt q (some p) x y z i
      = c_double.neg (ecl_grav_phase_eval_cell sqrt p (some q) x y z i) := by
  unfold ecl_grav_phase_eval_cell
  simp only [hgc]
  rw [← c_double_div_neg]
  congr 1
  ring

/-- The cell term of two phases is the difference of the cell terms of each phase without
    monitor. -/
theorem ecl_grav_phase_eval_cell_sub (sqrt : K → K) (p q : ecl_grav_phase_type K)
    (hgc : q.grid_cache = p.grid_cache) (x y z : K) (i : Nat) :
    ecl_grav_phase_eval_cell sqrt p (some q) x y z i
      = c_double.sub (ecl_grav_phase_eval_cell sqrt p none x y z i)
          (ecl_grav_phase_eval_cell sqrt q none x y z i) := by
  unfold ecl_grav_phase_eval_cell
  simp only [hgc]
  rw [c_double_div_sub]
  congr 1
  ring

/-- The cell term along a chain of three phases. -/
theorem ecl_grav_phase_eval_cell_chain (sqrt : K → K) (p q r : ecl_grav_phase_type K)
    (hgc : q.grid_cache = p.grid_cache) (x y z : K) (i : Nat) :
    ecl_grav_phase_eval_cell sqrt p (some r) x y z i
      = ecl_grav_phase_eval_cell sqrt p (some q) x y z i
        + ecl_grav_phase_eval_cell sqrt q (some r) x y z i := by
  unfold ecl_grav_phase_eval_cell
  simp only [hgc]
  rw [c_double_div_add]
  congr 1
  ring

/-- Exchanging two phases with the same tag over the same grid cache changes the sign of
    the value of `ecl_grav_phase_eval`. -/
theorem ecl_grav_phase_eval_antisymm (sqrt : K → K) (p q : ecl_grav_phase_type K)
    (hgc : q.grid_cache = p.grid_cache) (htag : q.phase = p.phase) (x y z : K) :
    ∃ v, ecl_grav_phase_eval sqrt p (some q) x y z = .ok v ∧
      ecl_grav_phase_eval sqrt q (some p) x y z = .ok (c_double.neg v) := by
  refine ⟨_, ecl_grav_phase_eval_eq_sum sqrt p (some q) x y z
    (fun m hm => by cases hm; exact htag.symm), ?_⟩
  rw [ecl_grav_phase_eval_eq_sum sqrt q (some p) x y z (fun m hm => by cases hm; exact htag),
    c_double_neg_sum, hgc]
  exact congrArg Except.ok
    (Finset.sum_congr rfl (fun i _ => ecl_grav_phase_eval_cell_antisymm sqrt p q hgc x y z i))

/-- The value of two phases with the same tag over the same grid cache is the difference
    of the values of each phase without monitor. -/
theorem ecl_grav_phase_eval_sub (sqrt : K → K) (p q : ecl_grav_phase_type K)
    (hgc : q.grid_cache = p.grid_cache) (htag : q.phase = p.phase) (x y z : K) :
    ∃ a b, ecl_grav_phase_eval sqrt p none x y z = .ok a ∧
      ecl_grav_phase_eval sqrt q none x y z = .ok b ∧
      ecl_grav_phase_eval sqrt p (some q) x y z = .ok (c_double.sub a b) := by
  refine ⟨_, _, ecl_grav_phase_eval_eq_sum sqrt p none x y z (fun m hm => by cases hm),
    (ecl_grav_phase_eval_eq_sum sqrt q none x y z (fun m hm => by cases hm)).trans
      (by rw [hgc]), ?_⟩
  rw [ecl_grav_phase_eval_eq_sum sqrt p (some q) x y z
    (fun m hm => by cases hm; exact htag.symm), c_double_sub_sum]
  exact congrArg Except.ok
    (Finset.sum_congr rfl (fun i _ => ecl_grav_phase_eval_cell_sub sqrt p q hgc x y z i))

/-- The value of `ecl_grav_phase_eval` along a chain of three phases with the same tag over
    the same grid cache. -/
theorem ecl_grav_phase_eval_chain (sqrt : K → K) (p q r : ecl_grav_phase_type K)
    (hgc : q.grid_cache = p.grid_cache) (hpq : q.phase = p.phase) (hqr : r.phase = q.phase)
    (x y z : K) :
    ∃ ab bc, ecl_grav_phase_eval sqrt p (some q) x y z = .ok ab ∧
      ecl_grav_phase_eval sqrt q (some r) x y z = .ok bc ∧
      ecl_grav_phase_eval sqrt p (some r) x y z = .ok (ab + bc) := by
  refine ⟨_, _, ecl_grav_phase_eval_eq_sum sqrt p (some q) x y z
      (fun m hm => by cases hm; exact hpq.symm),
    (ecl_grav_phase_eval_eq_sum sqrt q (some r) x y z
      (fun m hm => by cases hm; exact hqr.symm)).trans (by rw [hgc]), ?_⟩
  rw [ecl_grav_phase_eval_eq_sum sqrt p (some r) x y z
    (fun m hm => by cases hm; exact (hqr.trans hpq).symm), ← Finset.sum_add_distrib]
  exact congrArg Except.ok
    (Finset.sum_congr rfl (fun i _ => ecl_grav_phase_eval_cell_chain sqrt p q r hgc x y z i))

/-- Surveys with the same tag sequence have phase lists of the same length. -/
theorem phase_tags_length {F : Type} (s t : ecl_grav_survey_type F)
    (h : phase_tags s = phase_tags t) : s.phase_list.length = t.phase_list.length := by
  have h1 := congrArg List.length h
  unfold phase_tags at h1
  rw [List.length_map, List.length_map] at h1
  exact h1

/-- The phases at a position of two surveys over a grid cache with the same tag sequence:
    they have the same tag and the same grid cache. -/
theorem survey_over_getElem {F : Type} (gc : ecl_grav_grid_cache_type F)
    (A B : ecl_grav_survey_type F) (htags : phase_tags A = phase_tags B)
    (hA : survey_over gc A) (hB : survey_over gc B) (k : Nat)
    (hk : k < A.phase_list.length) :
    ∃ p q, A.phase_list[k]? = some p ∧ B.phase_list[k]? = some q ∧
      q.phase = p.phase ∧ q.grid_cache = p.grid_cache ∧ p.grid_cache = gc := by
  have hp : A.phase_list[k]? = some A.phase_list[k] := List.getElem?_eq_getElem hk
  obtain ⟨q, hq, hqp⟩ := phase_tags_getElem B A htags.symm k _ hp
  have h1 := hA _ (List.getElem?_mem hp)
  have h2 := hB _ (List.getElem?_mem hq)
  exact ⟨_, q, hp, hq, hqp, h2.trans h1.symm, h1⟩

/-- The surveys stored in a registry whose surveys are over its grid cache have all their
    phases over that grid cache. -/
theorem survey_over_of_registry_sized {F : Type} (grav : ecl_grav_type F)
    (hinv : registry_sized grav) (name : String) (s : ecl_grav_survey_type F)
    (h : grav.surveys.lookup name = some s) :
    survey_over grav.grid_cache s :=
  fun p hp => ((hinv (name, s) (mem_of_lookup _ _ _ h)).2.1 p hp).1

/-- Claim C37. Antisymmetry: for two surveys A and B over the same grid cache (as all the
    surveys of a registry are) with the same phase-tag sequence, every observation point
    and every mask, `ecl_grav_survey_eval` returns for (A, B) and for (B, A), and the value
    for (B, A) is the opposite of the value for (A, B). -/
theorem ecl_grav_survey_eval_antisymm (sqrt : K → K) (gc : ecl_grav_grid_cache_type K)
    (A B : ecl_grav_survey_type K) (htags : phase_tags A = phase_tags B)
    (hA : survey_over gc A) (hB : survey_over gc B) (x y z : K) (phase_mask : Nat) :
    ∃ v, ecl_grav_survey_eval sqrt A (some B) x y z phase_mask = .ok v ∧
      ecl_grav_survey_eval sqrt B (some A) x y z phase_mask = .ok (c_double.neg v) := by
  have hterm : ∀ k, ∃ v, k < A.phase_list.length →
      ecl_grav_survey_eval_term sqrt A (some B) x y z phase_mask k = .ok v ∧
      ecl_grav_survey_eval_term sqrt B (some A) x y z phase_mask k = .ok (c_double.neg v) := by
    intro k
    by_cases hk : k < A.phase_list.length
    · obtain ⟨p, q, hp, hq, htag, hgc, _⟩ := survey_over_getElem gc A B htags hA hB k hk
      unfold ecl_grav_survey_eval_term
      simp only [hp, hq, htag]
      by_cases hsel : p.phase &&& phase_mask ≠ 0
      · simp only [if_pos hsel]
        obtain ⟨v, h1, h2⟩ := ecl_grav_phase_eval_antisymm sqrt p q hgc htag x y z
        exact ⟨v, fun _ => ⟨h1, h2⟩⟩
      · simp only [if_neg hsel]
        exact ⟨0, fun _ => ⟨rfl, congrArg Except.ok c_double_neg_zero.symm⟩⟩
    · exact ⟨0, fun h => absurd h hk⟩
  choose v hv using hterm
  refine ⟨_, ecl_grav_survey_eval_eq_sum sqrt A (some B) x y z phase_mask v
    (fun k hk => (hv k hk).1), ?_⟩
  rw [ecl_grav_survey_eval_eq_sum sqrt B (some A) x y z phase_mask (fun k => c_double.neg (v k))
    (fun k hk => (hv k ((phase_tags_length A B htags).symm ▸ hk)).2),
    c_double_neg_sum, phase_tags_length A B htags]

/-- Claim C38. Decomposition over exact arithmetic: for two surveys A and B over the same
    grid cache (as all the surveys of a registry are) with the same phase-tag sequence,
    every observation point and every mask, `ecl_grav_survey_eval` returns for (A, NULL),
    (B, NULL) and (A, B), and the value for (A, B) is the value for (A, NULL) minus the
    value for (B, NULL); with a third such survey C the value for (A, C) is the sum of the
    values for (A, B) and (B, C). -/
theorem ecl_grav_survey_eval_decomposition (sqrt : K → K) (gc : ecl_grav_grid_cache_type K)
    (A B : ecl_grav_survey_type K) (htags : phase_tags A = phase_tags B)
    (hA : survey_over gc A) (hB : survey_over gc B) (x y z : K) (phase_mask : Nat) :
    (∃ a b, ecl_grav_survey_eval sqrt A none x y z phase_mask = .ok a ∧
      ecl_grav_survey_eval sqrt B none x y z phase_mask = .ok b ∧
      ecl_grav_survey_eval sqrt A (some B) x y z phase_mask = .ok (c_double.sub a b)) ∧
    (∀ C, phase_tags B = phase_tags C → survey_over gc C →
      ∃ ab bc, ecl_grav_survey_eval sqrt A (some B) x y z phase_mask = .ok ab ∧
        ecl_grav_survey_eval sqrt B (some C) x y z phase_mask = .ok bc ∧
        ecl_grav_survey_eval sqrt A (some C) x y z phase_mask = .ok (ab + bc)) := by
  have hlen := phase_tags_length A B htags
  constructor
  · have hterm : ∀ k, ∃ a b, k < A.phase_list.length →
        ecl_grav_survey_eval_term sqrt A none x y z phase_mask k = .ok a ∧
        ecl_grav_survey_eval_term sqrt B none x y z phase_mask k = .ok b ∧
        ecl_grav_survey_eval_term sqrt A (some B) x y z phase_mask k
          = .ok (c_double.sub a b) := by
      intro k
      by_cases hk : k < A.phase_list.length
      · obtain ⟨p, q, hp, hq, htag, hgc, _⟩ := survey_over_getElem gc A B htags hA hB k hk
        unfold ecl_grav_survey_eval_term
        simp only [hp, hq, htag]
        by_cases hsel : p.phase &&& phase_mask ≠ 0
        · simp only [if_pos hsel]
          obtain ⟨a, b, h1, h2, h3⟩ := ecl_grav_phase_eval_sub sqrt p q hgc htag x y z
          exact ⟨a, b, fun _ => ⟨h1, h2, h3⟩⟩
        · simp only [if_neg hsel]
          exact ⟨0, 0, fun _ => ⟨rfl, rfl, congrArg Except.ok c_double_sub_zero.symm⟩⟩
      · exact ⟨0, 0, fun h => absurd h hk⟩
    choose a b hv using hterm
    refine ⟨_, _, ecl_grav_survey_eval_eq_sum sqrt A none x y z phase_mask a
        (fun k hk => (hv k hk).1),
      ecl_grav_survey_eval_eq_sum sqrt B none x y z phase_mask b
        (fun k hk => (hv k (hlen.symm ▸ hk)).2.1), ?_⟩
    rw [ecl_grav_survey_eval_eq_sum sqrt A (some B) x y z phase_mask
      (fun k => c_double.sub (a k) (b k)) (fun k hk => (hv k hk).2.2), ← hlen, c_double_sub_sum]
  · intro C htagsC hC
    have hterm : ∀ k, ∃ ab bc, k < A.phase_list.length →
        ecl_grav_survey_eval_term sqrt A (some B) x y z phase_mask k = .ok ab ∧
        ecl_grav_survey_eval_term sqrt B (some C) x y z phase_mask k = .ok bc ∧
        ecl_grav_survey_eval_term sqrt A (some C) x y z phase_mask k = .ok (ab + bc) := by
      intro k
      by_cases hk : k < A.phase_list.length
      · obtain ⟨p, q, hp, hq, htag, hgc, _⟩ := survey_over_getElem gc A B htags hA hB k hk
        obtain ⟨q', r, hq', hr, htagr, _, _⟩ := survey_over_getElem gc B C htagsC hB hC k
          (hlen ▸ hk)
        have hqq : q' = q := Option.some.inj (hq'.symm.trans hq)
        subst hqq
        unfold ecl_grav_survey_eval_term
        simp only [hp, hq, hr, htag]
        by_cases hsel : p.phase &&& phase_mask ≠ 0
        · simp only [if_pos hsel]
          obtain ⟨ab, bc, h1, h2, h3⟩ := ecl_grav_phase_eval_chain sqrt p q' r hgc htag htagr
            x y z
          exact ⟨ab, bc, fun _ => ⟨h1, h2, h3⟩⟩
        · simp only [if_neg hsel]
          exact ⟨0, 0, fun _ => ⟨rfl, rfl, congrArg Except.ok (add_zero 0).symm⟩⟩
      · exact ⟨0, 0, fun h => absurd h hk⟩
    choose ab bc hv using hterm
    refine ⟨_, _, ecl_grav_survey_eval_eq_sum sqrt A (some B) x y z phase_mask ab
        (fun k hk => (hv k hk).1),
      ecl_grav_survey_eval_eq_sum sqrt B (some C) x y z phase_mask bc
        (fun k hk => (hv k (hlen.symm ▸ hk)).2.1), ?_⟩
    rw [ecl_grav_survey_eval_eq_sum sqrt A (some C) x y z phase_mask
      (fun k => ab k + bc k) (fun k hk => (hv k hk).2.2), ← hlen, Finset.sum_add_distrib]

/-- The value of a phase over the one-cell grid without monitor, over the reals. -/
theorem one_cell_eval_real_none (t : ecl_phase_enum) (b : ℝ) :
    ecl_grav_phase_eval Real.sqrt (one_cell_phase t b) none 0 0 0
      = .ok (.finite (6.67428e-3 * (0 - b) * 1000 / 1000 ^ 3)) := by
  rw [ecl_grav_phase_eval_eq_sum _ _ _ _ _ _ (fun m hm => by cases hm)]
  have hf : (Finset.range (one_cell_phase t b).grid_cache.size).filter
      (fun i => (one_cell_phase t b).grid_cache.active.getD i false = true) = {0} := by
    simp [one_cell_phase, one_cell_grid_cache, Finset.filter_true_of_mem]
  rw [hf, Finset.sum_singleton, ecl_grav_phase_eval_cell_finite]
  · simp [one_cell_phase, one_cell_grid_cache, real_sqrt_million]
  · simp [one_cell_phase, one_cell_grid_cache, real_sqrt_million]

/-- The value of a survey with one oil phase over the one-cell grid against another such
    survey, over the reals, at the observation point (0,0,0). -/
theorem one_cell_survey_eval_real (name1 name2 : String) (b m : ℝ) :
    ecl_grav_survey_eval Real.sqrt
        (survey_of_phases (one_cell_grid_cache ℝ) name1 [one_cell_phase ECL_OIL_PHASE b])
        (some (survey_of_phases (one_cell_grid_cache ℝ) name2 [one_cell_phase ECL_OIL_PHASE m]))
        0 0 0 ECL_OIL_PHASE
      = .ok (.finite (6.67428e-3 * (m - b) * 1000 / 1000 ^ 3)) := by
  have h := ecl_grav_survey_eval_eq_sum Real.sqrt
    (survey_of_phases (one_cell_grid_cache ℝ) name1 [one_cell_phase ECL_OIL_PHASE b])
    (some (survey_of_phases (one_cell_grid_cache ℝ) name2 [one_cell_phase ECL_OIL_PHASE m]))
    0 0 0 ECL_OIL_PHASE (fun _ => .finite (6.67428e-3 * (m - b) * 1000 / 1000 ^ 3))
    (fun k hk => by
      have hk1 : k < 1 := hk
      interval_cases k
      have hsel : ECL_OIL_PHASE &&& ECL_OIL_PHASE ≠ 0 := by decide
      unfold ecl_grav_survey_eval_term
      simp only [survey_of_phases, one_cell_phase, List.getElem?_cons_zero, if_pos hsel]
      exact one_cell_eval_real ECL_OIL_PHASE b m)
  rw [h]
  exact congrArg Except.ok (Finset.sum_range_one _)

/-- The value of a survey with one oil phase over the one-cell grid without monitor, over
    the reals, at the observation point (0,0,0). -/
theorem one_cell_survey_eval_real_none (name1 : String) (b : ℝ) :
    ecl_grav_survey_eval Real.sqrt
        (survey_of_phases (one_cell_grid_cache ℝ) name1 [one_cell_phase ECL_OIL_PHASE b])
        none 0 0 0 ECL_OIL_PHASE
      = .ok (.finite (6.67428e-3 * (0 - b) * 1000 / 1000 ^ 3)) := by
  have h := ecl_grav_survey_eval_eq_sum Real.sqrt
    (survey_of_phases (one_cell_grid_cache ℝ) name1 [one_cell_phase ECL_OIL_PHASE b])
    none 0 0 0 ECL_OIL_PHASE (fun _ => .finite (6.67428e-3 * (0 - b) * 1000 / 1000 ^ 3))
    (fun k hk => by
      have hk1 : k < 1 := hk
      interval_cases k
      have hsel : ECL_OIL_PHASE &&& ECL_OIL_PHASE ≠ 0 := by decide
      unfold ecl_grav_survey_eval_term
      simp only [survey_of_phases, one_cell_phase, List.getElem?_cons_zero, if_pos hsel]
      exact one_cell_eval_real_none ECL_OIL_PHASE b)
  rw [h]
  exact congrArg Except.ok (Finset.sum_range_one _)

/-- A survey with one phase over the one-cell grid is a survey over that grid cache. -/
theorem one_cell_survey_over (name : String) (t : ecl_phase_enum) (b : ℝ) :
    survey_over (one_cell_grid_cache ℝ)
      (survey_of_phases (one_cell_grid_cache ℝ) name [one_cell_phase t b]) := by
  intro p hp
  rcases List.mem_cons.mp hp with h | h
  · rw [h]
    rfl
  · exact absurd h (List.not_mem_nil p)

/-- Witness of claim C37 on the one-cell grid: with the oil masses 5 and 1005 the value of
    the base against the monitor is `6.67428e-3 * 1000 * 1000 / 1000^3`, the value of the
    monitor against the base is its opposite. -/
theorem ecl_grav_survey_eval_antisymm_witness :
    ecl_grav_survey_eval Real.sqrt
        (survey_of_phases (one_cell_grid_cache ℝ) "base" [one_cell_phase ECL_OIL_PHASE 5])
        (some (survey_of_phases (one_cell_grid_cache ℝ) "monitor"
          [one_cell_phase ECL_OIL_PHASE 1005]))
        0 0 0 ECL_OIL_PHASE
      = .ok (.finite (6.67428e-3 * (1005 - 5) * 1000 / 1000 ^ 3)) ∧
    ecl_grav_survey_eval Real.sqrt
        (survey_of_phases (one_cell_grid_cache ℝ) "monitor" [one_cell_phase ECL_OIL_PHASE 1005])
        (some (survey_of_phases (one_cell_grid_cache ℝ) "base"
          [one_cell_phase ECL_OIL_PHASE 5]))
        0 0 0 ECL_OIL_PHASE
      = .ok (.finite (-(6.67428e-3 * (1005 - 5) * 1000 / 1000 ^ 3))) := by
  obtain ⟨v, h1, h2⟩ := ecl_grav_survey_eval_antisymm Real.sqrt (one_cell_grid_cache ℝ)
    (survey_of_phases (one_cell_grid_cache ℝ) "base" [one_cell_phase ECL_OIL_PHASE 5])
    (survey_of_phases (one_cell_grid_cache ℝ) "monitor" [one_cell_phase ECL_OIL_PHASE 1005])
    rfl (one_cell_survey_over _ _ _) (one_cell_survey_over _ _ _) 0 0 0 ECL_OIL_PHASE
  have hv := Except.ok.inj (h1.symm.trans (one_cell_survey_eval_real "base" "monitor" 5 1005))
  subst hv
  exact ⟨h1, h2⟩

/-- Witness of claim C38 on the one-cell grid with the oil masses 5, 1005 and 2005: the
    value of the first survey against the second is the difference of the values of the two
    without monitor, and the value of the first against the third is the sum of the values
    along the chain. -/
theorem ecl_grav_survey_eval_decomposition_witness :
    (ecl_grav_survey_eval Real.sqrt
        (survey_of_phases (one_cell_grid_cache ℝ) "a" [one_cell_phase ECL_OIL_PHASE 5])
        none 0 0 0 ECL_OIL_PHASE
      = .ok (.finite (6.67428e-3 * (0 - 5) * 1000 / 1000 ^ 3)) ∧
     ecl_grav_survey_eval Real.sqrt
        (survey_of_phases (one_cell_grid_cache ℝ) "b" [one_cell_phase ECL_OIL_PHASE 1005])
        none 0 0 0 ECL_OIL_PHASE
      = .ok (.finite (6.67428e-3 * (0 - 1005) * 1000 / 1000 ^ 3)) ∧
     ecl_grav_survey_eval Real.sqrt
        (survey_of_phases (one_cell_grid_cache ℝ) "a" [one_cell_phase ECL_OIL_PHASE 5])
        (some (survey_of_phases (one_cell_grid_cache ℝ) "b"
          [one_cell_phase ECL_OIL_PHASE 1005]))
        0 0 0 ECL_OIL_PHASE
      = .ok (.finite (6.67428e-3 * (0 - 5) * 1000 / 1000 ^ 3
          - 6.67428e-3 * (0 - 1005) * 1000 / 1000 ^ 3))) ∧
    (ecl_grav_survey_eval Real.sqrt
        (survey_of_phases (one_cell_grid_cache ℝ) "b" [one_cell_phase ECL_OIL_PHASE 1005])
        (some (survey_of_phases (one_cell_grid_cache ℝ) "c"
          [one_cell_phase ECL_OIL_PHASE 2005]))
        0 0 0 ECL_OIL_PHASE
      = .ok (.finite (6.67428e-3 * (2005 - 1005) * 1000 / 1000 ^ 3)) ∧
     ecl_grav_survey_eval Real.sqrt
        (survey_of_phases (one_cell_grid_cache ℝ) "a" [one_cell_phase ECL_OIL_PHASE 5])
        (some (survey_of_phases (one_cell_grid_cache ℝ) "c"
          [one_cell_phase ECL_OIL_PHASE 2005]))
        0 0 0 ECL_OIL_PHASE
      = .ok (.finite (6.67428e-3 * (1005 - 5) * 1000 / 1000 ^ 3
          + 6.67428e-3 * (2005 - 1005) * 1000 / 1000 ^ 3))) := by
  obtain ⟨⟨a, b, h1, h2, h3⟩, hchain⟩ := ecl_grav_survey_eval_decomposition Real.sqrt
    (one_cell_grid_cache ℝ)
    (survey_of_phases (one_cell_grid_cache ℝ) "a" [one_cell_phase ECL_OIL_PHASE 5])
    (survey_of_phases (one_cell_grid_cache ℝ) "b" [one_cell_phase ECL_OIL_PHASE 1005])
    rfl (one_cell_survey_over _ _ _) (one_cell_survey_over _ _ _) 0 0 0 ECL_OIL_PHASE
  obtain ⟨ab, bc, k1, k2, k3⟩ := hchain
    (survey_of_phases (one_cell_grid_cache ℝ) "c" [one_cell_phase ECL_OIL_PHASE 2005])
    rfl (one_cell_survey_over _ _ _)
  have ha := Except.ok.inj (h1.symm.trans (one_cell_survey_eval_real_none "a" 5))
  have hb := Except.ok.inj (h2.symm.trans (one_cell_survey_eval_real_none "b" 1005))
  have hab := Except.ok.inj (k1.symm.trans (one_cell_survey_eval_real "a" "b" 5 1005))
  have hbc := Except.ok.inj (k2.symm.trans (one_cell_survey_eval_real "b" "c" 1005 2005))
  subst ha hb hab hbc
  exact ⟨⟨h1, h2, h3⟩, k2, k3⟩

/-- Claim C7. On the survey pairs that the evaluator receives (`ecl_grav_survey_eval` is
    called by `ecl_grav_eval` only, with two surveys of one registry, so that a monitor,
    when there is one, carries the phase-tag sequence of the base) it fails fatally if and
    only if a monitor survey is given and, for some base phase selected by the mask, the
    monitor does not contain a phase with that phase tag. For every pair of surveys the
    evaluator fails when a monitor is given that lacks the tag of a selected base phase, and
    it never fails when the monitor is absent. -/
theorem ecl_grav_survey_eval_fails_iff (sqrt : K → K) (base : ecl_grav_survey_type K)
    (monitor : Option (ecl_grav_survey_type K)) (x y z : K) (phase_mask : Nat) :
    ((∀ m, monitor = some m → phase_tags m = phase_tags base) →
      ((∃ e, ecl_grav_survey_eval sqrt base monitor x y z phase_mask = .error e) ↔
        ∃ m, monitor = some m ∧
          ∃ p, p ∈ base.phase_list ∧ p.phase &&& phase_mask ≠ 0 ∧
            ∀ q, q ∈ m.phase_list → q.phase ≠ p.phase)) ∧
    ((∃ m, monitor = some m ∧
        ∃ p, p ∈ base.phase_list ∧ p.phase &&& phase_mask ≠ 0 ∧
          ∀ q, q ∈ m.phase_list → q.phase ≠ p.phase) →
      ∃ e, ecl_grav_survey_eval sqrt base monitor x y z phase_mask = .error e) ∧
    (∀ e, ecl_grav_survey_eval sqrt base none x y z phase_mask ≠ .error e) := by
  have hif : (∃ m, monitor = some m ∧
        ∃ p, p ∈ base.phase_list ∧ p.phase &&& phase_mask ≠ 0 ∧
          ∀ q, q ∈ m.phase_list → q.phase ≠ p.phase) →
      ∃ e, ecl_grav_survey_eval sqrt base monitor x y z phase_mask = .error e := by
    rintro ⟨m, hm, p, hp, hsel, hq⟩
    obtain ⟨k, hk, hget⟩ := List.getElem_of_mem hp
    exact (ecl_grav_survey_eval_error_iff_position sqrt base monitor x y z phase_mask).mpr
      ⟨m, hm, k, p, by rw [List.getElem?_eq_getElem hk, hget], hsel,
        fun q hqk => hq q (List.getElem?_mem hqk)⟩
  have hnone : ∀ e, ecl_grav_survey_eval sqrt base none x y z phase_mask ≠ .error e := by
    intro e he
    obtain ⟨m, hm, _⟩ := (ecl_grav_survey_eval_error_iff_position sqrt base none x y z
      phase_mask).mp ⟨e, he⟩
    cases hm
  refine ⟨fun hrecv => ⟨fun herr => ?_, hif⟩, hif, hnone⟩
  obtain ⟨e, he⟩ := herr
  cases monitor with
  | none => exact absurd he (hnone e)
  | some m =>
    obtain ⟨v, hv⟩ := ecl_grav_survey_eval_ok_of_tags sqrt base m (hrecv m rfl) x y z
      phase_mask
    rw [hv] at he
    cases he

/-- Witness of claim C7 on the one-cell grid: the base and the monitor carry the tags oil,
    water; no base phase is missing in the monitor and the evaluation does not fail, with
    the monitor and without it. -/
theorem ecl_grav_survey_eval_fails_iff_witness :
    phase_tags (survey_of_phases (one_cell_grid_cache ℝ) "monitor"
        [one_cell_phase ECL_OIL_PHASE 1005, one_cell_phase ECL_WATER_PHASE 9])
      = phase_tags (survey_of_phases (one_cell_grid_cache ℝ) "base"
        [one_cell_phase ECL_OIL_PHASE 5, one_cell_phase ECL_WATER_PHASE 7]) ∧
    (¬ ∃ e, ecl_grav_survey_eval Real.sqrt
        (survey_of_phases (one_cell_grid_cache ℝ) "base"
          [one_cell_phase ECL_OIL_PHASE 5, one_cell_phase ECL_WATER_PHASE 7])
        (some (survey_of_phases (one_cell_grid_cache ℝ) "monitor"
          [one_cell_phase ECL_OIL_PHASE 1005, one_cell_phase ECL_WATER_PHASE 9]))
        0 0 0 (ECL_OIL_PHASE ||| ECL_GAS_PHASE ||| ECL_WATER_PHASE) = .error e) ∧
    (∀ e, ecl_grav_survey_eval Real.sqrt
        (survey_of_phases (one_cell_grid_cache ℝ) "base"
          [one_cell_phase ECL_OIL_PHASE 5, one_cell_phase ECL_WATER_PHASE 7])
        none 0 0 0 (ECL_OIL_PHASE ||| ECL_GAS_PHASE ||| ECL_WATER_PHASE) ≠ .error e) := by
  have h := ecl_grav_survey_eval_fails_iff Real.sqrt
    (survey_of_phases (one_cell_grid_cache ℝ) "base"
      [one_cell_phase ECL_OIL_PHASE 5, one_cell_phase ECL_WATER_PHASE 7])
    (some (survey_of_phases (one_cell_grid_cache ℝ) "monitor"
      [one_cell_phase ECL_OIL_PHASE 1005, one_cell_phase ECL_WATER_PHASE 9]))
    0 0 0 (ECL_OIL_PHASE ||| ECL_GAS_PHASE ||| ECL_WATER_PHASE)
  refine ⟨rfl, fun herr => ?_, ?_⟩
  · obtain ⟨m, hm, p, hp, _, hq⟩ := (h.1 (fun m hm => by rw [← Option.some.inj hm]; rfl)).mp herr
    cases hm
    simp only [survey_of_phases, List.mem_cons, List.mem_singleton, List.not_mem_nil,
      or_false] at hp
    rcases hp with hp | hp <;> subst hp
    · exact hq (one_cell_phase ECL_OIL_PHASE 1005) (by simp [survey_of_phases]) rfl
    · exact hq (one_cell_phase ECL_WATER_PHASE 9) (by simp [survey_of_phases]) rfl
  · exact (ecl_grav_survey_eval_fails_iff Real.sqrt
      (survey_of_phases (one_cell_grid_cache ℝ) "base"
        [one_cell_phase ECL_OIL_PHASE 5, one_cell_phase ECL_WATER_PHASE 7])
      none 0 0 0 (ECL_OIL_PHASE ||| ECL_GAS_PHASE ||| ECL_WATER_PHASE)).2.2

/-- A positive pore volume fails the test exactly when the logarithm computed for its ratio
    to the positive static pore volume is above 1 in absolute value. -/
theorem ecl_grav_survey_assert_RPORV_error_of_pos (log10 : K → K) (init_porv rporv : K)
    (hinit : 0 < init_porv) (hpos : 0 < rporv) :
    ecl_grav_survey_assert_RPORV_error log10 init_porv rporv
      = decide (1 < |log10 (rporv / init_porv)|) := by
  have hratio : 0 < rporv / init_porv := div_pos hpos hinit
  unfold ecl_grav_survey_assert_RPORV_error c_log10
  simp only [hratio, if_true, c_log.fabs_gt_one]

/-- With a keyword RPORV of one value per active cell, a sanity check that passes and the
    density and saturation keywords of the present phases, `ecl_grav_add_survey_RPORV`
    returns the registry with the new survey stored under the given name. -/
theorem ecl_grav_add_survey_RPORV_ok (log10 : K → K) (rand : Nat → Nat) (fuel : Nat)
    (grav : ecl_grav_type K) (name : String) (restart : ecl_file_type K)
    (static rporv : Nat → K) (n : Nat) (hsize : 0 < grav.grid_cache.size)
    (hrporv : rporv_values restart grav.grid_cache.size rporv)
    (hstatic : static_porv grav.init_file grav.grid_cache static)
    (hn : n ≤ fuel)
    (hcnt : rporv_valid_count rand grav.grid_cache.size static n = 100)
    (hmin : ∀ m, m < n → rporv_valid_count rand grav.grid_cache.size static m < 100)
    (hpass : ∀ k, k < n → 0 < static (rand k % grav.grid_cache.size) →
      ecl_grav_survey_assert_RPORV_error log10 (static (rand k % grav.grid_cache.size))
        (rporv (rand k % grav.grid_cache.size)) = false)
    (hkw : porv_keywords grav restart) :
    ∃ s, ecl_grav_add_survey_RPORV log10 rand fuel grav name restart
        = some (.ok (ecl_grav_add_survey__ grav name s, s)) ∧
      s.porv = some ((List.range grav.grid_cache.size).map rporv) := by
  have hporv := ecl_grav_survey_alloc_RPORV_porv_eq grav restart name rporv hrporv
  have hpass' : ∀ k, k < n → 0 < static (rand k % grav.grid_cache.size) →
      ecl_grav_survey_assert_RPORV_error log10 (static (rand k % grav.grid_cache.size))
        (((List.range grav.grid_cache.size).map rporv).getD
          (rand k % grav.grid_cache.size) 0) = false := by
    intro k hk hv
    rw [getD_map_range _ _ _ _ (Nat.mod_lt _ hsize)]
    exact hpass k hk hv
  have hcheck := ecl_grav_survey_assert_RPORV_ok log10 rand fuel
    { ecl_grav_survey_alloc_empty grav.grid_cache name GRAV_CALC_RPORV with
      porv := some ((List.range grav.grid_cache.size).map rporv) }
    grav.init_file static _ hsize hstatic rfl n hn hcnt hmin hpass'
  obtain ⟨s, hs⟩ := ecl_grav_survey_add_phases_of_keywords grav restart GRAV_CALC_RPORV
    (Or.inl rfl) hkw
    { ecl_grav_survey_alloc_empty grav.grid_cache name GRAV_CALC_RPORV with
      porv := some ((List.range grav.grid_cache.size).map rporv) }
    (fun h => Option.noConfusion h)
  have hframe := ecl_grav_survey_add_phases_frame grav restart GRAV_CALC_RPORV _ s hs
  refine ⟨s, ?_, hframe.1⟩
  unfold ecl_grav_add_survey_RPORV ecl_grav_survey_alloc_RPORV
  simp only [hporv, hcheck, hs]

/-- Claim C23, amended. The RPORV sanity check rejects gross discrepancies: when one of the
    first 100 sampled cells with positive static pore volume (the sample number `k`) has an
    instantaneous pore volume of more than 10 times the static one and the logarithm that
    `log10` returns for that multiplier is above 1, adding the RPORV survey ends with the
    `exit(1)` of `ecl_grav_survey_assert_RPORV` and returns no registry. -/
theorem ecl_grav_add_survey_RPORV_rejects (log10 : K → K) (rand : Nat → Nat) (fuel : Nat)
    (grav : ecl_grav_type K) (name : String) (restart : ecl_file_type K)
    (static rporv : Nat → K) (hsize : 0 < grav.grid_cache.size)
    (hrporv : rporv_values restart grav.grid_cache.size rporv)
    (hstatic : static_porv grav.init_file grav.grid_cache static)
    (k : Nat) (hk : k < fuel)
    (hcnt : rporv_valid_count rand grav.grid_cache.size static k < 100)
    (hvalid : 0 < static (rand k % grav.grid_cache.size))
    (hbig : 10 * static (rand k % grav.grid_cache.size) < rporv (rand k % grav.grid_cache.size))
    (hlog : 1 < |log10 (rporv (rand k % grav.grid_cache.size) /
      static (rand k % grav.grid_cache.size))|) :
    ecl_grav_add_survey_RPORV log10 rand fuel grav name restart
      = some (.error (.exit1 "ecl_grav_survey_assert_RPORV")) := by
  have hporv := ecl_grav_survey_alloc_RPORV_porv_eq grav restart name rporv hrporv
  have hpos : 0 < rporv (rand k % grav.grid_cache.size) :=
    lt_trans (mul_pos (by norm_num) hvalid) hbig
  have herr : ecl_grav_survey_assert_RPORV_error log10
      (static (rand k % grav.grid_cache.size))
      (((List.range grav.grid_cache.size).map rporv).getD (rand k % grav.grid_cache.size) 0)
      = true := by
    rw [getD_map_range _ _ _ _ (Nat.mod_lt _ hsize),
      ecl_grav_survey_assert_RPORV_error_of_pos log10 _ _ hvalid hpos]
    exact decide_eq_true hlog
  have hexit := ecl_grav_survey_assert_RPORV_exit log10 rand fuel
    { ecl_grav_survey_alloc_empty grav.grid_cache name GRAV_CALC_RPORV with
      porv := some ((List.range grav.grid_cache.size).map rporv) }
    grav.init_file static _ hsize hstatic rfl k hk hvalid herr hcnt
  unfold ecl_grav_add_survey_RPORV ecl_grav_survey_alloc_RPORV
  simp only [hporv, hexit]

/-- Witness of claim C23 (amended), the scenario of the specification: 200 active cells with
    the static pore volume 100, an instantaneous pore volume of 100 in every cell but 1500 in
    cell 7, and a sample sequence whose first sample is cell 7; the multiplier is 15 and its
    logarithm is above 1. -/
theorem ecl_grav_add_survey_RPORV_rejects_witness :
    1 < |Real.logb 10 (1500 / 100)| ∧
    ecl_grav_add_survey_RPORV (Real.logb 10) (fun k => 7 + k) 1
        (uniform_grav ℝ 200 (List.replicate 200 100)) "base"
        (rporv_restart_file ℝ ((List.replicate 200 100).set 7 1500))
      = some (.error (.exit1 "ecl_grav_survey_assert_RPORV")) := by
  have hl : 1 < |Real.logb 10 (1500 / 100)| :=
    (real_log10_spec _ (by norm_num)).mpr (Or.inr (by norm_num))
  have hv := rporv_values_of_list ((List.replicate 200 (100 : ℝ)).set 7 1500)
  rw [List.length_set, List.length_replicate] at hv
  have h0 : (List.replicate 200 (100 : ℝ)).getD 7 0 = 100 := by
    rw [List.getD_eq_getElem?_getD, List.getElem?_replicate]
    norm_num
  have h1 : ((List.replicate 200 (100 : ℝ)).set 7 1500).getD 7 0 = 1500 := by
    rw [List.getD_eq_getElem?_getD,
      List.getElem?_set_self (by rw [List.length_replicate]; omega)]
    rfl
  refine ⟨hl, ecl_grav_add_survey_RPORV_rejects (Real.logb 10)
    (fun k => 7 + k) 1 (uniform_grav ℝ 200 (List.replicate 200 100)) "base" _ _ _
    (by decide) hv (static_porv_of_list 200 _ (by rw [List.length_replicate])) 0 (by decide)
    (by decide) ?_ ?_ ?_⟩
  · show (0 : ℝ) < (List.replicate 200 (100 : ℝ)).getD 7 0
    rw [h0]
    norm_num
  · show (10 : ℝ) * (List.replicate 200 (100 : ℝ)).getD 7 0
      < ((List.replicate 200 (100 : ℝ)).set 7 1500).getD 7 0
    rw [h0, h1]
    norm_num
  · show 1 < |Real.logb 10 (((List.replicate 200 (100 : ℝ)).set 7 1500).getD 7 0 /
      (List.replicate 200 (100 : ℝ)).getD 7 0)|
    rw [h0, h1]
    exact hl

/-- The init dataset with unit pore volumes provides the static pore volume 1 of the two
    cells of the sample grid. -/
theorem sample_unit_static_porv :
    static_porv (sample_init_file_unit_porv ℝ) (sample_grid_cache ℝ) (fun _ => 1) := by
  refine ⟨⟨"PORV", .float_data [1, 0, 1]⟩, rfl, fun a ha => ?_⟩
  have ha2 : a < 2 := ha
  interval_cases a <;> simp [ecl_kw_iget_as_double, sample_grid_cache]

/-- The keyword RPORV of the sample restart dataset with pore volumes of double
    precision. -/
theorem sample_rporv_values_double (r0 r1 : ℝ) :
    rporv_values (sample_restart_file_rporv_double ℝ [r0, r1]) 2
      (fun i => [r0, r1].getD i 0) := by
  refine ⟨rfl, ⟨"RPORV", .double_data [r0, r1]⟩, rfl, rfl, fun i hi => ?_⟩
  have hi2 : i < 2 := hi
  interval_cases i <;> simp [ecl_kw_iget_as_double]

/-- The sample restart dataset with a keyword RPORV has the density and saturation keywords
    of the three phases, for every registry over the two-cell sample grid in the first
    format variant. -/
theorem sample_porv_keywords_rporv (grav : ecl_grav_type ℝ) (rporv : List ℝ)
    (hsize : grav.grid_cache.size = 2)
    (hversion : ecl_file_get_ecl_version grav.init_file = ECLIPSE100) :
    porv_keywords grav (sample_restart_file_rporv_double ℝ rporv) := by
  intro phase hphase _
  rw [hsize, hversion]
  rcases hphase with h | h | h <;> subst h
  · exact ⟨"SOIL", "OIL_DEN", _, _,
      fun i => 1 - [1 / 4, 3 / 4].getD i 0 - [1 / 4, 1 / 2].getD i 0, rfl, rfl,
      kw_doubles_of_float_data _ _ "OIL_DEN" [800, 810] _ rfl (by decide),
      ecl_grav_phase_alloc_sat_kw_residual_sgas (sample_restart_file_rporv_double ℝ rporv)
        "SOIL" "SWAT" "SGAS" [1 / 4, 3 / 4] [1 / 4, 1 / 2] rfl rfl rfl rfl rfl,
      fun i hi => iget_one_sub_sub "SWAT" [1 / 4, 3 / 4] [1 / 4, 1 / 2] i hi rfl⟩
  · obtain ⟨kw, hk, hr⟩ := kw_doubles_of_float_data (sample_restart_file_rporv_double ℝ rporv)
      "SGAS" "SGAS" [1 / 4, 1 / 2] 2 rfl (by decide)
    exact ⟨"SGAS", "GAS_DEN", kw, _, _, rfl, rfl,
      kw_doubles_of_float_data _ _ "GAS_DEN" [1, 2] _ rfl (by decide),
      (ecl_grav_phase_alloc_sat_kw_explicit (sample_restart_file_rporv_double ℝ rporv) "SGAS"
        rfl).trans hk, hr⟩
  · obtain ⟨kw, hk, hr⟩ := kw_doubles_of_float_data (sample_restart_file_rporv_double ℝ rporv)
      "SWAT" "SWAT" [1 / 4, 3 / 4] 2 rfl (by decide)
    exact ⟨"SWAT", "WAT_DEN", kw, _, _, rfl, rfl,
      kw_doubles_of_float_data _ _ "WAT_DEN" [1000, 1010] _ rfl (by decide),
      (ecl_grav_phase_alloc_sat_kw_explicit (sample_restart_file_rporv_double ℝ rporv) "SWAT"
        rfl).trans hk, hr⟩

/-- On the sample registry with unit static pore volumes, with any surveys stored in it,
    the RPORV entry point returns for the pore volumes `r0` and `r1` when both pass the test
    of the sanity check; the check ends after 100 samples. -/
theorem sample_add_survey_RPORV (log10 : ℝ → ℝ) (rand : Nat → Nat) (fuel : Nat)
    (hfuel : 100 ≤ fuel) (surveys : hash_type (ecl_grav_survey_type ℝ)) (name : String)
    (r0 r1 : ℝ) (h0 : ecl_grav_survey_assert_RPORV_error log10 1 r0 = false)
    (h1 : ecl_grav_survey_assert_RPORV_error log10 1 r1 = false) :
    ∃ s, ecl_grav_add_survey_RPORV log10 rand fuel
        { sample_grav_unit_porv ℝ with surveys := surveys } name
        (sample_restart_file_rporv_double ℝ [r0, r1])
        = some (.ok (ecl_grav_add_survey__
            { sample_grav_unit_porv ℝ with surveys := surveys } name s, s)) ∧
      s.porv = some [r0, r1] := by
  have hsize : 0 < (sample_grid_cache ℝ).size := by decide
  have hcnt := rporv_valid_count_all rand (sample_grid_cache ℝ).size (fun _ => (1 : ℝ)) hsize
    (fun _ _ => one_pos)
  obtain ⟨s, hs, hp⟩ := ecl_grav_add_survey_RPORV_ok log10 rand fuel
    { sample_grav_unit_porv ℝ with surveys := surveys } name
    (sample_restart_file_rporv_double ℝ [r0, r1]) (fun _ => 1) (fun i => [r0, r1].getD i 0)
    100 hsize (sample_rporv_values_double r0 r1) sample_unit_static_porv hfuel (hcnt 100)
    (fun m hm => (hcnt m).trans_lt hm)
    (fun k _ _ => by
      have hc : rand k % 2 < 2 := Nat.mod_lt _ (by decide)
      show ecl_grav_survey_assert_RPORV_error log10 1 ([r0, r1].getD (rand k % 2) 0) = false
      interval_cases (rand k % 2)
      · exact h0
      · exact h1)
    (sample_porv_keywords_rporv _ [r0, r1] rfl rfl)
  refine ⟨s, hs, ?_⟩
  rw [hp]
  rfl

/-- The logarithm of the C library at the double next above 10: the exact logarithm of
    `10 + 2^-49` is `1 + 7.7e-17`, nearer to the double 1 than to the next double
    `1 + 2^-52`, so that `log10` returns 1; with that value the test of the sanity check
    is negative for the multiplier `10 + 2^-49`, and for the multiplier 1. -/
theorem rounded_log10_passes :
    ecl_grav_survey_assert_RPORV_error
        (fun x : ℝ => if x = 10 + 1 / 2 ^ 49 then 1 else Real.logb 10 x) 1 (10 + 1 / 2 ^ 49)
      = false ∧
    ecl_grav_survey_assert_RPORV_error
        (fun x : ℝ => if x = 10 + 1 / 2 ^ 49 then 1 else Real.logb 10 x) 1 1 = false := by
  constructor
  · rw [ecl_grav_survey_assert_RPORV_error_of_pos _ _ _ one_pos (by positivity), div_one]
    simp
  · rw [ecl_grav_survey_assert_RPORV_error_of_pos _ _ _ one_pos one_pos, div_one]
    have hne : (1 : ℝ) ≠ 10 + 1 / 2 ^ 49 := by
      have : (0 : ℝ) < 1 / 2 ^ 49 := by positivity
      intro h
      linarith
    rw [if_neg hne, Real.logb_one]
    simp

/-- Claim C23 as stated fails at a multiplier just above 10: on the sample grid with the
    static pore volume 1, the first sampled cell (cell 0, the samples are 0, 1, 2, ...) has
    the instantaneous pore volume `10 + 2^-49`, the double next above 10, more than 10
    times the static one; the C library
    returns `log10(10 + 2^-49) = 1.0`, the test `fabs( log_pormod ) > 1` is negative, the
    sanity check passes and the survey is built and stored under its name. -/
theorem ecl_grav_add_survey_RPORV_rejects_counterexample :
    static_porv (sample_grav_unit_porv ℝ).init_file (sample_grav_unit_porv ℝ).grid_cache
      (fun _ => 1) ∧
    (10 : ℝ) * 1 < 10 + 1 / 2 ^ 49 ∧
    ∃ g s, ecl_grav_add_survey_RPORV
        (fun x : ℝ => if x = 10 + 1 / 2 ^ 49 then 1 else Real.logb 10 x) (fun k => k) 100
        (sample_grav_unit_porv ℝ) "base"
        (sample_restart_file_rporv_double ℝ [10 + 1 / 2 ^ 49, 1]) = some (.ok (g, s)) ∧
      ecl_grav_get_survey g (some "base") = .ok (some s) ∧
      s.porv = some [10 + 1 / 2 ^ 49, 1] := by
  obtain ⟨s, hs, hp⟩ := sample_add_survey_RPORV
    (fun x : ℝ => if x = 10 + 1 / 2 ^ 49 then 1 else Real.logb 10 x) (fun k => k) 100
    (Nat.le_refl 100) hash_alloc "base" (10 + 1 / 2 ^ 49) 1 rounded_log10_passes.1
    rounded_log10_passes.2
  refine ⟨sample_unit_static_porv, ?_, _, s, hs,
    (ecl_grav_get_survey_add_survey__ _ "base" s).1, hp⟩
  have : (0 : ℝ) < 1 / 2 ^ 49 := by positivity
  linarith

/-- With the keywords and the densities that it reads, `ecl_grav_add_survey_FIP` returns
    the registry with the new survey stored under the given name. -/
theorem ecl_grav_add_survey_FIP_ok (grav : ecl_grav_type K) (name : String)
    (restart : ecl_file_type K) (hkw : fip_keywords grav restart) :
    ∃ s, ecl_grav_add_survey_FIP grav name restart
      = .ok (ecl_grav_add_survey__ grav name s, s) := by
  obtain ⟨⟨pvtnum, hpvt⟩, hall⟩ := hkw
  have hok : ∀ phase,
      phase = ECL_OIL_PHASE ∨ phase = ECL_GAS_PHASE ∨ phase = ECL_WATER_PHASE →
      ecl_file_get_phases grav.init_file &&& phase ≠ 0 →
      ∀ sv, sv.porv = (ecl_grav_survey_alloc_empty grav.grid_cache name GRAV_CALC_FIP).porv →
        ∃ p, ecl_grav_phase_alloc grav sv phase restart GRAV_CALC_FIP = .ok p := by
    intro phase hphase hpresent sv _
    obtain ⟨kw, key, htriple⟩ : ∃ kw key,
        (phase = ECL_OIL_PHASE ∧ kw = "FIPOIL" ∧ key = "SOIL") ∨
        (phase = ECL_GAS_PHASE ∧ kw = "FIPGAS" ∧ key = "SGAS") ∨
        (phase = ECL_WATER_PHASE ∧ kw = "FIPWAT" ∧ key = "SWAT") := by
      rcases hphase with h | h | h
      · exact ⟨_, _, Or.inl ⟨h, rfl, rfl⟩⟩
      · exact ⟨_, _, Or.inr (Or.inl ⟨h, rfl, rfl⟩)⟩
      · exact ⟨_, _, Or.inr (Or.inr ⟨h, rfl, rfl⟩)⟩
    obtain ⟨⟨fip, hfip⟩, hreg⟩ := hall phase kw key htriple hpresent
    have hkey : ecl_util_get_phase_name phase = .ok key := by
      rcases htriple with ⟨h1, _, h3⟩ | ⟨h1, _, h3⟩ | ⟨h1, _, h3⟩ <;> subst h1 h3 <;> rfl
    have hname : (phase = ECL_OIL_PHASE ∧ kw = "FIPOIL") ∨
        (phase = ECL_GAS_PHASE ∧ kw = "FIPGAS") ∨ (phase = ECL_WATER_PHASE ∧ kw = "FIPWAT") := by
      rcases htriple with ⟨h1, h2, _⟩ | ⟨h1, h2, _⟩ | ⟨h1, h2, _⟩
      · exact Or.inl ⟨h1, h2⟩
      · exact Or.inr (Or.inl ⟨h1, h2⟩)
      · exact Or.inr (Or.inr ⟨h1, h2⟩)
    obtain ⟨vec, hvec⟩ : ∃ vec, hash_get grav.std_density key = .ok vec := by
      unfold hash_has_key at hreg
      unfold hash_get
      cases hl : List.lookup key grav.std_density with
      | none => rw [hl] at hreg; cases hreg
      | some v => exact ⟨v, rfl⟩
    exact ⟨_, ecl_grav_phase_alloc_FIP_eq grav sv phase restart kw key fip pvtnum vec hname
      hkey hfip hpvt hvec⟩
  obtain ⟨s, hs⟩ := ecl_grav_survey_add_phases_ok grav restart GRAV_CALC_FIP
    (ecl_grav_survey_alloc_empty grav.grid_cache name GRAV_CALC_FIP) hok
  refine ⟨s, ?_⟩
  unfold ecl_grav_add_survey_FIP ecl_grav_survey_alloc_FIP
  simp only [hs, bind, Except.bind, pure, Except.pure]

/-- With the keywords that it reads, `ecl_grav_add_survey_RFIP` returns the registry with
    the new survey stored under the given name. -/
theorem ecl_grav_add_survey_RFIP_ok (grav : ecl_grav_type K) (name : String)
    (restart : ecl_file_type K) (hkw : rfip_keywords grav restart) :
    ∃ s, ecl_grav_add_survey_RFIP grav name restart
      = .ok (ecl_grav_add_survey__ grav name s, s) := by
  have hok : ∀ phase,
      phase = ECL_OIL_PHASE ∨ phase = ECL_GAS_PHASE ∨ phase = ECL_WATER_PHASE →
      ecl_file_get_phases grav.init_file &&& phase ≠ 0 →
      ∀ sv, sv.porv = (ecl_grav_survey_alloc_empty grav.grid_cache name GRAV_CALC_RFIP).porv →
        ∃ p, ecl_grav_phase_alloc grav sv phase restart GRAV_CALC_RFIP = .ok p := by
    intro phase hphase hpresent sv _
    obtain ⟨kw, hname⟩ : ∃ kw,
        (phase = ECL_OIL_PHASE ∧ kw = "RFIPOIL") ∨ (phase = ECL_GAS_PHASE ∧ kw = "RFIPGAS") ∨
        (phase = ECL_WATER_PHASE ∧ kw = "RFIPWAT") := by
      rcases hphase with h | h | h
      · exact ⟨_, Or.inl ⟨h, rfl⟩⟩
      · exact ⟨_, Or.inr (Or.inl ⟨h, rfl⟩)⟩
      · exact ⟨_, Or.inr (Or.inr ⟨h, rfl⟩)⟩
    obtain ⟨den_name, rho, rfip, hden_name, hden, hrfip⟩ := hkw phase kw hname hpresent
    exact ⟨_, ecl_grav_phase_alloc_RFIP_eq grav sv phase restart kw den_name rho rfip hname
      hden_name hden hrfip⟩
  obtain ⟨s, hs⟩ := ecl_grav_survey_add_phases_ok grav restart GRAV_CALC_RFIP
    (ecl_grav_survey_alloc_empty grav.grid_cache name GRAV_CALC_RFIP) hok
  refine ⟨s, ?_⟩
  unfold ecl_grav_add_survey_RFIP ecl_grav_survey_alloc_RFIP
  simp only [hs, bind, Except.bind, pure, Except.pure]

/-- The registry that `ecl_grav_add_survey__` leaves has the survey stored under the
    name. -/
theorem survey_stored_add_survey__ {F : Type} (grav : ecl_grav_type F) (name : String)
    (s : ecl_grav_survey_type F) :
    survey_stored grav name (ecl_grav_add_survey__ grav name s) s :=
  ecl_grav_get_survey_add_survey__ grav name s

/-- Claim C33. Each add-survey entry point stores the survey it returns under the given
    name. With the keywords that it reads (and, for RPORV, a sanity check that passes
    within the iterations granted), each of `ecl_grav_add_survey_FIP`, `_RFIP`, `_PORMOD`
    and `_RPORV` returns a registry and a survey; in that registry `ecl_grav_get_survey`
    of the name gives the returned survey, also when a survey was registered under the name
    before (it is replaced), and the lookup of every other name is as before. The same
    holds of every registry and survey that one of the entry points returns. -/
theorem ecl_grav_add_survey_stores (log10 : K → K) (rand : Nat → Nat) (fuel : Nat)
    (grav : ecl_grav_type K) (name : String) (restart : ecl_file_type K) :
    (fip_keywords grav restart →
      ∃ g s, ecl_grav_add_survey_FIP grav name restart = .ok (g, s) ∧
        survey_stored grav name g s) ∧
    (rfip_keywords grav restart →
      ∃ g s, ecl_grav_add_survey_RFIP grav name restart = .ok (g, s) ∧
        survey_stored grav name g s) ∧
    (pormod_keywords grav restart →
      ∃ g s, ecl_grav_add_survey_PORMOD grav name restart = .ok (g, s) ∧
        survey_stored grav name g s) ∧
    (rporv_keywords log10 rand fuel grav restart →
      ∃ g s, ecl_grav_add_survey_RPORV log10 rand fuel grav name restart = some (.ok (g, s)) ∧
        survey_stored grav name g s) ∧
    (∀ g s, ecl_grav_add_survey_returns log10 rand fuel grav name restart g s →
      survey_stored grav name g s) := by
  refine ⟨fun hkw => ?_, fun hkw => ?_, fun hkw => ?_, fun hkw => ?_, fun g s h => ?_⟩
  · obtain ⟨s, hs⟩ := ecl_grav_add_survey_FIP_ok grav name restart hkw
    exact ⟨_, s, hs, survey_stored_add_survey__ grav name s⟩
  · obtain ⟨s, hs⟩ := ecl_grav_add_survey_RFIP_ok grav name restart hkw
    exact ⟨_, s, hs, survey_stored_add_survey__ grav name s⟩
  · obtain ⟨⟨pormod, hmod⟩, ⟨porv, hporv⟩, hk⟩ := hkw
    obtain ⟨s, hs, _⟩ := ecl_grav_add_survey_PORMOD_ok grav restart name pormod porv hmod
      hporv hk
    exact ⟨_, s, hs, survey_stored_add_survey__ grav name s⟩
  · obtain ⟨hsize, ⟨static, rporv, n, hrporv, hstatic, hn, hcnt, hmin, hpass⟩, hk⟩ := hkw
    obtain ⟨s, hs, _⟩ := ecl_grav_add_survey_RPORV_ok log10 rand fuel grav name restart
      static rporv n hsize hrporv hstatic hn hcnt hmin hpass hk
    exact ⟨_, s, hs, survey_stored_add_survey__ grav name s⟩
  · obtain ⟨hg, _, _⟩ := ecl_grav_add_survey_returns_inv log10 rand fuel grav name restart
      g s h
    subst hg
    exact survey_stored_add_survey__ grav name s

/-- The sample datasets and the sample density table have what the FIP entry point
    reads. -/
theorem sample_fip_keywords :
    fip_keywords (sample_grav ℚ) (sample_restart_file ℚ) := by
  refine ⟨⟨_, kw_ints_of_int_data _ _ "PVTNUM" [3, 5] _ rfl (by decide)⟩, ?_⟩
  rintro phase kw key (⟨h1, h2, h3⟩ | ⟨h1, h2, h3⟩ | ⟨h1, h2, h3⟩) _ <;> subst h1 h2 h3
  · exact ⟨⟨_, kw_doubles_of_float_data _ _ "FIPOIL" [10, 20] _ rfl (by decide)⟩, rfl⟩
  · exact ⟨⟨_, kw_doubles_of_float_data _ _ "FIPGAS" [30, 40] _ rfl (by decide)⟩, rfl⟩
  · exact ⟨⟨_, kw_doubles_of_float_data _ _ "FIPWAT" [50, 60] _ rfl (by decide)⟩, rfl⟩

/-- The sample restart dataset has what the RFIP entry point reads. -/
theorem sample_rfip_keywords :
    rfip_keywords (sample_grav ℚ) (sample_restart_file ℚ) := by
  rintro phase kw (⟨h1, h2⟩ | ⟨h1, h2⟩ | ⟨h1, h2⟩) _ <;> subst h1 h2
  · exact ⟨"OIL_DEN", _, _, rfl,
      kw_doubles_of_float_data _ _ "OIL_DEN" [800, 810] _ rfl (by decide),
      kw_doubles_of_float_data _ _ "RFIPOIL" [11, 21] _ rfl (by decide)⟩
  · exact ⟨"GAS_DEN", _, _, rfl,
      kw_doubles_of_float_data _ _ "GAS_DEN" [1, 2] _ rfl (by decide),
      kw_doubles_of_float_data _ _ "RFIPGAS" [31, 41] _ rfl (by decide)⟩
  · exact ⟨"WAT_DEN", _, _, rfl,
      kw_doubles_of_float_data _ _ "WAT_DEN" [1000, 1010] _ rfl (by decide),
      kw_doubles_of_float_data _ _ "RFIPWAT" [51, 61] _ rfl (by decide)⟩

/-- The sample datasets have what the PORMOD entry point reads, whatever surveys the
    registry holds. -/
theorem sample_pormod_keywords (surveys : hash_type (ecl_grav_survey_type ℚ)) (m0 m1 : ℚ) :
    pormod_keywords { sample_grav ℚ with surveys := surveys }
      (sample_restart_file_pormod ℚ [m0, m1]) :=
  ⟨⟨_, kw_floats_of_float_data _ _ "PORV_MOD" _ _ _ rfl (fun i hi => hi)⟩,
   ⟨_, kw_floats_of_float_data _ _ "PORV" [100, 0, 200] _ _ rfl (fun i hi => by
      have hi2 : i < 2 := hi
      have h0 : (sample_grid_cache ℚ).global_index.getD 0 0 < [(100 : ℚ), 0, 200].length := by
        decide
      have h1 : (sample_grid_cache ℚ).global_index.getD 1 0 < [(100 : ℚ), 0, 200].length := by
        decide
      interval_cases i
      · exact h0
      · exact h1)⟩,
   sample_porv_keywords _ [m0, m1] rfl rfl⟩

/-- The sample datasets with unit static pore volumes have what the RPORV entry point reads,
    and the sanity check passes after 100 samples, when the two pore volumes pass the
    test. -/
theorem sample_rporv_keywords (log10 : ℝ → ℝ) (rand : Nat → Nat) (fuel : Nat)
    (hfuel : 100 ≤ fuel) (r0 r1 : ℝ)
    (h0 : ecl_grav_survey_assert_RPORV_error log10 1 r0 = false)
    (h1 : ecl_grav_survey_assert_RPORV_error log10 1 r1 = false) :
    rporv_keywords log10 rand fuel (sample_grav_unit_porv ℝ)
      (sample_restart_file_rporv_double ℝ [r0, r1]) := by
  have hsize : 0 < (sample_grid_cache ℝ).size := by decide
  have hcnt := rporv_valid_count_all rand (sample_grid_cache ℝ).size (fun _ => (1 : ℝ)) hsize
    (fun _ _ => one_pos)
  refine ⟨hsize, ⟨fun _ => 1, fun i => [r0, r1].getD i 0, 100,
    sample_rporv_values_double r0 r1, sample_unit_static_porv, hfuel, hcnt 100,
    fun m hm => (hcnt m).trans_lt hm, fun k _ _ => ?_⟩,
    sample_porv_keywords_rporv _ [r0, r1] rfl rfl⟩
  have hc : rand k % 2 < 2 := Nat.mod_lt _ (by decide)
  show ecl_grav_survey_assert_RPORV_error log10 1 ([r0, r1].getD (rand k % 2) 0) = false
  interval_cases (rand k % 2)
  · exact h0
  · exact h1

/-- Witness of claim C33 on the sample data: each of the four entry points returns and
    stores its survey under the name "base" (FIP, RFIP and PORMOD on the sample registry,
    RPORV with the pore volumes 3/2 and 5/4 against the static pore volume 1); when a PORMOD survey is
    added under the name "base" twice, with the modifiers 1 and 3/2 and then with the
    modifier 15, the lookup of "base" gives the second survey, whose pore volumes are 1500
    and 3000. -/
theorem ecl_grav_add_survey_stores_witness :
    (∃ g s, ecl_grav_add_survey_FIP (sample_grav ℚ) "base" (sample_restart_file ℚ)
        = .ok (g, s) ∧ survey_stored (sample_grav ℚ) "base" g s) ∧
    (∃ g s, ecl_grav_add_survey_RFIP (sample_grav ℚ) "base" (sample_restart_file ℚ)
        = .ok (g, s) ∧ survey_stored (sample_grav ℚ) "base" g s) ∧
    (∃ g s, ecl_grav_add_survey_RPORV (Real.logb 10) (fun k => k) 100
        (sample_grav_unit_porv ℝ) "base" (sample_restart_file_rporv_double ℝ [3 / 2, 5 / 4])
        = some (.ok (g, s)) ∧ survey_stored (sample_grav_unit_porv ℝ) "base" g s) ∧
    (∃ g s, ecl_grav_add_survey_PORMOD (sample_grav ℚ) "base"
        (sample_restart_file_pormod ℚ [15, 15])
        = .ok (g, s) ∧ survey_stored (sample_grav ℚ) "base" g s) ∧
    (∃ g1 s1 g2 s2,
      ecl_grav_add_survey_PORMOD (sample_grav ℚ) "base"
        (sample_restart_file_pormod ℚ [1, 3 / 2]) = .ok (g1, s1) ∧
      s1.porv = some [100, 300] ∧
      ecl_grav_add_survey_PORMOD g1 "base" (sample_restart_file_pormod ℚ [15, 15])
        = .ok (g2, s2) ∧
      s2.porv = some [1500, 3000] ∧
      survey_stored g1 "base" g2 s2) := by
  refine ⟨(ecl_grav_add_survey_stores (fun x => x) (fun k => k) 0 (sample_grav ℚ) "base"
      (sample_restart_file ℚ)).1 sample_fip_keywords,
    (ecl_grav_add_survey_stores (fun x => x) (fun k => k) 0 (sample_grav ℚ) "base"
      (sample_restart_file ℚ)).2.1 sample_rfip_keywords,
    (ecl_grav_add_survey_stores (Real.logb 10) (fun k => k) 100 (sample_grav_unit_porv ℝ)
      "base" (sample_restart_file_rporv_double ℝ [3 / 2, 5 / 4])).2.2.2.1
      (sample_rporv_keywords (Real.logb 10) (fun k => k) 100 (Nat.le_refl 100) (3 / 2) (5 / 4)
        (real_error_of_mem 1 (3 / 2) one_pos (by norm_num) (by norm_num))
        (real_error_of_mem 1 (5 / 4) one_pos (by norm_num) (by norm_num))),
    (ecl_grav_add_survey_stores (fun x => x) (fun k => k) 0 (sample_grav ℚ) "base"
      (sample_restart_file_pormod ℚ [15, 15])).2.2.1 (sample_pormod_keywords hash_alloc 15 15),
    ?_⟩
  obtain ⟨s1, h1, p1⟩ := sample_add_survey_PORMOD hash_alloc "base" 1 (3 / 2)
  obtain ⟨s2, h2, p2⟩ := sample_add_survey_PORMOD
    (hash_insert hash_alloc "base" s1) "base" 15 15
  refine ⟨_, s1, _, s2, h1, ?_, h2, ?_, (ecl_grav_add_survey_stores (fun x => x) (fun k => k) 0
    _ "base" (sample_restart_file_pormod ℚ [15, 15])).2.2.2.2 _ s2 (Or.inr (Or.inl h2))⟩
  · rw [p1]
    norm_num
  · rw [p2]
    norm_num

end theorems

end EclGrav
